import Mathlib

/-!
# Bento4 atom core: a shallow embedding of `Ap4Atom.cpp`

The definitions below follow `Source/C++/Core/Ap4Atom.cpp` function by function.
Machine integers are natural numbers reduced modulo `2^w` where the C++ code
truncates or wraps.  Objects with identity (atoms, atom parents) are named by
natural numbers and live in an explicit heap that every operation threads.
-/

/-! ## Result codes -/

/-- Modelled from the spec: the symbolic result codes of section 6 (`Ap4Results.h`
is not among the sources).  `NO_SUCH_ITEM` is the code of a failed list removal. -/
inductive AP4_Result where
  | SUCCESS
  | FAILURE
  | NOT_ENOUGH_DATA
  | INVALID_FORMAT
  | INVALID_PARAMETERS
  | OUT_OF_RANGE
  | INVALID_RTP_CONSTRUCTOR_TYPE
  | NO_SUCH_ITEM
  deriving DecidableEq, Repr

/-- Modelled from the spec: `AP4_FAILED(result)`, true for every code but `SUCCESS`. -/
def AP4_FAILED (result : AP4_Result) : Bool :=
  result != AP4_Result.SUCCESS

/-- Modelled from the spec: `AP4_SUCCEEDED(result)`. -/
def AP4_SUCCEEDED (result : AP4_Result) : Bool :=
  result == AP4_Result.SUCCESS

/-! ## Unsigned arithmetic -/

/-- Subtraction of `AP4_UI32` values: the difference of `a` and `b` modulo `2^32`. -/
def AP4_Sub32 (a b : Nat) : Nat :=
  if b % 2 ^ 32 ≤ a % 2 ^ 32 then a % 2 ^ 32 - b % 2 ^ 32
  else 2 ^ 32 - (b % 2 ^ 32 - a % 2 ^ 32)

/-- Subtraction of `AP4_UI64` values: the difference of `a` and `b` modulo `2^64`. -/
def AP4_Sub64 (a b : Nat) : Nat :=
  if b % 2 ^ 64 ≤ a % 2 ^ 64 then a % 2 ^ 64 - b % 2 ^ 64
  else 2 ^ 64 - (b % 2 ^ 64 - a % 2 ^ 64)

/-! ## Byte streams -/

/-- Modelled from the spec: the random-access byte stream of section 4.1
(`Ap4ByteStream.cpp` is not among the sources).  `data` is the content, `pos` the cursor,
and `faults` scripts the outcome of the coming `Write` calls, one entry per call; a
missing entry means the call succeeds. -/
structure AP4_ByteStream where
  data : List Nat
  pos : Nat
  faults : List AP4_Result
  deriving DecidableEq, Repr

namespace AP4_ByteStream

/-- The content of a stream after `buf` has been stored at offset `pos`: bytes before
`pos` are kept (zero filled when the stream was shorter), bytes after the stored
block are kept too. -/
def splice (data : List Nat) (pos : Nat) (buf : List Nat) : List Nat :=
  data.take pos ++ List.replicate (pos - data.length) 0 ++ buf ++ data.drop (pos + buf.length)

/-- A new, empty in-memory stream on which every write succeeds. -/
def fresh : AP4_ByteStream :=
  { data := [], pos := 0, faults := [] }

/-- Modelled from the spec: `Write(buf, n)`.  The call consumes one entry of the fault
script; a failing call stores nothing. -/
def Write (s : AP4_ByteStream) (buf : List Nat) : AP4_Result × AP4_ByteStream :=
  match s.faults with
  | [] => (AP4_Result.SUCCESS,
           { s with data := splice s.data s.pos buf, pos := s.pos + buf.length })
  | r :: rest =>
    if AP4_FAILED r then (r, { s with faults := rest })
    else (AP4_Result.SUCCESS,
          { data := splice s.data s.pos buf, pos := s.pos + buf.length, faults := rest })

/-- Modelled from the spec: `Read(buf, n)`.  A short read is an error
(`NOT_ENOUGH_DATA`); the bytes that were available are still transferred.  The second
component is the list of bytes transferred. -/
def Read (s : AP4_ByteStream) (n : Nat) : AP4_Result × List Nat × AP4_ByteStream :=
  if s.pos + n ≤ s.data.length then
    (AP4_Result.SUCCESS, (s.data.drop s.pos).take n, { s with pos := s.pos + n })
  else
    (AP4_Result.NOT_ENOUGH_DATA, s.data.drop s.pos,
     { s with pos := max s.pos s.data.length })

/-- Modelled from the spec: `Tell()`. -/
def Tell (s : AP4_ByteStream) : Nat :=
  s.pos

/-- Modelled from the spec: `GetSize()`; it succeeds on every modelled stream. -/
def GetSize (s : AP4_ByteStream) : AP4_Result × Nat :=
  (AP4_Result.SUCCESS, s.data.length)

/-- Modelled from the spec: `Seek(pos)`; seeking past the end extends the stream with
zero fill. -/
def Seek (s : AP4_ByteStream) (position : Nat) : AP4_Result × AP4_ByteStream :=
  (AP4_Result.SUCCESS,
   { s with data := s.data ++ List.replicate (position - s.data.length) 0, pos := position })

/-- Modelled from the spec: `CopyTo(dst, n)`, which reads `n` bytes at the cursor of the
source and writes them to `dst`.  The result is the code, the source and the
destination. -/
def CopyTo (s : AP4_ByteStream) (dst : AP4_ByteStream) (n : Nat) :
    AP4_Result × AP4_ByteStream × AP4_ByteStream :=
  match s.Read n with
  | (result, bytes, s1) =>
    if AP4_FAILED result then (result, s1, dst)
    else
      match dst.Write bytes with
      | (result, dst1) => (result, s1, dst1)

end AP4_ByteStream

/-- Big-endian bytes of a 16-bit value. -/
def AP4_BytesFromUInt16BE (value : Nat) : List Nat :=
  [value / 2 ^ 8 % 256, value % 256]

/-- Big-endian bytes of a 24-bit value (the low 24 bits of `value`). -/
def AP4_BytesFromUInt24BE (value : Nat) : List Nat :=
  [value / 2 ^ 16 % 256, value / 2 ^ 8 % 256, value % 256]

/-- Big-endian bytes of a 32-bit value. -/
def AP4_BytesFromUInt32BE (value : Nat) : List Nat :=
  [value / 2 ^ 24 % 256, value / 2 ^ 16 % 256, value / 2 ^ 8 % 256, value % 256]

/-- Big-endian bytes of a 64-bit value. -/
def AP4_BytesFromUInt64BE (value : Nat) : List Nat :=
  [value / 2 ^ 56 % 256, value / 2 ^ 48 % 256, value / 2 ^ 40 % 256, value / 2 ^ 32 % 256,
   value / 2 ^ 24 % 256, value / 2 ^ 16 % 256, value / 2 ^ 8 % 256, value % 256]

/-- The value of a big-endian byte string. -/
def AP4_BytesToUIntBE (bytes : List Nat) : Nat :=
  bytes.foldl (fun acc b => acc * 256 + b) 0

namespace AP4_ByteStream

/-- Modelled from the spec: `WriteUI08`, one `Write` of one byte. -/
def WriteUI08 (s : AP4_ByteStream) (value : Nat) : AP4_Result × AP4_ByteStream :=
  s.Write [value % 256]

/-- Modelled from the spec: `WriteUI24`, one `Write` of three big-endian bytes. -/
def WriteUI24 (s : AP4_ByteStream) (value : Nat) : AP4_Result × AP4_ByteStream :=
  s.Write (AP4_BytesFromUInt24BE value)

/-- Modelled from the spec: `WriteUI32`, one `Write` of four big-endian bytes. -/
def WriteUI32 (s : AP4_ByteStream) (value : Nat) : AP4_Result × AP4_ByteStream :=
  s.Write (AP4_BytesFromUInt32BE value)

/-- Modelled from the spec: `WriteUI64`, one `Write` of eight big-endian bytes. -/
def WriteUI64 (s : AP4_ByteStream) (value : Nat) : AP4_Result × AP4_ByteStream :=
  s.Write (AP4_BytesFromUInt64BE value)

/-- A sequence of `Write` calls, one per block, that stops at the first failing call. -/
def WriteAll : List (List Nat) → AP4_ByteStream → AP4_Result × AP4_ByteStream
  | [], s => (AP4_Result.SUCCESS, s)
  | block :: rest, s =>
    match s.Write block with
    | (result, s) => if AP4_FAILED result then (result, s) else WriteAll rest s

/-- The bytes a stream holds between the cursor of `before` and its own cursor: what was
emitted by the calls that led from `before` to the stream. -/
def emitted (before after : AP4_ByteStream) : List Nat :=
  (after.data.drop before.pos).take (after.pos - before.pos)

end AP4_ByteStream

/-! ## The atom base -/

/-- Modelled from the spec: header length of a plain atom (`Ap4Atom.h` is not among the
sources; section 3 gives 8 for a plain short header). -/
def AP4_ATOM_HEADER_SIZE : Nat := 8

/-- Modelled from the spec: header length of a full atom (section 3 gives 12 for a full
short header). -/
def AP4_FULL_ATOM_HEADER_SIZE : Nat := 12

/-- The four-character code `mdat`. -/
def AP4_ATOM_TYPE_MDAT : Nat := 0x6d646174

/-- The four-character code `uuid`. -/
def AP4_ATOM_TYPE_UUID : Nat := 0x75756964

/-- The fields of `AP4_Atom`.  `m_Parent` names the owning atom parent, if any. -/
structure AP4_Atom where
  m_Type : Nat
  m_Size32 : Nat
  m_Size64 : Nat
  m_IsFull : Bool
  m_Version : Nat
  m_Flags : Nat
  m_Parent : Option Nat
  deriving DecidableEq, Repr

namespace AP4_Atom

/-- The fields hold values of their C++ types: `AP4_UI32` type, size and flags,
`AP4_UI64` extended size, `AP4_UI08` version. -/
def InRange (a : AP4_Atom) : Prop :=
  a.m_Type < 2 ^ 32 ∧ a.m_Size32 < 2 ^ 32 ∧ a.m_Size64 < 2 ^ 64 ∧
  a.m_Version < 2 ^ 8 ∧ a.m_Flags < 2 ^ 32

instance (a : AP4_Atom) : Decidable a.InRange := by
  unfold InRange; infer_instance

/-- Source: `AP4_Atom::SetSize(AP4_UI64 size, bool force_64)`. -/
def SetSize (a : AP4_Atom) (size : Nat) (force_64 : Bool) : AP4_Atom :=
  let size := size % 2 ^ 64
  -- see if we need to implicitly force 64-bit encoding
  let force_64 :=
    if !force_64 then
      (if a.m_Size32 == 1 && decide (a.m_Size64 ≤ 0xFFFFFFFF) then true else force_64)
    else force_64
  if size / 2 ^ 32 == 0 && !force_64 then
    { a with m_Size32 := size % 2 ^ 32, m_Size64 := 0 }
  else
    { a with m_Size32 := 1, m_Size64 := size }

/-- Source: `AP4_Atom::AP4_Atom(Type type, AP4_UI32 size)`. -/
def new32 (type size : Nat) : AP4_Atom :=
  { m_Type := type % 2 ^ 32, m_Size32 := size % 2 ^ 32, m_Size64 := 0, m_IsFull := false,
    m_Version := 0, m_Flags := 0, m_Parent := none }

/-- Source: `AP4_Atom::AP4_Atom(Type type, AP4_UI64 size, bool force_64)`. -/
def new64 (type size : Nat) (force_64 : Bool) : AP4_Atom :=
  SetSize { m_Type := type % 2 ^ 32, m_Size32 := 0, m_Size64 := 0, m_IsFull := false,
            m_Version := 0, m_Flags := 0, m_Parent := none } size force_64

/-- Source: `AP4_Atom::AP4_Atom(Type type, AP4_UI32 size, AP4_UI08 version, AP4_UI32 flags)`. -/
def newFull32 (type size version flags : Nat) : AP4_Atom :=
  { m_Type := type % 2 ^ 32, m_Size32 := size % 2 ^ 32, m_Size64 := 0, m_IsFull := true,
    m_Version := version % 2 ^ 8, m_Flags := flags % 2 ^ 32, m_Parent := none }

/-- Source: `AP4_Atom::AP4_Atom(Type type, AP4_UI64 size, bool force_64, AP4_UI08 version,
AP4_UI32 flags)`. -/
def newFull64 (type size : Nat) (force_64 : Bool) (version flags : Nat) : AP4_Atom :=
  SetSize { m_Type := type % 2 ^ 32, m_Size32 := 0, m_Size64 := 0, m_IsFull := true,
            m_Version := version % 2 ^ 8, m_Flags := flags % 2 ^ 32, m_Parent := none }
    size force_64

/-- Source: `AP4_Atom::GetHeaderSize()`. -/
def GetHeaderSize (a : AP4_Atom) : Nat :=
  (if a.m_IsFull then AP4_FULL_ATOM_HEADER_SIZE else AP4_ATOM_HEADER_SIZE) +
    (if a.m_Size32 == 1 then 8 else 0)

/-- Modelled from the spec: `AP4_Atom::GetSize()` (declared in `Ap4Atom.h`, which is not
among the sources): the extended size when `size32 == 1`, the 32-bit size otherwise. -/
def GetSize (a : AP4_Atom) : Nat :=
  if a.m_Size32 == 1 then a.m_Size64 else a.m_Size32

/-- Source: `AP4_Atom::WriteHeader(AP4_ByteStream& stream)`. -/
def WriteHeader (a : AP4_Atom) (stream : AP4_ByteStream) : AP4_Result × AP4_ByteStream :=
  -- write the size
  match stream.WriteUI32 a.m_Size32 with
  | (result, stream) =>
  if AP4_FAILED result then (result, stream) else
  -- write the type
  match stream.WriteUI32 a.m_Type with
  | (result, stream) =>
  if AP4_FAILED result then (result, stream) else
  -- handle 64-bit sizes
  match (if a.m_Size32 == 1 then stream.WriteUI64 a.m_Size64
         else (AP4_Result.SUCCESS, stream)) with
  | (result, stream) =>
  if AP4_FAILED result then (result, stream) else
  -- for full atoms, write version and flags
  if a.m_IsFull then
    match stream.WriteUI08 a.m_Version with
    | (result, stream) =>
    if AP4_FAILED result then (result, stream) else
    match stream.WriteUI24 a.m_Flags with
    | (result, stream) =>
    if AP4_FAILED result then (result, stream) else
    (AP4_Result.SUCCESS, stream)
  else
    (AP4_Result.SUCCESS, stream)

/-- The header fields in the words of the spec, one block per field: `size32` (u32), `type`
(u32), `size64` (u64) iff `size32 == 1`, and, iff the atom is full, `version` (u8) and
`flags` (u24), all big-endian. -/
def headerFields (a : AP4_Atom) : List (List Nat) :=
  [AP4_BytesFromUInt32BE a.m_Size32, AP4_BytesFromUInt32BE a.m_Type]
    ++ (if a.m_Size32 = 1 then [AP4_BytesFromUInt64BE a.m_Size64] else [])
    ++ (if a.m_IsFull then [[a.m_Version % 256], AP4_BytesFromUInt24BE a.m_Flags] else [])

end AP4_Atom

/-! ## The unknown atom -/

/-- Largest declared size whose payload is buffered (`AP4_UNKNOWN_ATOM_MAX_LOCAL_PAYLOAD_SIZE`). -/
def AP4_UNKNOWN_ATOM_MAX_LOCAL_PAYLOAD_SIZE : Nat := 4096

/-- The fields of `AP4_UnknownAtom`.  `m_SourceStream` names the shared source stream
(absent once the payload is buffered); the state of that stream is passed to the
operations that use it. -/
structure AP4_UnknownAtom where
  atom : AP4_Atom
  m_SourceStream : Option Nat
  m_SourcePosition : Nat
  m_Payload : List Nat
  deriving DecidableEq, Repr

namespace AP4_UnknownAtom

/-- Source: `AP4_UnknownAtom::AP4_UnknownAtom(Type type, AP4_UI64 size, std::shared_ptr<AP4_ByteStream>
stream)`.  `handle` names the shared stream and `stream` is its state; the result is the
new atom and the state of the stream after construction.  The base initialiser
`AP4_Atom(type, size)` takes a 64-bit size, so it is the constructor with `force_64`
left false.  A buffer that a short read leaves partly unwritten is taken to hold zeros
there. -/
def new (type size : Nat) (handle : Nat) (stream : AP4_ByteStream) :
    AP4_UnknownAtom × AP4_ByteStream :=
  let size := size % 2 ^ 64
  let atom := AP4_Atom.new64 type size false
  if decide (size ≤ AP4_UNKNOWN_ATOM_MAX_LOCAL_PAYLOAD_SIZE) &&
     type % 2 ^ 32 != AP4_ATOM_TYPE_MDAT then
    let payload_size := AP4_Sub32 size atom.GetHeaderSize
    match stream.Read payload_size with
    | (_, bytes, stream) =>
      ({ atom := atom, m_SourceStream := none, m_SourcePosition := 0,
         m_Payload := bytes ++ List.replicate (payload_size - bytes.length) 0 }, stream)
  else
    -- store source stream position
    let m_SourcePosition := stream.Tell
    -- clamp to the file size
    match stream.GetSize with
    | (result, file_size) =>
      let atom :=
        if AP4_SUCCEEDED result then
          if (AP4_Sub64 m_SourcePosition atom.GetHeaderSize + size) % 2 ^ 64 > file_size then
            if atom.m_Size32 == 1 then
              -- size is encoded as a large size
              { atom with m_Size64 := AP4_Sub64 file_size m_SourcePosition }
            else
              { atom with m_Size32 := AP4_Sub64 file_size m_SourcePosition % 2 ^ 32 }
          else atom
        else atom
      ({ atom := atom, m_SourceStream := some handle, m_SourcePosition := m_SourcePosition,
         m_Payload := [] }, stream)

/-- Source: `AP4_UnknownAtom::AP4_UnknownAtom(Type type, const AP4_UI08* payload, AP4_Size
payload_size)`. -/
def newFromPayload (type : Nat) (payload : List Nat) : AP4_UnknownAtom :=
  { atom := AP4_Atom.new64 type ((AP4_ATOM_HEADER_SIZE + payload.length) % 2 ^ 32) false,
    m_SourceStream := none, m_SourcePosition := 0, m_Payload := payload }

/-- Source: `AP4_UnknownAtom::AP4_UnknownAtom(const AP4_UnknownAtom& other)`. -/
def copy (other : AP4_UnknownAtom) : AP4_UnknownAtom :=
  { atom := { AP4_Atom.new32 other.atom.m_Type 0 with
              m_Size32 := other.atom.m_Size32, m_Size64 := other.atom.m_Size64 },
    m_SourceStream := other.m_SourceStream,
    m_SourcePosition := other.m_SourcePosition,
    m_Payload := other.m_Payload }

/-- Source: `AP4_UnknownAtom::Clone()`. -/
def Clone (u : AP4_UnknownAtom) : AP4_UnknownAtom :=
  copy u

/-- Source: `AP4_UnknownAtom::WriteFields(AP4_ByteStream& stream)`.  `source` is the state of the
shared source stream; the result is the code, the source and the output stream. -/
def WriteFields (u : AP4_UnknownAtom) (source stream : AP4_ByteStream) :
    AP4_Result × AP4_ByteStream × AP4_ByteStream :=
  -- if we don't have a source, write from the buffered payload
  match u.m_SourceStream with
  | none =>
    match stream.Write u.m_Payload with
    | (result, stream) => (result, source, stream)
  | some _ =>
    -- remember the source position
    let position := source.Tell
    -- seek into the source at the stored offset
    match source.Seek u.m_SourcePosition with
    | (result, source) =>
    if AP4_FAILED result then (result, source, stream) else
    -- copy the source stream to the output
    let payload_size := AP4_Sub64 u.atom.GetSize u.atom.GetHeaderSize
    match source.CopyTo stream payload_size with
    | (result, source, stream) =>
    if AP4_FAILED result then (result, source, stream) else
    -- restore the original stream position
    match source.Seek position with
    | (_, source) => (AP4_Result.SUCCESS, source, stream)

/-- Source: `AP4_Atom::Write(AP4_ByteStream& stream)` on an unknown atom (release build): the
header, then the fields. -/
def Write (u : AP4_UnknownAtom) (source stream : AP4_ByteStream) :
    AP4_Result × AP4_ByteStream × AP4_ByteStream :=
  -- write the header
  match u.atom.WriteHeader stream with
  | (result, stream) =>
  if AP4_FAILED result then (result, source, stream) else
  -- write the fields
  match u.WriteFields source stream with
  | (result, source, stream) =>
  if AP4_FAILED result then (result, source, stream) else
  (AP4_Result.SUCCESS, source, stream)

end AP4_UnknownAtom

/-! ## The null-terminated string atom -/

/-- The fields of `AP4_NullTerminatedStringAtom`; `m_Value` holds the characters of the
string without the terminator. -/
structure AP4_NullTerminatedStringAtom where
  atom : AP4_Atom
  m_Value : List Nat
  deriving DecidableEq, Repr

namespace AP4_NullTerminatedStringAtom

/-- The characters of a C string: everything before the first zero byte. -/
def cString (bytes : List Nat) : List Nat :=
  bytes.takeWhile (fun b => b != 0)

/-- Source: `AP4_NullTerminatedStringAtom(AP4_Atom::Type type, const char* value)`. -/
def newFromValue (type : Nat) (value : List Nat) : AP4_NullTerminatedStringAtom :=
  let atom := AP4_Atom.new32 type AP4_ATOM_HEADER_SIZE
  let m_Value := cString value
  { atom := { atom with m_Size32 := (atom.m_Size32 + m_Value.length + 1) % 2 ^ 32 },
    m_Value := m_Value }

/-- Source: `AP4_NullTerminatedStringAtom(AP4_Atom::Type type, AP4_UI64 size, AP4_ByteStream&
stream)`.  A buffer that a short read leaves partly unwritten is taken to hold zeros
there. -/
def new (type size : Nat) (stream : AP4_ByteStream) :
    AP4_NullTerminatedStringAtom × AP4_ByteStream :=
  let size := size % 2 ^ 64
  let atom := AP4_Atom.new64 type size false
  let str_size := AP4_Sub32 size AP4_ATOM_HEADER_SIZE
  if str_size != 0 then
    match stream.Read str_size with
    | (_, bytes, stream) =>
      let str := bytes ++ List.replicate (str_size - bytes.length) 0
      -- force null-termination
      let str := str.take (str_size - 1) ++ [0]
      ({ atom := atom, m_Value := cString str }, stream)
  else
    ({ atom := atom, m_Value := [] }, stream)

/-- Source: `AP4_NullTerminatedStringAtom::WriteFields(AP4_ByteStream& stream)`. -/
def WriteFields (a : AP4_NullTerminatedStringAtom) (stream : AP4_ByteStream) :
    AP4_Result × AP4_ByteStream :=
  if a.atom.m_Size32 > AP4_ATOM_HEADER_SIZE then
    match stream.Write (a.m_Value ++ [0]) with
    | (result, stream) =>
    if AP4_FAILED result then (result, stream) else
    -- pad with zeros if necessary
    let padding :=
      AP4_Sub32 a.atom.m_Size32 (AP4_ATOM_HEADER_SIZE + a.m_Value.length + 1)
    (AP4_Result.SUCCESS,
     (List.range padding).foldl (fun s _ => (s.WriteUI08 0).2) stream)
  else
    (AP4_Result.SUCCESS, stream)

end AP4_NullTerminatedStringAtom

/-! ## Atom parents and the atom tree -/

/-- A recorded invocation of one of the virtual hooks of `AP4_AtomParent`. -/
inductive AP4_Hook where
  | OnChildAdded (parent child : Nat)
  | OnChildRemoved (parent child : Nat)
  deriving DecidableEq, Repr

/-- The objects of a program state.  Every object (atom, atom parent, or container atom,
which is both) is named by a number below `next`.  `atoms` holds the `AP4_Atom` fields of
an object, `children` the `m_Children` list of an atom parent, `container` tells whether
a dynamic cast to `AP4_ContainerAtom` succeeds, and `uuid` is the `m_Uuid` of an object
that is an `AP4_UuidAtom`; it is absent where a dynamic cast to `AP4_UuidAtom` yields the
null pointer.  `hooks` logs the hook calls and `freed` the objects handed to `delete`. -/
structure AP4_Heap where
  atoms : Nat → AP4_Atom
  children : Nat → List Nat
  container : Nat → Bool
  uuid : Nat → Option (List Nat)
  next : Nat
  hooks : List AP4_Hook
  freed : List Nat

namespace AP4_Heap

/-- The state without any object. -/
def empty : AP4_Heap :=
  { atoms := fun _ => AP4_Atom.new32 0 0, children := fun _ => [], container := fun _ => false,
    uuid := fun _ => none, next := 0, hooks := [], freed := [] }

/-- Modelled from the spec: the accessor `AP4_Atom::GetParent()` of `Ap4Atom.h`. -/
def GetParent (h : AP4_Heap) (atom : Nat) : Option Nat :=
  (h.atoms atom).m_Parent

/-- Modelled from the spec: the setter `AP4_Atom::SetParent(parent)` of `Ap4Atom.h`. -/
def SetParent (h : AP4_Heap) (atom : Nat) (parent : Option Nat) : AP4_Heap :=
  { h with atoms := fun x => if x = atom then { h.atoms atom with m_Parent := parent }
                             else h.atoms x }

/-- Replaces the child list of `parent`. -/
def setChildren (h : AP4_Heap) (parent : Nat) (list : List Nat) : AP4_Heap :=
  { h with children := fun x => if x = parent then list else h.children x }

/-- The hook `OnChildAdded(child)` of `parent`; the call is logged. -/
def OnChildAdded (h : AP4_Heap) (parent child : Nat) : AP4_Heap :=
  { h with hooks := h.hooks ++ [AP4_Hook.OnChildAdded parent child] }

/-- The hook `OnChildRemoved(child)` of `parent`; the call is logged. -/
def OnChildRemoved (h : AP4_Heap) (parent child : Nat) : AP4_Heap :=
  { h with hooks := h.hooks ++ [AP4_Hook.OnChildRemoved parent child] }

/-- Creates a new object holding `atom`, without parent and without children; the object
is no `AP4_UuidAtom`. -/
def alloc (h : AP4_Heap) (atom : AP4_Atom) (isContainer : Bool) : Nat × AP4_Heap :=
  (h.next,
   { h with atoms := fun x => if x = h.next then { atom with m_Parent := none } else h.atoms x,
            children := fun x => if x = h.next then [] else h.children x,
            container := fun x => if x = h.next then isContainer else h.container x,
            uuid := fun x => if x = h.next then none else h.uuid x,
            next := h.next + 1 })

end AP4_Heap

/-- Modelled from the spec: `AP4_List<AP4_Atom>` (`Ap4List.h` is not among the sources),
an ordered list of atoms.  `Add` appends at the tail. -/
def AP4_List.Add (list : List Nat) (data : Nat) : AP4_Result × List Nat :=
  (AP4_Result.SUCCESS, list ++ [data])

/-- Modelled from the spec: `AP4_List::Insert(where, data)`: at the head when `where` is
absent, directly after the item at index `where` otherwise. -/
def AP4_List.Insert (list : List Nat) (where_ : Option Nat) (data : Nat) :
    AP4_Result × List Nat :=
  match where_ with
  | none => (AP4_Result.SUCCESS, data :: list)
  | some i => (AP4_Result.SUCCESS, list.take (i + 1) ++ [data] ++ list.drop (i + 1))

/-- Modelled from the spec: `AP4_List::Remove(data)`: removes the first item holding `data`,
fails when there is none. -/
def AP4_List.Remove (list : List Nat) (data : Nat) : AP4_Result × List Nat :=
  if data ∈ list then (AP4_Result.SUCCESS, list.erase data)
  else (AP4_Result.NO_SUCH_ITEM, list)

/-- Modelled from the spec: `AP4_List::Find` with a finder that accepts the items
satisfying `test` and selects the one of rank `index` among them. -/
def AP4_List.FindNth (test : Nat → Bool) : List Nat → Nat → Option Nat
  | [], _ => none
  | x :: rest, index =>
    if test x then
      (if index == 0 then some x else AP4_List.FindNth test rest (index - 1))
    else AP4_List.FindNth test rest index

namespace AP4_AtomParent

/-- The loop `while (insertion_point && --count) insertion_point = insertion_point->GetNext()`
of `AddChild`.  `items` are the items from the insertion point on, `count` is the
unsigned counter, `i` the index of the insertion point; the result is the index of the
item the loop stops at, if any. -/
def insertionPoint : List Nat → Nat → Nat → Option Nat
  | [], _, _ => none
  | _ :: rest, count, i =>
    let count := AP4_Sub32 count 1
    if count != 0 then insertionPoint rest count (i + 1) else some i

/-- Source: `AP4_AtomParent::AddChild(AP4_Atom* child, int position)`; `self` is the parent. -/
def AddChild (h : AP4_Heap) (self child : Nat) (position : Int) : AP4_Result × AP4_Heap :=
  -- check that the child does not already have a parent
  if (h.GetParent child).isSome then (AP4_Result.INVALID_PARAMETERS, h) else
  -- attach the child
  match (if position == -1 then
           -- insert at the tail
           AP4_List.Add (h.children self) child
         else if position == 0 then
           -- insert at the head
           AP4_List.Insert (h.children self) none child
         else
           -- insert after <n-1>
           match insertionPoint (h.children self) (position % 2 ^ 32).toNat 0 with
           | some insertion_point =>
             AP4_List.Insert (h.children self) (some insertion_point) child
           | none => (AP4_Result.OUT_OF_RANGE, h.children self)) with
  | (result, list) =>
  if AP4_FAILED result then (result, h) else
  let h := h.setChildren self list
  -- notify the child of its parent
  let h := h.SetParent child (some self)
  -- get a chance to update
  let h := h.OnChildAdded self child
  (AP4_Result.SUCCESS, h)

/-- Source: `AP4_AtomParent::RemoveChild(AP4_Atom* child)`. -/
def RemoveChild (h : AP4_Heap) (self child : Nat) : AP4_Result × AP4_Heap :=
  -- check that this is our child
  if h.GetParent child != some self then (AP4_Result.INVALID_PARAMETERS, h) else
  -- remove the child
  match AP4_List.Remove (h.children self) child with
  | (result, list) =>
  if AP4_FAILED result then (result, h) else
  let h := h.setChildren self list
  -- notify that child that it is orphaned
  let h := h.SetParent child none
  -- get a chance to update
  let h := h.OnChildRemoved self child
  (AP4_Result.SUCCESS, h)

/-- Source: `AP4_AtomParent::GetChild(AP4_Atom::Type type, AP4_Ordinal index)`. -/
def GetChild (h : AP4_Heap) (self : Nat) (type index : Nat) : Option Nat :=
  AP4_List.FindNth (fun atom => (h.atoms atom).m_Type == type) (h.children self) index

/-- The loop of `AP4_AtomParent::GetChild(const AP4_UI08* uuid, AP4_Ordinal index)` over the
items from the current one on.  For an atom of type `uuid` the code casts the atom to
`AP4_UuidAtom` and reads its UUID through the pointer without a check; the result is
absent where that pointer is null (the atom is no `AP4_UuidAtom`), the behaviour of the
code being undefined there.  Otherwise the result holds the atom returned, if any. -/
def GetChildUuidLoop (h : AP4_Heap) (uuid : List Nat) : List Nat → Nat → Option (Option Nat)
  | [], _ => some none
  | atom :: rest, index =>
    if (h.atoms atom).m_Type == AP4_ATOM_TYPE_UUID then
      match h.uuid atom with
      | none => none
      | some m_Uuid =>
        if m_Uuid == uuid then
          (if index == 0 then some (some atom) else GetChildUuidLoop h uuid rest (index - 1))
        else GetChildUuidLoop h uuid rest index
    else GetChildUuidLoop h uuid rest index

/-- Source: `AP4_AtomParent::GetChild(const AP4_UI08* uuid, AP4_Ordinal index)`.  The
result is absent where the code dereferences a null pointer; otherwise it holds the atom
returned, if any. -/
def GetChildUuid (h : AP4_Heap) (self : Nat) (uuid : List Nat) (index : Nat) :
    Option (Option Nat) :=
  GetChildUuidLoop h uuid (h.children self) index

/-- Source: `AP4_AtomParent::DeleteChild(AP4_Atom::Type type, AP4_Ordinal index)`. -/
def DeleteChild (h : AP4_Heap) (self : Nat) (type index : Nat) : AP4_Result × AP4_Heap :=
  -- find the child
  match GetChild h self type index with
  | none => (AP4_Result.FAILURE, h)
  | some child =>
  -- remove the child
  match RemoveChild h self child with
  | (result, h) =>
  if AP4_FAILED result then (result, h) else
  -- delete the child
  (AP4_Result.SUCCESS, { h with freed := child :: h.freed })

end AP4_AtomParent

/-- The conversion `(AP4_UI32)c` of a plain `char`, given by its byte.  Plain `char` is
signed: a byte of `0x80` and above is a negative character and its conversion is
sign-extended. -/
def AP4_CharToUI32 (c : Nat) : Nat :=
  if c % 256 < 128 then c % 256 else c % 256 + 0xFFFFFF00

/-- Modelled from the spec: the macro `AP4_ATOM_TYPE(c1, c2, c3, c4)` of `Ap4Atom.h`,
`((AP4_UI32)c1 << 24) | ((AP4_UI32)c2 << 16) | ((AP4_UI32)c3 << 8) | (AP4_UI32)c4`, on
`char` arguments as the code passes them.  For four ASCII characters this is the 32-bit
big-endian identifier of the code. -/
def AP4_ATOM_TYPE (c1 c2 c3 c4 : Nat) : Nat :=
  ((AP4_CharToUI32 c1 <<< 24) % 4294967296) ||| ((AP4_CharToUI32 c2 <<< 16) % 4294967296) |||
    ((AP4_CharToUI32 c3 <<< 8) % 4294967296) ||| AP4_CharToUI32 c4

/-- Modelled from the spec: `AP4_HexNibble` of `Ap4Utils.cpp`, the value of a hexadecimal
digit; a character that is no hexadecimal digit counts as 0. -/
def AP4_HexNibble (c : Nat) : Nat :=
  if 48 ≤ c ∧ c ≤ 57 then c - 48
  else if 97 ≤ c ∧ c ≤ 102 then c - 87
  else if 65 ≤ c ∧ c ≤ 70 then c - 55
  else 0

/-- Modelled from the spec: `AP4_ParseHex(hex, bytes, count)` of `Ap4Utils.cpp`, the `count`
bytes written as `2 * count` hexadecimal characters. -/
def AP4_ParseHex (hex : List Nat) (count : Nat) : List Nat :=
  (List.range count).map
    (fun i => (AP4_HexNibble (hex.getD (2 * i) 0) * 16 + AP4_HexNibble (hex.getD (2 * i + 1) 0)) % 256)

/-- Modelled from the spec: `AP4_ContainerAtom(Type type)` of `Ap4ContainerAtom.cpp`, an
empty plain container atom. -/
def AP4_ContainerAtom.new (type : Nat) : AP4_Atom :=
  AP4_Atom.new32 type AP4_ATOM_HEADER_SIZE

/-- Modelled from the spec: `AP4_ContainerAtom(Type type, AP4_UI08 version, AP4_UI32 flags)`
of `Ap4ContainerAtom.cpp`, an empty full container atom. -/
def AP4_ContainerAtom.newFull (type version flags : Nat) : AP4_Atom :=
  AP4_Atom.newFull32 type AP4_FULL_ATOM_HEADER_SIZE version flags

/-- One parsed path component: what `FindChild` knows after reading a component and its
separator. -/
structure AP4_PathSegment where
  is_uuid : Bool
  type : Nat
  uuid : List Nat
  index : Nat
  end_ : Nat
  deriving DecidableEq, Repr

namespace AP4_AtomParent

/-- The character of a C string at an offset; the terminator is read at and beyond the
end of the list. -/
def charAt (path : List Nat) (i : Nat) : Nat :=
  path.getD i 0

/-- The part of one iteration of the `FindChild` loop that reads a component: the scan for
the end of the name, the choice between four-character code and UUID, the array index
and the separator.  The result is absent where the code returns `NULL` for a malformed
path.  Characters: `/` is 47, `[` is 91, `]` is 93, digits are 48 to 57.  The four
characters of a code go to `AP4_ATOM_TYPE` as the plain `char`s they are.  The index is
an `int`; its arithmetic is taken modulo `2^32`. -/
def parseSegment (path : List Nat) : Option AP4_PathSegment :=
  -- look for the end or a separator
  let end_ := 4 + ((path.drop 4).takeWhile (fun c => c != 0 && c != 47 && c != 91)).length
  -- decide if this is a 4-character code or a UUID
  if end_ != 4 && end_ != 32 then none else
  let is_uuid := end_ != 4
  let type := if end_ == 4 then
      AP4_ATOM_TYPE (charAt path 0) (charAt path 1) (charAt path 2) (charAt path 3) else 0
  let uuid := if end_ == 4 then [] else AP4_ParseHex path 16
  -- parse the array index, if any
  match (if charAt path end_ == 91 then
           let digits := (path.drop (end_ + 1)).takeWhile (fun c => decide (48 ≤ c ∧ c ≤ 57))
           let index := digits.foldl (fun index c => (10 * index + (c - 48)) % 2 ^ 32) 0
           let x := end_ + 1 + digits.length
           if charAt path x != 93 then none else some (index, x + 1)
         else some (0, end_)) with
  | none => none
  | some (index, end_) =>
  -- check what is at the end now
  if charAt path end_ == 47 then
    some { is_uuid := is_uuid, type := type, uuid := uuid, index := index, end_ := end_ + 1 }
  else if charAt path end_ != 0 then none
  else some { is_uuid := is_uuid, type := type, uuid := uuid, index := index, end_ := end_ }

/-- The part of one iteration of the `FindChild` loop that looks the component up in the
child list of `parent` and, when there is no match, creates an empty container if
`auto_create` is set and the index is 0.  The result is absent where the lookup by UUID
dereferences a null pointer, and holds nothing where the code returns `NULL`. -/
def findOrCreate (h : AP4_Heap) (parent : Nat) (seg : AP4_PathSegment)
    (auto_create auto_create_full : Bool) : Option (Option (Nat × AP4_Heap)) :=
  -- look for this atom in the current list
  match (if seg.is_uuid then GetChildUuid h parent seg.uuid seg.index
         else some (GetChild h parent seg.type seg.index)) with
  | none => none
  | some (some atom) => some (some (atom, h))
  | some none =>
    -- not found
    if auto_create && seg.index == 0 then
      match h.alloc (if auto_create_full then AP4_ContainerAtom.newFull seg.type 0 0
                     else AP4_ContainerAtom.new seg.type) true with
      | (atom, h) => some (some (atom, (AddChild h parent atom (-1)).2))
    else some none

/-- The loop of `AP4_AtomParent::FindChild`; `parent` is the current parent and `path` the
rest of the path.  The result is absent when a lookup by UUID dereferences a null pointer
and when `fuel` iterations did not suffice. -/
def FindChildLoop (fuel : Nat) (h : AP4_Heap) (parent : Nat) (path : List Nat)
    (auto_create auto_create_full : Bool) : Option (Option Nat × AP4_Heap) :=
  match fuel with
  | 0 => none
  | fuel + 1 =>
    -- walk the path
    if !(charAt path 0 != 0 && charAt path 1 != 0 && charAt path 2 != 0 &&
         charAt path 3 != 0) then some (none, h) else
    match parseSegment path with
    | none => some (none, h)
    | some seg =>
    match findOrCreate h parent seg auto_create auto_create_full with
    | none => none
    | some none => some (none, h)
    | some (some (atom, h)) =>
    if charAt path seg.end_ != 0 then
      -- if this atom is an atom parent, recurse
      if h.container atom then
        FindChildLoop fuel h atom (path.drop seg.end_) auto_create auto_create_full
      else some (none, h)
    else some (some atom, h)

/-- Source: `AP4_AtomParent::FindChild(const char* path, bool auto_create, bool auto_create_full)`.
Every iteration of the loop consumes at least one character, so `path.length + 1`
iterations suffice; the result is absent only where a lookup by UUID dereferences a null
pointer. -/
def FindChild (h : AP4_Heap) (self : Nat) (path : List Nat)
    (auto_create auto_create_full : Bool) : Option (Option Nat × AP4_Heap) :=
  FindChildLoop (path.length + 1) h self path auto_create auto_create_full

/-- The loop of `AP4_AtomParent::CopyChildren`; `i` is the index of the current item of the
list of `self`.  `Clone` is the virtual `AP4_Atom::Clone` of the children; it returns the
clone, if any, and the new state.  The result is absent when a clone is absent (the
code then passes a null pointer to `AddChild`) and when `fuel` iterations did not
suffice. -/
def CopyChildrenLoop (Clone : AP4_Heap → Nat → Option Nat × AP4_Heap) (fuel : Nat)
    (h : AP4_Heap) (self destination : Nat) (i : Nat) : Option (AP4_Result × AP4_Heap) :=
  match fuel with
  | 0 => none
  | fuel + 1 =>
    match (h.children self)[i]? with
    | none => some (AP4_Result.SUCCESS, h)
    | some child =>
      match Clone h child with
      | (none, _) => none
      | (some child_clone, h) =>
        CopyChildrenLoop Clone fuel (AddChild h destination child_clone (-1)).2
          self destination (i + 1)

/-- Source: `AP4_AtomParent::CopyChildren(AP4_AtomParent& destination)`, run for at most `fuel`
iterations. -/
def CopyChildren (Clone : AP4_Heap → Nat → Option Nat × AP4_Heap) (fuel : Nat)
    (h : AP4_Heap) (self destination : Nat) : Option (AP4_Result × AP4_Heap) :=
  CopyChildrenLoop Clone fuel h self destination 0

end AP4_AtomParent

namespace AP4_Heap

/-- Source: `AP4_UnknownAtom::Clone()` on an object of the state: a new object whose atom fields
are those the copy constructor sets. -/
def CloneUnknown (h : AP4_Heap) (atom : Nat) : Option Nat × AP4_Heap :=
  match h.alloc (AP4_UnknownAtom.Clone { atom := h.atoms atom, m_SourceStream := none,
                                         m_SourcePosition := 0, m_Payload := [] }).atom false with
  | (clone, h) => (some clone, h)

/-- The tree invariant: a child names its owner, an atom that names a parent is in the
child list of that parent, no atom occurs twice in a child list, and no atom occurs in
the child lists of two parents. -/
def TreeInvariant (h : AP4_Heap) : Prop :=
  (∀ p c, c ∈ h.children p → (h.atoms c).m_Parent = some p) ∧
  (∀ p c, (h.atoms c).m_Parent = some p → c ∈ h.children p) ∧
  (∀ p, (h.children p).Nodup) ∧
  (∀ p q c, c ∈ h.children p → c ∈ h.children q → p = q)

/-- Objects that are not created yet have no parent and no children. -/
def Allocated (h : AP4_Heap) : Prop :=
  ∀ i, h.next ≤ i → (h.atoms i).m_Parent = none ∧ h.children i = []

/-- What the tree operations need of the virtual `Clone`: on a state that satisfies the
tree invariant it yields such a state again, creates objects only, and a clone it
returns is an existing object without parent. -/
def CloneContract (Clone : AP4_Heap → Nat → Option Nat × AP4_Heap) : Prop :=
  ∀ h a, h.TreeInvariant → h.Allocated →
    (Clone h a).2.TreeInvariant ∧ (Clone h a).2.Allocated ∧ h.next ≤ (Clone h a).2.next ∧
    ∀ k, (Clone h a).1 = some k →
      k < (Clone h a).2.next ∧ ((Clone h a).2.atoms k).m_Parent = none

/-- One call of a tree operation on existing objects, from the state before to the state
after. -/
inductive Step (Clone : AP4_Heap → Nat → Option Nat × AP4_Heap) : AP4_Heap → AP4_Heap → Prop
  | addChild (h : AP4_Heap) (self child : Nat) (position : Int) :
      self < h.next → child < h.next →
      Step Clone h (AP4_AtomParent.AddChild h self child position).2
  | removeChild (h : AP4_Heap) (self child : Nat) :
      Step Clone h (AP4_AtomParent.RemoveChild h self child).2
  | deleteChild (h : AP4_Heap) (self type index : Nat) :
      Step Clone h (AP4_AtomParent.DeleteChild h self type index).2
  | findChild (h : AP4_Heap) (self : Nat) (path : List Nat) (auto_create auto_create_full : Bool)
      (r : Option Nat) (h1 : AP4_Heap) :
      self < h.next →
      AP4_AtomParent.FindChild h self path auto_create auto_create_full = some (r, h1) →
      Step Clone h h1
  | copyChildren (h : AP4_Heap) (fuel self destination : Nat) (r : AP4_Result) (h1 : AP4_Heap) :
      destination < h.next →
      AP4_AtomParent.CopyChildren Clone fuel h self destination = some (r, h1) →
      Step Clone h h1

end AP4_Heap

/-! ## Atom states that the constructors and `SetSize` produce -/

namespace AP4_Atom

/-- The atom states produced by the constructors of `Ap4Atom.cpp` (the base atom, the
unknown atom, the null-terminated string atom) followed by any sequence of `SetSize`
calls. -/
inductive Constructed : AP4_Atom → Prop
  | new32 (type size : Nat) : Constructed (AP4_Atom.new32 type size)
  | new64 (type size : Nat) (force_64 : Bool) : Constructed (AP4_Atom.new64 type size force_64)
  | newFull32 (type size version flags : Nat) :
      Constructed (AP4_Atom.newFull32 type size version flags)
  | newFull64 (type size : Nat) (force_64 : Bool) (version flags : Nat) :
      Constructed (AP4_Atom.newFull64 type size force_64 version flags)
  | unknown (type size handle : Nat) (stream : AP4_ByteStream) :
      Constructed (AP4_UnknownAtom.new type size handle stream).1.atom
  | unknownFromPayload (type : Nat) (payload : List Nat) :
      Constructed (AP4_UnknownAtom.newFromPayload type payload).atom
  | unknownCopy (other : AP4_UnknownAtom) :
      Constructed other.atom → Constructed other.copy.atom
  | stringFromValue (type : Nat) (value : List Nat) :
      Constructed (AP4_NullTerminatedStringAtom.newFromValue type value).atom
  | string (type size : Nat) (stream : AP4_ByteStream) :
      Constructed (AP4_NullTerminatedStringAtom.new type size stream).1.atom
  | setSize (a : AP4_Atom) (n : Nat) (force_64 : Bool) :
      Constructed a → Constructed (a.SetSize n force_64)

/-- The atom states of `Constructed` whose size was last stored from a declared size that
is at least the header size of the resulting atom.  The stream constructor of the
unknown atom is taken where it keeps the declared size (the payload is buffered, or the
declared extent ends within the stream). -/
inductive Sized : AP4_Atom → Prop
  | new32 (type size : Nat) : size < 2 ^ 32 →
      (AP4_Atom.new32 type size).GetHeaderSize ≤ size → Sized (AP4_Atom.new32 type size)
  | new64 (type size : Nat) (force_64 : Bool) : size < 2 ^ 64 →
      (AP4_Atom.new64 type size force_64).GetHeaderSize ≤ size →
      Sized (AP4_Atom.new64 type size force_64)
  | newFull32 (type size version flags : Nat) : size < 2 ^ 32 →
      (AP4_Atom.newFull32 type size version flags).GetHeaderSize ≤ size →
      Sized (AP4_Atom.newFull32 type size version flags)
  | newFull64 (type size : Nat) (force_64 : Bool) (version flags : Nat) : size < 2 ^ 64 →
      (AP4_Atom.newFull64 type size force_64 version flags).GetHeaderSize ≤ size →
      Sized (AP4_Atom.newFull64 type size force_64 version flags)
  | unknown (type size handle : Nat) (stream : AP4_ByteStream) : size < 2 ^ 64 →
      (AP4_Atom.new64 type size false).GetHeaderSize ≤ size →
      ((size ≤ AP4_UNKNOWN_ATOM_MAX_LOCAL_PAYLOAD_SIZE ∧ type % 2 ^ 32 ≠ AP4_ATOM_TYPE_MDAT) ∨
        (AP4_Sub64 stream.pos (AP4_Atom.new64 type size false).GetHeaderSize + size) % 2 ^ 64
          ≤ stream.data.length) →
      Sized (AP4_UnknownAtom.new type size handle stream).1.atom
  | unknownFromPayload (type : Nat) (payload : List Nat) :
      AP4_ATOM_HEADER_SIZE + payload.length < 2 ^ 32 →
      Sized (AP4_UnknownAtom.newFromPayload type payload).atom
  | unknownCopy (other : AP4_UnknownAtom) :
      Sized other.atom → Sized other.copy.atom
  | stringFromValue (type : Nat) (value : List Nat) :
      AP4_ATOM_HEADER_SIZE + (AP4_NullTerminatedStringAtom.cString value).length + 1 < 2 ^ 32 →
      Sized (AP4_NullTerminatedStringAtom.newFromValue type value).atom
  | string (type size : Nat) (stream : AP4_ByteStream) : size < 2 ^ 64 →
      (AP4_Atom.new64 type size false).GetHeaderSize ≤ size →
      Sized (AP4_NullTerminatedStringAtom.new type size stream).1.atom
  | setSize (a : AP4_Atom) (n : Nat) (force_64 : Bool) : n < 2 ^ 64 →
      (a.SetSize n force_64).GetHeaderSize ≤ n → Sized (a.SetSize n force_64)

end AP4_Atom

namespace AP4_Heap

/-- The tree of the spec's container scenario, as a state: object 0 is a `moov` container
whose children are the `mvhd` atom 1 and the `trak` containers 2 and 3; object 4 is a
`free` atom without parent. -/
def sample : AP4_Heap :=
  { atoms := fun x =>
      if x = 0 then AP4_ContainerAtom.new 0x6d6f6f76
      else if x = 1 then { AP4_Atom.newFull32 0x6d766864 108 0 0 with m_Parent := some 0 }
      else if x = 2 then { AP4_ContainerAtom.new 0x7472616b with m_Parent := some 0 }
      else if x = 3 then { AP4_ContainerAtom.new 0x7472616b with m_Parent := some 0 }
      else AP4_Atom.new32 0x66726565 8,
    children := fun x => if x = 0 then [1, 2, 3] else [],
    container := fun x => x == 0 || x == 2 || x == 3,
    uuid := fun _ => none,
    next := 5,
    hooks := [],
    freed := [] }

end AP4_Heap

/-- A state is well formed when it satisfies the tree invariant and its objects that are
not created yet are untouched. -/
def AP4_Heap.WellFormed (h : AP4_Heap) : Prop :=
  h.TreeInvariant ∧ h.Allocated

/-- The characters of a path given as a string, as the `const char*` the code receives. -/
def AP4_Path (s : String) : List Nat :=
  s.toList.map Char.toNat

/-- Source: `AP4_Atom::Write(AP4_ByteStream& stream)` on a null-terminated string atom
(release build): the header, then the fields. -/
def AP4_NullTerminatedStringAtom.Write (a : AP4_NullTerminatedStringAtom)
    (stream : AP4_ByteStream) : AP4_Result × AP4_ByteStream :=
  -- write the header
  match a.atom.WriteHeader stream with
  | (result, stream) =>
  if AP4_FAILED result then (result, stream) else
  -- write the fields
  match a.WriteFields stream with
  | (result, stream) =>
  if AP4_FAILED result then (result, stream) else
  (AP4_Result.SUCCESS, stream)

/-- The tree of the spec's path scenario: the tree of `sample`, whose `moov` container is the
only child of the top-level parent, object 5. -/
def AP4_Heap.sampleFile : AP4_Heap :=
  { AP4_Heap.sample with
    atoms := fun x =>
      if x = 0 then { AP4_ContainerAtom.new 0x6d6f6f76 with m_Parent := some 5 }
      else AP4_Heap.sample.atoms x,
    children := fun x => if x = 5 then [0] else AP4_Heap.sample.children x,
    next := 6 }

/-- The index that the digit loop of `FindChild` computes from the digits between the
brackets. -/
def AP4_AtomParent.parseIndex (digits : List Nat) : Nat :=
  digits.foldl (fun index c => (10 * index + (c - 48)) % 2 ^ 32) 0

/-- The segment that `FindChild` reads from a component with this name: a four-character
code when the name has four characters, a UUID otherwise. -/
def AP4_PathSegment.ofName (name : List Nat) (index end_ : Nat) : AP4_PathSegment :=
  { is_uuid := name.length != 4,
    type := if name.length == 4 then
        AP4_ATOM_TYPE (AP4_AtomParent.charAt name 0) (AP4_AtomParent.charAt name 1)
          (AP4_AtomParent.charAt name 2) (AP4_AtomParent.charAt name 3) else 0,
    uuid := if name.length == 4 then [] else AP4_ParseHex name 16,
    index := index,
    end_ := end_ }

/-- The decimal digits `0` to `9`. -/
def AP4_IsDigitChar (c : Nat) : Prop :=
  48 ≤ c ∧ c ≤ 57

/-- The hexadecimal digits, in either case. -/
def AP4_IsHexChar (c : Nat) : Prop :=
  (48 ≤ c ∧ c ≤ 57) ∨ (65 ≤ c ∧ c ≤ 70) ∨ (97 ≤ c ∧ c ≤ 102)

/-- The path grammar of the spec, names: a four-character ASCII code without `/` and `[`, or
32 hexadecimal characters. -/
def AP4_IsName (name : List Nat) : Prop :=
  (name.length = 4 ∧ ∀ c ∈ name, 0 < c ∧ c < 128 ∧ c ≠ 47 ∧ c ≠ 91) ∨
  (name.length = 32 ∧ ∀ c ∈ name, AP4_IsHexChar c)

/-- The path grammar of the spec, components: a name, optionally followed by `[n]` with `n` a
non-empty decimal number. -/
def AP4_IsComponent (c : List Nat) : Prop :=
  ∃ name, AP4_IsName name ∧
    (c = name ∨
     ∃ digits, digits ≠ [] ∧ (∀ d ∈ digits, AP4_IsDigitChar d) ∧ c = name ++ 91 :: digits ++ [93])

/-- The path grammar of the spec, paths: a non-empty sequence of components separated by `/`. -/
inductive AP4_WellFormedPath : List Nat → Prop
  | single (c : List Nat) : AP4_IsComponent c → AP4_WellFormedPath c
  | cons (c rest : List Nat) :
      AP4_IsComponent c → AP4_WellFormedPath rest → AP4_WellFormedPath (c ++ 47 :: rest)

/-- The names that the scan of `FindChild` takes for a name: 4 or 32 characters, the first
four of them any character but the terminator, the others neither `/` nor `[` either. -/
def AP4_IsAcceptedName (name : List Nat) : Prop :=
  (name.length = 4 ∨ name.length = 32) ∧ (∀ c ∈ name.take 4, c ≠ 0) ∧
  (∀ c ∈ name.drop 4, c ≠ 0 ∧ c ≠ 47 ∧ c ≠ 91)

/-- The components that `FindChild` reads: an accepted name, optionally followed by `[n]` with
`n` a possibly empty sequence of digits. -/
def AP4_IsAcceptedComponent (c : List Nat) : Prop :=
  ∃ name, AP4_IsAcceptedName name ∧
    (c = name ∨ ∃ digits, (∀ d ∈ digits, AP4_IsDigitChar d) ∧ c = name ++ 91 :: digits ++ [93])

/-- A non-empty sequence of accepted components separated by `/`. -/
inductive AP4_AcceptedPath : List Nat → Prop
  | single (c : List Nat) : AP4_IsAcceptedComponent c → AP4_AcceptedPath c
  | cons (c rest : List Nat) :
      AP4_IsAcceptedComponent c → AP4_AcceptedPath rest → AP4_AcceptedPath (c ++ 47 :: rest)

/-- The paths that `FindChild` reads to their end: accepted components separated by `/`,
optionally followed by one more `/`. -/
def AP4_IsAcceptedPath (path : List Nat) : Prop :=
  AP4_AcceptedPath path ∨ ∃ q, AP4_AcceptedPath q ∧ path = q ++ [47]

/-- The lookup of one iteration of the `FindChild` loop: the child that `GetChild` returns for
the component, by UUID or by type.  The result is absent where the lookup by UUID
dereferences a null pointer. -/
def AP4_AtomParent.lookup (h : AP4_Heap) (parent : Nat) (seg : AP4_PathSegment) :
    Option (Option Nat) :=
  if seg.is_uuid then AP4_AtomParent.GetChildUuid h parent seg.uuid seg.index
  else some (AP4_AtomParent.GetChild h parent seg.type seg.index)

/-- The children of type `uuid` of the state are `AP4_UuidAtom`s. -/
def AP4_Heap.UuidTyped (h : AP4_Heap) : Prop :=
  ∀ p, ∀ c ∈ h.children p, (h.atoms c).m_Type = AP4_ATOM_TYPE_UUID → (h.uuid c).isSome = true

/-! ## The atom list writer -/

/-- Source: `AP4_ATOM_LIST_WRITER_MAX_PADDING`. -/
def AP4_ATOM_LIST_WRITER_MAX_PADDING : Nat := 1024

namespace AP4_AtomListWriter

/-- The padding loop of `AP4_AtomListWriter::Action`: `padding` calls of `WriteUI08(0)`, whose
results the code ignores. -/
def pad : Nat → AP4_ByteStream → AP4_ByteStream
  | 0, stream => stream
  | padding + 1, stream => pad padding (stream.WriteUI08 0).2

/-- Source: `AP4_AtomListWriter::Action(AP4_Atom* atom)` (release build, where `AP4_ASSERT`
and `AP4_Debug` do nothing).  The atom is given by its `GetSize()` and its virtual
`Write`; `stream` is `m_Stream`.  The result of `atom->Write` is not looked at. -/
def Action (GetSize : Nat) (Write : AP4_ByteStream → AP4_Result × AP4_ByteStream)
    (stream : AP4_ByteStream) : AP4_Result × AP4_ByteStream :=
  let before := stream.Tell
  let stream := (Write stream).2
  let after := stream.Tell
  let bytes_written := AP4_Sub64 after before
  if bytes_written < GetSize then
    let padding := AP4_Sub64 GetSize bytes_written
    if padding > AP4_ATOM_LIST_WRITER_MAX_PADDING then
      (AP4_Result.FAILURE, stream)
    else
      (AP4_Result.SUCCESS, pad padding stream)
  else
    (AP4_Result.SUCCESS, stream)

end AP4_AtomListWriter

/-! ## The JSON string escaper -/

/-- Addition of `AP4_Size` values: the sum modulo `2^32`. -/
def AP4_Add32 (a b : Nat) : Nat :=
  (a + b) % 2 ^ 32

/-- Modelled from the spec: `AP4_NibbleHex` of `Ap4Utils.cpp`, the upper-case hexadecimal
digit of a nibble (the escape of the spec's scenario is `\u000A`). -/
def AP4_NibbleHex (nibble : Nat) : Nat :=
  if nibble < 10 then 48 + nibble else 65 + (nibble - 10)

/-- Source: the static function `ReadUTF8(utf, length, code_point)`.  `utf` holds the bytes at
the pointer, `length` and `code_point` are the values of the in-out parameters before the
call; the result is the code and their values after the call. -/
def ReadUTF8 (utf : List Nat) (length code_point : Nat) : AP4_Result × Nat × Nat :=
  if length < 1 then (AP4_Result.NOT_ENOUGH_DATA, length, code_point) else
  let c := utf.getD 0 0
  if c &&& 0x80 == 0 then (AP4_Result.SUCCESS, 1, c) else
  if length < 2 then (AP4_Result.NOT_ENOUGH_DATA, length, code_point) else
  if utf.getD 1 0 &&& 0xc0 != 0x80 then (AP4_Result.INVALID_FORMAT, length, 0) else
  if c &&& 0xe0 == 0xe0 then
    if length < 3 then (AP4_Result.NOT_ENOUGH_DATA, length, 0) else
    if utf.getD 2 0 &&& 0xc0 != 0x80 then (AP4_Result.INVALID_FORMAT, length, 0) else
    if c &&& 0xf0 == 0xf0 then
      if length < 4 then (AP4_Result.NOT_ENOUGH_DATA, length, 0) else
      if c &&& 0xf8 != 0xf0 || utf.getD 3 0 &&& 0xc0 != 0x80 then
        (AP4_Result.INVALID_FORMAT, length, 0)
      else
        (AP4_Result.SUCCESS, 4,
         (utf.getD 0 0 &&& 0x07) <<< 18 ||| (utf.getD 1 0 &&& 0x3f) <<< 12 |||
           (utf.getD 2 0 &&& 0x3f) <<< 6 ||| (utf.getD 3 0 &&& 0x3f))
    else
      (AP4_Result.SUCCESS, 3,
       (utf.getD 0 0 &&& 0x0f) <<< 12 ||| (utf.getD 1 0 &&& 0x3f) <<< 6 |||
         (utf.getD 2 0 &&& 0x3f))
  else
    -- 2-byte code
    (AP4_Result.SUCCESS, 2, (utf.getD 0 0 &&& 0x1f) <<< 6 ||| (utf.getD 1 0 &&& 0x3f))

namespace AP4_JsonInspector

/-- The first loop of `EscapeString`, which computes the output size.  `fuel` bounds the
number of iterations: an iteration consumes at least one byte, so `input_length`
iterations suffice, and at `fuel = 0` the loop condition `input_length` is 0. -/
def EscapeString.outputSize : Nat → List Nat → Nat → Nat → Nat
  | 0, _, _, output_size => output_size
  | fuel + 1, input, input_length, output_size =>
    if input_length == 0 then output_size else
    match ReadUTF8 input input_length 0 with
    | (r, chars_available, code_point) =>
      -- stop, but don't fail
      if AP4_FAILED r then output_size else
      let output_size :=
        if code_point == 34 || code_point == 92 then AP4_Add32 output_size 2
        else if code_point ≤ 0x1F then AP4_Add32 output_size 6
        else AP4_Add32 output_size chars_available
      EscapeString.outputSize fuel (input.drop chars_available)
        (input_length - chars_available) output_size

/-- The second loop of `EscapeString`, which fills the buffer; `escaped` holds the bytes
written so far. -/
def EscapeString.fill : Nat → List Nat → Nat → List Nat → List Nat
  | 0, _, _, escaped => escaped
  | fuel + 1, input, input_length, escaped =>
    if input_length == 0 then escaped else
    match ReadUTF8 input input_length 0 with
    | (r, chars_available, code_point) =>
      -- stop, but don't fail
      if AP4_FAILED r then escaped else
      let escaped :=
        if code_point == 34 || code_point == 92 then escaped ++ [92, code_point % 256]
        else if code_point ≤ 0x1F then
          escaped ++ [92, 117, 48, 48, AP4_NibbleHex (code_point >>> 4),
                      AP4_NibbleHex (code_point &&& 0x0F)]
        else escaped ++ input.take chars_available
      EscapeString.fill fuel (input.drop chars_available)
        (input_length - chars_available) escaped

/-- Source: `AP4_JsonInspector::EscapeString(const char* string)`.  The result is the content of
the returned `AP4_String`; `Assign(buffer, output_size)` keeps `output_size` bytes of the
buffer. -/
def EscapeString (string : List Nat) : List Nat :=
  let result := AP4_NullTerminatedStringAtom.cString string
  -- Shortcut
  if result.length == 0 then result else
  -- Compute the output size
  let string_length := result.length % 2 ^ 32
  let output_size := EscapeString.outputSize string_length string string_length 0
  -- Shortcut
  if output_size == result.length then result else
  -- Compute the escaped string in a temporary buffer
  let buffer := EscapeString.fill string_length string string_length []
  -- Copy the buffer to a final string
  buffer.take output_size

end AP4_JsonInspector

/-- The Unicode scalar values: the code points that UTF-8 encodes. -/
def AP4_IsScalarValue (cp : Nat) : Prop :=
  cp < 0x110000 ∧ ¬ (0xD800 ≤ cp ∧ cp ≤ 0xDFFF)

/-- The UTF-8 encoding of a code point, by the rules of the standard (the reference that
`ReadUTF8` is compared with). -/
def AP4_Utf8Encode (cp : Nat) : List Nat :=
  if cp < 0x80 then [cp]
  else if cp < 0x800 then [0xC0 + cp / 64, 0x80 + cp % 64]
  else if cp < 0x10000 then [0xE0 + cp / 4096, 0x80 + cp / 64 % 64, 0x80 + cp % 64]
  else [0xF0 + cp / 262144, 0x80 + cp / 4096 % 64, 0x80 + cp / 64 % 64, 0x80 + cp % 64]

/-- The escape of one code point, in the words of the spec: backslash and quote for
U+0022, two backslashes for U+005C, `\u00XX` with two upper-case hexadecimal digits for a
code point up to U+001F, and the bytes of the code point otherwise. -/
def AP4_JsonEscapeCodePoint (cp : Nat) : List Nat :=
  if cp = 0x22 then [92, 34]
  else if cp = 0x5C then [92, 92]
  else if cp ≤ 0x1F then [92, 117, 48, 48, AP4_NibbleHex (cp / 16), AP4_NibbleHex (cp % 16)]
  else AP4_Utf8Encode cp

/-- The content of a JSON string (RFC 8259): unescaped scalar values other than the
quote, the backslash and the control characters, two-character escapes, and `\u` followed
by four hexadecimal digits. -/
inductive AP4_JsonStringContent : List Nat → Prop
  | nil : AP4_JsonStringContent []
  | plain (cp : Nat) (rest : List Nat) :
      AP4_IsScalarValue cp → 0x20 ≤ cp → cp ≠ 0x22 → cp ≠ 0x5C →
      AP4_JsonStringContent rest → AP4_JsonStringContent (AP4_Utf8Encode cp ++ rest)
  | escape (c : Nat) (rest : List Nat) :
      c ∈ [34, 92, 47, 98, 102, 110, 114, 116] →
      AP4_JsonStringContent rest → AP4_JsonStringContent (92 :: c :: rest)
  | unicode (h1 h2 h3 h4 : Nat) (rest : List Nat) :
      AP4_IsHexChar h1 → AP4_IsHexChar h2 → AP4_IsHexChar h3 → AP4_IsHexChar h4 →
      AP4_JsonStringContent rest →
      AP4_JsonStringContent (92 :: 117 :: h1 :: h2 :: h3 :: h4 :: rest)

/-! ## Text formatting -/

/-- Modelled from the spec: `WriteString` of section 4.1 (`Ap4ByteStream.cpp` is not among the
sources), one `Write` of the characters of a C string; nothing is written for the empty
string. -/
def AP4_ByteStream.WriteString (s : AP4_ByteStream) (buffer : List Nat) :
    AP4_Result × AP4_ByteStream :=
  let string_length := (AP4_NullTerminatedStringAtom.cString buffer).length
  if string_length == 0 then (AP4_Result.SUCCESS, s)
  else s.Write (AP4_NullTerminatedStringAtom.cString buffer)

/-- The decimal digits of a number, as characters. -/
def AP4_FormatDecimal (n : Nat) : List Nat :=
  (Nat.toDigits 10 n).map Char.toNat

/-- Modelled from the spec: the conversion `%x` of `AP4_FormatString` (`Ap4Utils.cpp` is not
among the sources), the lower-case hexadecimal digits of an unsigned 32-bit value. -/
def AP4_FormatHex32 (v : Nat) : List Nat :=
  (Nat.toDigits 16 (v % 2 ^ 32)).map Char.toNat

/-- Modelled from the spec: the conversion `%llx`, the lower-case hexadecimal digits of an
unsigned 64-bit value. -/
def AP4_FormatHex64 (v : Nat) : List Nat :=
  (Nat.toDigits 16 (v % 2 ^ 64)).map Char.toNat

/-- Modelled from the spec: the conversion `%d` applied to a 32-bit value, which prints it
as a signed number. -/
def AP4_FormatInt32 (v : Nat) : List Nat :=
  if v % 2 ^ 32 < 2 ^ 31 then AP4_FormatDecimal (v % 2 ^ 32)
  else 45 :: AP4_FormatDecimal (2 ^ 32 - v % 2 ^ 32)

/-- Modelled from the spec: the conversion `%lld` applied to a 64-bit value, which prints it
as a signed number. -/
def AP4_FormatInt64 (v : Nat) : List Nat :=
  if v % 2 ^ 64 < 2 ^ 63 then AP4_FormatDecimal (v % 2 ^ 64)
  else 45 :: AP4_FormatDecimal (2 ^ 64 - v % 2 ^ 64)

/-- Source: `AP4_MakePrefixString(indent, prefix, size)`; the result is the string left in
`prefix` (nothing is stored when `size` is 0). -/
def AP4_MakePrefixString (indent size : Nat) : List Nat :=
  if size == 0 then []
  else List.replicate (if indent ≥ size - 1 then size - 1 else indent) 32

/-! ## The text inspector -/

/-- Modelled from the spec: the kinds of context of the inspectors (`Ap4Atom.h` is not
among the sources). -/
inductive AP4_ContextType where
  | TOP_LEVEL
  | ATOM
  | ARRAY
  | OBJECT
  | COMPACT_OBJECT
  deriving DecidableEq, Repr

/-- Modelled from the spec: `AP4_PrintInspector::Context`, built by `Context(type)` with
`m_ArrayIndex` 0. -/
structure AP4_PrintInspector.Context where
  m_Type : AP4_ContextType
  m_ArrayIndex : Nat
  deriving DecidableEq, Repr

/-- The state of an `AP4_PrintInspector`: the output stream and the stack of contexts. -/
structure AP4_PrintInspector where
  m_Stream : AP4_ByteStream
  m_Contexts : List AP4_PrintInspector.Context
  deriving DecidableEq, Repr

namespace AP4_PrintInspector

/-- The call `m_Stream->WriteString(string)`, whose result the inspector ignores. -/
def WriteString (i : AP4_PrintInspector) (string : List Nat) : AP4_PrintInspector :=
  { i with m_Stream := (i.m_Stream.WriteString string).2 }

/-- The call `m_Stream->Write(buffer, size)`, whose result the inspector ignores. -/
def Write (i : AP4_PrintInspector) (buffer : List Nat) : AP4_PrintInspector :=
  { i with m_Stream := (i.m_Stream.Write buffer).2 }

/-- Modelled from the spec: `LastContext()`, the last item of `m_Contexts`. -/
def LastContext (i : AP4_PrintInspector) : Context :=
  i.m_Contexts.getLastD { m_Type := AP4_ContextType.TOP_LEVEL, m_ArrayIndex := 0 }

/-- The statement `++LastContext().m_ArrayIndex`. -/
def incrementArrayIndex (i : AP4_PrintInspector) : AP4_PrintInspector :=
  { i with m_Contexts := i.m_Contexts.dropLast ++
      [{ i.LastContext with m_ArrayIndex := i.LastContext.m_ArrayIndex + 1 }] }

/-- Source: `AP4_PrintInspector::PushContext(Context::Type type)`. -/
def PushContext (i : AP4_PrintInspector) (type : AP4_ContextType) : AP4_PrintInspector :=
  { i with m_Contexts := i.m_Contexts ++ [{ m_Type := type, m_ArrayIndex := 0 }] }

/-- Source: `AP4_PrintInspector::PopContext()`. -/
def PopContext (i : AP4_PrintInspector) : AP4_PrintInspector :=
  { i with m_Contexts := i.m_Contexts.dropLast }

/-- Source: `AP4_PrintInspector::AP4_PrintInspector(stream, indent)`. -/
def new (stream : AP4_ByteStream) : AP4_PrintInspector :=
  PushContext { m_Stream := stream, m_Contexts := [] } AP4_ContextType.TOP_LEVEL

/-- The index of an array element as `"(%8d) "` prints it: right-aligned in 8 columns. -/
def formatIndex (index : Nat) : List Nat :=
  [40] ++ List.replicate (8 - (AP4_FormatInt32 index).length) 32 ++ AP4_FormatInt32 index
    ++ [41, 32]

/-- Source: `AP4_PrintInspector::PrintPrefix()`. -/
def PrintPrefix (i : AP4_PrintInspector) : AP4_PrintInspector :=
  if i.LastContext.m_Type == AP4_ContextType.COMPACT_OBJECT then
    let index := i.LastContext.m_ArrayIndex
    let i := i.incrementArrayIndex
    if index != 0 then i.WriteString [44, 32] else i
  else if i.m_Contexts.length ≥ 1 then
    let i := i.WriteString (AP4_MakePrefixString ((i.m_Contexts.length - 1) * 2) 256)
    if i.LastContext.m_Type == AP4_ContextType.ARRAY then
      let i := i.WriteString (formatIndex i.LastContext.m_ArrayIndex)
      i.incrementArrayIndex
    else i
  else i

/-- Source: `AP4_PrintInspector::PrintSuffix()`. -/
def PrintSuffix (i : AP4_PrintInspector) : AP4_PrintInspector :=
  if i.LastContext.m_Type != AP4_ContextType.COMPACT_OBJECT then i.WriteString [10] else i

/-- The string that `StartAtom` formats into `extra`: at most 29 characters, so the 32
bytes of the buffer hold it. -/
def StartAtom.extra (version flags header_size : Nat) : List Nat :=
  if header_size == 28 || header_size == 12 || header_size == 20 then
    if version != 0 && flags != 0 then
      [44, 32, 118, 101, 114, 115, 105, 111, 110, 61] ++ AP4_FormatDecimal version
        ++ [44, 32, 102, 108, 97, 103, 115, 61] ++ AP4_FormatHex32 flags
    else if version != 0 then
      [44, 32, 118, 101, 114, 115, 105, 111, 110, 61] ++ AP4_FormatDecimal version
    else if flags != 0 then
      [44, 32, 102, 108, 97, 103, 115, 61] ++ AP4_FormatHex32 flags
    else []
  else []

/-- The string that `StartAtom` formats into `info` with `"size=%d+%lld%s"`: at most 68
characters, so the 128 bytes of the buffer hold it. -/
def StartAtom.info (version flags header_size size : Nat) : List Nat :=
  [115, 105, 122, 101, 61] ++ AP4_FormatInt32 header_size ++ [43]
    ++ AP4_FormatInt64 (AP4_Sub64 size header_size) ++ StartAtom.extra version flags header_size

/-- Source: `AP4_PrintInspector::StartAtom(name, version, flags, header_size, size)`. -/
def StartAtom (i : AP4_PrintInspector) (name : List Nat)
    (version flags header_size size : Nat) : AP4_PrintInspector :=
  let i := i.PrintPrefix
  let i := i.PushContext AP4_ContextType.ATOM
  -- write atom name
  let i := i.WriteString [91]
  let i := i.WriteString name
  let i := i.Write [93, 32]
  let i := i.WriteString (StartAtom.info version flags header_size size)
  i.PrintSuffix

/-- Source: `AP4_PrintInspector::EndAtom()`. -/
def EndAtom (i : AP4_PrintInspector) : AP4_PrintInspector :=
  i.PopContext

/-- Source: `AP4_PrintInspector::AddField(const char* name, const char* value, FormatHint)`. -/
def AddField (i : AP4_PrintInspector) (name : Option (List Nat)) (value : List Nat) :
    AP4_PrintInspector :=
  let i := i.PrintPrefix
  let i := match name with
    | some name => (i.WriteString name).WriteString [32, 61, 32]
    | none => i
  let i := i.WriteString value
  i.PrintSuffix

/-- Source: `AP4_PrintInspector::AddField(const char* name, AP4_UI64 value, FormatHint hint)`;
`hex` says that the hint is `HINT_HEX`. -/
def AddFieldUI64 (i : AP4_PrintInspector) (name : Option (List Nat)) (value : Nat)
    (hex : Bool) : AP4_PrintInspector :=
  let i := i.PrintPrefix
  let i := match name with
    | some name => (i.WriteString name).WriteString [32, 61, 32]
    | none => i
  let i := i.WriteString (if hex then AP4_FormatHex64 value else AP4_FormatInt64 value)
  i.PrintSuffix

end AP4_PrintInspector

/-- A stream that accepts every coming write and whose cursor is within its content. -/
def AP4_ByteStream.Accepting (s : AP4_ByteStream) : Prop :=
  s.faults = [] ∧ s.pos ≤ s.data.length

/-! ## The ES descriptor -/

/-- Modelled from the spec: `WriteUI16`, one `Write` of two big-endian bytes. -/
def AP4_ByteStream.WriteUI16 (s : AP4_ByteStream) (value : Nat) : AP4_Result × AP4_ByteStream :=
  s.Write (AP4_BytesFromUInt16BE value)

/-- Modelled from the spec: `ReadUI08`, one `Read` of one byte; the value is 0 when the read
fails. -/
def AP4_ByteStream.ReadUI08 (s : AP4_ByteStream) : AP4_Result × Nat × AP4_ByteStream :=
  match s.Read 1 with
  | (result, bytes, s) =>
    if AP4_FAILED result then (result, 0, s)
    else (AP4_Result.SUCCESS, AP4_BytesToUIntBE bytes, s)

/-- Modelled from the spec: `ReadUI16`, one `Read` of two big-endian bytes; the value is 0
when the read fails. -/
def AP4_ByteStream.ReadUI16 (s : AP4_ByteStream) : AP4_Result × Nat × AP4_ByteStream :=
  match s.Read 2 with
  | (result, bytes, s) =>
    if AP4_FAILED result then (result, 0, s)
    else (AP4_Result.SUCCESS, AP4_BytesToUIntBE bytes, s)

/-- Modelled from the spec: the flag of the `depends_on` field (`Ap4EsDescriptor.h` is not
among the sources; the three flags are the three bits of `m_Flags`). -/
def AP4_ES_DESCRIPTOR_FLAG_STREAM_DEPENDENCY : Nat := 1

/-- Modelled from the spec: the flag of the URL field. -/
def AP4_ES_DESCRIPTOR_FLAG_URL : Nat := 2

/-- Modelled from the spec: the flag of the `ocr_es_id` field. -/
def AP4_ES_DESCRIPTOR_FLAG_OCR_STREAM : Nat := 4

/-- The fields of `AP4_EsDescriptor`, with the header and payload sizes of its base
`AP4_Descriptor`.  A sub-descriptor is represented by the bytes that its `Write` emits. -/
structure AP4_EsDescriptor where
  m_HeaderSize : Nat
  m_PayloadSize : Nat
  m_EsId : Nat
  m_OcrEsId : Nat
  m_Flags : Nat
  m_StreamPriority : Nat
  m_DependsOn : Nat
  m_Url : List Nat
  m_SubDescriptors : List (List Nat)
  deriving DecidableEq, Repr

namespace AP4_EsDescriptor

/-- Source: `AP4_EsDescriptor::AP4_EsDescriptor(AP4_UI16 es_id)`. -/
def newFromId (es_id : Nat) : AP4_EsDescriptor :=
  { m_HeaderSize := 2, m_PayloadSize := 2 + 1, m_EsId := es_id % 2 ^ 16, m_OcrEsId := 0,
    m_Flags := 0, m_StreamPriority := 0, m_DependsOn := 0, m_Url := [],
    m_SubDescriptors := [] }

/-- Source: `AP4_EsDescriptor::AP4_EsDescriptor(stream, header_size, payload_size)`, up to the
loop that reads the sub-descriptors through `AP4_DescriptorFactory` (not among the
sources).  The constructor initialises no field but those of the base class:
`uninitialized` gives the indeterminate content of the other fields before the body
runs (`m_Url` and `m_SubDescriptors` are constructed empty).  The result is the
descriptor, the stream and the payload size that is left for the sub-descriptors. -/
def new (stream : AP4_ByteStream) (header_size payload_size : Nat)
    (uninitialized : AP4_EsDescriptor) : AP4_EsDescriptor × AP4_ByteStream × Nat :=
  let d : AP4_EsDescriptor :=
    { uninitialized with m_HeaderSize := header_size, m_PayloadSize := payload_size,
                         m_Url := [], m_SubDescriptors := [] }
  -- read descriptor fields
  if payload_size < 3 then (d, stream, payload_size) else
  match stream.ReadUI16 with
  | (_, m_EsId, stream) =>
  match stream.ReadUI08 with
  | (_, bits, stream) =>
  let payload_size := payload_size - 3
  let d := { d with m_EsId := m_EsId, m_Flags := (bits >>> 5) &&& 7,
                    m_StreamPriority := bits &&& 0x1F }
  match (if d.m_Flags &&& AP4_ES_DESCRIPTOR_FLAG_STREAM_DEPENDENCY != 0 then
           if payload_size < 2 then none
           else
             match stream.ReadUI16 with
             | (_, m_DependsOn, stream) =>
               some ({ d with m_DependsOn := m_DependsOn }, stream, payload_size - 2)
         else some ({ d with m_DependsOn := 0 }, stream, payload_size)) with
  | none => (d, stream, payload_size)
  | some (d, stream, payload_size) =>
  match (if d.m_Flags &&& AP4_ES_DESCRIPTOR_FLAG_URL != 0 then
           if payload_size < 1 then none
           else
             match stream.ReadUI08 with
             | (_, url_length, stream) =>
               let payload_size := payload_size - 1
               if url_length != 0 then
                 if payload_size < url_length then some (none, d, stream, payload_size)
                 else
                   match stream.Read url_length with
                   | (_, url, stream) =>
                     -- bytes that the read did not deliver are taken to be 0
                     let buffer := url ++ List.replicate (url_length - url.length) 0
                     let m_Url := AP4_NullTerminatedStringAtom.cString buffer
                     some (some (), { d with m_Url := m_Url }, stream, payload_size - url_length)
               else some (some (), d, stream, payload_size)
         else some (some (), d, stream, payload_size)) with
  | none => (d, stream, payload_size)
  | some (none, d, stream, payload_size) => (d, stream, payload_size)
  | some (some (), d, stream, payload_size) =>
  if d.m_Flags &&& AP4_ES_DESCRIPTOR_FLAG_URL != 0 then
    if payload_size < 2 then (d, stream, payload_size)
    else
      match stream.ReadUI16 with
      | (_, m_OcrEsId, stream) => ({ d with m_OcrEsId := m_OcrEsId }, stream, payload_size - 2)
  else ({ d with m_OcrEsId := 0 }, stream, payload_size)

/-- The call `m_SubDescriptors.Apply(AP4_DescriptorListWriter(stream))`: every sub-descriptor
writes itself; the results are not looked at. -/
def writeSubDescriptors : List (List Nat) → AP4_ByteStream → AP4_ByteStream
  | [], stream => stream
  | descriptor :: rest, stream => writeSubDescriptors rest (stream.Write descriptor).2

/-- Source: `AP4_EsDescriptor::WriteFields(AP4_ByteStream& stream)`. -/
def WriteFields (d : AP4_EsDescriptor) (stream : AP4_ByteStream) :
    AP4_Result × AP4_ByteStream :=
  -- es id
  match stream.WriteUI16 d.m_EsId with
  | (result, stream) =>
  if AP4_FAILED result then (result, stream) else
  -- flags and other bits
  let bits := (d.m_StreamPriority % 256) ||| ((d.m_Flags <<< 5) % 256)
  match stream.WriteUI08 bits with
  | (result, stream) =>
  if AP4_FAILED result then (result, stream) else
  -- optional fields
  match (if d.m_Flags &&& AP4_ES_DESCRIPTOR_FLAG_STREAM_DEPENDENCY != 0 then
           stream.WriteUI16 d.m_DependsOn
         else (AP4_Result.SUCCESS, stream)) with
  | (result, stream) =>
  if AP4_FAILED result then (result, stream) else
  match (if d.m_Flags &&& AP4_ES_DESCRIPTOR_FLAG_URL != 0 then
           match stream.WriteUI08 (d.m_Url.length % 256) with
           | (result, stream) =>
             if AP4_FAILED result then (result, stream) else
             match stream.WriteString d.m_Url with
             | (result, stream) =>
               if AP4_FAILED result then (result, stream) else
               stream.WriteUI08 0
         else (AP4_Result.SUCCESS, stream)) with
  | (result, stream) =>
  if AP4_FAILED result then (result, stream) else
  match (if d.m_Flags &&& AP4_ES_DESCRIPTOR_FLAG_OCR_STREAM != 0 then
           stream.WriteUI16 d.m_OcrEsId
         else (AP4_Result.SUCCESS, stream)) with
  | (result, stream) =>
  if AP4_FAILED result then (result, stream) else
  -- write the sub descriptors
  (AP4_Result.SUCCESS, writeSubDescriptors d.m_SubDescriptors stream)

end AP4_EsDescriptor

/-- The encoding of the fields that precede `ocr_es_id` in the payload of an ES descriptor:
`es_id`, the byte of the flags and the priority, `depends_on` when its flag is set in
that byte, and the URL (a length byte and the bytes) when its flag is set. -/
def AP4_EsDescriptor.leadingFields (es_id bits depends_on : Nat) (url : List Nat) : List Nat :=
  AP4_BytesFromUInt16BE es_id ++ [bits]
    ++ (if ((bits >>> 5) &&& 7) &&& AP4_ES_DESCRIPTOR_FLAG_STREAM_DEPENDENCY != 0
        then AP4_BytesFromUInt16BE depends_on else [])
    ++ (if ((bits >>> 5) &&& 7) &&& AP4_ES_DESCRIPTOR_FLAG_URL != 0
        then url.length :: url else [])

/-- An ES descriptor whose fields hold the value 0xAAAA (the URL is empty): it stands for the
memory of a descriptor before the constructor body runs. -/
def AP4_EsDescriptor.stale : AP4_EsDescriptor :=
  { m_HeaderSize := 0, m_PayloadSize := 0, m_EsId := 0xAAAA, m_OcrEsId := 0xAAAA,
    m_Flags := 0xAAAA, m_StreamPriority := 0xAA, m_DependsOn := 0xAAAA, m_Url := [],
    m_SubDescriptors := [] }

/-- The ES descriptor with `es_id` 1, the URL `a`, `ocr_es_id` 0x1234, no sub-descriptor and
the given flags. -/
def AP4_EsDescriptor.sample (flags : Nat) : AP4_EsDescriptor :=
  { m_HeaderSize := 2, m_PayloadSize := 8, m_EsId := 1, m_OcrEsId := 0x1234, m_Flags := flags,
    m_StreamPriority := 0, m_DependsOn := 0, m_Url := [0x61], m_SubDescriptors := [] }

/-! ## The JSON inspector -/

/-- Modelled from the spec: `AP4_JsonInspector::Context` (`Ap4Atom.h` is not among the sources),
built by `Context(type)` with both counters 0; the counters are `AP4_Cardinal` values,
which wrap at `2^32`. -/
structure AP4_JsonInspector.Context where
  m_Type : AP4_ContextType
  m_FieldCount : Nat
  m_ChildrenCount : Nat
  deriving DecidableEq, Repr

/-- The state of an `AP4_JsonInspector`: the output stream, the stack of contexts and the
string held by the buffer `m_Prefix`. -/
structure AP4_JsonInspector where
  m_Stream : AP4_ByteStream
  m_Contexts : List AP4_JsonInspector.Context
  m_Prefix : List Nat
  deriving DecidableEq, Repr

namespace AP4_JsonInspector

/-- The call `m_Stream->WriteString(string)`, whose result the inspector ignores. -/
def WriteString (i : AP4_JsonInspector) (string : List Nat) : AP4_JsonInspector :=
  { i with m_Stream := (i.m_Stream.WriteString string).2 }

/-- Modelled from the spec: `LastContext()`, the last item of `m_Contexts`. -/
def LastContext (i : AP4_JsonInspector) : Context :=
  i.m_Contexts.getLastD { m_Type := AP4_ContextType.TOP_LEVEL, m_FieldCount := 0,
                          m_ChildrenCount := 0 }

/-- An assignment to `LastContext()`. -/
def setLastContext (i : AP4_JsonInspector) (context : Context) : AP4_JsonInspector :=
  { i with m_Contexts := i.m_Contexts.dropLast ++ [context] }

/-- Source: `AP4_JsonInspector::PushContext(Context::Type type)`; `m_Prefix` is a buffer of 256
characters. -/
def PushContext (i : AP4_JsonInspector) (type : AP4_ContextType) : AP4_JsonInspector :=
  let m_Contexts := i.m_Contexts ++ [{ m_Type := type, m_FieldCount := 0, m_ChildrenCount := 0 }]
  { i with m_Contexts := m_Contexts,
           m_Prefix := AP4_MakePrefixString (m_Contexts.length * 2) 256 }

/-- Source: `AP4_JsonInspector::PopContext()`. -/
def PopContext (i : AP4_JsonInspector) : AP4_JsonInspector :=
  let m_Contexts := i.m_Contexts.dropLast
  { i with m_Contexts := m_Contexts,
           m_Prefix := AP4_MakePrefixString (m_Contexts.length * 2) 256 }

/-- Source: `AP4_JsonInspector::AP4_JsonInspector(stream)`. -/
def new (stream : AP4_ByteStream) : AP4_JsonInspector :=
  let i : AP4_JsonInspector := { m_Stream := stream, m_Contexts := [], m_Prefix := [] }
  let i := i.WriteString [91, 10]
  i.PushContext AP4_ContextType.TOP_LEVEL

/-- Source: `AP4_JsonInspector::~AP4_JsonInspector()`. -/
def destructor (i : AP4_JsonInspector) : AP4_JsonInspector :=
  i.WriteString [10, 93, 10]

/-- Source: `AP4_JsonInspector::OnFieldAdded()`. -/
def OnFieldAdded (i : AP4_JsonInspector) : AP4_JsonInspector :=
  let i := if i.LastContext.m_FieldCount != 0 then i.WriteString [44, 10] else i
  i.setLastContext { i.LastContext with m_FieldCount := AP4_Add32 i.LastContext.m_FieldCount 1 }

/-- Source: `AP4_JsonInspector::PrintFieldName(const char* name)`; an absent `name` is the null
pointer. -/
def PrintFieldName (i : AP4_JsonInspector) (name : Option (List Nat)) : AP4_JsonInspector :=
  match name with
  | none => i
  | some name =>
    let i := i.WriteString [34]
    let i := i.WriteString (EscapeString name)
    i.WriteString [34, 58, 32]

/-- Source: `AP4_JsonInspector::StartAtom(name, version, flags, header_size, size)`;
`version` is an `AP4_UI08`. -/
def StartAtom (i : AP4_JsonInspector) (name : List Nat)
    (version flags header_size size : Nat) : AP4_JsonInspector :=
  let i := i.OnFieldAdded
  let i := i.setLastContext
    { i.LastContext with m_ChildrenCount := AP4_Add32 i.LastContext.m_ChildrenCount 1 }
  -- Starting the first atom within an atom means staring a childen array
  let i :=
    if i.LastContext.m_Type == AP4_ContextType.ATOM && i.LastContext.m_ChildrenCount == 1 then
      let i := i.WriteString i.m_Prefix
      i.WriteString [34, 99, 104, 105, 108, 100, 114, 101, 110, 34, 58, 91, 32, 10]
    else i
  let i := i.WriteString i.m_Prefix
  let i := i.WriteString [123, 10]
  let i := i.PushContext AP4_ContextType.ATOM
  let i := i.OnFieldAdded
  let i := i.WriteString i.m_Prefix
  let i := i.PrintFieldName (some [110, 97, 109, 101])
  let i := i.WriteString [34]
  let i := i.WriteString (EscapeString name)
  let i := i.WriteString [34]
  let i := i.OnFieldAdded
  let i := i.WriteString i.m_Prefix
  let i := i.PrintFieldName (some [104, 101, 97, 100, 101, 114, 95, 115, 105, 122, 101])
  let i := i.WriteString (AP4_FormatInt32 header_size)
  let i := i.OnFieldAdded
  let i := i.WriteString i.m_Prefix
  let i := i.PrintFieldName (some [115, 105, 122, 101])
  let i := i.WriteString (AP4_FormatInt64 size)
  let i :=
    if version != 0 then
      let i := i.OnFieldAdded
      let i := i.WriteString i.m_Prefix
      let i := i.PrintFieldName (some [118, 101, 114, 115, 105, 111, 110])
      i.WriteString (AP4_FormatDecimal version)
    else i
  if flags != 0 then
    let i := i.OnFieldAdded
    let i := i.WriteString i.m_Prefix
    let i := i.PrintFieldName (some [102, 108, 97, 103, 115])
    i.WriteString (AP4_FormatInt32 flags)
  else i

/-- Source: `AP4_JsonInspector::EndAtom()`. -/
def EndAtom (i : AP4_JsonInspector) : AP4_JsonInspector :=
  -- Ending an atom with children means we need to close the children array
  let i := if i.LastContext.m_ChildrenCount != 0 then i.WriteString [93] else i
  let i := i.PopContext
  let i := i.WriteString [10]
  let i := i.WriteString i.m_Prefix
  i.WriteString [125]

/-- Source: `AP4_JsonInspector::AddField(const char* name, const char* value, FormatHint)`. -/
def AddField (i : AP4_JsonInspector) (name : Option (List Nat)) (value : List Nat) :
    AP4_JsonInspector :=
  let i := i.OnFieldAdded
  let i := i.WriteString i.m_Prefix
  let i := i.PrintFieldName name
  let i := i.WriteString [34]
  let i := i.WriteString (EscapeString value)
  i.WriteString [34]

/-- Source: `AP4_JsonInspector::AddField(const char* name, AP4_UI64 value, FormatHint)`. -/
def AddFieldUI64 (i : AP4_JsonInspector) (name : Option (List Nat)) (value : Nat) :
    AP4_JsonInspector :=
  let i := i.OnFieldAdded
  let i := i.WriteString i.m_Prefix
  let i := i.PrintFieldName name
  i.WriteString (AP4_FormatInt64 value)

end AP4_JsonInspector

/-- A field reported by an atom: a name with a string value (`AddField(name, value)`) or with
an integer value (`AddField(name, AP4_UI64)`). -/
inductive AP4_InspectedField where
  | text (name value : List Nat)
  | number (name : List Nat) (value : Nat)
  deriving DecidableEq, Repr

/-- Atoms as an inspector sees them, in call order: the first atom of a list with its name,
version, flags, header size and size, the fields it reports, the atoms nested in it,
and the atoms that follow it in the list. -/
inductive AP4_InspectedAtoms where
  | nil
  | atom (name : List Nat) (version flags header_size size : Nat)
      (fields : List AP4_InspectedField) (children siblings : AP4_InspectedAtoms)
  deriving DecidableEq, Repr

namespace AP4_JsonInspector

/-- One call on the inspector. -/
inductive Call where
  | StartAtom (name : List Nat) (version flags header_size size : Nat)
  | AddField (name value : List Nat)
  | AddFieldUI64 (name : List Nat) (value : Nat)
  | EndAtom
  deriving DecidableEq, Repr

/-- The call that reports a field. -/
def Call.ofField : AP4_InspectedField → Call
  | AP4_InspectedField.text name value => Call.AddField name value
  | AP4_InspectedField.number name value => Call.AddFieldUI64 name value

/-- The properly nested call sequence of a list of atoms: for every atom `StartAtom`, its
`AddField` calls, the calls of the nested atoms, and `EndAtom`. -/
def calls : AP4_InspectedAtoms → List Call
  | AP4_InspectedAtoms.nil => []
  | AP4_InspectedAtoms.atom name version flags header_size size fields children siblings =>
    [Call.StartAtom name version flags header_size size] ++ fields.map Call.ofField
      ++ calls children ++ [Call.EndAtom] ++ calls siblings

/-- One call executed on the inspector. -/
def step (i : AP4_JsonInspector) : Call → AP4_JsonInspector
  | Call.StartAtom name version flags header_size size =>
    i.StartAtom name version flags header_size size
  | Call.AddField name value => i.AddField (some name) value
  | Call.AddFieldUI64 name value => i.AddFieldUI64 (some name) value
  | Call.EndAtom => i.EndAtom

/-- A sequence of calls executed in order. -/
def run (i : AP4_JsonInspector) (sequence : List Call) : AP4_JsonInspector :=
  sequence.foldl step i

/-- The bytes that an inspector writes from its construction on `stream` to its
destruction, when `sequence` is executed in between. -/
def output (stream : AP4_ByteStream) (sequence : List Call) : List Nat :=
  AP4_ByteStream.emitted stream ((new stream).run sequence).destructor.m_Stream

end AP4_JsonInspector

/-! ## JSON texts -/

/-- JSON values (RFC 8259) as far as the inspector writes them: integers, strings (given by
their content between the quotes), arrays, and objects (members in order, every key
given by its content between the quotes). -/
inductive AP4_Json where
  | number (value : Int)
  | string (content : List Nat)
  | array (items : List AP4_Json)
  | object (members : List (List Nat × AP4_Json))

/-- The text of an integer: its decimal digits, after a minus sign when it is negative. -/
def AP4_JsonNumberText : Int → List Nat
  | Int.ofNat n => AP4_FormatDecimal n
  | Int.negSucc n => 45 :: AP4_FormatDecimal (n + 1)

/-- JSON whitespace: spaces, line feeds, carriage returns and tabs. -/
def AP4_IsJsonWhitespace (t : List Nat) : Prop :=
  ∀ c ∈ t, c = 32 ∨ c = 10 ∨ c = 13 ∨ c = 9

mutual

/-- The grammar of JSON values: `Text t v` says that the bytes `t`, without whitespace around
them, are a JSON text of the value `v`. -/
inductive AP4_Json.Text : List Nat → AP4_Json → Prop
  | number (value : Int) : AP4_Json.Text (AP4_JsonNumberText value) (AP4_Json.number value)
  | string (content : List Nat) :
      AP4_JsonStringContent content →
      AP4_Json.Text ([34] ++ content ++ [34]) (AP4_Json.string content)
  | emptyArray (w : List Nat) :
      AP4_IsJsonWhitespace w → AP4_Json.Text ([91] ++ w ++ [93]) (AP4_Json.array [])
  | array (t : List Nat) (items : List AP4_Json) :
      AP4_Json.Elements t items → AP4_Json.Text ([91] ++ t ++ [93]) (AP4_Json.array items)
  | emptyObject (w : List Nat) :
      AP4_IsJsonWhitespace w → AP4_Json.Text ([123] ++ w ++ [125]) (AP4_Json.object [])
  | object (t : List Nat) (members : List (List Nat × AP4_Json)) :
      AP4_Json.Members t members →
      AP4_Json.Text ([123] ++ t ++ [125]) (AP4_Json.object members)

/-- The elements of a non-empty array: values with optional whitespace around them,
separated by commas. -/
inductive AP4_Json.Elements : List Nat → List AP4_Json → Prop
  | single (w1 t w2 : List Nat) (v : AP4_Json) :
      AP4_IsJsonWhitespace w1 → AP4_IsJsonWhitespace w2 → AP4_Json.Text t v →
      AP4_Json.Elements (w1 ++ t ++ w2) [v]
  | cons (w1 t w2 rest : List Nat) (v : AP4_Json) (vs : List AP4_Json) :
      AP4_IsJsonWhitespace w1 → AP4_IsJsonWhitespace w2 → AP4_Json.Text t v →
      AP4_Json.Elements rest vs →
      AP4_Json.Elements (w1 ++ t ++ w2 ++ [44] ++ rest) (v :: vs)

/-- The members of a non-empty object: a string, a colon and a value, with optional
whitespace around each of them, separated by commas. -/
inductive AP4_Json.Members : List Nat → List (List Nat × AP4_Json) → Prop
  | single (w1 key w2 w3 t w4 : List Nat) (v : AP4_Json) :
      AP4_IsJsonWhitespace w1 → AP4_IsJsonWhitespace w2 → AP4_IsJsonWhitespace w3 →
      AP4_IsJsonWhitespace w4 → AP4_JsonStringContent key → AP4_Json.Text t v →
      AP4_Json.Members (w1 ++ [34] ++ key ++ [34] ++ w2 ++ [58] ++ w3 ++ t ++ w4) [(key, v)]
  | cons (w1 key w2 w3 t w4 rest : List Nat) (v : AP4_Json)
      (members : List (List Nat × AP4_Json)) :
      AP4_IsJsonWhitespace w1 → AP4_IsJsonWhitespace w2 → AP4_IsJsonWhitespace w3 →
      AP4_IsJsonWhitespace w4 → AP4_JsonStringContent key → AP4_Json.Text t v →
      AP4_Json.Members rest members →
      AP4_Json.Members
        (w1 ++ [34] ++ key ++ [34] ++ w2 ++ [58] ++ w3 ++ t ++ w4 ++ [44] ++ rest)
        ((key, v) :: members)

end

/-- A JSON document: one value with optional whitespace around it. -/
def AP4_Json.Document (t : List Nat) (v : AP4_Json) : Prop :=
  ∃ w1 body w2, AP4_IsJsonWhitespace w1 ∧ AP4_IsJsonWhitespace w2 ∧ AP4_Json.Text body v ∧
    t = w1 ++ body ++ w2

/-- The number that `%d` prints for a 32-bit value: the value read as a signed number. -/
def AP4_SignedValue32 (v : Nat) : Int :=
  if v % 2 ^ 32 < 2 ^ 31 then Int.ofNat (v % 2 ^ 32)
  else Int.negSucc (2 ^ 32 - v % 2 ^ 32 - 1)

/-- The number that `%lld` prints for a 64-bit value: the value read as a signed number. -/
def AP4_SignedValue64 (v : Nat) : Int :=
  if v % 2 ^ 64 < 2 ^ 63 then Int.ofNat (v % 2 ^ 64)
  else Int.negSucc (2 ^ 64 - v % 2 ^ 64 - 1)

/-- The member of a field in the words of the spec: the key is the name, the value is the
string or the number. -/
def AP4_InspectedField.toJson : AP4_InspectedField → List Nat × AP4_Json
  | AP4_InspectedField.text name value =>
    (AP4_JsonInspector.EscapeString name, AP4_Json.string (AP4_JsonInspector.EscapeString value))
  | AP4_InspectedField.number name value =>
    (AP4_JsonInspector.EscapeString name, AP4_Json.number (AP4_SignedValue64 value))

namespace AP4_InspectedAtoms

/-- The array elements of a list of atoms in the words of the spec: every atom is an object
with the members `name`, `header_size`, `size`, `version` exactly when the version is not
0, `flags` exactly when the flags are not 0, the fields of the atom, and `children`, the
array of the nested atoms, exactly when there is a nested atom. -/
def toJson : AP4_InspectedAtoms → List AP4_Json
  | nil => []
  | atom name version flags header_size size fields children siblings =>
    AP4_Json.object
      ([([110, 97, 109, 101], AP4_Json.string (AP4_JsonInspector.EscapeString name)),
        ([104, 101, 97, 100, 101, 114, 95, 115, 105, 122, 101],
          AP4_Json.number (AP4_SignedValue32 header_size)),
        ([115, 105, 122, 101], AP4_Json.number (AP4_SignedValue64 size))]
       ++ (if version ≠ 0
           then [([118, 101, 114, 115, 105, 111, 110], AP4_Json.number (Int.ofNat version))]
           else [])
       ++ (if flags ≠ 0
           then [([102, 108, 97, 103, 115], AP4_Json.number (AP4_SignedValue32 flags))]
           else [])
       ++ fields.map AP4_InspectedField.toJson
       ++ (if children = nil then []
           else [([99, 104, 105, 108, 100, 114, 101, 110], AP4_Json.array (toJson children))]))
    :: toJson siblings

/-- The number of atoms of a list (nested atoms not counted). -/
def count : AP4_InspectedAtoms → Nat
  | nil => 0
  | atom _ _ _ _ _ _ _ siblings => count siblings + 1

/-- The counters of the contexts do not wrap: every list of atoms has fewer than `2^32`
atoms, and every atom fewer than `2^32` members. -/
def Fits : AP4_InspectedAtoms → Prop
  | nil => True
  | atom _ _ _ _ _ fields children siblings =>
    5 + fields.length + count children < 2 ^ 32 ∧ count siblings + 1 < 2 ^ 32 ∧
    Fits children ∧ Fits siblings

/-- The strings are escaped: `EscapeString` turns every name of an atom, and every name and
string value of a field, into the content of a JSON string (it does so for every valid
UTF-8 string, lemma `AP4_JsonStringContent.of_utf8`). -/
def Escaped : AP4_InspectedAtoms → Prop
  | nil => True
  | atom name _ _ _ _ fields children siblings =>
    AP4_JsonStringContent (AP4_JsonInspector.EscapeString name) ∧
    (∀ f ∈ fields, match f with
      | AP4_InspectedField.text name value =>
        AP4_JsonStringContent (AP4_JsonInspector.EscapeString name) ∧
        AP4_JsonStringContent (AP4_JsonInspector.EscapeString value)
      | AP4_InspectedField.number name _ =>
        AP4_JsonStringContent (AP4_JsonInspector.EscapeString name)) ∧
    Escaped children ∧ Escaped siblings

end AP4_InspectedAtoms

namespace AP4_JsonInspector

/-- The string that `PushContext` and `PopContext` leave in `m_Prefix` when `k` contexts are
open. -/
def indent (k : Nat) : List Nat :=
  AP4_MakePrefixString (k * 2) 256

/-- The bytes that the call of a field adds to the output of an atom that has a member
already, with `p` in `m_Prefix`. -/
def fieldText (p : List Nat) : AP4_InspectedField → List Nat
  | AP4_InspectedField.text name value =>
    [44, 10] ++ p ++ [34] ++ EscapeString name ++ [34, 58, 32]
      ++ [34] ++ EscapeString value ++ [34]
  | AP4_InspectedField.number name value =>
    [44, 10] ++ p ++ [34] ++ EscapeString name ++ [34, 58, 32] ++ AP4_FormatInt64 value

/-- The bytes that the calls of a list of atoms add to the output when `k` contexts are
open: `comma` says that the innermost context has a field already, `header` that it is an
atom without a nested atom so far. -/
def text (k : Nat) (comma header : Bool) : AP4_InspectedAtoms → List Nat
  | AP4_InspectedAtoms.nil => []
  | AP4_InspectedAtoms.atom name version flags header_size size fields children siblings =>
    (if comma then [44, 10] else [])
    ++ (if header
        then indent k ++ [34, 99, 104, 105, 108, 100, 114, 101, 110, 34, 58, 91, 32, 10]
        else [])
    ++ indent k ++ [123, 10]
    ++ indent (k + 1) ++ [34, 110, 97, 109, 101, 34, 58, 32] ++ [34] ++ EscapeString name ++ [34]
    ++ [44, 10] ++ indent (k + 1)
    ++ [34, 104, 101, 97, 100, 101, 114, 95, 115, 105, 122, 101, 34, 58, 32]
    ++ AP4_FormatInt32 header_size
    ++ [44, 10] ++ indent (k + 1) ++ [34, 115, 105, 122, 101, 34, 58, 32]
    ++ AP4_FormatInt64 size
    ++ (if version ≠ 0
        then [44, 10] ++ indent (k + 1) ++ [34, 118, 101, 114, 115, 105, 111, 110, 34, 58, 32]
               ++ AP4_FormatDecimal version
        else [])
    ++ (if flags ≠ 0
        then [44, 10] ++ indent (k + 1) ++ [34, 102, 108, 97, 103, 115, 34, 58, 32]
               ++ AP4_FormatInt32 flags
        else [])
    ++ (fields.map (fieldText (indent (k + 1)))).flatten
    ++ text (k + 1) true true children
    ++ (if children = AP4_InspectedAtoms.nil then [] else [93])
    ++ [10] ++ indent k ++ [125]
    ++ text k true false siblings

end AP4_JsonInspector

/-- The bytes that `StartAtom` adds to the output when `k` contexts are open (see `text`). -/
def AP4_JsonInspector.startText (k : Nat) (comma header : Bool) (name : List Nat)
    (version flags header_size size : Nat) : List Nat :=
  (if comma then [44, 10] else [])
  ++ (if header
      then indent k ++ [34, 99, 104, 105, 108, 100, 114, 101, 110, 34, 58, 91, 32, 10]
      else [])
  ++ indent k ++ [123, 10]
  ++ indent (k + 1) ++ [34, 110, 97, 109, 101, 34, 58, 32] ++ [34] ++ EscapeString name ++ [34]
  ++ [44, 10] ++ indent (k + 1)
  ++ [34, 104, 101, 97, 100, 101, 114, 95, 115, 105, 122, 101, 34, 58, 32]
  ++ AP4_FormatInt32 header_size
  ++ [44, 10] ++ indent (k + 1) ++ [34, 115, 105, 122, 101, 34, 58, 32]
  ++ AP4_FormatInt64 size
  ++ (if version ≠ 0
      then [44, 10] ++ indent (k + 1) ++ [34, 118, 101, 114, 115, 105, 111, 110, 34, 58, 32]
             ++ AP4_FormatDecimal version
      else [])
  ++ (if flags ≠ 0
      then [44, 10] ++ indent (k + 1) ++ [34, 102, 108, 97, 103, 115, 34, 58, 32]
             ++ AP4_FormatInt32 flags
      else [])

/-- The bytes of members that follow the first member of an object, each given by its key,
the whitespace after the colon, the text of its value and the value: every member comes
after a comma, a line feed and `p`. -/
def AP4_Json.entriesText (p : List Nat)
    (es : List (List Nat × List Nat × List Nat × AP4_Json)) : List Nat :=
  (es.map (fun e => [44, 10] ++ p ++ [34] ++ e.1 ++ [34, 58] ++ e.2.1 ++ e.2.2.1)).flatten

/-- A member given by its key, the whitespace after the colon, the text of its value and the
value is well formed. -/
def AP4_Json.ValidEntry (e : List Nat × List Nat × List Nat × AP4_Json) : Prop :=
  AP4_JsonStringContent e.1 ∧ AP4_IsJsonWhitespace e.2.1 ∧ AP4_Json.Text e.2.2.1 e.2.2.2

/-- The member that the inspector writes for a field. -/
def AP4_InspectedField.entry : AP4_InspectedField → List Nat × List Nat × List Nat × AP4_Json
  | AP4_InspectedField.text name value =>
    (AP4_JsonInspector.EscapeString name, [32],
      [34] ++ AP4_JsonInspector.EscapeString value ++ [34],
      AP4_Json.string (AP4_JsonInspector.EscapeString value))
  | AP4_InspectedField.number name value =>
    (AP4_JsonInspector.EscapeString name, [32], AP4_FormatInt64 value,
      AP4_Json.number (AP4_SignedValue64 value))

/-- A `moov` atom that contains a full `mvhd` atom (version 1, flags 2) with a string field and
a number field, followed by a `free` atom. -/
def AP4_InspectedAtoms.sample : AP4_InspectedAtoms :=
  AP4_InspectedAtoms.atom [109, 111, 111, 118] 0 0 8 120 []
    (AP4_InspectedAtoms.atom [109, 118, 104, 100] 1 2 12 112
      [AP4_InspectedField.text [116, 105, 116, 108, 101] [97, 34, 98],
       AP4_InspectedField.number [100, 117, 114, 97, 116, 105, 111, 110] 600]
      AP4_InspectedAtoms.nil AP4_InspectedAtoms.nil)
    (AP4_InspectedAtoms.atom [102, 114, 101, 101] 0 0 8 8 []
      AP4_InspectedAtoms.nil AP4_InspectedAtoms.nil)

/-! ## RTP hint samples -/

/-- Modelled from the spec: `ReadUI32`, one `Read` of four big-endian bytes; the value is 0
when the read fails. -/
def AP4_ByteStream.ReadUI32 (s : AP4_ByteStream) : AP4_Result × Nat × AP4_ByteStream :=
  match s.Read 4 with
  | (result, bytes, s) =>
    if AP4_FAILED result then (result, 0, s)
    else (AP4_Result.SUCCESS, AP4_BytesToUIntBE bytes, s)

/-- Modelled from the spec: the size of a constructor record (`Ap4RtpHint.h` is not among the
sources). -/
def AP4_RTP_CONSTRUCTOR_SIZE : Nat := 16

/-- Modelled from the spec: the type byte of a NOOP constructor. -/
def AP4_RTP_CONSTRUCTOR_TYPE_NOOP : Nat := 0

/-- Modelled from the spec: the type byte of an IMMEDIATE constructor. -/
def AP4_RTP_CONSTRUCTOR_TYPE_IMMEDIATE : Nat := 1

/-- Modelled from the spec: the type byte of a SAMPLE constructor. -/
def AP4_RTP_CONSTRUCTOR_TYPE_SAMPLE : Nat := 2

/-- Modelled from the spec: the type byte of a SAMPLE_DESC constructor. -/
def AP4_RTP_CONSTRUCTOR_TYPE_SAMPLE_DESC : Nat := 3

/-- The constructors of an RTP packet, one variant per subclass of `AP4_RtpConstructor`, with
the fields of the subclass. -/
inductive AP4_RtpConstructor where
  | Noop
  | Immediate (m_Data : List Nat)
  | Sample (m_TrackRefIndex m_Length m_SampleNum m_SampleOffset : Nat)
  | SampleDesc (m_TrackRefIndex m_Length m_SampleDescIndex m_SampleDescOffset : Nat)
  deriving DecidableEq, Repr

namespace AP4_RtpConstructor

/-- The field `m_Type`, which every subclass passes to the base constructor. -/
def m_Type : AP4_RtpConstructor → Nat
  | Noop => AP4_RTP_CONSTRUCTOR_TYPE_NOOP
  | Immediate _ => AP4_RTP_CONSTRUCTOR_TYPE_IMMEDIATE
  | Sample _ _ _ _ => AP4_RTP_CONSTRUCTOR_TYPE_SAMPLE
  | SampleDesc _ _ _ _ => AP4_RTP_CONSTRUCTOR_TYPE_SAMPLE_DESC

end AP4_RtpConstructor

/-- Source: `AP4_NoopRtpConstructor::AP4_NoopRtpConstructor(AP4_ByteStream& stream)`.  Stream
positions are far below `2^64`, so the sum of a position and a length does not wrap. -/
def AP4_NoopRtpConstructor.new (stream : AP4_ByteStream) :
    AP4_RtpConstructor × AP4_ByteStream :=
  let cur_offset := stream.Tell
  (AP4_RtpConstructor.Noop, (stream.Seek (cur_offset + 15)).2)

/-- Source: `AP4_NoopRtpConstructor::DoWrite(AP4_ByteStream& stream)`. -/
def AP4_NoopRtpConstructor.DoWrite (stream : AP4_ByteStream) : AP4_Result × AP4_ByteStream :=
  stream.Write (List.replicate 15 0)

/-- Source: `AP4_ImmediateRtpConstructor::AP4_ImmediateRtpConstructor(AP4_ByteStream& stream)`. -/
def AP4_ImmediateRtpConstructor.new (stream : AP4_ByteStream) :
    AP4_RtpConstructor × AP4_ByteStream :=
  let cur_offset := stream.Tell
  -- data
  match stream.ReadUI08 with
  | (_, data_size, stream) =>
  match stream.Read data_size with
  | (_, data, stream) =>
    -- bytes that the read did not deliver are taken to be 0
    let m_Data := data ++ List.replicate (data_size - data.length) 0
    -- reposition the stream
    (AP4_RtpConstructor.Immediate m_Data, (stream.Seek (cur_offset + 15)).2)

/-- Source: `AP4_ImmediateRtpConstructor::DoWrite(AP4_ByteStream& stream)`.  The array `pad` is
declared without an initialiser: the parameter `pad` gives the 14 bytes that it holds
when the function runs. -/
def AP4_ImmediateRtpConstructor.DoWrite (m_Data : List Nat) (pad : List Nat)
    (stream : AP4_ByteStream) : AP4_Result × AP4_ByteStream :=
  -- first check that the data is not too large
  if m_Data.length > 14 then (AP4_Result.FAILURE, stream) else
  -- now write
  match stream.WriteUI08 m_Data.length with
  | (result, stream) =>
  if AP4_FAILED result then (result, stream) else
  match stream.Write m_Data with
  | (result, stream) =>
  if AP4_FAILED result then (result, stream) else
  -- pad
  stream.Write (pad.take (14 - m_Data.length))

/-- Source: `AP4_SampleRtpConstructor::AP4_SampleRtpConstructor(AP4_ByteStream& stream)`. -/
def AP4_SampleRtpConstructor.new (stream : AP4_ByteStream) :
    AP4_RtpConstructor × AP4_ByteStream :=
  -- offset
  let cur_offset := stream.Tell
  -- data
  match stream.ReadUI08 with
  | (_, m_TrackRefIndex, stream) =>
  match stream.ReadUI16 with
  | (_, m_Length, stream) =>
  match stream.ReadUI32 with
  | (_, m_SampleNum, stream) =>
  match stream.ReadUI32 with
  | (_, m_SampleOffset, stream) =>
    -- reposition the stream
    (AP4_RtpConstructor.Sample m_TrackRefIndex m_Length m_SampleNum m_SampleOffset,
     (stream.Seek (cur_offset + 15)).2)

/-- Source: `AP4_SampleRtpConstructor::DoWrite(AP4_ByteStream& stream)`. -/
def AP4_SampleRtpConstructor.DoWrite
    (m_TrackRefIndex m_Length m_SampleNum m_SampleOffset : Nat) (stream : AP4_ByteStream) :
    AP4_Result × AP4_ByteStream :=
  match stream.WriteUI08 m_TrackRefIndex with
  | (result, stream) =>
  if AP4_FAILED result then (result, stream) else
  match stream.WriteUI16 m_Length with
  | (result, stream) =>
  if AP4_FAILED result then (result, stream) else
  match stream.WriteUI32 m_SampleNum with
  | (result, stream) =>
  if AP4_FAILED result then (result, stream) else
  match stream.WriteUI32 m_SampleOffset with
  | (result, stream) =>
  if AP4_FAILED result then (result, stream) else
  match stream.WriteUI16 1 with -- bytes per block
  | (result, stream) =>
  if AP4_FAILED result then (result, stream) else
  stream.WriteUI16 1 -- samples per block

/-- Source: `AP4_SampleDescRtpConstructor::AP4_SampleDescRtpConstructor(AP4_ByteStream& stream)`. -/
def AP4_SampleDescRtpConstructor.new (stream : AP4_ByteStream) :
    AP4_RtpConstructor × AP4_ByteStream :=
  -- offset
  let cur_offset := stream.Tell
  -- data
  match stream.ReadUI08 with
  | (_, m_TrackRefIndex, stream) =>
  match stream.ReadUI16 with
  | (_, m_Length, stream) =>
  match stream.ReadUI32 with
  | (_, m_SampleDescIndex, stream) =>
  match stream.ReadUI32 with
  | (_, m_SampleDescOffset, stream) =>
    -- reposition the stream
    (AP4_RtpConstructor.SampleDesc m_TrackRefIndex m_Length m_SampleDescIndex
       m_SampleDescOffset,
     (stream.Seek (cur_offset + 15)).2)

/-- Source: `AP4_SampleDescRtpConstructor::DoWrite(AP4_ByteStream& stream)`. -/
def AP4_SampleDescRtpConstructor.DoWrite
    (m_TrackRefIndex m_Length m_SampleDescIndex m_SampleDescOffset : Nat)
    (stream : AP4_ByteStream) : AP4_Result × AP4_ByteStream :=
  match stream.WriteUI08 m_TrackRefIndex with
  | (result, stream) =>
  if AP4_FAILED result then (result, stream) else
  match stream.WriteUI16 m_Length with
  | (result, stream) =>
  if AP4_FAILED result then (result, stream) else
  match stream.WriteUI32 m_SampleDescIndex with
  | (result, stream) =>
  if AP4_FAILED result then (result, stream) else
  match stream.WriteUI32 m_SampleDescOffset with
  | (result, stream) =>
  if AP4_FAILED result then (result, stream) else
  stream.WriteUI32 0 -- reserved

namespace AP4_RtpConstructor

/-- The virtual call `DoWrite(stream)`; `pad` is the content of the uninitialised array of
`AP4_ImmediateRtpConstructor::DoWrite`. -/
def DoWrite (c : AP4_RtpConstructor) (pad : List Nat) (stream : AP4_ByteStream) :
    AP4_Result × AP4_ByteStream :=
  match c with
  | Noop => AP4_NoopRtpConstructor.DoWrite stream
  | Immediate m_Data => AP4_ImmediateRtpConstructor.DoWrite m_Data pad stream
  | Sample m_TrackRefIndex m_Length m_SampleNum m_SampleOffset =>
    AP4_SampleRtpConstructor.DoWrite m_TrackRefIndex m_Length m_SampleNum m_SampleOffset stream
  | SampleDesc m_TrackRefIndex m_Length m_SampleDescIndex m_SampleDescOffset =>
    AP4_SampleDescRtpConstructor.DoWrite m_TrackRefIndex m_Length m_SampleDescIndex
      m_SampleDescOffset stream

/-- Source: `AP4_RtpConstructor::Write(AP4_ByteStream& stream)`. -/
def Write (c : AP4_RtpConstructor) (pad : List Nat) (stream : AP4_ByteStream) :
    AP4_Result × AP4_ByteStream :=
  match stream.WriteUI08 c.m_Type with
  | (result, stream) =>
  if AP4_FAILED result then (result, stream) else
  c.DoWrite pad stream

end AP4_RtpConstructor

/-- Source: `AP4_RtpConstructorFactory::CreateConstructorFromStream(stream, constructor)`;
`constructor` is the pointer that the caller passes by reference (`none` is the null
pointer), and the second component of the result is its value on return. -/
def AP4_RtpConstructorFactory.CreateConstructorFromStream (stream : AP4_ByteStream)
    (constructor : Option AP4_RtpConstructor) :
    AP4_Result × Option AP4_RtpConstructor × AP4_ByteStream :=
  -- read the first byte (type)
  match stream.ReadUI08 with
  | (result, type, stream) =>
  if AP4_FAILED result then (result, constructor, stream) else
  -- now create the right constructor
  if type == AP4_RTP_CONSTRUCTOR_TYPE_NOOP then
    match AP4_NoopRtpConstructor.new stream with
    | (c, stream) => (AP4_Result.SUCCESS, some c, stream)
  else if type == AP4_RTP_CONSTRUCTOR_TYPE_IMMEDIATE then
    match AP4_ImmediateRtpConstructor.new stream with
    | (c, stream) => (AP4_Result.SUCCESS, some c, stream)
  else if type == AP4_RTP_CONSTRUCTOR_TYPE_SAMPLE then
    match AP4_SampleRtpConstructor.new stream with
    | (c, stream) => (AP4_Result.SUCCESS, some c, stream)
  else if type == AP4_RTP_CONSTRUCTOR_TYPE_SAMPLE_DESC then
    match AP4_SampleDescRtpConstructor.new stream with
    | (c, stream) => (AP4_Result.SUCCESS, some c, stream)
  else (AP4_Result.INVALID_RTP_CONSTRUCTOR_TYPE, constructor, stream)

/-- Modelled from the spec: the fields of `AP4_RtpPacket` (`Ap4RtpHint.h` is not among the
sources).  The relative time and the time-stamp offset are `int` values, held here as
their 32-bit patterns; an item of `m_Constructors` is a pointer, `none` the null pointer. -/
structure AP4_RtpPacket where
  m_RelativeTime : Nat
  m_PBit : Bool
  m_XBit : Bool
  m_MBit : Bool
  m_PayloadType : Nat
  m_SequenceSeed : Nat
  m_TimeStampOffset : Nat
  m_BFrameFlag : Bool
  m_RepeatFlag : Bool
  m_Constructors : List (Option AP4_RtpConstructor)
  deriving DecidableEq, Repr

namespace AP4_RtpPacket

/-- The body of the loop `while (extra_length > 0)` of the stream constructor: one entry of the
extra data.  The first component says that the constructor returns from inside the loop;
the others are the entry length, the time-stamp offset and the stream. -/
def new.extraEntry (stream : AP4_ByteStream) (m_TimeStampOffset : Nat) :
    Bool × Nat × Nat × AP4_ByteStream :=
  match stream.ReadUI32 with
  | (_, entry_length, stream) =>
  match stream.ReadUI32 with
  | (_, entry_tag, stream) =>
  -- check the entry
  if entry_length < 8 then (true, entry_length, m_TimeStampOffset, stream) else
  -- parse the single entry that's currently defined in the spec
  if entry_tag == AP4_ATOM_TYPE 114 116 112 111 && entry_length == 12 then
    match stream.ReadUI32 with
    | (_, time_stamp_offset, stream) => (false, entry_length, time_stamp_offset, stream)
  else
    -- ignore it
    let cur_pos := stream.Tell
    let stream := (stream.Seek (cur_pos + entry_length - 8)).2 -- 8 = length + tag
    (false, entry_length, m_TimeStampOffset, stream)

/-- The loop `while (extra_length > 0)` of the stream constructor, with `fuel` iterations at
most (`none` when they do not suffice).  The result says whether the loop ran to its end
(`false`: the constructor returned from inside the loop), and gives the time-stamp
offset and the stream. -/
def new.extraData : Nat → AP4_ByteStream → Nat → Nat → Option (Bool × Nat × AP4_ByteStream)
  | 0, stream, extra_length, m_TimeStampOffset =>
    if extra_length > 0 then none else some (true, m_TimeStampOffset, stream)
  | fuel + 1, stream, extra_length, m_TimeStampOffset =>
    if extra_length > 0 then
      match new.extraEntry stream m_TimeStampOffset with
      | (true, _, m_TimeStampOffset, stream) => some (false, m_TimeStampOffset, stream)
      | (false, entry_length, m_TimeStampOffset, stream) =>
        new.extraData fuel stream (AP4_Sub32 extra_length entry_length) m_TimeStampOffset
    else some (true, m_TimeStampOffset, stream)

/-- The loop that reads `constructor_count` constructors; the pointer is appended whatever the
factory returns. -/
def new.constructors : Nat → AP4_ByteStream →
    List (Option AP4_RtpConstructor) × AP4_ByteStream
  | 0, stream => ([], stream)
  | constructor_count + 1, stream =>
    match AP4_RtpConstructorFactory.CreateConstructorFromStream stream none with
    | (_, constructor, stream) =>
      match new.constructors constructor_count stream with
      | (rest, stream) => (constructor :: rest, stream)

/-- Source: `AP4_RtpPacket::AP4_RtpPacket(AP4_ByteStream& stream)`; `fuel` bounds the
iterations of the loop over the extra data. -/
def new (fuel : Nat) (stream : AP4_ByteStream) : Option (AP4_RtpPacket × AP4_ByteStream) :=
  -- relative time
  match stream.ReadUI32 with
  | (_, relative_time, stream) =>
  -- pbit and xbit
  match stream.ReadUI08 with
  | (_, octet, stream) =>
  let m_PBit := (octet &&& 0x20) != 0
  let m_XBit := (octet &&& 0x10) != 0
  -- mbit and payload type
  match stream.ReadUI08 with
  | (_, octet, stream) =>
  let m_MBit := (octet &&& 0x80) != 0
  let m_PayloadType := octet &&& 0x7F
  -- sequence seed
  match stream.ReadUI16 with
  | (_, m_SequenceSeed, stream) =>
  -- extra, bframe and repeat flags
  match stream.ReadUI08 with
  | (_, _, stream) =>
  match stream.ReadUI08 with -- repeat on purpose
  | (_, octet, stream) =>
  let extra_flag := (octet &&& 0x04) != 0
  -- bframe and repeat flags
  let m_BFrameFlag := (octet &&& 0x02) != 0
  let m_RepeatFlag := (octet &&& 0x01) != 0
  -- constructor count
  match stream.ReadUI16 with
  | (_, constructor_count, stream) =>
  let packet : AP4_RtpPacket :=
    { m_RelativeTime := relative_time, m_PBit := m_PBit, m_XBit := m_XBit, m_MBit := m_MBit,
      m_PayloadType := m_PayloadType, m_SequenceSeed := m_SequenceSeed,
      m_TimeStampOffset := 0, m_BFrameFlag := m_BFrameFlag, m_RepeatFlag := m_RepeatFlag,
      m_Constructors := [] }
  -- parse the packet extra data
  if extra_flag then
    -- read the length
    match stream.ReadUI32 with
    | (_, extra_length, stream) =>
    -- check it
    if extra_length < 4 then some (packet, stream) else
    -- now read the entries
    match new.extraData fuel stream (extra_length - 4) 0 with
    | none => none
    | some (false, m_TimeStampOffset, stream) =>
      some ({ packet with m_TimeStampOffset := m_TimeStampOffset }, stream)
    | some (true, m_TimeStampOffset, stream) =>
      -- constructors
      match new.constructors constructor_count stream with
      | (m_Constructors, stream) =>
        some ({ packet with m_TimeStampOffset := m_TimeStampOffset,
                            m_Constructors := m_Constructors }, stream)
  else
    -- constructors
    match new.constructors constructor_count stream with
    | (m_Constructors, stream) => some ({ packet with m_Constructors := m_Constructors }, stream)

/-- Source: `AP4_RtpPacket::GetSize()`, in `AP4_Size` arithmetic. -/
def GetSize (p : AP4_RtpPacket) : Nat :=
  let result := 12 + (if p.m_TimeStampOffset != 0 then 16 else 0)
  AP4_Add32 result (p.m_Constructors.length % 2 ^ 32 * AP4_RTP_CONSTRUCTOR_SIZE)

/-- The loop over the constructors of `Write`; `result` is the value of the variable before
the loop, `pad` gives the content of the uninitialised array of the immediate constructor
for the call made with a given stream.  The value is `none` when the loop calls `Write`
through a null pointer, which is undefined behaviour. -/
def Write.constructors (pad : AP4_ByteStream → List Nat) :
    List (Option AP4_RtpConstructor) → AP4_Result → AP4_ByteStream →
    Option (AP4_Result × AP4_ByteStream)
  | [], result, stream => some (result, stream)
  | none :: _, _, _ => none
  | some ctor :: rest, _, stream =>
    match ctor.Write (pad stream) stream with
    | (result, stream) =>
      if AP4_FAILED result then some (result, stream)
      else Write.constructors pad rest result stream

/-- Source: `AP4_RtpPacket::Write(AP4_ByteStream& stream)`; the result is `none` when a null
constructor is dereferenced. -/
def Write (p : AP4_RtpPacket) (pad : AP4_ByteStream → List Nat) (stream : AP4_ByteStream) :
    Option (AP4_Result × AP4_ByteStream) :=
  -- check the payload type
  if p.m_PayloadType > 128 then some (AP4_Result.FAILURE, stream) else
  -- now write
  match stream.WriteUI32 p.m_RelativeTime with
  | (result, stream) =>
  if AP4_FAILED result then some (result, stream) else
  match stream.WriteUI08 (0x80 ||| (p.m_PBit.toNat <<< 5) ||| (p.m_XBit.toNat <<< 4)) with
  | (result, stream) =>
  if AP4_FAILED result then some (result, stream) else
  match stream.WriteUI08 ((p.m_MBit.toNat <<< 7) ||| p.m_PayloadType) with
  | (result, stream) =>
  if AP4_FAILED result then some (result, stream) else
  match stream.WriteUI16 p.m_SequenceSeed with
  | (result, stream) =>
  if AP4_FAILED result then some (result, stream) else
  match stream.WriteUI08 0 with
  | (result, stream) =>
  if AP4_FAILED result then some (result, stream) else
  -- deal with extra flag
  let extra_flag := p.m_TimeStampOffset != 0
  match stream.WriteUI08 (0x00 ||| (extra_flag.toNat <<< 2) ||| (p.m_BFrameFlag.toNat <<< 1)
                           ||| (p.m_RepeatFlag.toNat <<< 0)) with
  | (result, stream) =>
  if AP4_FAILED result then some (result, stream) else
  -- constructor count (the result is not checked)
  match stream.WriteUI16 (p.m_Constructors.length % 2 ^ 16) with
  | (result, stream) =>
  -- write extra data
  match (if extra_flag then
           -- extra_length
           match stream.WriteUI32 16 with -- 4 (extra_length) + 12 (rtpo atom)
           | (result, stream) =>
           if AP4_FAILED result then (true, result, stream) else
           -- rtpo atom
           match stream.WriteUI32 12 with -- size
           | (result, stream) =>
           if AP4_FAILED result then (true, result, stream) else
           match stream.WriteUI32 (AP4_ATOM_TYPE 114 116 112 111) with
           | (result, stream) =>
           if AP4_FAILED result then (true, result, stream) else
           match stream.WriteUI32 p.m_TimeStampOffset with
           | (result, stream) =>
           if AP4_FAILED result then (true, result, stream) else (false, result, stream)
         else (false, result, stream)) with
  | (true, result, stream) => some (result, stream)
  | (false, result, stream) =>
    -- constructors
    Write.constructors pad p.m_Constructors result stream

end AP4_RtpPacket

/-- Modelled from the spec: `AP4_MemoryByteStream(size)` (`Ap4ByteStream.cpp` is not among the
sources), an empty memory stream with the cursor at 0 that accepts the coming writes;
`size` is its initial capacity. -/
def AP4_MemoryByteStream.new (_size : Nat) : AP4_ByteStream :=
  AP4_ByteStream.fresh

/-- Modelled from the spec: the fields of `AP4_RtpSampleData`, the packets in order and the
trailing extra data. -/
structure AP4_RtpSampleData where
  m_Packets : List AP4_RtpPacket
  m_ExtraData : List Nat
  deriving DecidableEq, Repr

namespace AP4_RtpSampleData

/-- The loop that reads `packet_count` packets; `fuel` bounds the extra-data loop of each
packet. -/
def new.packets (fuel : Nat) : Nat → AP4_ByteStream →
    Option (List AP4_RtpPacket × AP4_ByteStream)
  | 0, stream => some ([], stream)
  | packet_count + 1, stream =>
    match AP4_RtpPacket.new fuel stream with
    | none => none
    | some (packet, stream) =>
      match new.packets fuel packet_count stream with
      | none => none
      | some (rest, stream) => some (packet :: rest, stream)

/-- Source: `AP4_RtpSampleData::AP4_RtpSampleData(AP4_ByteStream& stream, AP4_UI32 size)`. -/
def new (fuel : Nat) (stream : AP4_ByteStream) (size : Nat) :
    Option (AP4_RtpSampleData × AP4_ByteStream) :=
  -- save the start position
  let start := stream.Tell
  match stream.ReadUI16 with
  | (_, packet_count, stream) =>
  match stream.ReadUI16 with -- later, check that reserved is 0
  | (_, _, stream) =>
  -- packets
  match new.packets fuel packet_count stream with
  | none => none
  | some (m_Packets, stream) =>
    -- extra data
    let extra_data_start := stream.Tell
    let extra_data_size := AP4_Sub32 size (AP4_Sub64 extra_data_start start)
    if extra_data_size != 0 then
      match stream.Read extra_data_size with
      | (_, data, stream) =>
        -- bytes that the read did not deliver are taken to be 0
        let m_ExtraData := data ++ List.replicate (extra_data_size - data.length) 0
        some ({ m_Packets := m_Packets, m_ExtraData := m_ExtraData }, stream)
    else some ({ m_Packets := m_Packets, m_ExtraData := [] }, stream)

/-- Source: `AP4_RtpSampleData::GetSize()`, in `AP4_Size` arithmetic. -/
def GetSize (d : AP4_RtpSampleData) : Nat :=
  -- packet count and reserved, then the packets
  let result := d.m_Packets.foldl (fun result pck => AP4_Add32 result pck.GetSize) 4
  -- extra data
  AP4_Add32 result d.m_ExtraData.length

/-- The loop over the packets of `ToByteStream`. -/
def ToByteStream.packets (pad : AP4_ByteStream → List Nat) :
    List AP4_RtpPacket → AP4_ByteStream → Option (AP4_Result × AP4_ByteStream)
  | [], stream => some (AP4_Result.SUCCESS, stream)
  | pck :: rest, stream =>
    match pck.Write pad stream with
    | none => none
    | some (result, stream) =>
      if AP4_FAILED result then some (result, stream)
      else ToByteStream.packets pad rest stream

/-- Source: `AP4_RtpSampleData::ToByteStream()`.  The inner value is the returned pointer
(`none` is `nullptr`); the outer value is `none` when a null constructor is
dereferenced. -/
def ToByteStream (d : AP4_RtpSampleData) (pad : AP4_ByteStream → List Nat) :
    Option (Option AP4_ByteStream) :=
  -- refresh the size
  let size := d.GetSize
  -- create a memory stream
  let stream := AP4_MemoryByteStream.new size
  -- write in it
  match stream.WriteUI16 (d.m_Packets.length % 2 ^ 16) with
  | (result, stream) =>
  if AP4_FAILED result then some none else
  match stream.WriteUI16 0 with -- reserved
  | (result, stream) =>
  if AP4_FAILED result then some none else
  match ToByteStream.packets pad d.m_Packets stream with
  | none => none
  | some (result, stream) =>
    if AP4_FAILED result then some none else
    match stream.Write d.m_ExtraData with
    | (result, stream) =>
    if AP4_FAILED result then some none else
    -- return
    some (some stream)

/-- Source: `AP4_RtpSampleData::AddPacket(packet)`. -/
def AddPacket (d : AP4_RtpSampleData) (packet : AP4_RtpPacket) :
    AP4_Result × AP4_RtpSampleData :=
  (AP4_Result.SUCCESS, { d with m_Packets := d.m_Packets ++ [packet] })

end AP4_RtpSampleData

/-- Source: `AP4_RtpPacket::AddConstructor(constructor)`. -/
def AP4_RtpPacket.AddConstructor (p : AP4_RtpPacket) (constructor : Option AP4_RtpConstructor) :
    AP4_Result × AP4_RtpPacket :=
  (AP4_Result.SUCCESS, { p with m_Constructors := p.m_Constructors ++ [constructor] })

/-- Source: `AP4_EsDescriptor::AddSubDescriptor(AP4_Descriptor* descriptor)`.  The descriptor is
given by the bytes that its `Write` emits and by `size`, the value of its `GetSize()`;
`m_PayloadSize` is an `AP4_Size`. -/
def AP4_EsDescriptor.AddSubDescriptor (d : AP4_EsDescriptor) (descriptor : List Nat)
    (size : Nat) : AP4_Result × AP4_EsDescriptor :=
  (AP4_Result.SUCCESS,
   { d with m_SubDescriptors := d.m_SubDescriptors ++ [descriptor],
            m_PayloadSize := AP4_Add32 d.m_PayloadSize size })

/-- A sequence of `AddSubDescriptor` calls, each with a descriptor and its size. -/
def AP4_EsDescriptor.AddSubDescriptors (d : AP4_EsDescriptor)
    (descriptors : List (List Nat × Nat)) : AP4_EsDescriptor :=
  descriptors.foldl (fun d x => (d.AddSubDescriptor x.1 x.2).2) d

/-- The number of 7-bit groups needed to encode a payload size, in the words of the spec
(section 4.6: each size byte carries 7 bits). -/
def AP4_Descriptor.sizeGroups (payload_size : Nat) : Nat :=
  if payload_size < 2 ^ 7 then 1
  else if payload_size < 2 ^ 14 then 2
  else if payload_size < 2 ^ 21 then 3
  else if payload_size < 2 ^ 28 then 4
  else 5

/-- An RTP packet with relative time 5, the P and M bits, sequence seed 7, no time-stamp
offset, the given payload type and the given constructors. -/
def AP4_RtpPacket.sample (payload_type : Nat) (constructors : List (Option AP4_RtpConstructor)) :
    AP4_RtpPacket :=
  { m_RelativeTime := 5, m_PBit := true, m_XBit := false, m_MBit := false,
    m_PayloadType := payload_type, m_SequenceSeed := 7, m_TimeStampOffset := 0,
    m_BFrameFlag := false, m_RepeatFlag := true, m_Constructors := constructors }
namespace AP4_RtpConstructor

/-- The 16 bytes that `Write` emits for a constructor on a stream that accepts them, when
the array of `AP4_ImmediateRtpConstructor::DoWrite` holds `pad`: the type byte, then the
bytes of `DoWrite`. -/
def record (c : AP4_RtpConstructor) (pad : List Nat) : List Nat :=
  [c.m_Type % 256] ++
  match c with
  | Noop => List.replicate 15 0
  | Immediate m_Data => [m_Data.length % 256] ++ m_Data ++ pad.take (14 - m_Data.length)
  | Sample m_TrackRefIndex m_Length m_SampleNum m_SampleOffset =>
    [m_TrackRefIndex % 256] ++ AP4_BytesFromUInt16BE m_Length
      ++ AP4_BytesFromUInt32BE m_SampleNum ++ AP4_BytesFromUInt32BE m_SampleOffset
      ++ AP4_BytesFromUInt16BE 1 ++ AP4_BytesFromUInt16BE 1
  | SampleDesc m_TrackRefIndex m_Length m_SampleDescIndex m_SampleDescOffset =>
    [m_TrackRefIndex % 256] ++ AP4_BytesFromUInt16BE m_Length
      ++ AP4_BytesFromUInt32BE m_SampleDescIndex ++ AP4_BytesFromUInt32BE m_SampleDescOffset
      ++ AP4_BytesFromUInt32BE 0

/-- The fields of a constructor hold values of their C++ types (`AP4_UI08`, `AP4_UI16`,
`AP4_UI32`), and an immediate constructor holds at most 14 bytes of data. -/
def Typed : AP4_RtpConstructor → Bool
  | Noop => true
  | Immediate m_Data => decide (m_Data.length ≤ 14)
  | Sample m_TrackRefIndex m_Length m_SampleNum m_SampleOffset =>
    decide (m_TrackRefIndex < 2 ^ 8 ∧ m_Length < 2 ^ 16 ∧ m_SampleNum < 2 ^ 32
      ∧ m_SampleOffset < 2 ^ 32)
  | SampleDesc m_TrackRefIndex m_Length m_SampleDescIndex m_SampleDescOffset =>
    decide (m_TrackRefIndex < 2 ^ 8 ∧ m_Length < 2 ^ 16 ∧ m_SampleDescIndex < 2 ^ 32
      ∧ m_SampleDescOffset < 2 ^ 32)

/-- A constructor that `Write` accepts: an immediate constructor holds at most 14 bytes of
data. -/
def Writable : AP4_RtpConstructor → Bool
  | Immediate m_Data => decide (m_Data.length ≤ 14)
  | _ => true

/-- An item of a constructor list that is not the null pointer and whose constructor is
`Writable`. -/
def Held : Option AP4_RtpConstructor → Bool
  | none => false
  | some c => c.Writable

/-- An item of a constructor list that is not the null pointer and whose constructor
is `Typed`. -/
def Present : Option AP4_RtpConstructor → Bool
  | none => false
  | some c => c.Typed

end AP4_RtpConstructor

namespace AP4_RtpPacket

/-- The bytes that the loop over the constructors of `Write` emits on a stream that accepts
them: the records of the constructors, each with the content of `pad` at its call. -/
def Write.constructorBytes (pad : AP4_ByteStream → List Nat) :
    List (Option AP4_RtpConstructor) → AP4_ByteStream → List Nat
  | [], _ => []
  | none :: _, _ => []
  | some ctor :: rest, stream =>
    ctor.record (pad stream)
      ++ Write.constructorBytes pad rest (stream.Write (ctor.record (pad stream))).2

end AP4_RtpPacket

namespace AP4_RtpPacket

/-- The tag `rtpo` of the extra-data entry that carries the time-stamp offset. -/
def extraTag : Nat := AP4_ATOM_TYPE 114 116 112 111

/-- The bytes of the entries of an extra-data block.  An entry is given by its tag and its
value; the length that it declares is that of its 8 leading bytes and of its value. -/
def extraEntries (entries : List (Nat × List Nat)) : List Nat :=
  (entries.map (fun e =>
    AP4_BytesFromUInt32BE (8 + e.2.length) ++ AP4_BytesFromUInt32BE e.1 ++ e.2)).flatten

/-- The sum of the lengths that the entries declare. -/
def extraEntriesLength (entries : List (Nat × List Nat)) : Nat :=
  (entries.map (fun e => 8 + e.2.length)).sum

/-- The value of the last entry with the tag `rtpo` and the declared length 12, and
`initial` when there is no such entry. -/
def extraTimeStampOffset (entries : List (Nat × List Nat)) (initial : Nat) : Nat :=
  match (entries.filter (fun e => e.1 == extraTag && 8 + e.2.length == 12)).getLast? with
  | some e => AP4_BytesToUIntBE e.2
  | none => initial

end AP4_RtpPacket

namespace AP4_RtpPacket

/-- The 12 bytes of the envelope of a packet: the relative time, two octets of flags, the
sequence seed, an unused octet, the third octet of flags and the constructor count. -/
def envelopeBytes (relative_time octet1 octet2 sequence_seed unused octet3
    constructor_count : Nat) : List Nat :=
  AP4_BytesFromUInt32BE relative_time ++ [octet1, octet2]
    ++ AP4_BytesFromUInt16BE sequence_seed ++ [unused, octet3]
    ++ AP4_BytesFromUInt16BE constructor_count

end AP4_RtpPacket

namespace AP4_RtpPacket

/-- The bytes that `Write` emits before the constructors on a stream that accepts them: the
envelope and, when the time-stamp offset is not 0, the block of extra data with its `rtpo`
entry. -/
def headerBytes (p : AP4_RtpPacket) : List Nat :=
  AP4_BytesFromUInt32BE p.m_RelativeTime
    ++ [(0x80 ||| (p.m_PBit.toNat <<< 5) ||| (p.m_XBit.toNat <<< 4)) % 256]
    ++ [((p.m_MBit.toNat <<< 7) ||| p.m_PayloadType) % 256]
    ++ AP4_BytesFromUInt16BE p.m_SequenceSeed
    ++ [0 % 256]
    ++ [(0x00 ||| ((p.m_TimeStampOffset != 0).toNat <<< 2) ||| (p.m_BFrameFlag.toNat <<< 1)
          ||| (p.m_RepeatFlag.toNat <<< 0)) % 256]
    ++ AP4_BytesFromUInt16BE (p.m_Constructors.length % 2 ^ 16)
    ++ (if p.m_TimeStampOffset != 0 then
          AP4_BytesFromUInt32BE 16 ++ AP4_BytesFromUInt32BE 12
            ++ AP4_BytesFromUInt32BE (AP4_ATOM_TYPE 114 116 112 111)
            ++ AP4_BytesFromUInt32BE p.m_TimeStampOffset
        else [])

/-- The bytes that `Write` emits on a stream that accepts them; `stream` is the stream at
the call, which decides the content of `pad` for each constructor. -/
def bytes (p : AP4_RtpPacket) (pad : AP4_ByteStream → List Nat) (stream : AP4_ByteStream) :
    List Nat :=
  p.headerBytes
    ++ Write.constructorBytes pad p.m_Constructors (stream.Write p.headerBytes).2

end AP4_RtpPacket
namespace AP4_RtpPacket

/-- The fields of a packet hold values of their C++ types, no constructor is the null
pointer, and every constructor is `Typed`. -/
def Typed (p : AP4_RtpPacket) : Bool :=
  decide (p.m_RelativeTime < 2 ^ 32 ∧ p.m_SequenceSeed < 2 ^ 16 ∧ p.m_TimeStampOffset < 2 ^ 32)
    && p.m_Constructors.all AP4_RtpConstructor.Present

end AP4_RtpPacket

namespace AP4_RtpSampleData

/-- The bytes that the loop over the packets of `ToByteStream` emits; `stream` is the stream
before the loop. -/
def ToByteStream.packetBytes (pad : AP4_ByteStream → List Nat) :
    List AP4_RtpPacket → AP4_ByteStream → List Nat
  | [], _ => []
  | pck :: rest, stream =>
    pck.bytes pad stream
      ++ ToByteStream.packetBytes pad rest (stream.Write (pck.bytes pad stream)).2

/-- The bytes of the packet count and of the reserved field. -/
def headerBytes (d : AP4_RtpSampleData) : List Nat :=
  AP4_BytesFromUInt16BE (d.m_Packets.length % 2 ^ 16) ++ AP4_BytesFromUInt16BE 0

/-- The content of the stream that `ToByteStream` returns. -/
def bytes (d : AP4_RtpSampleData) (pad : AP4_ByteStream → List Nat) : List Nat :=
  d.headerBytes
    ++ ToByteStream.packetBytes pad d.m_Packets
        ((AP4_MemoryByteStream.new d.GetSize).Write d.headerBytes).2
    ++ d.m_ExtraData

end AP4_RtpSampleData
/-- A content of the array `pad` of `AP4_ImmediateRtpConstructor::DoWrite`: 14 bytes 0xAA at
every call. -/
def AP4_ImmediateRtpConstructor.samplePad (_stream : AP4_ByteStream) : List Nat :=
  List.replicate 14 0xAA

/-- A sample data of two packets and two bytes of extra data: the first packet has one
constructor of each kind, the second has the time-stamp offset 9 and no constructor. -/
def AP4_RtpSampleData.sample : AP4_RtpSampleData :=
  { m_Packets :=
      [AP4_RtpPacket.sample 96
         [some AP4_RtpConstructor.Noop, some (AP4_RtpConstructor.Immediate [1, 2, 3]),
          some (AP4_RtpConstructor.Sample 1 2 3 4),
          some (AP4_RtpConstructor.SampleDesc 5 6 7 8)],
       { m_RelativeTime := 6, m_PBit := false, m_XBit := true, m_MBit := true,
         m_PayloadType := 97, m_SequenceSeed := 8, m_TimeStampOffset := 9,
         m_BFrameFlag := true, m_RepeatFlag := false, m_Constructors := [] }],
    m_ExtraData := [0xDE, 0xAD] }
/-- A block of three extra-data entries: an `rtpo` entry with the value 9, an entry with the
tag `abcd` and a value of two bytes, and an `rtpo` entry with the value 11. -/
def AP4_RtpPacket.sampleEntries : List (Nat × List Nat) :=
  [(AP4_RtpPacket.extraTag, [0, 0, 0, 9]), (0x61626364, [1, 2]),
   (AP4_RtpPacket.extraTag, [0, 0, 0, 11])]

/-- Two constructor records: a no-op record and an immediate record with two bytes of
data. -/
def AP4_RtpPacket.sampleRecords : List (List Nat) :=
  [[0, 0, 0, 0, 0, 0, 0, 0, 0, 0, 0, 0, 0, 0, 0, 0],
   [1, 2, 0xAA, 0xBB, 0, 0, 0, 0, 0, 0, 0, 0, 0, 0, 0, 0]]

/-- A stream that holds a packet with the extra-data bit, the block of `sampleEntries`
(38 bytes with its length), the two records of `sampleRecords` and one more byte. -/
def AP4_RtpPacket.sampleStream : AP4_ByteStream :=
  { data := [0, 0, 0, 5, 0xA0, 96, 0, 7, 0, 5, 0, 2,
             0, 0, 0, 38,
             0, 0, 0, 12, 0x72, 0x74, 0x70, 0x6F, 0, 0, 0, 9,
             0, 0, 0, 10, 0x61, 0x62, 0x63, 0x64, 1, 2,
             0, 0, 0, 12, 0x72, 0x74, 0x70, 0x6F, 0, 0, 0, 11,
             0, 0, 0, 0, 0, 0, 0, 0, 0, 0, 0, 0, 0, 0, 0, 0,
             1, 2, 0xAA, 0xBB, 0, 0, 0, 0, 0, 0, 0, 0, 0, 0, 0, 0,
             0xFF],
    pos := 0, faults := [] }

/-- An atom `free` that reports the field `title` with the two bytes `22 FF` as its value: a
quote followed by a byte that starts no UTF-8 sequence. -/
def AP4_InspectedAtoms.sampleInvalid : AP4_InspectedAtoms :=
  AP4_InspectedAtoms.atom (AP4_Path "free") 0 0 8 8
    [AP4_InspectedField.text (AP4_Path "title") [0x22, 0xFF]]
    AP4_InspectedAtoms.nil AP4_InspectedAtoms.nil

/-! # Theorems -/

/-! ## Unsigned arithmetic -/

theorem AP4_Sub32_eq (a b : Nat) :
    AP4_Sub32 a b = (a % 2 ^ 32 + 2 ^ 32 - b % 2 ^ 32) % 2 ^ 32 := by
  unfold AP4_Sub32
  split <;> omega

theorem AP4_Sub64_eq (a b : Nat) :
    AP4_Sub64 a b = (a % 2 ^ 64 + 2 ^ 64 - b % 2 ^ 64) % 2 ^ 64 := by
  unfold AP4_Sub64
  split <;> omega

theorem AP4_Sub32_of_le (a b : Nat) (ha : a < 2 ^ 32) (hb : b ≤ a) : AP4_Sub32 a b = a - b := by
  rw [AP4_Sub32_eq]
  omega

theorem AP4_Sub64_of_le (a b : Nat) (ha : a < 2 ^ 64) (hb : b ≤ a) : AP4_Sub64 a b = a - b := by
  rw [AP4_Sub64_eq]
  omega

/-! ## Byte streams -/

theorem AP4_ByteStream.splice_length_ge (data : List Nat) (pos : Nat) (buf : List Nat) :
    pos + buf.length ≤ (AP4_ByteStream.splice data pos buf).length := by
  simp only [AP4_ByteStream.splice, List.length_append, List.length_take, List.length_replicate,
    List.length_drop]
  omega

theorem AP4_ByteStream.splice_splice (data : List Nat) (pos : Nat) (b1 b2 : List Nat) :
    AP4_ByteStream.splice (AP4_ByteStream.splice data pos b1) (pos + b1.length) b2
      = AP4_ByteStream.splice data pos (b1 ++ b2) := by
  have hge := AP4_ByteStream.splice_length_ge data pos b1
  have hpre : (data.take pos ++ List.replicate (pos - data.length) 0 ++ b1).length
      = pos + b1.length := by
    simp only [List.length_append, List.length_take, List.length_replicate]
    omega
  have htake : (AP4_ByteStream.splice data pos b1).take (pos + b1.length)
      = data.take pos ++ List.replicate (pos - data.length) 0 ++ b1 := by
    unfold AP4_ByteStream.splice
    exact List.take_left' hpre
  have hdrop : (AP4_ByteStream.splice data pos b1).drop (pos + b1.length + b2.length)
      = data.drop (pos + (b1 ++ b2).length) := by
    unfold AP4_ByteStream.splice
    rw [← List.drop_drop, List.drop_left' hpre, List.drop_drop, List.length_append]
    congr 1
    omega
  have hrep : pos + b1.length - (AP4_ByteStream.splice data pos b1).length = 0 := by omega
  calc AP4_ByteStream.splice (AP4_ByteStream.splice data pos b1) (pos + b1.length) b2
      = (AP4_ByteStream.splice data pos b1).take (pos + b1.length)
          ++ List.replicate (pos + b1.length - (AP4_ByteStream.splice data pos b1).length) 0
          ++ b2 ++ (AP4_ByteStream.splice data pos b1).drop (pos + b1.length + b2.length) := rfl
    _ = data.take pos ++ List.replicate (pos - data.length) 0 ++ b1 ++ b2
          ++ data.drop (pos + (b1 ++ b2).length) := by
        rw [htake, hdrop, hrep]; simp
    _ = AP4_ByteStream.splice data pos (b1 ++ b2) := by
        unfold AP4_ByteStream.splice; simp

theorem AP4_ByteStream.splice_nil_zero (buf : List Nat) :
    AP4_ByteStream.splice [] 0 buf = buf := by
  simp [AP4_ByteStream.splice]

theorem AP4_ByteStream.Write_of_ok (s : AP4_ByteStream) (buf : List Nat)
    (h : s.faults.getD 0 AP4_Result.SUCCESS = AP4_Result.SUCCESS) :
    s.Write buf = (AP4_Result.SUCCESS,
      { data := AP4_ByteStream.splice s.data s.pos buf, pos := s.pos + buf.length,
        faults := s.faults.drop 1 }) := by
  obtain ⟨d, p, f⟩ := s
  cases f with
  | nil => simp [AP4_ByteStream.Write]
  | cons r rest =>
    simp only [List.getD_cons_zero] at h
    subst h
    simp [AP4_ByteStream.Write, AP4_FAILED]

theorem AP4_ByteStream.Write_of_fault (s : AP4_ByteStream) (buf : List Nat)
    (h : s.faults.getD 0 AP4_Result.SUCCESS ≠ AP4_Result.SUCCESS) :
    s.Write buf = (s.faults.getD 0 AP4_Result.SUCCESS,
      { data := s.data, pos := s.pos, faults := s.faults.drop 1 }) := by
  obtain ⟨d, p, f⟩ := s
  cases f with
  | nil => simp at h
  | cons r rest =>
    simp only [List.getD_cons_zero] at h
    simp [AP4_ByteStream.Write, AP4_FAILED, h]

theorem AP4_ByteStream.emitted_splice (s : AP4_ByteStream) (buf : List Nat) (f : List AP4_Result) :
    AP4_ByteStream.emitted s
      { data := AP4_ByteStream.splice s.data s.pos buf, pos := s.pos + buf.length, faults := f }
      = buf := by
  have hpre : (s.data.take s.pos ++ List.replicate (s.pos - s.data.length) 0).length = s.pos := by
    simp only [List.length_append, List.length_take, List.length_replicate]
    omega
  simp only [AP4_ByteStream.emitted, AP4_ByteStream.splice, List.append_assoc]
  rw [← List.append_assoc, List.drop_left' hpre]
  simp

theorem AP4_ByteStream.WriteAll_ok (block : List Nat) (rest : List (List Nat)) :
    ∀ (s : AP4_ByteStream),
      (∀ j, j < (block :: rest).length → s.faults.getD j AP4_Result.SUCCESS = AP4_Result.SUCCESS) →
      AP4_ByteStream.WriteAll (block :: rest) s = (AP4_Result.SUCCESS,
        { data := AP4_ByteStream.splice s.data s.pos (block :: rest).flatten,
          pos := s.pos + (block :: rest).flatten.length,
          faults := s.faults.drop (block :: rest).length }) := by
  induction rest generalizing block with
  | nil =>
    intro s h
    have h0 := h 0 (by simp)
    simp [AP4_ByteStream.WriteAll, AP4_ByteStream.Write_of_ok s block h0, AP4_FAILED]
  | cons b2 rest ih =>
    intro s h
    have h0 := h 0 (by simp)
    rw [AP4_ByteStream.WriteAll, AP4_ByteStream.Write_of_ok s block h0]
    simp only [AP4_FAILED, bne_self_eq_false, Bool.false_eq_true, if_false]
    rw [ih b2]
    · simp only [AP4_ByteStream.splice_splice, List.flatten_cons, List.length_append,
        List.length_cons, List.drop_drop, Prod.mk.injEq, true_and, AP4_ByteStream.mk.injEq]
      refine ⟨by omega, ?_⟩
      congr 1
      omega
    · intro j hj
      have := h (j + 1) (by simp only [List.length_cons] at hj ⊢; omega)
      simpa [List.getD_eq_getElem?_getD, List.getElem?_drop, Nat.add_comm] using this

theorem AP4_ByteStream.WriteAll_fault (blocks : List (List Nat)) :
    ∀ (s : AP4_ByteStream) (i : Nat), i < blocks.length →
      (∀ j, j < i → s.faults.getD j AP4_Result.SUCCESS = AP4_Result.SUCCESS) →
      s.faults.getD i AP4_Result.SUCCESS ≠ AP4_Result.SUCCESS →
      AP4_ByteStream.WriteAll blocks s = (s.faults.getD i AP4_Result.SUCCESS,
        { (AP4_ByteStream.WriteAll (blocks.take i) s).2 with faults := s.faults.drop (i + 1) }) := by
  induction blocks with
  | nil => intro s i hi; simp at hi
  | cons b rest ih =>
    intro s i hi hok hbad
    cases i with
    | zero =>
      rw [AP4_ByteStream.WriteAll, AP4_ByteStream.Write_of_fault s b hbad]
      have hf : AP4_FAILED (s.faults.getD 0 AP4_Result.SUCCESS) = true := by
        simpa [AP4_FAILED] using hbad
      simp only [hf, if_true, List.take_zero, AP4_ByteStream.WriteAll]
    | succ i =>
      have h0 := hok 0 (by omega)
      rw [List.take_succ_cons, AP4_ByteStream.WriteAll, AP4_ByteStream.WriteAll,
        AP4_ByteStream.Write_of_ok s b h0]
      simp only [AP4_FAILED, bne_self_eq_false, Bool.false_eq_true, if_false]
      have hshift : ∀ j, (s.faults.drop 1).getD j AP4_Result.SUCCESS
          = s.faults.getD (j + 1) AP4_Result.SUCCESS := by
        intro j
        simp [List.getD_eq_getElem?_getD, List.getElem?_drop, Nat.add_comm]
      rw [ih _ i (by simpa using hi) (fun j hj => by
            simpa [hshift] using hok (j + 1) (by omega)) (by simpa [hshift] using hbad)]
      simp only [hshift, List.drop_drop]
      simp [Nat.add_comm]

/-! ## The atom header -/

theorem AP4_Atom.WriteHeader_eq_WriteAll (a : AP4_Atom) (s : AP4_ByteStream) :
    a.WriteHeader s = AP4_ByteStream.WriteAll a.headerFields s := by
  unfold AP4_Atom.WriteHeader AP4_Atom.headerFields
  by_cases h1 : a.m_Size32 = 1 <;> cases hf : a.m_IsFull <;>
    simp only [h1, hf, AP4_ByteStream.WriteAll, AP4_ByteStream.WriteUI32,
      AP4_ByteStream.WriteUI64, AP4_ByteStream.WriteUI08, AP4_ByteStream.WriteUI24,
      beq_self_eq_true, if_true, if_false, List.cons_append, List.nil_append, List.append_nil,
      Bool.false_eq_true, beq_iff_eq] <;>
    repeat (first | rfl | split)

theorem AP4_Atom.headerFields_length (a : AP4_Atom) :
    a.headerFields.flatten.length = a.GetHeaderSize := by
  unfold AP4_Atom.headerFields AP4_Atom.GetHeaderSize
  by_cases h1 : a.m_Size32 = 1 <;> cases hf : a.m_IsFull <;>
    simp [h1, hf, AP4_BytesFromUInt32BE, AP4_BytesFromUInt64BE, AP4_BytesFromUInt24BE,
      AP4_ATOM_HEADER_SIZE, AP4_FULL_ATOM_HEADER_SIZE]

theorem AP4_Atom.headerFields_ne_nil (a : AP4_Atom) :
    ∃ block rest, a.headerFields = block :: rest := by
  unfold AP4_Atom.headerFields
  exact ⟨_, _, rfl⟩

theorem AP4_Atom.WriteHeader_ok (a : AP4_Atom) (s : AP4_ByteStream)
    (hok : ∀ j, j < a.headerFields.length →
      s.faults.getD j AP4_Result.SUCCESS = AP4_Result.SUCCESS) :
    a.WriteHeader s = (AP4_Result.SUCCESS,
      { data := AP4_ByteStream.splice s.data s.pos a.headerFields.flatten,
        pos := s.pos + a.GetHeaderSize,
        faults := s.faults.drop a.headerFields.length }) := by
  obtain ⟨block, rest, hbr⟩ := a.headerFields_ne_nil
  rw [a.WriteHeader_eq_WriteAll, ← a.headerFields_length, hbr]
  exact AP4_ByteStream.WriteAll_ok block rest s (by simpa [hbr] using hok)

/-- C2: `WriteHeader` writes the header fields of the spec, in order and one `Write` per field:
`size32`, `type`, `size64` iff `size32 == 1`, and `version`, `flags` (24 bits) iff the atom
is full.  Their total length is `GetHeaderSize()`.  When every write succeeds the result
is `SUCCESS` and exactly these bytes are emitted at the cursor; when the write of field
`i` is the first to fail, the result is the error of that write, exactly the fields
before `i` have been emitted, and no further write is attempted. -/
theorem AP4_Atom.WriteHeader_emits (a : AP4_Atom) (s : AP4_ByteStream) :
    a.headerFields.flatten
      = AP4_BytesFromUInt32BE a.m_Size32 ++ AP4_BytesFromUInt32BE a.m_Type
        ++ (if a.m_Size32 = 1 then AP4_BytesFromUInt64BE a.m_Size64 else [])
        ++ (if a.m_IsFull = true then (a.m_Version % 256) :: AP4_BytesFromUInt24BE a.m_Flags
            else []) ∧
    a.headerFields.flatten.length = a.GetHeaderSize ∧
    ((∀ j, j < a.headerFields.length →
        s.faults.getD j AP4_Result.SUCCESS = AP4_Result.SUCCESS) →
      a.WriteHeader s = (AP4_Result.SUCCESS,
        { data := AP4_ByteStream.splice s.data s.pos a.headerFields.flatten,
          pos := s.pos + a.GetHeaderSize,
          faults := s.faults.drop a.headerFields.length }) ∧
      AP4_ByteStream.emitted s (a.WriteHeader s).2 = a.headerFields.flatten) ∧
    (∀ i, i < a.headerFields.length →
      (∀ j, j < i → s.faults.getD j AP4_Result.SUCCESS = AP4_Result.SUCCESS) →
      s.faults.getD i AP4_Result.SUCCESS ≠ AP4_Result.SUCCESS →
      (a.WriteHeader s).1 = s.faults.getD i AP4_Result.SUCCESS ∧
      AP4_ByteStream.emitted s (a.WriteHeader s).2 = (a.headerFields.take i).flatten ∧
      (a.WriteHeader s).2.pos = s.pos + (a.headerFields.take i).flatten.length ∧
      (a.WriteHeader s).2.faults = s.faults.drop (i + 1)) := by
  refine ⟨?_, a.headerFields_length, ?_, ?_⟩
  · unfold AP4_Atom.headerFields
    by_cases h1 : a.m_Size32 = 1 <;> cases hf : a.m_IsFull <;> simp [h1, hf]
  · intro hok
    have hw := a.WriteHeader_ok s hok
    refine ⟨hw, ?_⟩
    rw [hw, ← a.headerFields_length]
    exact AP4_ByteStream.emitted_splice s _ _
  · intro i hi hok hbad
    have hw := AP4_ByteStream.WriteAll_fault a.headerFields s i hi hok hbad
    rw [← a.WriteHeader_eq_WriteAll] at hw
    rw [hw]
    refine ⟨rfl, ?_, ?_, rfl⟩
    · cases i with
      | zero => simp [AP4_ByteStream.WriteAll, AP4_ByteStream.emitted]
      | succ i =>
        obtain ⟨block, rest, hbr⟩ := a.headerFields_ne_nil
        rw [hbr, List.take_succ_cons]
        rw [AP4_ByteStream.WriteAll_ok block (rest.take i) s (by
          intro j hj
          apply hok
          simp only [List.length_cons, List.length_take] at hj
          omega)]
        exact AP4_ByteStream.emitted_splice s _ _
    · cases i with
      | zero => simp [AP4_ByteStream.WriteAll]
      | succ i =>
        obtain ⟨block, rest, hbr⟩ := a.headerFields_ne_nil
        rw [hbr, List.take_succ_cons]
        rw [AP4_ByteStream.WriteAll_ok block (rest.take i) s (by
          intro j hj
          apply hok
          simp only [List.length_cons, List.length_take] at hj
          omega)]

theorem AP4_Atom.WriteHeader_emits_witness :
    ((AP4_Atom.newFull64 0x6d6f6f76 24 true 1 2).WriteHeader
        { data := [], pos := 0,
          faults := [AP4_Result.SUCCESS, AP4_Result.SUCCESS, AP4_Result.FAILURE] }).1
      = AP4_Result.FAILURE ∧
    AP4_ByteStream.emitted
        { data := [], pos := 0,
          faults := [AP4_Result.SUCCESS, AP4_Result.SUCCESS, AP4_Result.FAILURE] }
        ((AP4_Atom.newFull64 0x6d6f6f76 24 true 1 2).WriteHeader
          { data := [], pos := 0,
            faults := [AP4_Result.SUCCESS, AP4_Result.SUCCESS, AP4_Result.FAILURE] }).2
      = [0, 0, 0, 1, 0x6d, 0x6f, 0x6f, 0x76] ∧
    ((AP4_Atom.newFull64 0x6d6f6f76 24 true 1 2).WriteHeader AP4_ByteStream.fresh).2.data
      = [0, 0, 0, 1, 0x6d, 0x6f, 0x6f, 0x76, 0, 0, 0, 0, 0, 0, 0, 24, 1, 0, 0, 2] := by
  have h := (AP4_Atom.WriteHeader_emits (AP4_Atom.newFull64 0x6d6f6f76 24 true 1 2)
    { data := [], pos := 0,
      faults := [AP4_Result.SUCCESS, AP4_Result.SUCCESS, AP4_Result.FAILURE] }).2.2.2
    2 (by decide) (by decide) (by decide)
  have h2 := ((AP4_Atom.WriteHeader_emits (AP4_Atom.newFull64 0x6d6f6f76 24 true 1 2)
    AP4_ByteStream.fresh).2.2.1 (by decide)).1
  refine ⟨h.1.trans (by decide), h.2.1.trans (by decide), ?_⟩
  rw [h2]
  decide

/-- C4: `GetHeaderSize()` is 8 for a plain short header, 16 for a plain long one, 12 for a
full short one and 20 for a full long one; it takes no other value and depends on
nothing but `is_full` and `size32 == 1`. -/
theorem AP4_Atom.GetHeaderSize_cases (a : AP4_Atom) :
    (a.m_IsFull = false → a.m_Size32 ≠ 1 → a.GetHeaderSize = 8) ∧
    (a.m_IsFull = false → a.m_Size32 = 1 → a.GetHeaderSize = 16) ∧
    (a.m_IsFull = true → a.m_Size32 ≠ 1 → a.GetHeaderSize = 12) ∧
    (a.m_IsFull = true → a.m_Size32 = 1 → a.GetHeaderSize = 20) ∧
    (a.GetHeaderSize = 8 ∨ a.GetHeaderSize = 12 ∨ a.GetHeaderSize = 16 ∨ a.GetHeaderSize = 20) ∧
    (∀ b : AP4_Atom, b.m_IsFull = a.m_IsFull → (b.m_Size32 = 1 ↔ a.m_Size32 = 1) →
      b.GetHeaderSize = a.GetHeaderSize) := by
  unfold AP4_Atom.GetHeaderSize
  refine ⟨?_, ?_, ?_, ?_, ?_, ?_⟩
  · intro hf h1; simp [hf, h1, AP4_ATOM_HEADER_SIZE]
  · intro hf h1; simp [hf, h1, AP4_ATOM_HEADER_SIZE]
  · intro hf h1; simp [hf, h1, AP4_FULL_ATOM_HEADER_SIZE]
  · intro hf h1; simp [hf, h1, AP4_FULL_ATOM_HEADER_SIZE]
  · by_cases h1 : a.m_Size32 = 1 <;> cases hf : a.m_IsFull <;>
      simp [h1, hf, AP4_ATOM_HEADER_SIZE, AP4_FULL_ATOM_HEADER_SIZE]
  · intro b hf h1
    by_cases ha : a.m_Size32 = 1
    · simp [hf, ha, h1.mpr ha]
    · have hb : b.m_Size32 ≠ 1 := fun h => ha (h1.mp h)
      simp [hf, ha, hb]

theorem AP4_Atom.SetSize_eq (a : AP4_Atom) (n : Nat) (force64 : Bool) (hn : n < 2 ^ 64) :
    a.SetSize n force64 =
      if n < 2 ^ 32 ∧ force64 = false ∧ ¬ (a.m_Size32 = 1 ∧ a.m_Size64 ≤ 0xFFFFFFFF) then
        { a with m_Size32 := n, m_Size64 := 0 }
      else { a with m_Size32 := 1, m_Size64 := n } := by
  have hn64 : n % 18446744073709551616 = n := by omega
  by_cases h1 : n < 2 ^ 32
  · have hdiv : n / 4294967296 = 0 := by omega
    have hmod : n % 4294967296 = n := by omega
    have h1l : n < 4294967296 := by omega
    cases force64 <;> by_cases hs : a.m_Size32 = 1 <;> by_cases h64 : a.m_Size64 ≤ 4294967295 <;>
      simp [AP4_Atom.SetSize, hn64, hdiv, hmod, hs, h64, h1l]
  · have hdiv : ¬ n / 4294967296 = 0 := by omega
    have h1l : ¬ n < 4294967296 := by omega
    simp [AP4_Atom.SetSize, hn64, hdiv, h1l]

theorem AP4_Atom.SetSize_long_kept (a : AP4_Atom) (m : Nat) (h1 : a.m_Size32 = 1)
    (h2 : a.m_Size64 < 2 ^ 32) (hm : m < 2 ^ 32) :
    (a.SetSize m false).m_Size32 = 1 ∧ (a.SetSize m false).m_Size64 = m := by
  have h2le : a.m_Size64 ≤ 4294967295 := by omega
  rw [a.SetSize_eq m false (by omega)]
  simp [h1, h2le]

theorem AP4_Atom.SetSize_foldl_long (ms : List Nat) :
    ∀ (a : AP4_Atom), a.m_Size32 = 1 → a.m_Size64 < 2 ^ 32 → (∀ m ∈ ms, m < 2 ^ 32) →
      (ms.foldl (fun b m => b.SetSize m false) a).m_Size32 = 1 ∧
      (ms.foldl (fun b m => b.SetSize m false) a).m_Size64 = ms.getLastD a.m_Size64 := by
  induction ms with
  | nil => intro a h1 _ _; simp [h1]
  | cons m rest ih =>
    intro a h1 h2 hms
    have hm : m < 2 ^ 32 := hms m (by simp)
    obtain ⟨k1, k2⟩ := a.SetSize_long_kept m h1 h2 hm
    have := ih (a.SetSize m false) k1 (by rw [k2]; exact hm)
      (fun x hx => hms x (by simp [hx]))
    rw [List.foldl_cons]
    refine ⟨this.1, ?_⟩
    rw [this.2, k2]
    cases rest <;> simp [List.getLastD]

/-- C3: `SetSize(n, force64)` stores the short encoding (`size32 = n`, `size64 = 0`) exactly
when `n < 2^32`, `force64` is false and the atom is not in a forced long encoding
(`size32 == 1` with `size64 <= 0xFFFFFFFF`); otherwise it stores the long encoding
(`size32 = 1`, `size64 = n`).  Type, version, flags, fullness and parent are unchanged.
An atom constructed with `force_64 = true` and a size below `2^32` keeps the long form
through every later sequence of `SetSize(m, false)` calls with `m < 2^32`. -/
theorem AP4_Atom.SetSize_encoding (a : AP4_Atom) (n : Nat) (force64 : Bool) (hn : n < 2 ^ 64) :
    ((n < 2 ^ 32 ∧ force64 = false ∧ ¬ (a.m_Size32 = 1 ∧ a.m_Size64 ≤ 0xFFFFFFFF)) →
      (a.SetSize n force64).m_Size32 = n ∧ (a.SetSize n force64).m_Size64 = 0) ∧
    (¬ (n < 2 ^ 32 ∧ force64 = false ∧ ¬ (a.m_Size32 = 1 ∧ a.m_Size64 ≤ 0xFFFFFFFF)) →
      (a.SetSize n force64).m_Size32 = 1 ∧ (a.SetSize n force64).m_Size64 = n) ∧
    (((a.SetSize n force64).m_Size32 = n ∧ (a.SetSize n force64).m_Size64 = 0) ↔
      (n < 2 ^ 32 ∧ force64 = false ∧ ¬ (a.m_Size32 = 1 ∧ a.m_Size64 ≤ 0xFFFFFFFF))) ∧
    ((a.SetSize n force64).m_Type = a.m_Type ∧ (a.SetSize n force64).m_Version = a.m_Version ∧
      (a.SetSize n force64).m_Flags = a.m_Flags ∧ (a.SetSize n force64).m_IsFull = a.m_IsFull ∧
      (a.SetSize n force64).m_Parent = a.m_Parent) ∧
    (∀ (type s version flags : Nat) (ms : List Nat), s < 2 ^ 32 → (∀ m ∈ ms, m < 2 ^ 32) →
      (ms.foldl (fun b m => b.SetSize m false) (AP4_Atom.new64 type s true)).m_Size32 = 1 ∧
      (ms.foldl (fun b m => b.SetSize m false) (AP4_Atom.new64 type s true)).m_Size64
        = ms.getLastD s ∧
      (ms.foldl (fun b m => b.SetSize m false)
        (AP4_Atom.newFull64 type s true version flags)).m_Size32 = 1 ∧
      (ms.foldl (fun b m => b.SetSize m false)
        (AP4_Atom.newFull64 type s true version flags)).m_Size64 = ms.getLastD s) := by
  have heq := a.SetSize_eq n force64 hn
  have hshort : (n < 2 ^ 32 ∧ force64 = false ∧ ¬ (a.m_Size32 = 1 ∧ a.m_Size64 ≤ 0xFFFFFFFF)) →
      (a.SetSize n force64).m_Size32 = n ∧ (a.SetSize n force64).m_Size64 = 0 := by
    intro h
    rw [heq, if_pos h]
    exact ⟨rfl, rfl⟩
  have hlong : ¬ (n < 2 ^ 32 ∧ force64 = false ∧ ¬ (a.m_Size32 = 1 ∧ a.m_Size64 ≤ 0xFFFFFFFF)) →
      (a.SetSize n force64).m_Size32 = 1 ∧ (a.SetSize n force64).m_Size64 = n := by
    intro h
    rw [heq, if_neg h]
    exact ⟨rfl, rfl⟩
  refine ⟨hshort, hlong, ⟨?_, hshort⟩, ?_, ?_⟩
  · rintro ⟨e1, e2⟩
    by_contra hnot
    obtain ⟨k1, k2⟩ := hlong hnot
    omega
  · rw [heq]
    split <;> exact ⟨rfl, rfl, rfl, rfl, rfl⟩
  · intro type s version flags ms hs hms
    have e1 : (AP4_Atom.new64 type s true).m_Size32 = 1 ∧
        (AP4_Atom.new64 type s true).m_Size64 = s := by
      unfold AP4_Atom.new64
      rw [AP4_Atom.SetSize_eq _ s true (by omega)]
      simp
    have e2 : (AP4_Atom.newFull64 type s true version flags).m_Size32 = 1 ∧
        (AP4_Atom.newFull64 type s true version flags).m_Size64 = s := by
      unfold AP4_Atom.newFull64
      rw [AP4_Atom.SetSize_eq _ s true (by omega)]
      simp
    have r1 := AP4_Atom.SetSize_foldl_long ms _ e1.1 (by rw [e1.2]; exact hs) hms
    have r2 := AP4_Atom.SetSize_foldl_long ms _ e2.1 (by rw [e2.2]; exact hs) hms
    rw [e1.2] at r1
    rw [e2.2] at r2
    exact ⟨r1.1, r1.2, r2.1, r2.2⟩

theorem AP4_Atom.SetSize_encoding_witness :
    ((AP4_Atom.new64 0x66726565 16 true).SetSize 24 false).m_Size32 = 1 ∧
    ((AP4_Atom.new64 0x66726565 16 true).SetSize 24 false).m_Size64 = 24 ∧
    ((AP4_Atom.new32 0x66726565 16).SetSize 24 false).m_Size32 = 24 ∧
    ((AP4_Atom.new32 0x66726565 16).SetSize 24 false).m_Size64 = 0 := by
  have h1 := (AP4_Atom.SetSize_encoding (AP4_Atom.new64 0x66726565 16 true) 24 false
    (by norm_num)).2.1 (by decide)
  have h2 := (AP4_Atom.SetSize_encoding (AP4_Atom.new32 0x66726565 16) 24 false
    (by norm_num)).1 (by decide)
  exact ⟨h1.1, h1.2, h2.1, h2.2⟩

/-! ## The unknown atom -/

theorem AP4_Atom.new64_short (type size : Nat) (ht : type < 2 ^ 32) (hs : size < 2 ^ 32) :
    AP4_Atom.new64 type size false =
      { m_Type := type, m_Size32 := size, m_Size64 := 0, m_IsFull := false, m_Version := 0,
        m_Flags := 0, m_Parent := none } := by
  unfold AP4_Atom.new64
  rw [AP4_Atom.SetSize_eq _ size false (by omega)]
  have : type % 4294967296 = type := by omega
  have hsl : size < 4294967296 := by omega
  simp [hsl, this]

theorem AP4_UnknownAtom.new_buffered (t s handle : Nat) (src : AP4_ByteStream)
    (ht32 : t < 2 ^ 32) (ht : t ≠ AP4_ATOM_TYPE_MDAT) (h8 : 8 ≤ s) (hs : s ≤ 4096)
    (hsrc : src.pos + (s - 8) ≤ src.data.length) :
    AP4_UnknownAtom.new t s handle src =
      ({ atom := { m_Type := t, m_Size32 := s, m_Size64 := 0, m_IsFull := false, m_Version := 0,
                   m_Flags := 0, m_Parent := none },
         m_SourceStream := none, m_SourcePosition := 0,
         m_Payload := (src.data.drop src.pos).take (s - 8) },
       { src with pos := src.pos + (s - 8) }) := by
  have hs64 : s % 2 ^ 64 = s := Nat.mod_eq_of_lt (by omega)
  have ht' : t % 2 ^ 32 = t := Nat.mod_eq_of_lt ht32
  have hpay : AP4_Sub32 s 8 = s - 8 := AP4_Sub32_of_le s 8 (by omega) h8
  have hlen : ((src.data.drop src.pos).take (s - 8)).length = s - 8 := by
    simp only [List.length_take, List.length_drop]
    omega
  have hs1 : ¬ s = 1 := by omega
  unfold AP4_UnknownAtom.new
  simp only [hs64, ht', AP4_Atom.new64_short t s ht32 (by omega), AP4_Atom.GetHeaderSize,
    AP4_UNKNOWN_ATOM_MAX_LOCAL_PAYLOAD_SIZE, AP4_ATOM_HEADER_SIZE, hs, ht, hpay,
    AP4_ByteStream.Read, hsrc, hlen, if_true, Bool.false_eq_true, if_false, beq_iff_eq, hs1,
    Nat.add_zero, Nat.sub_self, List.replicate_zero, List.append_nil]
  have hc : (decide True && t != AP4_ATOM_TYPE_MDAT) = true := by simp [ht]
  rw [if_pos hc]

/-- C1: for a type other than `mdat`, a declared size `s` with `8 <= s <= 4096` and a source
holding at least `s - 8` bytes at its cursor, `UnknownAtom(t, s, stream)` followed by
`Write` on a fresh stream succeeds and produces exactly `s = Size()` bytes: `s` and `t` as
big-endian 32-bit values, then the `s - 8` payload bytes read from the source, in
order. -/
theorem AP4_UnknownAtom.Write_buffered (t s handle : Nat) (src : AP4_ByteStream)
    (ht32 : t < 2 ^ 32) (ht : t ≠ AP4_ATOM_TYPE_MDAT) (h8 : 8 ≤ s) (hs : s ≤ 4096)
    (hsrc : src.pos + (s - 8) ≤ src.data.length) :
    (AP4_UnknownAtom.new t s handle src).1.Write (AP4_UnknownAtom.new t s handle src).2
        AP4_ByteStream.fresh
      = (AP4_Result.SUCCESS, (AP4_UnknownAtom.new t s handle src).2,
         { data := AP4_BytesFromUInt32BE s ++ AP4_BytesFromUInt32BE t
                     ++ (src.data.drop src.pos).take (s - 8),
           pos := s, faults := [] }) ∧
    (AP4_UnknownAtom.new t s handle src).1.atom.GetSize = s ∧
    (AP4_BytesFromUInt32BE s ++ AP4_BytesFromUInt32BE t
      ++ (src.data.drop src.pos).take (s - 8)).length = s ∧
    (AP4_UnknownAtom.new t s handle src).1.m_Payload = (src.data.drop src.pos).take (s - 8) ∧
    (AP4_UnknownAtom.new t s handle src).2 = { src with pos := src.pos + (s - 8) } ∧
    AP4_BytesToUIntBE (AP4_BytesFromUInt32BE s) = s ∧
    AP4_BytesToUIntBE (AP4_BytesFromUInt32BE t) = t := by
  have hlen : ((src.data.drop src.pos).take (s - 8)).length = s - 8 := by
    simp only [List.length_take, List.length_drop]
    omega
  have hs1 : ¬ s = 1 := by omega
  rw [AP4_UnknownAtom.new_buffered t s handle src ht32 ht h8 hs hsrc]
  refine ⟨?_, ?_, ?_, rfl, rfl, ?_, ?_⟩
  · have hw := AP4_Atom.WriteHeader_ok
      { m_Type := t, m_Size32 := s, m_Size64 := 0, m_IsFull := false, m_Version := 0,
        m_Flags := 0, m_Parent := none } AP4_ByteStream.fresh (by
          intro j _; simp [AP4_ByteStream.fresh])
    simp only [AP4_UnknownAtom.Write, hw, AP4_UnknownAtom.WriteFields]
    simp [AP4_FAILED, AP4_ByteStream.Write, AP4_ByteStream.fresh, AP4_ByteStream.splice,
      AP4_Atom.headerFields, AP4_Atom.GetHeaderSize, AP4_ATOM_HEADER_SIZE, hs1, hlen,
      AP4_BytesFromUInt32BE]
    omega
  · simp [AP4_Atom.GetSize, hs1]
  · simp only [List.length_append, hlen, AP4_BytesFromUInt32BE, List.length_cons,
      List.length_nil]
    omega
  · simp only [AP4_BytesToUIntBE, AP4_BytesFromUInt32BE, List.foldl_cons, List.foldl_nil]
    omega
  · simp only [AP4_BytesToUIntBE, AP4_BytesFromUInt32BE, List.foldl_cons, List.foldl_nil]
    omega

theorem AP4_UnknownAtom.Write_buffered_witness :
    (AP4_UnknownAtom.new 0x66726565 16 0
        { data := [0, 0, 0, 16, 0x66, 0x72, 0x65, 0x65, 1, 2, 3, 4, 5, 6, 7, 8], pos := 8,
          faults := [] }).1.Write
      (AP4_UnknownAtom.new 0x66726565 16 0
        { data := [0, 0, 0, 16, 0x66, 0x72, 0x65, 0x65, 1, 2, 3, 4, 5, 6, 7, 8], pos := 8,
          faults := [] }).2 AP4_ByteStream.fresh
      = (AP4_Result.SUCCESS,
         { data := [0, 0, 0, 16, 0x66, 0x72, 0x65, 0x65, 1, 2, 3, 4, 5, 6, 7, 8], pos := 16,
           faults := [] },
         { data := [0, 0, 0, 16, 0x66, 0x72, 0x65, 0x65, 1, 2, 3, 4, 5, 6, 7, 8], pos := 16,
           faults := [] }) := by
  have h := AP4_UnknownAtom.Write_buffered 0x66726565 16 0
    { data := [0, 0, 0, 16, 0x66, 0x72, 0x65, 0x65, 1, 2, 3, 4, 5, 6, 7, 8], pos := 8,
      faults := [] } (by norm_num) (by decide) (by norm_num) (by norm_num) (by decide)
  rw [h.1, h.2.2.2.2.1]
  decide

/-! ## Header size against size -/

theorem AP4_Atom.GetHeaderSize_ge (a : AP4_Atom) : 8 ≤ a.GetHeaderSize := by
  unfold AP4_Atom.GetHeaderSize AP4_ATOM_HEADER_SIZE AP4_FULL_ATOM_HEADER_SIZE
  split <;> omega

theorem AP4_Atom.SetSize_sized (a : AP4_Atom) (n : Nat) (force64 : Bool) (hn : n < 2 ^ 64)
    (h : (a.SetSize n force64).GetHeaderSize ≤ n) :
    (a.SetSize n force64).GetHeaderSize ≤ (a.SetSize n force64).GetSize := by
  have h8 := (a.SetSize n force64).GetHeaderSize_ge
  have hsz : (a.SetSize n force64).GetSize = n := by
    rw [a.SetSize_eq n force64 hn]
    have hn1 : ¬ n = 1 := by omega
    split <;> simp [AP4_Atom.GetSize, hn1]
  omega

theorem AP4_Atom.short_sized (a : AP4_Atom) (h32 : a.m_Size32 ≠ 1)
    (h : a.GetHeaderSize ≤ a.m_Size32) : a.GetHeaderSize ≤ a.GetSize := by
  simpa [AP4_Atom.GetSize, h32] using h

theorem AP4_UnknownAtom.new_atom_unclamped (type size handle : Nat) (stream : AP4_ByteStream)
    (hs : size < 2 ^ 64)
    (hfit : (size ≤ AP4_UNKNOWN_ATOM_MAX_LOCAL_PAYLOAD_SIZE ∧
              type % 2 ^ 32 ≠ AP4_ATOM_TYPE_MDAT) ∨
        (AP4_Sub64 stream.pos (AP4_Atom.new64 type size false).GetHeaderSize + size) % 2 ^ 64
          ≤ stream.data.length) :
    (AP4_UnknownAtom.new type size handle stream).1.atom = AP4_Atom.new64 type size false := by
  have hs64 : size % 2 ^ 64 = size := Nat.mod_eq_of_lt hs
  unfold AP4_UnknownAtom.new
  simp only [hs64]
  split
  · rfl
  · rename_i hnb
    rcases hfit with ⟨h1, h2⟩ | hfit
    · have h2l : ¬ type % 4294967296 = AP4_ATOM_TYPE_MDAT := h2
      exact absurd (by simp [h1, h2l]) hnb
    · simp only [AP4_ByteStream.GetSize, AP4_ByteStream.Tell, AP4_SUCCEEDED, beq_self_eq_true,
        if_true]
      rw [if_neg (by omega)]

theorem AP4_NullTerminatedStringAtom.new_eq (type size : Nat) (stream : AP4_ByteStream) :
    ∃ v s1, AP4_NullTerminatedStringAtom.new type size stream
      = ({ atom := AP4_Atom.new64 type (size % 2 ^ 64) false, m_Value := v }, s1) := by
  unfold AP4_NullTerminatedStringAtom.new
  lift_lets
  intro sz atom str_size
  split
  · generalize stream.Read _ = rd
    obtain ⟨r, b, s1⟩ := rd
    exact ⟨_, _, rfl⟩
  · exact ⟨_, _, rfl⟩

theorem AP4_NullTerminatedStringAtom.new_atom (type size : Nat) (stream : AP4_ByteStream)
    (hs : size < 2 ^ 64) :
    (AP4_NullTerminatedStringAtom.new type size stream).1.atom
      = AP4_Atom.new64 type size false := by
  obtain ⟨v, s1, h⟩ := AP4_NullTerminatedStringAtom.new_eq type size stream
  rw [h, Nat.mod_eq_of_lt hs]

/-- C5 (amended): an atom whose size was last stored, by a constructor of `Ap4Atom.cpp` or by
`SetSize`, from a declared size that is at least the header size of the resulting atom
has `HeaderSize() <= Size()`. -/
theorem AP4_Atom.headerSize_le_size_of_sized (a : AP4_Atom) (h : a.Sized) :
    a.GetHeaderSize ≤ a.GetSize := by
  induction h with
  | new32 type size hs hh =>
    have h8 := (AP4_Atom.new32 type size).GetHeaderSize_ge
    have e : (AP4_Atom.new32 type size).m_Size32 = size := by
      simp only [AP4_Atom.new32]; omega
    apply AP4_Atom.short_sized <;> rw [e] <;> omega
  | new64 type size f hs hh => exact AP4_Atom.SetSize_sized _ size f hs hh
  | newFull32 type size version flags hs hh =>
    have h8 := (AP4_Atom.newFull32 type size version flags).GetHeaderSize_ge
    have e : (AP4_Atom.newFull32 type size version flags).m_Size32 = size := by
      simp only [AP4_Atom.newFull32]; omega
    apply AP4_Atom.short_sized <;> rw [e] <;> omega
  | newFull64 type size f version flags hs hh => exact AP4_Atom.SetSize_sized _ size f hs hh
  | unknown type size handle stream hs hh hfit =>
    rw [AP4_UnknownAtom.new_atom_unclamped type size handle stream hs hfit]
    exact AP4_Atom.SetSize_sized _ size false hs hh
  | unknownFromPayload type payload hp =>
    have e : (AP4_ATOM_HEADER_SIZE + payload.length) % 2 ^ 32
        = AP4_ATOM_HEADER_SIZE + payload.length := Nat.mod_eq_of_lt hp
    simp only [AP4_UnknownAtom.newFromPayload, e]
    unfold AP4_ATOM_HEADER_SIZE at hp ⊢
    have hsz : 8 + payload.length < 2 ^ 32 := hp
    rw [AP4_Atom.new64, AP4_Atom.SetSize_eq _ _ false (by omega)]
    have hlt : 8 + payload.length < 4294967296 := by omega
    have hne : ¬ 8 + payload.length = 1 := by omega
    simp [AP4_Atom.GetHeaderSize, AP4_Atom.GetSize, AP4_ATOM_HEADER_SIZE, hlt, hne]
  | unknownCopy other _ ih =>
    have hsz : other.copy.atom.GetSize = other.atom.GetSize := by
      simp [AP4_UnknownAtom.copy, AP4_Atom.GetSize]
    have hhd : other.copy.atom.GetHeaderSize ≤ other.atom.GetHeaderSize := by
      simp only [AP4_UnknownAtom.copy, AP4_Atom.GetHeaderSize, AP4_Atom.new32,
        AP4_ATOM_HEADER_SIZE, AP4_FULL_ATOM_HEADER_SIZE]
      cases other.atom.m_IsFull <;> simp
    omega
  | stringFromValue type value hv =>
    unfold AP4_ATOM_HEADER_SIZE at hv
    have e : (8 + (AP4_NullTerminatedStringAtom.cString value).length + 1) % 4294967296
        = 8 + (AP4_NullTerminatedStringAtom.cString value).length + 1 := by omega
    simp only [AP4_NullTerminatedStringAtom.newFromValue, AP4_Atom.new32, AP4_Atom.GetHeaderSize,
      AP4_Atom.GetSize, AP4_ATOM_HEADER_SIZE, beq_iff_eq, Bool.false_eq_true, if_false]
    norm_num
    rw [e]
    split <;> omega
  | string type size stream hs hh =>
    rw [AP4_NullTerminatedStringAtom.new_atom type size stream hs]
    exact AP4_Atom.SetSize_sized _ size false hs hh
  | setSize a n f hn hh => exact AP4_Atom.SetSize_sized a n f hn hh

theorem AP4_Atom.headerSize_le_size_of_sized_witness :
    ((AP4_Atom.new64 0x6d6f6f76 16 false).SetSize 24 true).GetHeaderSize
      ≤ ((AP4_Atom.new64 0x6d6f6f76 16 false).SetSize 24 true).GetSize :=
  AP4_Atom.headerSize_le_size_of_sized _
    (AP4_Atom.Sized.setSize _ 24 true (by norm_num) (by decide))

/-- C5 as stated fails: `AP4_Atom(type, 0)` is produced by a constructor and has `Size()`
0 below `HeaderSize()` 8; so does every atom after `SetSize(0, false)`. -/
theorem AP4_Atom.headerSize_le_size_counterexample :
    (AP4_Atom.new32 0x66726565 0).Constructed ∧
    (AP4_Atom.new32 0x66726565 0).GetSize = 0 ∧
    (AP4_Atom.new32 0x66726565 0).GetHeaderSize = 8 ∧
    ((AP4_Atom.new32 0x66726565 16).SetSize 0 false).Constructed ∧
    ¬ ((AP4_Atom.new32 0x66726565 16).SetSize 0 false).GetHeaderSize
        ≤ ((AP4_Atom.new32 0x66726565 16).SetSize 0 false).GetSize :=
  ⟨AP4_Atom.Constructed.new32 _ _, by decide, by decide,
   AP4_Atom.Constructed.setSize _ _ _ (AP4_Atom.Constructed.new32 _ _), by decide⟩

/-! ## Atom parents -/

@[simp] theorem AP4_Heap.setChildren_children (h : AP4_Heap) (p : Nat) (l : List Nat) (q : Nat) :
    (h.setChildren p l).children q = if q = p then l else h.children q := rfl

@[simp] theorem AP4_Heap.setChildren_atoms (h : AP4_Heap) (p : Nat) (l : List Nat) :
    (h.setChildren p l).atoms = h.atoms := rfl

@[simp] theorem AP4_Heap.setChildren_next (h : AP4_Heap) (p : Nat) (l : List Nat) :
    (h.setChildren p l).next = h.next := rfl

@[simp] theorem AP4_Heap.setChildren_hooks (h : AP4_Heap) (p : Nat) (l : List Nat) :
    (h.setChildren p l).hooks = h.hooks := rfl

@[simp] theorem AP4_Heap.SetParent_parent (h : AP4_Heap) (x : Nat) (v : Option Nat) (y : Nat) :
    ((h.SetParent x v).atoms y).m_Parent = if y = x then v else (h.atoms y).m_Parent := by
  unfold AP4_Heap.SetParent
  by_cases hy : y = x <;> simp [hy]

@[simp] theorem AP4_Heap.SetParent_children (h : AP4_Heap) (x : Nat) (v : Option Nat) :
    (h.SetParent x v).children = h.children := rfl

@[simp] theorem AP4_Heap.SetParent_next (h : AP4_Heap) (x : Nat) (v : Option Nat) :
    (h.SetParent x v).next = h.next := rfl

@[simp] theorem AP4_Heap.SetParent_hooks (h : AP4_Heap) (x : Nat) (v : Option Nat) :
    (h.SetParent x v).hooks = h.hooks := rfl

@[simp] theorem AP4_Heap.OnChildAdded_atoms (h : AP4_Heap) (p c : Nat) :
    (h.OnChildAdded p c).atoms = h.atoms := rfl

@[simp] theorem AP4_Heap.OnChildAdded_children (h : AP4_Heap) (p c : Nat) :
    (h.OnChildAdded p c).children = h.children := rfl

@[simp] theorem AP4_Heap.OnChildAdded_next (h : AP4_Heap) (p c : Nat) :
    (h.OnChildAdded p c).next = h.next := rfl

@[simp] theorem AP4_Heap.OnChildAdded_hooks (h : AP4_Heap) (p c : Nat) :
    (h.OnChildAdded p c).hooks = h.hooks ++ [AP4_Hook.OnChildAdded p c] := rfl

@[simp] theorem AP4_Heap.OnChildRemoved_atoms (h : AP4_Heap) (p c : Nat) :
    (h.OnChildRemoved p c).atoms = h.atoms := rfl

@[simp] theorem AP4_Heap.OnChildRemoved_children (h : AP4_Heap) (p c : Nat) :
    (h.OnChildRemoved p c).children = h.children := rfl

@[simp] theorem AP4_Heap.OnChildRemoved_next (h : AP4_Heap) (p c : Nat) :
    (h.OnChildRemoved p c).next = h.next := rfl

@[simp] theorem AP4_Heap.OnChildRemoved_hooks (h : AP4_Heap) (p c : Nat) :
    (h.OnChildRemoved p c).hooks = h.hooks ++ [AP4_Hook.OnChildRemoved p c] := rfl

theorem AP4_AtomParent.insertionPoint_eq (items : List Nat) :
    ∀ (count i : Nat), 0 < count → count < 2 ^ 32 →
      AP4_AtomParent.insertionPoint items count i
        = if count ≤ items.length then some (i + count - 1) else none := by
  induction items with
  | nil =>
    intro count i h0 _
    have : ¬ count ≤ 0 := by omega
    simp [AP4_AtomParent.insertionPoint, this]
  | cons a rest ih =>
    intro count i h0 h32
    have hsub : AP4_Sub32 count 1 = count - 1 := AP4_Sub32_of_le count 1 h32 h0
    unfold AP4_AtomParent.insertionPoint
    simp only [hsub, List.length_cons]
    by_cases h1 : count = 1
    · subst h1
      simp
    · have hne : (count - 1 != 0) = true := by
        simp only [bne_iff_ne, ne_eq]
        omega
      rw [if_pos hne, ih (count - 1) (i + 1) (by omega) (by omega)]
      by_cases hle : count - 1 ≤ rest.length
      · rw [if_pos hle, if_pos (by omega)]
        congr 1
        omega
      · rw [if_neg hle, if_neg (by omega)]

/-- What `AddChild` does, case by case: the state is unchanged and the result is an error,
or the child had no parent and was inserted at some index of the child list. -/
theorem AP4_AtomParent.AddChild_cases (h : AP4_Heap) (self child : Nat) (position : Int) :
    (((AP4_AtomParent.AddChild h self child position).1 = AP4_Result.INVALID_PARAMETERS ∨
      (AP4_AtomParent.AddChild h self child position).1 = AP4_Result.OUT_OF_RANGE) ∧
      (AP4_AtomParent.AddChild h self child position).2 = h) ∨
    (h.GetParent child = none ∧ ∃ idx,
      AP4_AtomParent.AddChild h self child position = (AP4_Result.SUCCESS,
        ((h.setChildren self ((h.children self).take idx ++ child :: (h.children self).drop idx)).SetParent
          child (some self)).OnChildAdded self child)) := by
  unfold AP4_AtomParent.AddChild
  cases hpar : h.GetParent child with
  | some q => left; simp
  | none =>
    simp only [Option.isSome_none, Bool.false_eq_true, if_false]
    by_cases hp1 : position = -1
    · right
      refine ⟨trivial, (h.children self).length, ?_⟩
      simp [hp1, AP4_List.Add, AP4_FAILED]
    · by_cases hp0 : position = 0
      · right
        refine ⟨trivial, 0, ?_⟩
        simp [hp0, AP4_List.Insert, AP4_FAILED]
      · simp only [beq_iff_eq, hp1, hp0, if_false]
        cases hip : AP4_AtomParent.insertionPoint (h.children self) (position % 2 ^ 32).toNat 0 with
        | none => left; simp [AP4_FAILED]
        | some i =>
          right
          refine ⟨trivial, i + 1, ?_⟩
          simp [AP4_List.Insert, AP4_FAILED]

theorem AP4_AtomParent.AddChild_at (h : AP4_Heap) (self x : Nat) (p : Int)
    (hx : h.GetParent x = none) (hlo : -2 ^ 31 ≤ p) (hhi : p < 2 ^ 31)
    (hn : (h.children self).length < 2 ^ 31) :
    AP4_AtomParent.AddChild h self x p =
      if p = -1 ∨ (0 ≤ p ∧ p ≤ (h.children self).length) then
        (AP4_Result.SUCCESS,
          ((h.setChildren self
              ((h.children self).take (if p = -1 then (h.children self).length else p.toNat)
                ++ x :: (h.children self).drop
                  (if p = -1 then (h.children self).length else p.toNat))).SetParent
            x (some self)).OnChildAdded self x)
      else (AP4_Result.OUT_OF_RANGE, h) := by
  unfold AP4_AtomParent.AddChild
  simp only [hx, Option.isSome_none, Bool.false_eq_true, if_false]
  by_cases hp1 : p = -1
  · subst hp1
    simp [AP4_List.Add, AP4_FAILED]
  · by_cases hp0 : p = 0
    · subst hp0
      simp [AP4_List.Insert, AP4_FAILED]
    · simp only [beq_iff_eq, hp1, hp0, if_false, false_or]
      have hcnn : 0 ≤ p % 2 ^ 32 := Int.emod_nonneg p (by norm_num)
      have hclt : p % 2 ^ 32 < 2 ^ 32 := Int.emod_lt_of_pos p (by norm_num)
      have hc : ((p % 2 ^ 32).toNat : Int) = p % 2 ^ 32 := Int.toNat_of_nonneg hcnn
      have hc0 : 0 < (p % 2 ^ 32).toNat := by omega
      have hc32 : (p % 2 ^ 32).toNat < 2 ^ 32 := by omega
      rw [AP4_AtomParent.insertionPoint_eq _ _ 0 hc0 hc32]
      have hcond : (0 ≤ p ∧ p ≤ (h.children self).length)
          ↔ (p % 2 ^ 32).toNat ≤ (h.children self).length := by omega
      simp only [hcond]
      by_cases hle : (p % 2 ^ 32).toNat ≤ (h.children self).length
      · have hidx : 0 + (p % 2 ^ 32).toNat - 1 + 1 = p.toNat := by omega
        simp only [hle, if_true, AP4_List.Insert, AP4_FAILED, hidx, bne_self_eq_false,
          Bool.false_eq_true, if_false, List.append_assoc, List.singleton_append]
      · simp only [hle, if_false, AP4_FAILED]
        rfl

/-- C6: for a parentless atom `x` and an `int` position `p`, `AddChild(x, p)` succeeds exactly
when `p == -1` or `0 <= p <= n`, where `n` is the length of the child list `L` (a list
whose length fits an `int`).  On success `x` is inserted at index `n` when `p == -1` and
at index `p` otherwise, the other children keep their order, `x.parent` is the parent,
`OnChildAdded` is invoked once, and no other child list or parent reference changes.
For every other `p` the result is `OUT_OF_RANGE`. -/
theorem AP4_AtomParent.AddChild_spec (h : AP4_Heap) (self x : Nat) (p : Int)
    (hx : h.GetParent x = none) (hlo : -2 ^ 31 ≤ p) (hhi : p < 2 ^ 31)
    (hn : (h.children self).length < 2 ^ 31) :
    ((AP4_AtomParent.AddChild h self x p).1 = AP4_Result.SUCCESS ↔
      (p = -1 ∨ (0 ≤ p ∧ p ≤ (h.children self).length))) ∧
    ((p = -1 ∨ (0 ≤ p ∧ p ≤ (h.children self).length)) →
      (AP4_AtomParent.AddChild h self x p).2.children self
        = (h.children self).take (if p = -1 then (h.children self).length else p.toNat)
          ++ x :: (h.children self).drop (if p = -1 then (h.children self).length else p.toNat) ∧
      (AP4_AtomParent.AddChild h self x p).2.GetParent x = some self ∧
      (AP4_AtomParent.AddChild h self x p).2.hooks
        = h.hooks ++ [AP4_Hook.OnChildAdded self x] ∧
      (∀ q, q ≠ self → (AP4_AtomParent.AddChild h self x p).2.children q = h.children q) ∧
      (∀ y, y ≠ x → (AP4_AtomParent.AddChild h self x p).2.GetParent y = h.GetParent y)) ∧
    (¬ (p = -1 ∨ (0 ≤ p ∧ p ≤ (h.children self).length)) →
      (AP4_AtomParent.AddChild h self x p).1 = AP4_Result.OUT_OF_RANGE ∧
      (AP4_AtomParent.AddChild h self x p).2 = h) := by
  have hat := AP4_AtomParent.AddChild_at h self x p hx hlo hhi hn
  refine ⟨?_, ?_, ?_⟩
  · by_cases hc : p = -1 ∨ (0 ≤ p ∧ p ≤ (h.children self).length)
    · rw [hat, if_pos hc]
      simp [hc]
    · rw [hat, if_neg hc]
      simp [hc]
  · intro hc
    rw [hat, if_pos hc]
    refine ⟨by simp, by simp [AP4_Heap.GetParent], by simp, ?_, ?_⟩
    · intro q hq
      simp [hq]
    · intro y hy
      simp [AP4_Heap.GetParent, hy]
  · intro hc
    rw [hat, if_neg hc]
    exact ⟨rfl, rfl⟩

/-- C7: `AddChild` on an atom that has a parent returns `INVALID_PARAMETERS` whatever the
position, and whenever `AddChild` does not return `SUCCESS` it returns
`INVALID_PARAMETERS` or `OUT_OF_RANGE` and the whole state (child lists, parent
references, the log of hook calls) is what it was before the call. -/
theorem AP4_AtomParent.AddChild_failure_atomic (h : AP4_Heap) (self x : Nat) (p : Int) :
    ((h.GetParent x).isSome →
      (AP4_AtomParent.AddChild h self x p).1 = AP4_Result.INVALID_PARAMETERS) ∧
    ((AP4_AtomParent.AddChild h self x p).1 ≠ AP4_Result.SUCCESS →
      ((AP4_AtomParent.AddChild h self x p).1 = AP4_Result.INVALID_PARAMETERS ∨
        (AP4_AtomParent.AddChild h self x p).1 = AP4_Result.OUT_OF_RANGE) ∧
      (AP4_AtomParent.AddChild h self x p).2 = h ∧
      (AP4_AtomParent.AddChild h self x p).2.children self = h.children self ∧
      (AP4_AtomParent.AddChild h self x p).2.GetParent x = h.GetParent x ∧
      (AP4_AtomParent.AddChild h self x p).2.hooks = h.hooks) := by
  refine ⟨?_, ?_⟩
  · intro hx
    unfold AP4_AtomParent.AddChild
    simp [hx]
  · intro hne
    rcases AP4_AtomParent.AddChild_cases h self x p with ⟨hr, hs⟩ | ⟨_, idx, he⟩
    · refine ⟨hr, hs, ?_, ?_, ?_⟩ <;> rw [hs]
    · rw [he] at hne
      exact absurd rfl hne

theorem AP4_AtomParent.AddChild_spec_witness :
    (AP4_AtomParent.AddChild AP4_Heap.sample 0 4 1).2.children 0 = [1, 4, 2, 3] ∧
    (AP4_AtomParent.AddChild AP4_Heap.sample 0 4 1).2.GetParent 4 = some 0 ∧
    (AP4_AtomParent.AddChild AP4_Heap.sample 0 4 4).1 = AP4_Result.OUT_OF_RANGE := by
  have h1 := (AP4_AtomParent.AddChild_spec AP4_Heap.sample 0 4 1 (by decide) (by norm_num)
    (by norm_num) (by decide)).2.1 (by decide)
  have h2 := (AP4_AtomParent.AddChild_spec AP4_Heap.sample 0 4 4 (by decide) (by norm_num)
    (by norm_num) (by decide)).2.2 (by decide)
  exact ⟨h1.1.trans (by decide), h1.2.1, h2.1⟩

theorem AP4_AtomParent.RemoveChild_eq (h : AP4_Heap) (self x : Nat) :
    AP4_AtomParent.RemoveChild h self x =
      if h.GetParent x ≠ some self then (AP4_Result.INVALID_PARAMETERS, h)
      else if x ∈ h.children self then
        (AP4_Result.SUCCESS,
          ((h.setChildren self ((h.children self).erase x)).SetParent x none).OnChildRemoved self x)
      else (AP4_Result.NO_SUCH_ITEM, h) := by
  unfold AP4_AtomParent.RemoveChild
  by_cases hp : h.GetParent x = some self
  · by_cases hm : x ∈ h.children self
    · simp [hp, hm, AP4_List.Remove, AP4_FAILED]
    · simp [hp, hm, AP4_List.Remove, AP4_FAILED]
  · simp [hp]

/-- C8: on a state that satisfies the tree invariant, `RemoveChild(x)` returns
`INVALID_PARAMETERS` and changes nothing if and only if `x.parent` is not the parent;
otherwise it succeeds, `x.parent` becomes absent, the child list becomes the previous
list without `x` with the other children in their previous order, `OnChildRemoved` is
invoked once, and no other child list or parent reference changes. -/
theorem AP4_AtomParent.RemoveChild_spec (h : AP4_Heap) (self x : Nat) (hinv : h.TreeInvariant) :
    (((AP4_AtomParent.RemoveChild h self x).1 = AP4_Result.INVALID_PARAMETERS ∧
        (AP4_AtomParent.RemoveChild h self x).2 = h) ↔ h.GetParent x ≠ some self) ∧
    (h.GetParent x = some self →
      (AP4_AtomParent.RemoveChild h self x).1 = AP4_Result.SUCCESS ∧
      (AP4_AtomParent.RemoveChild h self x).2.GetParent x = none ∧
      (AP4_AtomParent.RemoveChild h self x).2.children self = (h.children self).erase x ∧
      (h.children self).erase x = (h.children self).filter (fun y => y != x) ∧
      x ∉ (AP4_AtomParent.RemoveChild h self x).2.children self ∧
      (AP4_AtomParent.RemoveChild h self x).2.hooks
        = h.hooks ++ [AP4_Hook.OnChildRemoved self x] ∧
      (∀ q, q ≠ self → (AP4_AtomParent.RemoveChild h self x).2.children q = h.children q) ∧
      (∀ y, y ≠ x → (AP4_AtomParent.RemoveChild h self x).2.GetParent y = h.GetParent y)) := by
  have heq := AP4_AtomParent.RemoveChild_eq h self x
  obtain ⟨_, h2, h3, _⟩ := hinv
  refine ⟨?_, ?_⟩
  · constructor
    · rintro ⟨hr, _⟩ hp
      have hm : x ∈ h.children self := h2 self x hp
      rw [heq, if_neg (by simp [hp]), if_pos hm] at hr
      exact AP4_Result.noConfusion hr
    · intro hp
      rw [heq, if_pos hp]
      exact ⟨rfl, rfl⟩
  · intro hp
    have hm : x ∈ h.children self := h2 self x hp
    have hnd := h3 self
    rw [heq, if_neg (by simp [hp]), if_pos hm]
    refine ⟨rfl, by simp [AP4_Heap.GetParent], by simp, hnd.erase_eq_filter x, ?_, by simp,
      ?_, ?_⟩
    · simp only [AP4_Heap.OnChildRemoved_children, AP4_Heap.SetParent_children,
        AP4_Heap.setChildren_children, if_true]
      exact fun hmem => ((List.Nodup.mem_erase_iff hnd).mp hmem).1 rfl
    · intro q hq
      simp [hq]
    · intro y hy
      simp [AP4_Heap.GetParent, hy]

theorem AP4_Heap.sample_treeInvariant : AP4_Heap.sample.TreeInvariant := by
  have hc : ∀ p c, c ∈ AP4_Heap.sample.children p → p = 0 ∧ (c = 1 ∨ c = 2 ∨ c = 3) := by
    intro p c hm
    by_cases hp : p = 0
    · subst hp
      simpa [AP4_Heap.sample] using hm
    · simp [AP4_Heap.sample, hp] at hm
  have h1 : ∀ p c, c ∈ AP4_Heap.sample.children p →
      (AP4_Heap.sample.atoms c).m_Parent = some p := by
    intro p c hm
    obtain ⟨hp, hcc⟩ := hc p c hm
    subst hp
    rcases hcc with rfl | rfl | rfl <;> rfl
  refine ⟨h1, ?_, ?_, ?_⟩
  · intro p c hp
    by_cases c0 : c = 0
    · subst c0
      have e : (AP4_Heap.sample.atoms 0).m_Parent = none := rfl
      rw [e] at hp
      exact Option.noConfusion hp
    by_cases c1 : c = 1
    · subst c1
      have : p = 0 := by
        have e : (AP4_Heap.sample.atoms 1).m_Parent = some 0 := rfl
        rw [e] at hp
        exact (Option.some.inj hp).symm
      subst this; decide
    by_cases c2 : c = 2
    · subst c2
      have : p = 0 := by
        have e : (AP4_Heap.sample.atoms 2).m_Parent = some 0 := rfl
        rw [e] at hp
        exact (Option.some.inj hp).symm
      subst this; decide
    by_cases c3 : c = 3
    · subst c3
      have : p = 0 := by
        have e : (AP4_Heap.sample.atoms 3).m_Parent = some 0 := rfl
        rw [e] at hp
        exact (Option.some.inj hp).symm
      subst this; decide
    · simp [AP4_Heap.sample, c0, c1, c2, c3, AP4_Atom.new32] at hp
  · intro p
    by_cases hp : p = 0
    · subst hp; decide
    · simp [AP4_Heap.sample, hp]
  · intro p q c hp hq
    rw [(hc p c hp).1, (hc q c hq).1]

theorem AP4_AtomParent.RemoveChild_spec_witness :
    (AP4_AtomParent.RemoveChild AP4_Heap.sample 0 2).1 = AP4_Result.SUCCESS ∧
    (AP4_AtomParent.RemoveChild AP4_Heap.sample 0 2).2.children 0 = [1, 3] ∧
    (AP4_AtomParent.RemoveChild AP4_Heap.sample 0 2).2.GetParent 2 = none := by
  have h := (AP4_AtomParent.RemoveChild_spec AP4_Heap.sample 0 2
    AP4_Heap.sample_treeInvariant).2 (by decide)
  exact ⟨h.1, h.2.2.1.trans (by decide), h.2.1⟩

theorem AP4_Atom.clear_parent_eq (a : AP4_Atom) (v : Option Nat) (h : a.m_Parent = none) :
    { ({ a with m_Parent := v } : AP4_Atom) with m_Parent := none } = a := by
  cases a
  simp only at h
  subst h
  rfl

theorem AP4_List.erase_inserted (l : List Nat) (x idx : Nat) (hx : x ∉ l) :
    (l.take idx ++ x :: l.drop idx).erase x = l := by
  have hxt : x ∉ l.take idx := fun hm => hx (List.mem_of_mem_take hm)
  rw [List.erase_append_right _ hxt, List.erase_cons_head, List.take_append_drop]

/-- C9: when `x` has no parent, is not in the child list `L` of the parent and
`AddChild(x, p)` succeeds, the following `RemoveChild(x)` succeeds, the child list is again
exactly `L`, `x.parent` is absent, and every child list and every atom of the state is
what it was before the two calls. -/
theorem AP4_AtomParent.AddChild_RemoveChild (h : AP4_Heap) (self x : Nat) (p : Int)
    (hx : h.GetParent x = none) (hxL : x ∉ h.children self)
    (hadd : (AP4_AtomParent.AddChild h self x p).1 = AP4_Result.SUCCESS) :
    (AP4_AtomParent.RemoveChild (AP4_AtomParent.AddChild h self x p).2 self x).1
      = AP4_Result.SUCCESS ∧
    (AP4_AtomParent.RemoveChild (AP4_AtomParent.AddChild h self x p).2 self x).2.children self
      = h.children self ∧
    (AP4_AtomParent.RemoveChild (AP4_AtomParent.AddChild h self x p).2 self x).2.GetParent x
      = none ∧
    (AP4_AtomParent.RemoveChild (AP4_AtomParent.AddChild h self x p).2 self x).2.children
      = h.children ∧
    (AP4_AtomParent.RemoveChild (AP4_AtomParent.AddChild h self x p).2 self x).2.atoms
      = h.atoms := by
  rcases AP4_AtomParent.AddChild_cases h self x p with ⟨hr, _⟩ | ⟨_, idx, he⟩
  · rw [hadd] at hr
    rcases hr with hr | hr <;> exact AP4_Result.noConfusion hr
  · rw [he, AP4_AtomParent.RemoveChild_eq]
    have hpar : (((h.setChildren self ((h.children self).take idx ++ x :: (h.children self).drop
        idx)).SetParent x (some self)).OnChildAdded self x).GetParent x = some self := by
      simp [AP4_Heap.GetParent]
    have hmem : x ∈ (((h.setChildren self ((h.children self).take idx ++ x ::
        (h.children self).drop idx)).SetParent x (some self)).OnChildAdded self x).children self := by
      simp
    rw [if_neg (by simp [hpar]), if_pos hmem]
    have hlist : (((h.setChildren self ((h.children self).take idx ++ x ::
        (h.children self).drop idx)).SetParent x (some self)).OnChildAdded self x).children self
        = (h.children self).take idx ++ x :: (h.children self).drop idx := by
      simp
    have hch : ∀ q, (if q = self then
          ((h.children self).take idx ++ x :: (h.children self).drop idx).erase x
        else if q = self then (h.children self).take idx ++ x :: (h.children self).drop idx
        else h.children q) = h.children q := by
      intro q
      by_cases hq : q = self
      · subst hq
        simp only [if_true]
        exact AP4_List.erase_inserted _ x idx hxL
      · simp [hq]
    refine ⟨rfl, ?_, by simp [AP4_Heap.GetParent], ?_, ?_⟩
    · simp only [AP4_Heap.OnChildRemoved_children, AP4_Heap.SetParent_children,
        AP4_Heap.setChildren_children, AP4_Heap.OnChildAdded_children, if_true]
      exact AP4_List.erase_inserted _ x idx hxL
    · funext q
      simp only [AP4_Heap.OnChildRemoved_children, AP4_Heap.SetParent_children,
        AP4_Heap.setChildren_children, AP4_Heap.OnChildAdded_children, if_true]
      exact hch q
    · funext y
      simp only [AP4_Heap.OnChildRemoved_atoms, AP4_Heap.SetParent, AP4_Heap.setChildren_atoms,
        AP4_Heap.OnChildAdded_atoms, AP4_Heap.setChildren, if_true]
      by_cases hy : y = x
      · subst hy
        simp only [if_true]
        exact AP4_Atom.clear_parent_eq _ _ hx
      · simp [hy]

theorem AP4_AtomParent.AddChild_RemoveChild_witness :
    (AP4_AtomParent.RemoveChild (AP4_AtomParent.AddChild AP4_Heap.sample 0 4 2).2 0 4).1
      = AP4_Result.SUCCESS ∧
    (AP4_AtomParent.RemoveChild (AP4_AtomParent.AddChild AP4_Heap.sample 0 4 2).2 0 4).2.children 0
      = [1, 2, 3] ∧
    (AP4_AtomParent.AddChild AP4_Heap.sample 0 4 2).2.children 0 = [1, 2, 4, 3] := by
  have h := AP4_AtomParent.AddChild_RemoveChild AP4_Heap.sample 0 4 2 (by decide) (by decide)
    (by decide)
  exact ⟨h.1, h.2.1.trans (by decide), by decide⟩

/-! ## The tree invariant -/

theorem AP4_Heap.TreeInvariant.of_three (h : AP4_Heap)
    (h1 : ∀ p c, c ∈ h.children p → (h.atoms c).m_Parent = some p)
    (h2 : ∀ p c, (h.atoms c).m_Parent = some p → c ∈ h.children p)
    (h3 : ∀ p, (h.children p).Nodup) : h.TreeInvariant := by
  refine ⟨h1, h2, h3, ?_⟩
  intro p q c hp hq
  have e1 := h1 p c hp
  have e2 := h1 q c hq
  rw [e1] at e2
  exact Option.some.inj e2

theorem AP4_List.mem_inserted (l : List Nat) (x idx c : Nat) :
    c ∈ l.take idx ++ x :: l.drop idx ↔ c = x ∨ c ∈ l := by
  have hl : c ∈ l ↔ c ∈ l.take idx ∨ c ∈ l.drop idx := by
    rw [← List.mem_append, List.take_append_drop]
  rw [List.mem_append, List.mem_cons, hl]
  tauto

theorem AP4_List.nodup_inserted (l : List Nat) (x idx : Nat) (hx : x ∉ l) (hl : l.Nodup) :
    (l.take idx ++ x :: l.drop idx).Nodup := by
  rw [List.nodup_middle, List.take_append_drop]
  exact List.nodup_cons.mpr ⟨hx, hl⟩

theorem AP4_Heap.attach_wellFormed (h : AP4_Heap) (self x idx : Nat) (hwf : h.WellFormed)
    (hx : (h.atoms x).m_Parent = none) (hxn : x < h.next) (hsn : self < h.next) :
    (((h.setChildren self ((h.children self).take idx ++ x :: (h.children self).drop idx)).SetParent
      x (some self)).OnChildAdded self x).WellFormed := by
  obtain ⟨⟨h1, h2, h3, _⟩, hal⟩ := hwf
  have hxnot : ∀ p, x ∉ h.children p := by
    intro p hm
    have := h1 p x hm
    rw [hx] at this
    exact Option.noConfusion this
  refine ⟨AP4_Heap.TreeInvariant.of_three _ ?_ ?_ ?_, ?_⟩
  · intro p c hm
    simp only [AP4_Heap.OnChildAdded_children, AP4_Heap.SetParent_children,
      AP4_Heap.setChildren_children, AP4_Heap.OnChildAdded_atoms,
      AP4_Heap.SetParent_parent] at hm ⊢
    by_cases hp : p = self
    · subst hp
      rw [if_pos rfl] at hm
      rcases (AP4_List.mem_inserted _ x idx c).mp hm with hc | hc
      · simp [hc]
      · have hcx : c ≠ x := fun e => hxnot p (e ▸ hc)
        simp [hcx, h1 p c hc]
    · rw [if_neg hp] at hm
      have hcx : c ≠ x := fun e => hxnot p (e ▸ hm)
      simp [hcx, h1 p c hm]
  · intro p c hpar
    simp only [AP4_Heap.OnChildAdded_children, AP4_Heap.SetParent_children,
      AP4_Heap.setChildren_children, AP4_Heap.OnChildAdded_atoms,
      AP4_Heap.SetParent_parent] at hpar ⊢
    by_cases hcx : c = x
    · subst hcx
      rw [if_pos rfl] at hpar
      have hp : p = self := (Option.some.inj hpar).symm
      subst hp
      rw [if_pos rfl]
      exact (AP4_List.mem_inserted _ c idx c).mpr (Or.inl rfl)
    · rw [if_neg hcx] at hpar
      have hm := h2 p c hpar
      by_cases hp : p = self
      · subst hp
        rw [if_pos rfl]
        exact (AP4_List.mem_inserted _ x idx c).mpr (Or.inr hm)
      · rw [if_neg hp]
        exact hm
  · intro p
    simp only [AP4_Heap.OnChildAdded_children, AP4_Heap.SetParent_children,
      AP4_Heap.setChildren_children]
    by_cases hp : p = self
    · subst hp
      rw [if_pos rfl]
      exact AP4_List.nodup_inserted _ x idx (hxnot p) (h3 p)
    · rw [if_neg hp]
      exact h3 p
  · intro i hi
    simp only [AP4_Heap.OnChildAdded_next, AP4_Heap.SetParent_next,
      AP4_Heap.setChildren_next] at hi
    have hix : i ≠ x := by omega
    have his : i ≠ self := by omega
    simp only [AP4_Heap.OnChildAdded_children, AP4_Heap.SetParent_children,
      AP4_Heap.setChildren_children, AP4_Heap.OnChildAdded_atoms, AP4_Heap.SetParent_parent,
      if_neg hix, if_neg his]
    exact hal i hi

theorem AP4_Heap.detach_wellFormed (h : AP4_Heap) (self x : Nat) (hwf : h.WellFormed)
    (hx : (h.atoms x).m_Parent = some self) :
    (((h.setChildren self ((h.children self).erase x)).SetParent x none).OnChildRemoved
      self x).WellFormed := by
  obtain ⟨⟨h1, h2, h3, _⟩, hal⟩ := hwf
  have hxonly : ∀ p, x ∈ h.children p → p = self := by
    intro p hm
    have := h1 p x hm
    rw [hx] at this
    exact (Option.some.inj this).symm
  refine ⟨AP4_Heap.TreeInvariant.of_three _ ?_ ?_ ?_, ?_⟩
  · intro p c hm
    simp only [AP4_Heap.OnChildRemoved_children, AP4_Heap.SetParent_children,
      AP4_Heap.setChildren_children, AP4_Heap.OnChildRemoved_atoms,
      AP4_Heap.SetParent_parent] at hm ⊢
    by_cases hp : p = self
    · subst hp
      rw [if_pos rfl] at hm
      obtain ⟨hcx, hc⟩ := (List.Nodup.mem_erase_iff (h3 p)).mp hm
      simp [hcx, h1 p c hc]
    · rw [if_neg hp] at hm
      have hcx : c ≠ x := fun e => hp (hxonly p (e ▸ hm))
      simp [hcx, h1 p c hm]
  · intro p c hpar
    simp only [AP4_Heap.OnChildRemoved_children, AP4_Heap.SetParent_children,
      AP4_Heap.setChildren_children, AP4_Heap.OnChildRemoved_atoms,
      AP4_Heap.SetParent_parent] at hpar ⊢
    by_cases hcx : c = x
    · rw [if_pos hcx] at hpar
      exact Option.noConfusion hpar
    · rw [if_neg hcx] at hpar
      have hm := h2 p c hpar
      by_cases hp : p = self
      · subst hp
        rw [if_pos rfl]
        exact (List.Nodup.mem_erase_iff (h3 p)).mpr ⟨hcx, hm⟩
      · rw [if_neg hp]
        exact hm
  · intro p
    simp only [AP4_Heap.OnChildRemoved_children, AP4_Heap.SetParent_children,
      AP4_Heap.setChildren_children]
    by_cases hp : p = self
    · subst hp
      rw [if_pos rfl]
      exact (h3 p).erase x
    · rw [if_neg hp]
      exact h3 p
  · intro i hi
    simp only [AP4_Heap.OnChildRemoved_next, AP4_Heap.SetParent_next,
      AP4_Heap.setChildren_next] at hi
    obtain ⟨hpi, hci⟩ := hal i hi
    simp only [AP4_Heap.OnChildRemoved_children, AP4_Heap.SetParent_children,
      AP4_Heap.setChildren_children, AP4_Heap.OnChildRemoved_atoms, AP4_Heap.SetParent_parent]
    refine ⟨?_, ?_⟩
    · by_cases hix : i = x
      · rw [if_pos hix]
      · rw [if_neg hix]; exact hpi
    · by_cases his : i = self
      · subst his
        rw [if_pos rfl, hci]
        rfl
      · rw [if_neg his]; exact hci

theorem AP4_AtomParent.AddChild_wellFormed (h : AP4_Heap) (self child : Nat) (position : Int)
    (hwf : h.WellFormed) (hsn : self < h.next) (hcn : child < h.next) :
    (AP4_AtomParent.AddChild h self child position).2.WellFormed ∧
    (AP4_AtomParent.AddChild h self child position).2.next = h.next := by
  rcases AP4_AtomParent.AddChild_cases h self child position with ⟨_, hs⟩ | ⟨hpar, idx, he⟩
  · rw [hs]
    exact ⟨hwf, rfl⟩
  · rw [he]
    exact ⟨AP4_Heap.attach_wellFormed h self child idx hwf hpar hcn hsn, rfl⟩

theorem AP4_AtomParent.RemoveChild_wellFormed (h : AP4_Heap) (self child : Nat)
    (hwf : h.WellFormed) :
    (AP4_AtomParent.RemoveChild h self child).2.WellFormed ∧
    (AP4_AtomParent.RemoveChild h self child).2.next = h.next := by
  rw [AP4_AtomParent.RemoveChild_eq]
  by_cases hp : h.GetParent child = some self
  · rw [if_neg (by simp [hp])]
    by_cases hm : child ∈ h.children self
    · rw [if_pos hm]
      exact ⟨AP4_Heap.detach_wellFormed h self child hwf hp, rfl⟩
    · rw [if_neg hm]
      exact ⟨hwf, rfl⟩
  · rw [if_pos hp]
    exact ⟨hwf, rfl⟩

theorem AP4_AtomParent.DeleteChild_wellFormed (h : AP4_Heap) (self type index : Nat)
    (hwf : h.WellFormed) :
    (AP4_AtomParent.DeleteChild h self type index).2.WellFormed ∧
    (AP4_AtomParent.DeleteChild h self type index).2.next = h.next := by
  unfold AP4_AtomParent.DeleteChild
  cases AP4_AtomParent.GetChild h self type index with
  | none => exact ⟨hwf, rfl⟩
  | some child =>
    have hr := AP4_AtomParent.RemoveChild_wellFormed h self child hwf
    simp only
    split
    · exact hr
    · exact ⟨hr.1, hr.2⟩

theorem AP4_List.FindNth_mem (test : Nat → Bool) (l : List Nat) :
    ∀ (index x : Nat), AP4_List.FindNth test l index = some x → x ∈ l ∧ test x = true := by
  induction l with
  | nil => intro index x hx; simp [AP4_List.FindNth] at hx
  | cons a rest ih =>
    intro index x hx
    unfold AP4_List.FindNth at hx
    by_cases ht : test a = true
    · rw [if_pos ht] at hx
      by_cases h0 : (index == 0) = true
      · rw [if_pos h0] at hx
        have := Option.some.inj hx
        subst this
        exact ⟨List.mem_cons_self _ _, ht⟩
      · rw [if_neg h0] at hx
        obtain ⟨hm, hxt⟩ := ih _ x hx
        exact ⟨List.mem_cons_of_mem _ hm, hxt⟩
    · rw [if_neg ht] at hx
      obtain ⟨hm, hxt⟩ := ih _ x hx
      exact ⟨List.mem_cons_of_mem _ hm, hxt⟩

theorem AP4_Heap.lt_next_of_mem (h : AP4_Heap) (hwf : h.WellFormed) (p c : Nat)
    (hm : c ∈ h.children p) : c < h.next ∧ p < h.next := by
  obtain ⟨⟨h1, _, _, _⟩, hal⟩ := hwf
  have hpar := h1 p c hm
  refine ⟨?_, ?_⟩
  · by_contra hge
    have := (hal c (by omega)).1
    rw [hpar] at this
    exact Option.noConfusion this
  · by_contra hge
    have := (hal p (by omega)).2
    rw [this] at hm
    exact List.not_mem_nil _ hm

theorem AP4_Heap.alloc_wellFormed (h : AP4_Heap) (atom : AP4_Atom) (isContainer : Bool)
    (hwf : h.WellFormed) :
    (h.alloc atom isContainer).2.WellFormed ∧
    (h.alloc atom isContainer).1 = h.next ∧
    (h.alloc atom isContainer).2.next = h.next + 1 ∧
    ((h.alloc atom isContainer).2.atoms h.next).m_Parent = none := by
  obtain ⟨⟨h1, h2, h3, _⟩, hal⟩ := hwf
  have hkp : (h.atoms h.next).m_Parent = none := (hal h.next (le_refl _)).1
  have hkc : h.children h.next = [] := (hal h.next (le_refl _)).2
  have hatoms : ∀ y, (((h.alloc atom isContainer).2).atoms y).m_Parent
      = if y = h.next then none else (h.atoms y).m_Parent := by
    intro y
    unfold AP4_Heap.alloc
    by_cases hy : y = h.next <;> simp [hy]
  have hchildren : ∀ q, ((h.alloc atom isContainer).2).children q
      = if q = h.next then [] else h.children q := fun q => rfl
  refine ⟨⟨AP4_Heap.TreeInvariant.of_three _ ?_ ?_ ?_, ?_⟩, rfl, rfl, ?_⟩
  · intro p c hm
    rw [hchildren] at hm
    rw [hatoms]
    by_cases hp : p = h.next
    · rw [if_pos hp] at hm
      exact absurd hm (List.not_mem_nil _)
    · rw [if_neg hp] at hm
      have hpar := h1 p c hm
      have hc : c ≠ h.next := by
        intro e
        rw [e, hkp] at hpar
        exact Option.noConfusion hpar
      rw [if_neg hc]
      exact hpar
  · intro p c hpar
    rw [hatoms] at hpar
    rw [hchildren]
    by_cases hc : c = h.next
    · rw [if_pos hc] at hpar
      exact Option.noConfusion hpar
    · rw [if_neg hc] at hpar
      have hm := h2 p c hpar
      have hp : p ≠ h.next := by
        intro e
        rw [e, hkc] at hm
        exact List.not_mem_nil _ hm
      rw [if_neg hp]
      exact hm
  · intro p
    rw [hchildren]
    by_cases hp : p = h.next
    · rw [if_pos hp]
      exact List.nodup_nil
    · rw [if_neg hp]
      exact h3 p
  · intro i hi
    have hi2 : h.next + 1 ≤ i := hi
    rw [hatoms, hchildren, if_neg (by omega), if_neg (by omega)]
    exact hal i (by omega)
  · rw [hatoms, if_pos rfl]

theorem AP4_AtomParent.GetChildUuidLoop_mem (h : AP4_Heap) (uuid : List Nat) (l : List Nat) :
    ∀ (index x : Nat), AP4_AtomParent.GetChildUuidLoop h uuid l index = some (some x) →
      x ∈ l ∧ (h.atoms x).m_Type = AP4_ATOM_TYPE_UUID ∧ h.uuid x = some uuid := by
  induction l with
  | nil =>
    intro index x hx
    exact Option.noConfusion (Option.some.inj hx)
  | cons a rest ih =>
    intro index x hx
    unfold AP4_AtomParent.GetChildUuidLoop at hx
    by_cases ht : ((h.atoms a).m_Type == AP4_ATOM_TYPE_UUID) = true
    · rw [if_pos ht] at hx
      cases hu : h.uuid a with
      | none =>
        rw [hu] at hx
        exact Option.noConfusion hx
      | some u =>
        rw [hu] at hx
        simp only at hx
        by_cases hm : (u == uuid) = true
        · rw [if_pos hm] at hx
          by_cases h0 : (index == 0) = true
          · rw [if_pos h0] at hx
            have := Option.some.inj (Option.some.inj hx)
            subst this
            refine ⟨List.mem_cons_self _ _, by simpa using ht, ?_⟩
            rw [hu]
            exact congrArg some (by simpa using hm)
          · rw [if_neg h0] at hx
            obtain ⟨hmem, hxt⟩ := ih _ x hx
            exact ⟨List.mem_cons_of_mem _ hmem, hxt⟩
        · rw [if_neg hm] at hx
          obtain ⟨hmem, hxt⟩ := ih _ x hx
          exact ⟨List.mem_cons_of_mem _ hmem, hxt⟩
    · rw [if_neg ht] at hx
      obtain ⟨hmem, hxt⟩ := ih _ x hx
      exact ⟨List.mem_cons_of_mem _ hmem, hxt⟩

theorem AP4_AtomParent.GetChildUuidLoop_eq_filter (h : AP4_Heap) (uuid : List Nat)
    (l : List Nat) :
    (∀ c ∈ l, (h.atoms c).m_Type = AP4_ATOM_TYPE_UUID → (h.uuid c).isSome = true) →
    ∀ index, AP4_AtomParent.GetChildUuidLoop h uuid l index
      = some ((l.filter (fun a => (h.atoms a).m_Type == AP4_ATOM_TYPE_UUID &&
          h.uuid a == some uuid))[index]?) := by
  induction l with
  | nil =>
    intro _ index
    rfl
  | cons a rest ih =>
    intro hl index
    have hrest := ih (fun c hc => hl c (List.mem_cons_of_mem _ hc))
    unfold AP4_AtomParent.GetChildUuidLoop
    by_cases ht : ((h.atoms a).m_Type == AP4_ATOM_TYPE_UUID) = true
    · rw [if_pos ht]
      have hsome := hl a (List.mem_cons_self _ _) (by simpa using ht)
      cases hu : h.uuid a with
      | none =>
        rw [hu] at hsome
        exact Bool.noConfusion hsome
      | some u =>
        simp only
        by_cases hm : (u == uuid) = true
        · have hp : ((h.atoms a).m_Type == AP4_ATOM_TYPE_UUID && h.uuid a == some uuid) = true := by
            rw [ht, hu]
            have : u = uuid := by simpa using hm
            subst this
            simp
          have hf : (a :: rest).filter (fun a => (h.atoms a).m_Type == AP4_ATOM_TYPE_UUID &&
              h.uuid a == some uuid)
              = a :: rest.filter (fun a => (h.atoms a).m_Type == AP4_ATOM_TYPE_UUID &&
                h.uuid a == some uuid) := List.filter_cons_of_pos hp
          rw [if_pos hm, hf]
          cases index with
          | zero => simp
          | succ i =>
            have hne : ((i + 1 == 0) = true) = False := by simp
            simp only [hne, if_false, Nat.add_sub_cancel, List.getElem?_cons_succ]
            exact hrest i
        · have hp : ¬ ((h.atoms a).m_Type == AP4_ATOM_TYPE_UUID && h.uuid a == some uuid)
              = true := by
            rw [ht, hu]
            intro hc
            apply hm
            simpa using hc
          have hf : (a :: rest).filter (fun a => (h.atoms a).m_Type == AP4_ATOM_TYPE_UUID &&
              h.uuid a == some uuid)
              = rest.filter (fun a => (h.atoms a).m_Type == AP4_ATOM_TYPE_UUID &&
                h.uuid a == some uuid) := List.filter_cons_of_neg hp
          rw [if_neg hm, hf]
          exact hrest index
    · have hp : ¬ ((h.atoms a).m_Type == AP4_ATOM_TYPE_UUID && h.uuid a == some uuid)
          = true := by
        intro hc
        apply ht
        simp only [Bool.and_eq_true] at hc
        exact hc.1
      have hf : (a :: rest).filter (fun a => (h.atoms a).m_Type == AP4_ATOM_TYPE_UUID &&
          h.uuid a == some uuid)
          = rest.filter (fun a => (h.atoms a).m_Type == AP4_ATOM_TYPE_UUID &&
            h.uuid a == some uuid) := List.filter_cons_of_neg hp
      rw [if_neg ht, hf]
      exact hrest index

theorem AP4_AtomParent.GetChildUuidLoop_null (h : AP4_Heap) (uuid : List Nat)
    (l : List Nat) :
    ∀ index, AP4_AtomParent.GetChildUuidLoop h uuid l index = none →
      ∃ c ∈ l, (h.atoms c).m_Type = AP4_ATOM_TYPE_UUID ∧ h.uuid c = none := by
  intro index hn
  by_contra hno
  have hl : ∀ c ∈ l, (h.atoms c).m_Type = AP4_ATOM_TYPE_UUID → (h.uuid c).isSome = true := by
    intro c hc ht
    cases hu : h.uuid c with
    | none => exact absurd ⟨c, hc, ht, hu⟩ hno
    | some u => rfl
  rw [AP4_AtomParent.GetChildUuidLoop_eq_filter h uuid l hl index] at hn
  exact Option.noConfusion hn

theorem AP4_AtomParent.lookup_mem (h : AP4_Heap) (parent : Nat) (seg : AP4_PathSegment)
    (a : Nat) (hl : AP4_AtomParent.lookup h parent seg = some (some a)) :
    a ∈ h.children parent := by
  unfold AP4_AtomParent.lookup at hl
  split at hl
  · exact (AP4_AtomParent.GetChildUuidLoop_mem h _ _ _ _ hl).1
  · exact (AP4_List.FindNth_mem _ _ _ _ (Option.some.inj hl)).1

theorem AP4_AtomParent.lookup_uuidTyped (h : AP4_Heap) (parent : Nat) (seg : AP4_PathSegment)
    (hu : ∀ c ∈ h.children parent,
      (h.atoms c).m_Type = AP4_ATOM_TYPE_UUID → (h.uuid c).isSome = true) :
    ∃ r, AP4_AtomParent.lookup h parent seg = some r := by
  unfold AP4_AtomParent.lookup
  split
  · exact ⟨_, AP4_AtomParent.GetChildUuidLoop_eq_filter h _ _ hu _⟩
  · exact ⟨_, rfl⟩

theorem AP4_AtomParent.findOrCreate_eq (h : AP4_Heap) (parent : Nat) (seg : AP4_PathSegment)
    (auto_create auto_create_full : Bool) :
    AP4_AtomParent.findOrCreate h parent seg auto_create auto_create_full
      = match AP4_AtomParent.lookup h parent seg with
        | none => none
        | some (some atom) => some (some (atom, h))
        | some none =>
          if auto_create && seg.index == 0 then
            some (some (h.next, (AP4_AtomParent.AddChild
              (h.alloc (if auto_create_full then AP4_ContainerAtom.newFull seg.type 0 0
                else AP4_ContainerAtom.new seg.type) true).2 parent h.next (-1)).2))
          else some none :=
  rfl

theorem AP4_AtomParent.findOrCreate_wellFormed (h : AP4_Heap) (parent : Nat)
    (seg : AP4_PathSegment) (auto_create auto_create_full : Bool) (atom : Nat) (h1 : AP4_Heap)
    (hwf : h.WellFormed) (hpn : parent < h.next)
    (he : AP4_AtomParent.findOrCreate h parent seg auto_create auto_create_full
      = some (some (atom, h1))) :
    h1.WellFormed ∧ h.next ≤ h1.next ∧ atom < h1.next := by
  rw [AP4_AtomParent.findOrCreate_eq] at he
  split at he
  · exact Option.noConfusion he
  · rename_i a hfound
    have hinj := Option.some.inj (Option.some.inj he)
    have ha : a = atom := congrArg Prod.fst hinj
    have hh : h = h1 := congrArg Prod.snd hinj
    subst ha hh
    have hm : a ∈ h.children parent := AP4_AtomParent.lookup_mem h parent seg a hfound
    exact ⟨hwf, le_refl _, (h.lt_next_of_mem hwf parent a hm).1⟩
  · split at he
    · obtain ⟨hwa, hk, hn, hkp⟩ := h.alloc_wellFormed
        (if auto_create_full = true then AP4_ContainerAtom.newFull seg.type 0 0
         else AP4_ContainerAtom.new seg.type) true hwf
      have hinj := Option.some.inj (Option.some.inj he)
      have hatom : h.next = atom := congrArg Prod.fst hinj
      have hh := congrArg Prod.snd hinj
      simp only at hh
      have hadd := AP4_AtomParent.AddChild_wellFormed _ parent h.next (-1) hwa (by omega)
        (by omega)
      rw [hh] at hadd
      subst hatom
      exact ⟨hadd.1, by omega, by omega⟩
    · exact Option.noConfusion (Option.some.inj he)

theorem AP4_AtomParent.FindChildLoop_wellFormed (fuel : Nat) :
    ∀ (h : AP4_Heap) (parent : Nat) (path : List Nat) (auto_create auto_create_full : Bool)
      (r : Option Nat) (h1 : AP4_Heap), h.WellFormed → parent < h.next →
      AP4_AtomParent.FindChildLoop fuel h parent path auto_create auto_create_full
        = some (r, h1) →
      h1.WellFormed ∧ h.next ≤ h1.next := by
  induction fuel with
  | zero =>
    intro h parent path ac acf r h1 _ _ he
    exact Option.noConfusion he
  | succ fuel ih =>
    intro h parent path ac acf r h1 hwf hpn he
    unfold AP4_AtomParent.FindChildLoop at he
    split at he
    · have hh : h = h1 := congrArg Prod.snd (Option.some.inj he)
      subst hh
      exact ⟨hwf, le_refl _⟩
    · split at he
      · have hh : h = h1 := congrArg Prod.snd (Option.some.inj he)
        subst hh
        exact ⟨hwf, le_refl _⟩
      · rename_i seg _
        split at he
        · exact Option.noConfusion he
        · have hh : h = h1 := congrArg Prod.snd (Option.some.inj he)
          subst hh
          exact ⟨hwf, le_refl _⟩
        · rename_i atom h2 hfc
          obtain ⟨hwf2, hle, hatom⟩ :=
            AP4_AtomParent.findOrCreate_wellFormed h parent seg ac acf atom h2 hwf hpn hfc
          split at he
          · split at he
            · obtain ⟨hw, hl⟩ := ih h2 atom _ ac acf r h1 hwf2 hatom he
              exact ⟨hw, by omega⟩
            · have hh : h2 = h1 := congrArg Prod.snd (Option.some.inj he)
              subst hh
              exact ⟨hwf2, hle⟩
          · have hh : h2 = h1 := congrArg Prod.snd (Option.some.inj he)
            subst hh
            exact ⟨hwf2, hle⟩

theorem AP4_AtomParent.CopyChildrenLoop_wellFormed
    (Clone : AP4_Heap → Nat → Option Nat × AP4_Heap) (hClone : AP4_Heap.CloneContract Clone)
    (fuel : Nat) :
    ∀ (h : AP4_Heap) (self destination i : Nat) (r : AP4_Result) (h1 : AP4_Heap),
      h.WellFormed → destination < h.next →
      AP4_AtomParent.CopyChildrenLoop Clone fuel h self destination i = some (r, h1) →
      h1.WellFormed ∧ h.next ≤ h1.next := by
  induction fuel with
  | zero =>
    intro h self destination i r h1 _ _ he
    exact Option.noConfusion he
  | succ fuel ih =>
    intro h self destination i r h1 hwf hdn he
    unfold AP4_AtomParent.CopyChildrenLoop at he
    split at he
    · have hh : h = h1 := congrArg Prod.snd (Option.some.inj he)
      subst hh
      exact ⟨hwf, le_refl _⟩
    · rename_i child _
      obtain ⟨hti, hall, hnext, hk⟩ := hClone h child hwf.1 hwf.2
      split at he
      · exact Option.noConfusion he
      · rename_i k h2 hc
        rw [hc] at hti hall hnext hk
        simp only at hti hall hnext hk
        obtain ⟨hkn, hkp⟩ := hk k rfl
        have hadd := AP4_AtomParent.AddChild_wellFormed h2 destination k (-1) ⟨hti, hall⟩
          (by omega) hkn
        obtain ⟨hw, hl⟩ := ih _ self destination (i + 1) r h1 hadd.1
          (by rw [hadd.2]; omega) he
        exact ⟨hw, by rw [hadd.2] at hl; omega⟩

theorem AP4_Heap.CloneUnknown_contract : AP4_Heap.CloneContract AP4_Heap.CloneUnknown := by
  intro h a hti hall
  obtain ⟨hw, hk, hn, hkp⟩ := h.alloc_wellFormed
    (AP4_UnknownAtom.Clone ⟨h.atoms a, none, 0, []⟩).atom false ⟨hti, hall⟩
  unfold AP4_Heap.CloneUnknown
  generalize h.alloc (AP4_UnknownAtom.Clone ⟨h.atoms a, none, 0, []⟩).atom false = r at *
  obtain ⟨k, h2⟩ := r
  simp only at hw hk hn hkp ⊢
  subst hk
  refine ⟨hw.1, hw.2, by omega, ?_⟩
  intro k hk
  have := Option.some.inj hk
  subst this
  exact ⟨by omega, hkp⟩

theorem AP4_AtomParent.parseSegment_end (path : List Nat) (seg : AP4_PathSegment)
    (he : AP4_AtomParent.parseSegment path = some seg) : 4 ≤ seg.end_ := by
  unfold AP4_AtomParent.parseSegment at he
  simp only at he
  split at he
  · exact Option.noConfusion he
  · split at he
    · exact Option.noConfusion he
    · rename_i index e2 hidx
      have he2 : 4 ≤ e2 := by
        split at hidx
        · split at hidx
          · exact Option.noConfusion hidx
          · have := congrArg Prod.snd (Option.some.inj hidx)
            simp only at this
            omega
        · have := congrArg Prod.snd (Option.some.inj hidx)
          simp only at this
          omega
      split at he
      · have := Option.some.inj he
        subst this
        simp only
        omega
      · split at he
        · exact Option.noConfusion he
        · have := Option.some.inj he
          subst this
          exact he2

theorem AP4_AtomParent.AddChild_frame (h : AP4_Heap) (self child : Nat) (position : Int) :
    (AP4_AtomParent.AddChild h self child position).2.next = h.next ∧
    ∀ p, p ≠ self →
      (AP4_AtomParent.AddChild h self child position).2.children p = h.children p := by
  rcases AP4_AtomParent.AddChild_cases h self child position with ⟨_, hs⟩ | ⟨_, idx, he⟩
  · rw [hs]
    exact ⟨rfl, fun _ _ => rfl⟩
  · rw [he]
    refine ⟨rfl, ?_⟩
    intro p hp
    show (if p = self then _ else h.children p) = _
    rw [if_neg hp]

theorem AP4_AtomParent.lookup_empty (h : AP4_Heap) (parent : Nat) (seg : AP4_PathSegment)
    (hc : h.children parent = []) : AP4_AtomParent.lookup h parent seg = some none := by
  unfold AP4_AtomParent.lookup AP4_AtomParent.GetChildUuid AP4_AtomParent.GetChild
  rw [hc]
  split <;> rfl

theorem AP4_AtomParent.findOrCreate_created (h : AP4_Heap) (parent : Nat)
    (seg : AP4_PathSegment) (ac acf : Bool)
    (hl : AP4_AtomParent.lookup h parent seg = some none) (hpn : parent ≠ h.next) :
    AP4_AtomParent.findOrCreate h parent seg ac acf = some none ∨
    ∃ h1, AP4_AtomParent.findOrCreate h parent seg ac acf = some (some (h.next, h1)) ∧
      h1.children h.next = [] ∧ h1.next = h.next + 1 := by
  rw [AP4_AtomParent.findOrCreate_eq, hl]
  simp only
  split
  · right
    refine ⟨_, rfl, ?_, ?_⟩
    · rw [(AP4_AtomParent.AddChild_frame _ parent h.next (-1)).2 h.next (Ne.symm hpn)]
      show (if h.next = h.next then [] else h.children h.next) = []
      rw [if_pos rfl]
    · rw [(AP4_AtomParent.AddChild_frame _ parent h.next (-1)).1]
      rfl
  · left
    rfl

theorem AP4_AtomParent.FindChildLoop_total_empty (fuel : Nat) :
    ∀ (h : AP4_Heap) (parent : Nat) (path : List Nat) (auto_create auto_create_full : Bool),
      path.length < fuel → h.children parent = [] → parent ≠ h.next →
      ∃ r h1, AP4_AtomParent.FindChildLoop fuel h parent path auto_create auto_create_full
        = some (r, h1) := by
  induction fuel with
  | zero => intro h parent path ac acf hlt; omega
  | succ fuel ih =>
    intro h parent path ac acf hlt hc hpn
    unfold AP4_AtomParent.FindChildLoop
    split
    · exact ⟨_, _, rfl⟩
    · rename_i hchk
      have hpos : 0 < path.length := by
        cases path with
        | nil => simp [AP4_AtomParent.charAt] at hchk
        | cons a rest => simp
      split
      · exact ⟨_, _, rfl⟩
      · rename_i seg hseg
        have hend := AP4_AtomParent.parseSegment_end path seg hseg
        rcases AP4_AtomParent.findOrCreate_created h parent seg ac acf
          (AP4_AtomParent.lookup_empty h parent seg hc) hpn with hfo | ⟨h1, hfo, hc1, hn1⟩
        · rw [hfo]
          exact ⟨_, _, rfl⟩
        · rw [hfo]
          simp only
          split
          · split
            · apply ih
              · rw [List.length_drop]
                omega
              · exact hc1
              · omega
            · exact ⟨_, _, rfl⟩
          · exact ⟨_, _, rfl⟩

theorem AP4_AtomParent.FindChildLoop_total (fuel : Nat) :
    ∀ (h : AP4_Heap) (parent : Nat) (path : List Nat) (auto_create auto_create_full : Bool),
      path.length < fuel → h.UuidTyped → (∀ p, ∀ c ∈ h.children p, c ≠ h.next) →
      parent ≠ h.next →
      ∃ r h1, AP4_AtomParent.FindChildLoop fuel h parent path auto_create auto_create_full
        = some (r, h1) := by
  induction fuel with
  | zero => intro h parent path ac acf hlt; omega
  | succ fuel ih =>
    intro h parent path ac acf hlt hu hch hpn
    unfold AP4_AtomParent.FindChildLoop
    split
    · exact ⟨_, _, rfl⟩
    · rename_i hchk
      have hpos : 0 < path.length := by
        cases path with
        | nil => simp [AP4_AtomParent.charAt] at hchk
        | cons a rest => simp
      split
      · exact ⟨_, _, rfl⟩
      · rename_i seg hseg
        have hend := AP4_AtomParent.parseSegment_end path seg hseg
        obtain ⟨r, hl⟩ := AP4_AtomParent.lookup_uuidTyped h parent seg (hu parent)
        cases r with
        | none =>
          rcases AP4_AtomParent.findOrCreate_created h parent seg ac acf hl hpn
            with hfo | ⟨h1, hfo, hc1, hn1⟩
          · rw [hfo]
            exact ⟨_, _, rfl⟩
          · rw [hfo]
            simp only
            split
            · split
              · apply AP4_AtomParent.FindChildLoop_total_empty
                · rw [List.length_drop]
                  omega
                · exact hc1
                · omega
              · exact ⟨_, _, rfl⟩
            · exact ⟨_, _, rfl⟩
        | some a =>
          have hfo : AP4_AtomParent.findOrCreate h parent seg ac acf = some (some (a, h)) := by
            rw [AP4_AtomParent.findOrCreate_eq, hl]
          rw [hfo]
          simp only
          split
          · split
            · apply ih
              · rw [List.length_drop]
                omega
              · exact hu
              · exact hch
              · exact hch parent a (AP4_AtomParent.lookup_mem h parent seg a hl)
            · exact ⟨_, _, rfl⟩
          · exact ⟨_, _, rfl⟩

theorem AP4_AtomParent.FindChild_total (h : AP4_Heap) (self : Nat) (path : List Nat)
    (auto_create auto_create_full : Bool) (hwf : h.WellFormed) (hs : self < h.next)
    (hu : h.UuidTyped) :
    ∃ r h1, AP4_AtomParent.FindChild h self path auto_create auto_create_full = some (r, h1) :=
  AP4_AtomParent.FindChildLoop_total _ h self path auto_create auto_create_full (by omega) hu
    (fun p c hc => Nat.ne_of_lt (h.lt_next_of_mem hwf p c hc).1) (Nat.ne_of_lt hs)

theorem AP4_AtomParent.FindChildLoop_null (fuel : Nat) :
    ∀ (h : AP4_Heap) (parent : Nat) (path : List Nat) (auto_create auto_create_full : Bool),
      path.length < fuel →
      AP4_AtomParent.FindChildLoop fuel h parent path auto_create auto_create_full = none →
      ∃ (h1 : AP4_Heap) (p : Nat), ∃ c ∈ h1.children p,
        (h1.atoms c).m_Type = AP4_ATOM_TYPE_UUID ∧ h1.uuid c = none := by
  induction fuel with
  | zero => intro h parent path ac acf hlt; omega
  | succ fuel ih =>
    intro h parent path ac acf hlt he
    unfold AP4_AtomParent.FindChildLoop at he
    split at he
    · exact Option.noConfusion he
    · rename_i hchk
      have hpos : 0 < path.length := by
        cases path with
        | nil => simp [AP4_AtomParent.charAt] at hchk
        | cons a rest => simp
      split at he
      · exact Option.noConfusion he
      · rename_i seg hseg
        have hend := AP4_AtomParent.parseSegment_end path seg hseg
        split at he
        · rename_i hfo
          rw [AP4_AtomParent.findOrCreate_eq] at hfo
          cases hl : AP4_AtomParent.lookup h parent seg with
          | none =>
            unfold AP4_AtomParent.lookup at hl
            split at hl
            · obtain ⟨c, hc, ht, hu⟩ :=
                AP4_AtomParent.GetChildUuidLoop_null h seg.uuid (h.children parent) seg.index hl
              exact ⟨h, parent, c, hc, ht, hu⟩
            · exact Option.noConfusion hl
          | some r =>
            rw [hl] at hfo
            cases r with
            | none =>
              simp only at hfo
              split at hfo <;> exact Option.noConfusion hfo
            | some a => exact Option.noConfusion hfo
        · exact Option.noConfusion he
        · split at he
          · split at he
            · exact ih _ _ _ _ _ (by rw [List.length_drop]; omega) he
            · exact Option.noConfusion he
          · exact Option.noConfusion he

/-- The walk has no result only where a lookup by UUID dereferences a null pointer: some
child of type `uuid`, in the state the walk has reached, is no `AP4_UuidAtom`. -/
theorem AP4_AtomParent.FindChild_null (h : AP4_Heap) (self : Nat) (path : List Nat)
    (auto_create auto_create_full : Bool)
    (he : AP4_AtomParent.FindChild h self path auto_create auto_create_full = none) :
    ∃ (h1 : AP4_Heap) (p : Nat), ∃ c ∈ h1.children p,
      (h1.atoms c).m_Type = AP4_ATOM_TYPE_UUID ∧ h1.uuid c = none :=
  AP4_AtomParent.FindChildLoop_null _ h self path auto_create auto_create_full (by omega) he

theorem AP4_Heap.Step.wellFormed (Clone : AP4_Heap → Nat → Option Nat × AP4_Heap)
    (hClone : AP4_Heap.CloneContract Clone) (h h1 : AP4_Heap) (hwf : h.WellFormed)
    (hstep : AP4_Heap.Step Clone h h1) : h1.WellFormed := by
  cases hstep with
  | addChild self child position hs hc =>
    exact (AP4_AtomParent.AddChild_wellFormed h self child position hwf hs hc).1
  | removeChild self child => exact (AP4_AtomParent.RemoveChild_wellFormed h self child hwf).1
  | deleteChild self type index =>
    exact (AP4_AtomParent.DeleteChild_wellFormed h self type index hwf).1
  | findChild =>
    rename_i self path ac acf r hs he
    exact (AP4_AtomParent.FindChildLoop_wellFormed _ h self path ac acf r h1 hwf hs he).1
  | copyChildren =>
    rename_i fuel self destination r hd he
    exact (AP4_AtomParent.CopyChildrenLoop_wellFormed Clone hClone fuel h self destination 0 r h1
      hwf hd he).1

/-- C10: every state reached from a state that satisfies the tree invariant by a sequence of
`AddChild`, `RemoveChild`, `DeleteChild`, `FindChild` (with or without `auto_create`) and
`CopyChildren` calls on existing objects satisfies it: a child names its owner, an atom
that names a parent is in the child list of that parent, and no atom occurs twice in a
child list or in the child lists of two parents. -/
theorem AP4_Heap.treeInvariant_reachable (Clone : AP4_Heap → Nat → Option Nat × AP4_Heap)
    (hClone : AP4_Heap.CloneContract Clone) (h0 h : AP4_Heap)
    (hinv : h0.TreeInvariant) (halloc : h0.Allocated)
    (hreach : Relation.ReflTransGen (AP4_Heap.Step Clone) h0 h) :
    h.TreeInvariant ∧ h.Allocated := by
  induction hreach with
  | refl => exact ⟨hinv, halloc⟩
  | tail _ hstep ih => exact AP4_Heap.Step.wellFormed Clone hClone _ _ ih hstep

theorem AP4_Heap.sample_allocated : AP4_Heap.sample.Allocated := by
  intro i hi
  have hi5 : 5 ≤ i := hi
  have h0 : i ≠ 0 := by omega
  have h1 : i ≠ 1 := by omega
  have h2 : i ≠ 2 := by omega
  have h3 : i ≠ 3 := by omega
  simp [AP4_Heap.sample, h0, h1, h2, h3, AP4_Atom.new32]

theorem Option.eq_some_getD_of_isSome {α β : Type} (o : Option (α × β)) (d : α × β)
    (h : o.isSome = true) : o = some ((o.getD d).1, (o.getD d).2) := by
  cases o with
  | none => exact Bool.noConfusion h
  | some v => rfl

theorem AP4_Heap.treeInvariant_reachable_witness :
    ∃ r h3,
      AP4_AtomParent.FindChild
        (AP4_AtomParent.AddChild
          ((AP4_AtomParent.CopyChildren AP4_Heap.CloneUnknown 8 AP4_Heap.sample 0 2).getD
            (AP4_Result.FAILURE, AP4_Heap.sample)).2 2 4 (-1)).2
        0 (AP4_Path "trak/udta") true false = some (r, h3) ∧
      h3.TreeInvariant ∧ h3.Allocated := by
  have he := Option.eq_some_getD_of_isSome (AP4_AtomParent.FindChild
    (AP4_AtomParent.AddChild
      ((AP4_AtomParent.CopyChildren AP4_Heap.CloneUnknown 8 AP4_Heap.sample 0 2).getD
        (AP4_Result.FAILURE, AP4_Heap.sample)).2 2 4 (-1)).2
    0 (AP4_Path "trak/udta") true false) (none, AP4_Heap.sample) (by decide)
  generalize ((AP4_AtomParent.FindChild
    (AP4_AtomParent.AddChild
      ((AP4_AtomParent.CopyChildren AP4_Heap.CloneUnknown 8 AP4_Heap.sample 0 2).getD
        (AP4_Result.FAILURE, AP4_Heap.sample)).2 2 4 (-1)).2
    0 (AP4_Path "trak/udta") true false).getD (none, AP4_Heap.sample)).1 = r at he
  generalize ((AP4_AtomParent.FindChild
    (AP4_AtomParent.AddChild
      ((AP4_AtomParent.CopyChildren AP4_Heap.CloneUnknown 8 AP4_Heap.sample 0 2).getD
        (AP4_Result.FAILURE, AP4_Heap.sample)).2 2 4 (-1)).2
    0 (AP4_Path "trak/udta") true false).getD (none, AP4_Heap.sample)).2 = h3 at he
  have hcopy := Option.eq_some_getD_of_isSome
    (AP4_AtomParent.CopyChildren AP4_Heap.CloneUnknown 8 AP4_Heap.sample 0 2)
    (AP4_Result.FAILURE, AP4_Heap.sample) (by decide)
  have s1 : AP4_Heap.Step AP4_Heap.CloneUnknown AP4_Heap.sample _ :=
    AP4_Heap.Step.copyChildren AP4_Heap.sample 8 0 2 _ _ (by decide) hcopy
  have s2 : AP4_Heap.Step AP4_Heap.CloneUnknown _ _ := AP4_Heap.Step.addChild
    ((AP4_AtomParent.CopyChildren AP4_Heap.CloneUnknown 8 AP4_Heap.sample 0 2).getD
      (AP4_Result.FAILURE, AP4_Heap.sample)).2 2 4 (-1) (by decide) (by decide)
  have s3 : AP4_Heap.Step AP4_Heap.CloneUnknown _ _ := AP4_Heap.Step.findChild _ 0
    (AP4_Path "trak/udta") true false r h3 (by decide) he
  exact ⟨r, h3, he, AP4_Heap.treeInvariant_reachable AP4_Heap.CloneUnknown
    AP4_Heap.CloneUnknown_contract AP4_Heap.sample h3 AP4_Heap.sample_treeInvariant
    AP4_Heap.sample_allocated
    (((Relation.ReflTransGen.single s1).tail s2).tail s3)⟩

/-! ## Child lookup -/

theorem AP4_List.FindNth_eq_filter (test : Nat → Bool) (l : List Nat) :
    ∀ index, AP4_List.FindNth test l index = (l.filter test)[index]? := by
  induction l with
  | nil => intro index; simp [AP4_List.FindNth]
  | cons a rest ih =>
    intro index
    unfold AP4_List.FindNth
    by_cases ht : test a = true
    · rw [if_pos ht, List.filter_cons_of_pos ht]
      cases index with
      | zero => simp
      | succ i =>
        have hne : ((i + 1 == 0) = true) = False := by simp
        simp only [hne, if_false, Nat.add_sub_cancel, List.getElem?_cons_succ]
        exact ih i
    · rw [if_neg ht, List.filter_cons_of_neg ht]
      exact ih index

/-- The lookups among the direct children where they return.  `GetChild(t, i)` is the child
of rank `i` (counted from 0) among the direct children whose type is `t`, in child-list
order, and is absent when there are at most `i` of them.  When every child of type `uuid`
is an `AP4_UuidAtom`, `GetChild(uuid, i)` is likewise the child of rank `i` among the
direct children of type `uuid` whose UUID equals the argument.  A result is always a
direct child, and the lookup by UUID dereferences a null pointer only when some child
of type `uuid` is no `AP4_UuidAtom`.  Both are functions of the state and return no new
state. -/
theorem AP4_AtomParent.GetChild_spec (h : AP4_Heap) (self type index : Nat) (uuid : List Nat) :
    AP4_AtomParent.GetChild h self type index
      = ((h.children self).filter (fun a => (h.atoms a).m_Type == type))[index]? ∧
    ((∀ c ∈ h.children self,
        (h.atoms c).m_Type = AP4_ATOM_TYPE_UUID → (h.uuid c).isSome = true) →
      AP4_AtomParent.GetChildUuid h self uuid index
        = some (((h.children self).filter
            (fun a => (h.atoms a).m_Type == AP4_ATOM_TYPE_UUID && h.uuid a == some uuid))[index]?)) ∧
    (∀ x, AP4_AtomParent.GetChild h self type index = some x →
      x ∈ h.children self ∧ (h.atoms x).m_Type = type) ∧
    (∀ x, AP4_AtomParent.GetChildUuid h self uuid index = some (some x) →
      x ∈ h.children self ∧ (h.atoms x).m_Type = AP4_ATOM_TYPE_UUID ∧
        h.uuid x = some uuid) ∧
    (AP4_AtomParent.GetChild h self type index = none ↔
      ((h.children self).filter (fun a => (h.atoms a).m_Type == type)).length ≤ index) ∧
    (AP4_AtomParent.GetChildUuid h self uuid index = none →
      ∃ c ∈ h.children self, (h.atoms c).m_Type = AP4_ATOM_TYPE_UUID ∧ h.uuid c = none) := by
  have e1 := AP4_List.FindNth_eq_filter (fun a => (h.atoms a).m_Type == type)
    (h.children self) index
  refine ⟨e1, ?_, ?_, ?_, ?_, ?_⟩
  · intro hu
    exact AP4_AtomParent.GetChildUuidLoop_eq_filter h uuid (h.children self) hu index
  · intro x hx
    obtain ⟨hm, ht⟩ := AP4_List.FindNth_mem _ _ _ _ hx
    exact ⟨hm, by simpa using ht⟩
  · intro x hx
    exact AP4_AtomParent.GetChildUuidLoop_mem h uuid (h.children self) index x hx
  · unfold AP4_AtomParent.GetChild
    rw [e1, List.getElem?_eq_none_iff]
  · intro hn
    exact AP4_AtomParent.GetChildUuidLoop_null h uuid (h.children self) index hn

set_option maxRecDepth 100000 in
/-- C11, the code at the failing input: in the sample tree, `FindChild("uuid")` of `moov`
with `auto_create` set appends the new object 5 to the child list, a plain container of
type `uuid` that is no `AP4_UuidAtom`; in the resulting tree `GetChild('uuid', 0)` of
`moov` returns object 5, and `GetChild(uuid, 0)` with the UUID `0123456789abcdef` twice
reads the UUID of object 5 through the null pointer that the cast yields, where the
claim has it return absent. -/
theorem AP4_AtomParent.GetChildUuid_null_cast_evaluation :
    (AP4_AtomParent.FindChild AP4_Heap.sample 0 (AP4_Path "uuid") true false).map
        (fun r => (r.1, r.2.children 0))
      = some (some 5, [1, 2, 3, 5]) ∧
    (AP4_AtomParent.FindChild AP4_Heap.sample 0 (AP4_Path "uuid") true false).map
        (fun r => ((r.2.atoms 5).m_Type, r.2.container 5, r.2.uuid 5))
      = some (AP4_ATOM_TYPE_UUID, true, none) ∧
    (AP4_AtomParent.FindChild AP4_Heap.sample 0 (AP4_Path "uuid") true false).map
        (fun r => AP4_AtomParent.GetChild r.2 0 AP4_ATOM_TYPE_UUID 0)
      = some (some 5) ∧
    (AP4_AtomParent.FindChild AP4_Heap.sample 0 (AP4_Path "uuid") true false).map
        (fun r => AP4_AtomParent.GetChildUuid r.2 0
          (AP4_ParseHex (AP4_Path "0123456789abcdef0123456789abcdef") 16) 0)
      = some none := by
  decide

/-! ## The unknown atom: deferred payload -/

/-- C17 fails on the code: for an `mdat` atom of declared size 100 whose payload starts at
offset 8 of a 50-byte stream the constructor stores `file_size - m_SourcePosition = 42`,
so that header and payload end at offset 42, not at the end of the stream (size 50);
for a declared size above 4096 the same happens (a 108-byte stream gives 100). -/
theorem AP4_UnknownAtom.new_clamp_evaluation :
    (AP4_UnknownAtom.new AP4_ATOM_TYPE_MDAT 100 0
      { data := List.replicate 50 0, pos := 8, faults := [] }).1.atom.GetSize = 42 ∧
    (AP4_UnknownAtom.new AP4_ATOM_TYPE_MDAT 100 0
      { data := List.replicate 50 0, pos := 8, faults := [] }).1.atom.GetHeaderSize = 8 ∧
    (AP4_UnknownAtom.new 0x66726565 5000 0
      { data := List.replicate 108 0, pos := 8, faults := [] }).1.atom.GetSize = 100 ∧
    (AP4_UnknownAtom.new AP4_ATOM_TYPE_MDAT 100 0
      { data := List.replicate 108 0, pos := 8, faults := [] }).1.atom.GetSize = 100 := by
  decide

theorem AP4_Atom.WriteHeader_congr (a b : AP4_Atom) (s : AP4_ByteStream)
    (h1 : a.m_Size32 = b.m_Size32) (h2 : a.m_Type = b.m_Type) (h3 : a.m_Size64 = b.m_Size64)
    (hfa : a.m_IsFull = false) (hfb : b.m_IsFull = false) :
    a.WriteHeader s = b.WriteHeader s := by
  rw [a.WriteHeader_eq_WriteAll, b.WriteHeader_eq_WriteAll]
  congr 1
  unfold AP4_Atom.headerFields
  simp only [h1, h2, h3, hfa, hfb, Bool.false_eq_true, if_false]

/-- C19: `Clone()` of an unknown atom (which is never a full atom) yields an atom without
parent that has the same type, `size32`, `size64`, source stream handle, source position
and buffered payload; `Write` on the clone yields the same result and the same bytes as
`Write` on the atom, whatever the source and output streams.  `Clone` is a function of
the atom and does not change it. -/
theorem AP4_UnknownAtom.Clone_spec (u : AP4_UnknownAtom) (hfull : u.atom.m_IsFull = false)
    (ht : u.atom.m_Type < 2 ^ 32) :
    u.Clone.atom.m_Parent = none ∧
    u.Clone.atom.m_Type = u.atom.m_Type ∧
    u.Clone.atom.m_Size32 = u.atom.m_Size32 ∧
    u.Clone.atom.m_Size64 = u.atom.m_Size64 ∧
    u.Clone.m_SourceStream = u.m_SourceStream ∧
    u.Clone.m_SourcePosition = u.m_SourcePosition ∧
    u.Clone.m_Payload = u.m_Payload ∧
    u.Clone.atom.GetSize = u.atom.GetSize ∧
    u.Clone.atom.GetHeaderSize = u.atom.GetHeaderSize ∧
    (∀ source stream : AP4_ByteStream, u.Clone.Write source stream = u.Write source stream) := by
  have htype : u.Clone.atom.m_Type = u.atom.m_Type := by
    simp only [AP4_UnknownAtom.Clone, AP4_UnknownAtom.copy, AP4_Atom.new32]
    exact Nat.mod_eq_of_lt ht
  have hs32 : u.Clone.atom.m_Size32 = u.atom.m_Size32 := rfl
  have hs64 : u.Clone.atom.m_Size64 = u.atom.m_Size64 := rfl
  have hcf : u.Clone.atom.m_IsFull = false := rfl
  have hsz : u.Clone.atom.GetSize = u.atom.GetSize := by
    simp only [AP4_Atom.GetSize, hs32, hs64]
  have hhd : u.Clone.atom.GetHeaderSize = u.atom.GetHeaderSize := by
    simp only [AP4_Atom.GetHeaderSize, hs32, hcf, hfull]
  refine ⟨rfl, htype, hs32, hs64, rfl, rfl, rfl, hsz, hhd, ?_⟩
  intro source stream
  have hwh := AP4_Atom.WriteHeader_congr u.Clone.atom u.atom stream hs32 htype hs64 hcf hfull
  have hwf : ∀ s2 : AP4_ByteStream, u.Clone.WriteFields source s2 = u.WriteFields source s2 := by
    intro s2
    unfold AP4_UnknownAtom.WriteFields
    rw [hsz, hhd]
    rfl
  unfold AP4_UnknownAtom.Write
  rw [hwh]
  simp only [hwf]

theorem AP4_UnknownAtom.Clone_spec_witness :
    (AP4_UnknownAtom.newFromPayload 0x66726565 [1, 2, 3]).Clone.atom.m_Size32 = 11 ∧
    ((AP4_UnknownAtom.newFromPayload 0x66726565 [1, 2, 3]).Clone.Write AP4_ByteStream.fresh
        AP4_ByteStream.fresh).2.2.data
      = [0, 0, 0, 11, 0x66, 0x72, 0x65, 0x65, 1, 2, 3] := by
  have h := AP4_UnknownAtom.Clone_spec (AP4_UnknownAtom.newFromPayload 0x66726565 [1, 2, 3])
    (by decide) (by decide)
  refine ⟨h.2.2.1.trans (by decide), ?_⟩
  rw [h.2.2.2.2.2.2.2.2.2 AP4_ByteStream.fresh AP4_ByteStream.fresh]
  decide

theorem AP4_ByteStream.Seek_within (s : AP4_ByteStream) (position : Nat)
    (h : position ≤ s.data.length) :
    s.Seek position = (AP4_Result.SUCCESS, { s with pos := position }) := by
  have h0 : position - s.data.length = 0 := by omega
  simp [AP4_ByteStream.Seek, h0]

theorem AP4_ByteStream.Write_accepting (s : AP4_ByteStream) (buf : List Nat)
    (h : s.faults = []) :
    s.Write buf = (AP4_Result.SUCCESS,
      { data := AP4_ByteStream.splice s.data s.pos buf, pos := s.pos + buf.length,
        faults := [] }) := by
  rw [AP4_ByteStream.Write_of_ok s buf (by simp [h]), h]
  rfl

theorem AP4_UnknownAtom.WriteFields_deferred (u : AP4_UnknownAtom) (handle : Nat)
    (source stream : AP4_ByteStream)
    (hs : u.m_SourceStream = some handle)
    (hsz : u.atom.GetHeaderSize ≤ u.atom.GetSize) (h64 : u.atom.GetSize < 2 ^ 64)
    (hsrc : u.m_SourcePosition + (u.atom.GetSize - u.atom.GetHeaderSize) ≤ source.data.length)
    (hpos : source.pos ≤ source.data.length)
    (hout : stream.faults = []) :
    u.WriteFields source stream = (AP4_Result.SUCCESS, source,
      { data := AP4_ByteStream.splice stream.data stream.pos
          ((source.data.drop u.m_SourcePosition).take (u.atom.GetSize - u.atom.GetHeaderSize)),
        pos := stream.pos + (u.atom.GetSize - u.atom.GetHeaderSize),
        faults := [] }) := by
  have hlen : ((source.data.drop u.m_SourcePosition).take
      (u.atom.GetSize - u.atom.GetHeaderSize)).length
      = u.atom.GetSize - u.atom.GetHeaderSize := by
    simp only [List.length_take, List.length_drop]
    omega
  have hq : u.m_SourcePosition ≤ source.data.length := by omega
  unfold AP4_UnknownAtom.WriteFields
  rw [hs]
  simp only [AP4_ByteStream.Tell, AP4_ByteStream.Seek_within source _ hq, AP4_FAILED,
    AP4_Sub64_of_le _ _ h64 hsz, bne_self_eq_false, Bool.false_eq_true, if_false,
    AP4_ByteStream.CopyTo, AP4_ByteStream.Read, hsrc, if_true,
    AP4_ByteStream.Write_accepting stream _ hout, hlen]
  rw [AP4_ByteStream.Seek_within _ _ (by simpa using hpos)]

/-- C18: for a deferred-payload unknown atom with `HeaderSize() <= Size()` whose source holds
`Size() - HeaderSize()` bytes from the recorded position `q`, `WriteFields` on an output
that accepts the write copies exactly the bytes `source[q .. q + Size() - HeaderSize())`
to the output and leaves the source stream, cursor included, as it was before the call;
two successive `Write` calls succeed and emit the same bytes, the header followed by
that payload. -/
theorem AP4_UnknownAtom.WriteFields_deferred_spec (u : AP4_UnknownAtom) (handle : Nat)
    (source stream : AP4_ByteStream)
    (hs : u.m_SourceStream = some handle)
    (hsz : u.atom.GetHeaderSize ≤ u.atom.GetSize) (h64 : u.atom.GetSize < 2 ^ 64)
    (hsrc : u.m_SourcePosition + (u.atom.GetSize - u.atom.GetHeaderSize) ≤ source.data.length)
    (hpos : source.pos ≤ source.data.length)
    (hout : stream.faults = []) :
    (u.WriteFields source stream).1 = AP4_Result.SUCCESS ∧
    (u.WriteFields source stream).2.1 = source ∧
    AP4_ByteStream.emitted stream (u.WriteFields source stream).2.2
      = (source.data.drop u.m_SourcePosition).take (u.atom.GetSize - u.atom.GetHeaderSize) ∧
    ((source.data.drop u.m_SourcePosition).take (u.atom.GetSize - u.atom.GetHeaderSize)).length
      = u.atom.GetSize - u.atom.GetHeaderSize ∧
    (u.WriteFields source stream).2.2.pos
      = stream.pos + (u.atom.GetSize - u.atom.GetHeaderSize) ∧
    (u.Write source stream).1 = AP4_Result.SUCCESS ∧
    (u.Write source stream).2.1 = source ∧
    AP4_ByteStream.emitted stream (u.Write source stream).2.2
      = u.atom.headerFields.flatten
        ++ (source.data.drop u.m_SourcePosition).take (u.atom.GetSize - u.atom.GetHeaderSize) ∧
    (u.Write (u.Write source stream).2.1 (u.Write source stream).2.2).1 = AP4_Result.SUCCESS ∧
    AP4_ByteStream.emitted (u.Write source stream).2.2
        (u.Write (u.Write source stream).2.1 (u.Write source stream).2.2).2.2
      = AP4_ByteStream.emitted stream (u.Write source stream).2.2 := by
  have hlen : ((source.data.drop u.m_SourcePosition).take
      (u.atom.GetSize - u.atom.GetHeaderSize)).length
      = u.atom.GetSize - u.atom.GetHeaderSize := by
    simp only [List.length_take, List.length_drop]
    omega
  have hwf := AP4_UnknownAtom.WriteFields_deferred u handle source stream hs hsz h64 hsrc hpos hout
  have hwrite : ∀ s : AP4_ByteStream, s.faults = [] →
      u.Write source s = (AP4_Result.SUCCESS, source,
        { data := AP4_ByteStream.splice s.data s.pos (u.atom.headerFields.flatten ++
            (source.data.drop u.m_SourcePosition).take (u.atom.GetSize - u.atom.GetHeaderSize)),
          pos := s.pos + (u.atom.headerFields.flatten ++
            (source.data.drop u.m_SourcePosition).take
              (u.atom.GetSize - u.atom.GetHeaderSize)).length,
          faults := [] }) := by
    intro s hsf
    have hh := u.atom.WriteHeader_ok s (by intro j _; simp [hsf])
    have hf := AP4_UnknownAtom.WriteFields_deferred u handle source
      { data := AP4_ByteStream.splice s.data s.pos u.atom.headerFields.flatten,
        pos := s.pos + u.atom.GetHeaderSize,
        faults := s.faults.drop u.atom.headerFields.length } hs hsz h64 hsrc hpos (by simp [hsf])
    unfold AP4_UnknownAtom.Write
    rw [hh]
    simp only [AP4_FAILED, bne_self_eq_false, Bool.false_eq_true, if_false, hf]
    have e : s.pos + u.atom.GetHeaderSize = s.pos + u.atom.headerFields.flatten.length := by
      rw [u.atom.headerFields_length]
    rw [e, AP4_ByteStream.splice_splice, List.length_append, hlen, Nat.add_assoc]
  have hw1 := hwrite stream hout
  refine ⟨by rw [hwf], by rw [hwf], ?_, hlen, by rw [hwf], by rw [hw1], by rw [hw1], ?_, ?_, ?_⟩
  · rw [hwf]
    have := AP4_ByteStream.emitted_splice stream
      ((source.data.drop u.m_SourcePosition).take (u.atom.GetSize - u.atom.GetHeaderSize)) []
    rw [hlen] at this
    exact this
  · rw [hw1]
    exact AP4_ByteStream.emitted_splice stream _ []
  · rw [hw1]
    simp only
    rw [hwrite _ rfl]
  · rw [hw1]
    simp only
    rw [hwrite _ rfl]
    simp only
    rw [AP4_ByteStream.emitted_splice stream _ []]
    exact AP4_ByteStream.emitted_splice _ _ []

theorem AP4_UnknownAtom.WriteFields_deferred_spec_witness :
    AP4_ByteStream.emitted AP4_ByteStream.fresh
      ((AP4_UnknownAtom.new AP4_ATOM_TYPE_MDAT 16 7
          { data := [0, 0, 0, 16, 0x6d, 0x64, 0x61, 0x74, 1, 2, 3, 4, 5, 6, 7, 8], pos := 8,
            faults := [] }).1.Write
        { data := [0, 0, 0, 16, 0x6d, 0x64, 0x61, 0x74, 1, 2, 3, 4, 5, 6, 7, 8], pos := 3,
          faults := [] } AP4_ByteStream.fresh).2.2
      = [0, 0, 0, 16, 0x6d, 0x64, 0x61, 0x74, 1, 2, 3, 4, 5, 6, 7, 8] ∧
    ((AP4_UnknownAtom.new AP4_ATOM_TYPE_MDAT 16 7
          { data := [0, 0, 0, 16, 0x6d, 0x64, 0x61, 0x74, 1, 2, 3, 4, 5, 6, 7, 8], pos := 8,
            faults := [] }).1.Write
        { data := [0, 0, 0, 16, 0x6d, 0x64, 0x61, 0x74, 1, 2, 3, 4, 5, 6, 7, 8], pos := 3,
          faults := [] } AP4_ByteStream.fresh).2.1.pos = 3 := by
  have h := AP4_UnknownAtom.WriteFields_deferred_spec
    (AP4_UnknownAtom.new AP4_ATOM_TYPE_MDAT 16 7
      { data := [0, 0, 0, 16, 0x6d, 0x64, 0x61, 0x74, 1, 2, 3, 4, 5, 6, 7, 8], pos := 8,
        faults := [] }).1 7
    { data := [0, 0, 0, 16, 0x6d, 0x64, 0x61, 0x74, 1, 2, 3, 4, 5, 6, 7, 8], pos := 3,
      faults := [] } AP4_ByteStream.fresh (by decide) (by decide) (by decide) (by decide)
    (by decide) (by decide)
  refine ⟨h.2.2.2.2.2.2.2.1.trans (by decide), ?_⟩
  rw [h.2.2.2.2.2.2.1]

/-! ## The null-terminated string atom -/

theorem AP4_ByteStream.splice_atEnd (data buf : List Nat) :
    AP4_ByteStream.splice data data.length buf = data ++ buf := by
  simp [AP4_ByteStream.splice]

theorem AP4_ByteStream.pad_atEnd (k : Nat) (data : List Nat) :
    (List.range k).foldl (fun s _ => (AP4_ByteStream.WriteUI08 s 0).2)
        { data := data, pos := data.length, faults := [] }
      = { data := data ++ List.replicate k 0, pos := data.length + k, faults := [] } := by
  induction k with
  | zero => simp
  | succ k ih =>
    rw [List.range_succ, List.foldl_append, ih]
    simp only [List.foldl_cons, List.foldl_nil, AP4_ByteStream.WriteUI08]
    rw [AP4_ByteStream.Write_accepting _ _ rfl]
    have hl : (data ++ List.replicate k 0).length = data.length + k := by simp
    simp only [← hl, AP4_ByteStream.splice_atEnd]
    simp [List.replicate_succ', Nat.add_assoc]

theorem AP4_NullTerminatedStringAtom.cString_append_zero (l : List Nat) (rest : List Nat) :
    AP4_NullTerminatedStringAtom.cString (l ++ 0 :: rest)
      = AP4_NullTerminatedStringAtom.cString l := by
  unfold AP4_NullTerminatedStringAtom.cString
  induction l with
  | nil => simp
  | cons a t ih =>
    by_cases ha : a = 0
    · simp [ha]
    · simp [List.takeWhile_cons, ha, ih]

theorem AP4_NullTerminatedStringAtom.cString_length_le (l : List Nat) :
    (AP4_NullTerminatedStringAtom.cString l).length ≤ l.length := by
  unfold AP4_NullTerminatedStringAtom.cString
  exact (List.takeWhile_sublist _).length_le

theorem AP4_NullTerminatedStringAtom.cString_of_nonzero (w : List Nat) (hw : ∀ c ∈ w, c ≠ 0) :
    AP4_NullTerminatedStringAtom.cString w = w := by
  unfold AP4_NullTerminatedStringAtom.cString
  rw [List.takeWhile_eq_self_iff]
  intro c hc
  simpa using hw c hc

theorem AP4_NullTerminatedStringAtom.new_parsed (t s : Nat) (src : AP4_ByteStream)
    (ht32 : t < 2 ^ 32) (h8 : 8 < s) (hs : s < 2 ^ 32)
    (hsrc : src.pos + (s - 8) ≤ src.data.length) :
    AP4_NullTerminatedStringAtom.new t s src =
      ({ atom := { m_Type := t, m_Size32 := s, m_Size64 := 0, m_IsFull := false, m_Version := 0,
                   m_Flags := 0, m_Parent := none },
         m_Value := AP4_NullTerminatedStringAtom.cString
           (((src.data.drop src.pos).take (s - 8)).take (s - 9)) },
       { src with pos := src.pos + (s - 8) }) := by
  have hs64 : s % 2 ^ 64 = s := Nat.mod_eq_of_lt (by omega)
  have hsub : AP4_Sub32 s AP4_ATOM_HEADER_SIZE = s - 8 :=
    AP4_Sub32_of_le s 8 hs (by omega)
  have hlen : ((src.data.drop src.pos).take (s - 8)).length = s - 8 := by
    simp only [List.length_take, List.length_drop]
    omega
  have hne : (s - 8 != 0) = true := by
    simp only [bne_iff_ne, ne_eq]
    omega
  unfold AP4_NullTerminatedStringAtom.new
  simp only [hs64, hsub, hne, if_true, AP4_ByteStream.Read, hsrc, hlen, Nat.sub_self,
    List.replicate_zero, List.append_nil, AP4_Atom.new64_short t s ht32 hs,
    AP4_NullTerminatedStringAtom.cString_append_zero]
  have h9 : s - 8 - 1 = s - 9 := by omega
  rw [h9]

theorem AP4_NullTerminatedStringAtom.Write_fresh (t s : Nat) (v : List Nat)
    (h8 : 8 < s) (hs : s < 2 ^ 32) (hv : v.length + 9 ≤ s) :
    AP4_NullTerminatedStringAtom.Write
        { atom := { m_Type := t, m_Size32 := s, m_Size64 := 0, m_IsFull := false, m_Version := 0,
                    m_Flags := 0, m_Parent := none },
          m_Value := v } AP4_ByteStream.fresh
      = (AP4_Result.SUCCESS,
         { data := AP4_BytesFromUInt32BE s ++ AP4_BytesFromUInt32BE t
                     ++ (v ++ List.replicate (s - 8 - v.length) 0),
           pos := s, faults := [] }) := by
  have hs1 : ¬ s = 1 := by omega
  have hh := AP4_Atom.WriteHeader_ok
    { m_Type := t, m_Size32 := s, m_Size64 := 0, m_IsFull := false, m_Version := 0,
      m_Flags := 0, m_Parent := none } AP4_ByteStream.fresh (by
        intro j _; simp [AP4_ByteStream.fresh])
  have hfields : (AP4_Atom.headerFields
      { m_Type := t, m_Size32 := s, m_Size64 := 0, m_IsFull := false, m_Version := 0,
        m_Flags := 0, m_Parent := none }).flatten
      = AP4_BytesFromUInt32BE s ++ AP4_BytesFromUInt32BE t := by
    simp [AP4_Atom.headerFields, hs1]
  have hhs : (AP4_Atom.GetHeaderSize
      { m_Type := t, m_Size32 := s, m_Size64 := 0, m_IsFull := false, m_Version := 0,
        m_Flags := 0, m_Parent := none }) = 8 := by
    simp [AP4_Atom.GetHeaderSize, AP4_ATOM_HEADER_SIZE, hs1]
  have hl8 : (AP4_BytesFromUInt32BE s ++ AP4_BytesFromUInt32BE t).length = 8 := by
    simp [AP4_BytesFromUInt32BE]
  have hpad : AP4_Sub32 s (AP4_ATOM_HEADER_SIZE + v.length + 1) = s - 9 - v.length := by
    rw [AP4_Sub32_of_le s _ hs (by unfold AP4_ATOM_HEADER_SIZE; omega)]
    unfold AP4_ATOM_HEADER_SIZE
    omega
  have hgt : s > AP4_ATOM_HEADER_SIZE := h8
  rw [hfields, hhs] at hh
  unfold AP4_NullTerminatedStringAtom.Write
  rw [hh]
  simp only [AP4_FAILED, bne_self_eq_false, Bool.false_eq_true, if_false,
    AP4_NullTerminatedStringAtom.WriteFields, hgt, if_true, AP4_ByteStream.fresh,
    AP4_ByteStream.splice_nil_zero, List.drop_nil, hpad]
  rw [AP4_ByteStream.Write_accepting _ _ rfl]
  simp only [bne_self_eq_false, Bool.false_eq_true, if_false, Nat.zero_add]
  have hsp : AP4_ByteStream.splice (AP4_BytesFromUInt32BE s ++ AP4_BytesFromUInt32BE t) 8
      (v ++ [0]) = AP4_BytesFromUInt32BE s ++ AP4_BytesFromUInt32BE t ++ (v ++ [0]) := by
    rw [← hl8]
    exact AP4_ByteStream.splice_atEnd _ _
  have hpos : 8 + (v ++ [0]).length
      = (AP4_BytesFromUInt32BE s ++ AP4_BytesFromUInt32BE t ++ (v ++ [0])).length := by
    rw [List.length_append _ (v ++ [0]), hl8]
  rw [hsp, hpos, AP4_ByteStream.pad_atEnd]
  have hrep : (v ++ [0]) ++ List.replicate (s - 9 - v.length) 0
      = v ++ List.replicate (s - 8 - v.length) 0 := by
    have : s - 8 - v.length = (s - 9 - v.length) + 1 := by omega
    rw [this, List.replicate_succ, List.append_assoc]
    rfl
  have hfin : (AP4_BytesFromUInt32BE s ++ AP4_BytesFromUInt32BE t ++ (v ++ [0])).length
      + (s - 9 - v.length) = s := by
    rw [List.length_append, hl8, List.length_append]
    simp only [List.length_cons, List.length_nil]
    omega
  rw [hfin, List.append_assoc (AP4_BytesFromUInt32BE s ++ AP4_BytesFromUInt32BE t), hrep]

/-- C20 (amended): for a null-terminated string atom parsed with declared size `s`
(`8 < s < 2^32`) from a stream holding at least `s - 8` payload bytes, `Write` on a fresh
stream succeeds and produces exactly `s = Size()` bytes: the header, the payload read up
to its first zero byte (looking at all but its last byte), then zero bytes.  The payload
written equals the payload read when the latter is a string without zero byte followed
by zero bytes only (at least one). -/
theorem AP4_NullTerminatedStringAtom.Write_parsed (t s : Nat) (src : AP4_ByteStream)
    (ht32 : t < 2 ^ 32) (h8 : 8 < s) (hs : s < 2 ^ 32)
    (hsrc : src.pos + (s - 8) ≤ src.data.length) :
    (AP4_NullTerminatedStringAtom.new t s src).1.Write AP4_ByteStream.fresh
      = (AP4_Result.SUCCESS,
         { data := AP4_BytesFromUInt32BE s ++ AP4_BytesFromUInt32BE t
             ++ ((AP4_NullTerminatedStringAtom.new t s src).1.m_Value
                 ++ List.replicate
                      (s - 8 - (AP4_NullTerminatedStringAtom.new t s src).1.m_Value.length) 0),
           pos := s, faults := [] }) ∧
    (AP4_NullTerminatedStringAtom.new t s src).1.m_Value
      = AP4_NullTerminatedStringAtom.cString
          (((src.data.drop src.pos).take (s - 8)).take (s - 9)) ∧
    (AP4_NullTerminatedStringAtom.new t s src).1.atom.GetSize = s ∧
    (AP4_BytesFromUInt32BE s ++ AP4_BytesFromUInt32BE t
      ++ ((AP4_NullTerminatedStringAtom.new t s src).1.m_Value
          ++ List.replicate
               (s - 8 - (AP4_NullTerminatedStringAtom.new t s src).1.m_Value.length) 0)).length
      = s ∧
    (∀ (w : List Nat) (k : Nat), (∀ c ∈ w, c ≠ 0) →
      (src.data.drop src.pos).take (s - 8) = w ++ List.replicate (k + 1) 0 →
      (AP4_NullTerminatedStringAtom.new t s src).1.m_Value
          ++ List.replicate
               (s - 8 - (AP4_NullTerminatedStringAtom.new t s src).1.m_Value.length) 0
        = (src.data.drop src.pos).take (s - 8)) := by
  have hlen : ((src.data.drop src.pos).take (s - 8)).length = s - 8 := by
    simp only [List.length_take, List.length_drop]
    omega
  have hvlen : (AP4_NullTerminatedStringAtom.cString
      (((src.data.drop src.pos).take (s - 8)).take (s - 9))).length + 9 ≤ s := by
    have h1 := AP4_NullTerminatedStringAtom.cString_length_le
      (((src.data.drop src.pos).take (s - 8)).take (s - 9))
    have h2 : (((src.data.drop src.pos).take (s - 8)).take (s - 9)).length ≤ s - 9 :=
      List.length_take_le _ _
    omega
  have hs1 : ¬ s = 1 := by omega
  rw [AP4_NullTerminatedStringAtom.new_parsed t s src ht32 h8 hs hsrc]
  refine ⟨AP4_NullTerminatedStringAtom.Write_fresh t s _ h8 hs hvlen, rfl, ?_, ?_, ?_⟩
  · simp [AP4_Atom.GetSize, hs1]
  · simp only [List.length_append, List.length_replicate, AP4_BytesFromUInt32BE,
      List.length_cons, List.length_nil]
    omega
  · intro w k hw hpay
    simp only
    have hwl : w.length + (k + 1) = s - 8 := by
      rw [← hlen, hpay, List.length_append, List.length_replicate]
    have htake : (w ++ List.replicate (k + 1) 0).take (s - 9) = w ++ List.replicate k 0 := by
      have : s - 9 = (w ++ List.replicate k 0).length := by
        rw [List.length_append, List.length_replicate]; omega
      rw [this, List.replicate_succ', ← List.append_assoc, List.take_left]
    have hcs : AP4_NullTerminatedStringAtom.cString (w ++ List.replicate k 0) = w := by
      cases k with
      | zero => simpa using AP4_NullTerminatedStringAtom.cString_of_nonzero w hw
      | succ k =>
        rw [List.replicate_succ, AP4_NullTerminatedStringAtom.cString_append_zero]
        exact AP4_NullTerminatedStringAtom.cString_of_nonzero w hw
    rw [hpay, htake, hcs]
    congr 1
    congr 1
    omega

theorem AP4_NullTerminatedStringAtom.Write_parsed_witness :
    ((AP4_NullTerminatedStringAtom.new 0x6e616d65 12
        { data := [97, 98, 0, 0], pos := 0, faults := [] }).1.Write AP4_ByteStream.fresh).2.data
      = [0, 0, 0, 12, 0x6e, 0x61, 0x6d, 0x65, 97, 98, 0, 0] := by
  have h := (AP4_NullTerminatedStringAtom.Write_parsed 0x6e616d65 12
    { data := [97, 98, 0, 0], pos := 0, faults := [] } (by norm_num) (by norm_num) (by norm_num)
    (by decide)).1
  rw [h]
  decide

/-- C20 as stated fails: a string atom parsed from the two payload bytes `ab` (declared size
10) is written with the payload `a` followed by a zero byte, because the constructor
forces the last payload byte to zero. -/
theorem AP4_NullTerminatedStringAtom.Write_parsed_counterexample :
    ((AP4_NullTerminatedStringAtom.new 0x6e616d65 10
        { data := [97, 98], pos := 0, faults := [] }).1.Write AP4_ByteStream.fresh)
      = (AP4_Result.SUCCESS,
         { data := [0, 0, 0, 10, 0x6e, 0x61, 0x6d, 0x65, 97, 0], pos := 10, faults := [] }) ∧
    (AP4_ByteStream.Read { data := [97, 98], pos := 0, faults := [] } 2).2.1 = [97, 98] ∧
    ((AP4_NullTerminatedStringAtom.new 0x6e616d65 10
        { data := [97, 98], pos := 0, faults := [] }).1.Write
          AP4_ByteStream.fresh).2.data.drop 8 ≠ [97, 98] := by
  decide

/-! ## Copying children -/

set_option maxRecDepth 100000 in
/-- C15, the code at the failing input: in the sample tree, `FindChild` of `moov` with
`auto_create` set and a path of one 32-hex-character UUID component, which has no match,
returns the new object 5, appended at the tail of the child list; this object is a
container of type 0, not of the type the component names, and the same path looked up
again without `auto_create` in the resulting tree is absent. -/
theorem AP4_AtomParent.FindChild_auto_create_uuid_evaluation :
    (AP4_AtomParent.FindChild AP4_Heap.sample 0
        (AP4_Path "0123456789abcdef0123456789abcdef") true false).map Prod.fst
      = some (some 5) ∧
    (AP4_AtomParent.FindChild AP4_Heap.sample 0
        (AP4_Path "0123456789abcdef0123456789abcdef") true false).map
        (fun r => (r.2.children 0, (r.2.atoms 5).m_Type, r.2.container 5))
      = some ([1, 2, 3, 5], 0, true) ∧
    ((AP4_AtomParent.FindChild AP4_Heap.sample 0
        (AP4_Path "0123456789abcdef0123456789abcdef") true false).bind
        (fun r => AP4_AtomParent.FindChild r.2 0
          (AP4_Path "0123456789abcdef0123456789abcdef") false false)).map Prod.fst
      = some none := by
  decide

theorem AP4_AtomParent.charAt_append_left (l r : List Nat) (i : Nat) (hi : i < l.length) :
    AP4_AtomParent.charAt (l ++ r) i = AP4_AtomParent.charAt l i := by
  unfold AP4_AtomParent.charAt
  rw [List.getD_append _ _ _ _ hi]

theorem AP4_AtomParent.charAt_append_right (l r : List Nat) (i : Nat) :
    AP4_AtomParent.charAt (l ++ r) (l.length + i) = AP4_AtomParent.charAt r i := by
  unfold AP4_AtomParent.charAt
  rw [List.getD_append_right _ _ _ _ (by omega)]
  congr 1
  omega

theorem List.takeWhile_append_stop {α : Type} (p : α → Bool) (l r : List α)
    (hl : ∀ x ∈ l, p x = true) (hr : r.takeWhile p = []) :
    (l ++ r).takeWhile p = l := by
  induction l with
  | nil => simpa using hr
  | cons a l ih =>
    have ha := hl a (List.mem_cons_self a l)
    rw [List.cons_append, List.takeWhile_cons, ha]
    simp only [if_true]
    rw [ih (fun x hx => hl x (List.mem_cons_of_mem a hx))]

theorem AP4_ParseHex_append (name r : List Nat) (hn : name.length = 32) :
    AP4_ParseHex (name ++ r) 16 = AP4_ParseHex name 16 := by
  unfold AP4_ParseHex
  apply List.map_congr_left
  intro i hi
  have hi16 : i < 16 := List.mem_range.mp hi
  rw [List.getD_append _ _ _ _ (by omega), List.getD_append _ _ _ _ (by omega)]

theorem AP4_AtomParent.parseSegment_component (name suffix tail : List Nat) (index : Nat)
    (hname : AP4_IsAcceptedName name)
    (hsuf : (suffix = [] ∧ index = 0) ∨
      ∃ ds, (∀ d ∈ ds, AP4_IsDigitChar d) ∧ suffix = 91 :: ds ++ [93] ∧
        index = AP4_AtomParent.parseIndex ds)
    (htail : tail = [] ∨ ∃ rest, tail = 47 :: rest) :
    AP4_AtomParent.parseSegment (name ++ (suffix ++ tail))
      = some (AP4_PathSegment.ofName name index
          (name.length + suffix.length + (if tail = [] then 0 else 1))) := by
  obtain ⟨hlen, _, hrest⟩ := hname
  have h4 : 4 ≤ name.length := by omega
  have hstop : (suffix ++ tail).takeWhile (fun c => c != 0 && c != 47 && c != 91) = [] := by
    rcases hsuf with ⟨rfl, _⟩ | ⟨ds, _, rfl, _⟩
    · rcases htail with rfl | ⟨rest, rfl⟩
      · rfl
      · rfl
    · rfl
  have F1 : ((name ++ (suffix ++ tail)).drop 4).takeWhile
      (fun c => c != 0 && c != 47 && c != 91) = name.drop 4 := by
    rw [List.drop_append_of_le_length h4]
    apply List.takeWhile_append_stop _ _ _ _ hstop
    intro x hx
    obtain ⟨a, b, c⟩ := hrest x hx
    simp [a, b, c]
  have F2 : 4 + (name.drop 4).length = name.length := by
    rw [List.length_drop]; omega
  have c0 : AP4_AtomParent.charAt (name ++ (suffix ++ tail)) 0 = AP4_AtomParent.charAt name 0 :=
    AP4_AtomParent.charAt_append_left _ _ _ (by omega)
  have c1 : AP4_AtomParent.charAt (name ++ (suffix ++ tail)) 1 = AP4_AtomParent.charAt name 1 :=
    AP4_AtomParent.charAt_append_left _ _ _ (by omega)
  have c2 : AP4_AtomParent.charAt (name ++ (suffix ++ tail)) 2 = AP4_AtomParent.charAt name 2 :=
    AP4_AtomParent.charAt_append_left _ _ _ (by omega)
  have c3 : AP4_AtomParent.charAt (name ++ (suffix ++ tail)) 3 = AP4_AtomParent.charAt name 3 :=
    AP4_AtomParent.charAt_append_left _ _ _ (by omega)
  have hx : (if (name.length == 4) = true then ([] : List Nat)
        else AP4_ParseHex (name ++ (suffix ++ tail)) 16) =
      if (name.length == 4) = true then [] else AP4_ParseHex name 16 := by
    rcases hlen with h | h
    · simp [h]
    · rw [AP4_ParseHex_append name _ h]
  have hguard : (name.length != 4 && name.length != 32) = false := by
    rcases hlen with h | h <;> simp [h]
  have htl : AP4_AtomParent.charAt tail 0 = if tail = [] then 0 else 47 := by
    rcases htail with rfl | ⟨rest, rfl⟩
    · rfl
    · rfl
  unfold AP4_AtomParent.parseSegment
  simp only [F1, F2, c0, c1, c2, c3, hx, hguard, Bool.false_eq_true, if_false]
  rcases hsuf with ⟨rfl, rfl⟩ | ⟨ds, hds, rfl, rfl⟩
  · have e1 : AP4_AtomParent.charAt (name ++ ([] ++ tail)) name.length
        = if tail = [] then 0 else 47 := by
      have := AP4_AtomParent.charAt_append_right name ([] ++ tail) 0
      rw [Nat.add_zero] at this
      rw [this, List.nil_append, htl]
    have e1a : (AP4_AtomParent.charAt (name ++ ([] ++ tail)) name.length == 91) = false := by
      rw [e1]
      split <;> rfl
    simp only [e1a, Bool.false_eq_true, if_false, e1]
    rcases htail with rfl | ⟨rest, rfl⟩
    · have hz : AP4_AtomParent.charAt name name.length = 0 := by
        simpa using e1
      simp [AP4_PathSegment.ofName, hz]
    · have hz : AP4_AtomParent.charAt (name ++ 47 :: rest) name.length = 47 := by
        simpa using e1
      simp [AP4_PathSegment.ofName, hz]
  · have e1 : AP4_AtomParent.charAt (name ++ (91 :: ds ++ [93] ++ tail)) name.length = 91 := by
      have := AP4_AtomParent.charAt_append_right name (91 :: ds ++ [93] ++ tail) 0
      rw [Nat.add_zero] at this
      rw [this]
      rfl
    have e2 : (name ++ (91 :: ds ++ [93] ++ tail)).drop (name.length + 1)
        = ds ++ (93 :: tail) := by
      rw [List.drop_append_eq_append_drop]
      simp
    have e3 : (ds ++ (93 :: tail)).takeWhile (fun c => decide (48 ≤ c ∧ c ≤ 57)) = ds := by
      apply List.takeWhile_append_stop
      · intro x hx
        simpa using hds x hx
      · rfl
    have e4 : AP4_AtomParent.charAt (name ++ (91 :: ds ++ [93] ++ tail))
        (name.length + 1 + ds.length) = 93 := by
      have := AP4_AtomParent.charAt_append_right name (91 :: ds ++ [93] ++ tail) (1 + ds.length)
      rw [← Nat.add_assoc] at this
      rw [this]
      have := AP4_AtomParent.charAt_append_right (91 :: ds) ([93] ++ tail) 0
      simp only [List.length_cons, Nat.add_zero] at this
      rw [show 1 + ds.length = ds.length + 1 by omega]
      simpa using this
    have e5 : AP4_AtomParent.charAt (name ++ (91 :: ds ++ [93] ++ tail))
        (name.length + 1 + ds.length + 1) = if tail = [] then 0 else 47 := by
      have := AP4_AtomParent.charAt_append_right name (91 :: ds ++ [93] ++ tail)
        (1 + ds.length + 1)
      rw [← Nat.add_assoc, ← Nat.add_assoc] at this
      rw [this]
      have := AP4_AtomParent.charAt_append_right (91 :: ds ++ [93]) tail 0
      simp only [List.length_cons, List.length_append, List.length_nil, Nat.add_zero] at this
      rw [show 1 + ds.length + 1 = ds.length + 1 + (0 + 1) by omega, this, htl]
    simp only [e1, e2, e3, e4, bne_self_eq_false, beq_self_eq_true, Bool.false_eq_true,
      if_false, if_true, e5]
    rcases htail with rfl | ⟨rest, rfl⟩
    · simp [AP4_PathSegment.ofName, AP4_AtomParent.parseIndex]
      omega
    · simp [AP4_PathSegment.ofName, AP4_AtomParent.parseIndex]
      omega

theorem AP4_AtomParent.charAt_name (name : List Nat) (hname : AP4_IsAcceptedName name)
    (i : Nat) (hi : i < 4) : AP4_AtomParent.charAt name i ≠ 0 := by
  obtain ⟨hlen, hfirst, _⟩ := hname
  have hl : i < name.length := by omega
  apply hfirst
  unfold AP4_AtomParent.charAt
  rw [List.getD_eq_getElem _ _ hl]
  rw [List.mem_take_iff_getElem]
  exact ⟨i, by omega, rfl⟩

theorem AP4_AtomParent.findOrCreate_end (h : AP4_Heap) (parent : Nat) (name : List Nat)
    (index e : Nat) (ac acf : Bool) :
    AP4_AtomParent.findOrCreate h parent (AP4_PathSegment.ofName name index e) ac acf
      = AP4_AtomParent.findOrCreate h parent (AP4_PathSegment.ofName name index 0) ac acf :=
  rfl

theorem AP4_AtomParent.FindChildLoop_succ (fuel : Nat) (h : AP4_Heap) (parent : Nat)
    (path : List Nat) (ac acf : Bool) :
    AP4_AtomParent.FindChildLoop (fuel + 1) h parent path ac acf
      = if !(AP4_AtomParent.charAt path 0 != 0 && AP4_AtomParent.charAt path 1 != 0 &&
             AP4_AtomParent.charAt path 2 != 0 && AP4_AtomParent.charAt path 3 != 0)
        then some (none, h) else
        match AP4_AtomParent.parseSegment path with
        | none => some (none, h)
        | some seg =>
        match AP4_AtomParent.findOrCreate h parent seg ac acf with
        | none => none
        | some none => some (none, h)
        | some (some (atom, h)) =>
        if AP4_AtomParent.charAt path seg.end_ != 0 then
          if h.container atom then
            AP4_AtomParent.FindChildLoop fuel h atom (path.drop seg.end_) ac acf
          else some (none, h)
        else some (some atom, h) :=
  rfl

theorem AP4_AtomParent.guard_of_name (name r : List Nat) (hname : AP4_IsAcceptedName name) :
    (!(AP4_AtomParent.charAt (name ++ r) 0 != 0 && AP4_AtomParent.charAt (name ++ r) 1 != 0 &&
       AP4_AtomParent.charAt (name ++ r) 2 != 0 && AP4_AtomParent.charAt (name ++ r) 3 != 0))
      = false := by
  have hl : 4 ≤ name.length := by
    obtain ⟨hlen, _, _⟩ := hname
    omega
  have g : ∀ i, i < 4 → AP4_AtomParent.charAt (name ++ r) i ≠ 0 := by
    intro i hi
    rw [AP4_AtomParent.charAt_append_left _ _ _ (by omega)]
    exact AP4_AtomParent.charAt_name name hname i hi
  simp [g 0 (by omega), g 1 (by omega), g 2 (by omega), g 3 (by omega)]

theorem AP4_AtomParent.FindChildLoop_last (fuel : Nat) (h : AP4_Heap) (parent : Nat)
    (name suffix : List Nat) (index : Nat) (ac acf : Bool)
    (hname : AP4_IsAcceptedName name)
    (hsuf : (suffix = [] ∧ index = 0) ∨
      ∃ ds, (∀ d ∈ ds, AP4_IsDigitChar d) ∧ suffix = 91 :: ds ++ [93] ∧
        index = AP4_AtomParent.parseIndex ds) :
    AP4_AtomParent.FindChildLoop (fuel + 1) h parent (name ++ suffix) ac acf
      = match AP4_AtomParent.findOrCreate h parent (AP4_PathSegment.ofName name index 0)
          ac acf with
        | none => none
        | some none => some (none, h)
        | some (some (atom, h1)) => some (some atom, h1) := by
  have hp := AP4_AtomParent.parseSegment_component name suffix [] index hname hsuf (Or.inl rfl)
  rw [List.append_nil] at hp
  have hend : (AP4_AtomParent.charAt (name ++ suffix) (name.length + suffix.length + 0) != 0)
      = false := by
    unfold AP4_AtomParent.charAt
    rw [List.getD_eq_default]
    · rfl
    · rw [List.length_append]; omega
  rw [AP4_AtomParent.FindChildLoop_succ, AP4_AtomParent.guard_of_name name suffix hname, hp]
  simp only [Bool.false_eq_true, if_false, if_true]
  rw [AP4_AtomParent.findOrCreate_end]
  have e : (AP4_PathSegment.ofName name index (name.length + suffix.length + 0)).end_
      = name.length + suffix.length + 0 := rfl
  simp only [e, hend, Bool.false_eq_true, if_false]

theorem AP4_AtomParent.FindChildLoop_slash (fuel : Nat) (h : AP4_Heap) (parent : Nat)
    (name suffix rest : List Nat) (index : Nat) (ac acf : Bool)
    (hname : AP4_IsAcceptedName name)
    (hsuf : (suffix = [] ∧ index = 0) ∨
      ∃ ds, (∀ d ∈ ds, AP4_IsDigitChar d) ∧ suffix = 91 :: ds ++ [93] ∧
        index = AP4_AtomParent.parseIndex ds) :
    AP4_AtomParent.FindChildLoop (fuel + 1) h parent (name ++ (suffix ++ 47 :: rest)) ac acf
      = match AP4_AtomParent.findOrCreate h parent (AP4_PathSegment.ofName name index 0)
          ac acf with
        | none => none
        | some none => some (none, h)
        | some (some (atom, h1)) =>
          if AP4_AtomParent.charAt rest 0 != 0 then
            if h1.container atom then AP4_AtomParent.FindChildLoop fuel h1 atom rest ac acf
            else some (none, h1)
          else some (some atom, h1) := by
  have hp := AP4_AtomParent.parseSegment_component name suffix (47 :: rest) index hname hsuf
    (Or.inr ⟨rest, rfl⟩)
  have hassoc : name ++ (suffix ++ 47 :: rest) = (name ++ suffix ++ [47]) ++ rest := by simp
  have hlen : name.length + suffix.length + 1 = (name ++ suffix ++ [47]).length := by
    simp only [List.length_append, List.length_singleton]
  have hend : AP4_AtomParent.charAt (name ++ (suffix ++ 47 :: rest))
      (name.length + suffix.length + 1) = AP4_AtomParent.charAt rest 0 := by
    have := AP4_AtomParent.charAt_append_right (name ++ suffix ++ [47]) rest 0
    rw [Nat.add_zero] at this
    rw [hassoc, hlen, this]
  have hdrop : (name ++ (suffix ++ 47 :: rest)).drop (name.length + suffix.length + 1)
      = rest := by
    rw [hassoc, hlen]
    exact List.drop_left _ _
  rw [AP4_AtomParent.FindChildLoop_succ, AP4_AtomParent.guard_of_name name _ hname, hp]
  simp only [Bool.false_eq_true, if_false, if_true, if_neg (List.cons_ne_nil 47 rest)]
  rw [AP4_AtomParent.findOrCreate_end]
  have e : (AP4_PathSegment.ofName name index (name.length + suffix.length + 1)).end_
      = name.length + suffix.length + 1 := rfl
  simp only [e, hend, hdrop]

theorem AP4_AtomParent.FindChildLoop_fuel (fuel1 : Nat) :
    ∀ (fuel2 : Nat) (h : AP4_Heap) (parent : Nat) (path : List Nat) (ac acf : Bool),
      path.length < fuel1 → path.length < fuel2 →
      AP4_AtomParent.FindChildLoop fuel1 h parent path ac acf
        = AP4_AtomParent.FindChildLoop fuel2 h parent path ac acf := by
  induction fuel1 with
  | zero => intro fuel2 h parent path ac acf h1 _; omega
  | succ fuel1 ih =>
    intro fuel2 h parent path ac acf h1 h2
    cases fuel2 with
    | zero => omega
    | succ fuel2 =>
      rw [AP4_AtomParent.FindChildLoop_succ, AP4_AtomParent.FindChildLoop_succ]
      split
      · rfl
      · rename_i hchk
        have hpos : 0 < path.length := by
          cases path with
          | nil => simp [AP4_AtomParent.charAt] at hchk
          | cons a rest => simp
        split
        · rfl
        · rename_i seg hseg
          have hend := AP4_AtomParent.parseSegment_end path seg hseg
          split
          · rfl
          · rfl
          · split
            · split
              · apply ih
                · rw [List.length_drop]; omega
                · rw [List.length_drop]; omega
              · rfl
            · rfl

theorem AP4_AtomParent.FindChild_eq_loop (fuel : Nat) (h : AP4_Heap) (parent : Nat)
    (path : List Nat) (ac acf : Bool) (hf : path.length < fuel) :
    AP4_AtomParent.FindChildLoop fuel h parent path ac acf
      = AP4_AtomParent.FindChild h parent path ac acf :=
  AP4_AtomParent.FindChildLoop_fuel fuel _ h parent path ac acf hf (by omega)

theorem AP4_AtomParent.findOrCreate_lookup (h : AP4_Heap) (parent : Nat) (seg : AP4_PathSegment)
    (acf : Bool) :
    AP4_AtomParent.findOrCreate h parent seg false acf
      = (AP4_AtomParent.lookup h parent seg).map (fun r => r.map (fun a => (a, h))) := by
  rw [AP4_AtomParent.findOrCreate_eq]
  cases AP4_AtomParent.lookup h parent seg with
  | none => rfl
  | some r =>
    cases r with
    | none => rfl
    | some a => rfl

theorem AP4_AtomParent.FindChildLoop_lookup (fuel : Nat) :
    ∀ (h : AP4_Heap) (parent : Nat) (path : List Nat) (acf : Bool) (r : Option Nat)
      (h1 : AP4_Heap),
      AP4_AtomParent.FindChildLoop fuel h parent path false acf = some (r, h1) → h1 = h := by
  induction fuel with
  | zero =>
    intro h parent path acf r h1 he
    exact Option.noConfusion he
  | succ fuel ih =>
    intro h parent path acf r h1 he
    rw [AP4_AtomParent.FindChildLoop_succ] at he
    split at he
    · exact ((Prod.mk.inj (Option.some.inj he)).2).symm
    · split at he
      · exact ((Prod.mk.inj (Option.some.inj he)).2).symm
      · rename_i seg hseg
        rw [AP4_AtomParent.findOrCreate_lookup] at he
        split at he
        · exact Option.noConfusion he
        · exact ((Prod.mk.inj (Option.some.inj he)).2).symm
        · rename_i atom h2 hfo
          have h2h : h2 = h := by
            cases hl : AP4_AtomParent.lookup h parent seg with
            | none => rw [hl] at hfo; exact Option.noConfusion hfo
            | some r =>
              rw [hl] at hfo
              cases r with
              | none => exact Option.noConfusion (Option.some.inj hfo)
              | some a => exact ((Prod.mk.inj (Option.some.inj (Option.some.inj hfo))).2).symm
          subst h2h
          split at he
          · split at he
            · exact ih _ _ _ _ _ _ he
            · exact ((Prod.mk.inj (Option.some.inj he)).2).symm
          · exact ((Prod.mk.inj (Option.some.inj he)).2).symm

theorem AP4_IsAcceptedComponent.parts (c : List Nat) (hc : AP4_IsAcceptedComponent c) :
    ∃ name suffix index, c = name ++ suffix ∧ AP4_IsAcceptedName name ∧
      ((suffix = [] ∧ index = 0) ∨
        ∃ ds, (∀ d ∈ ds, AP4_IsDigitChar d) ∧ suffix = 91 :: ds ++ [93] ∧
          index = AP4_AtomParent.parseIndex ds) := by
  obtain ⟨name, hname, rfl | ⟨ds, hds, rfl⟩⟩ := hc
  · exact ⟨c, [], 0, by simp, hname, Or.inl ⟨rfl, rfl⟩⟩
  · exact ⟨name, 91 :: ds ++ [93], _, by simp, hname, Or.inr ⟨ds, hds, rfl, rfl⟩⟩

theorem AP4_IsName.name_accepted (name : List Nat) (hn : AP4_IsName name) :
    AP4_IsAcceptedName name := by
  rcases hn with ⟨hl, hc⟩ | ⟨hl, hc⟩
  · refine ⟨Or.inl hl, ?_, ?_⟩
    · intro c hm
      have := hc c (List.mem_of_mem_take hm)
      omega
    · intro c hm
      have := hc c (List.mem_of_mem_drop hm)
      omega
  · refine ⟨Or.inr hl, ?_, ?_⟩
    · intro c hm
      have := hc c (List.mem_of_mem_take hm)
      unfold AP4_IsHexChar at this
      omega
    · intro c hm
      have := hc c (List.mem_of_mem_drop hm)
      unfold AP4_IsHexChar at this
      omega

theorem AP4_IsComponent.component_accepted (c : List Nat) (hc : AP4_IsComponent c) :
    AP4_IsAcceptedComponent c := by
  obtain ⟨name, hname, rfl | ⟨ds, _, hds, rfl⟩⟩ := hc
  · exact ⟨c, AP4_IsName.name_accepted c hname, Or.inl rfl⟩
  · exact ⟨name, AP4_IsName.name_accepted name hname, Or.inr ⟨ds, hds, rfl⟩⟩

theorem AP4_WellFormedPath.path_accepted (p : List Nat) (hp : AP4_WellFormedPath p) :
    AP4_AcceptedPath p := by
  induction hp with
  | single c hc => exact AP4_AcceptedPath.single c (AP4_IsComponent.component_accepted c hc)
  | cons c rest hc _ ih => exact AP4_AcceptedPath.cons c rest (AP4_IsComponent.component_accepted c hc) ih

theorem AP4_IsAcceptedComponent.component_charAt_zero (c r : List Nat) (hc : AP4_IsAcceptedComponent c) :
    AP4_AtomParent.charAt (c ++ r) 0 ≠ 0 := by
  obtain ⟨name, suffix, index, rfl, hname, _⟩ := AP4_IsAcceptedComponent.parts c hc
  have hl : 0 < name.length := by
    obtain ⟨hlen, _, _⟩ := hname
    omega
  rw [List.append_assoc, AP4_AtomParent.charAt_append_left _ _ _ hl]
  exact AP4_AtomParent.charAt_name name hname 0 (by omega)

theorem AP4_AcceptedPath.path_charAt_zero (p : List Nat) (hp : AP4_AcceptedPath p) :
    AP4_AtomParent.charAt p 0 ≠ 0 := by
  cases hp with
  | single c hc =>
    have := AP4_IsAcceptedComponent.component_charAt_zero p [] hc
    rwa [List.append_nil] at this
  | cons c rest hc _ => exact AP4_IsAcceptedComponent.component_charAt_zero c _ hc

theorem AP4_AcceptedPath.path_charAt_append (p r : List Nat) (hp : AP4_AcceptedPath p) :
    AP4_AtomParent.charAt (p ++ r) 0 ≠ 0 := by
  cases hp with
  | single c hc => exact AP4_IsAcceptedComponent.component_charAt_zero p r hc
  | cons c rest hc _ =>
    rw [List.append_assoc]
    exact AP4_IsAcceptedComponent.component_charAt_zero c _ hc

theorem AP4_AtomParent.FindChildLoop_append (a : List Nat) (ha : AP4_AcceptedPath a) :
    ∀ (fuel : Nat) (h : AP4_Heap) (parent : Nat) (b : List Nat) (ac acf : Bool),
      AP4_AtomParent.charAt b 0 ≠ 0 → (a ++ 47 :: b).length < fuel →
      AP4_AtomParent.FindChildLoop fuel h parent (a ++ 47 :: b) ac acf
        = match AP4_AtomParent.FindChild h parent a ac acf with
          | some (some A, h1) =>
            if h1.container A then AP4_AtomParent.FindChild h1 A b ac acf else some (none, h1)
          | r => r := by
  induction ha with
  | single c hc =>
    intro fuel h parent b ac acf hb hf
    obtain ⟨name, suffix, index, rfl, hname, hsuf⟩ := AP4_IsAcceptedComponent.parts c hc
    cases fuel with
    | zero => omega
    | succ fuel =>
      rw [List.append_assoc, AP4_AtomParent.FindChildLoop_slash fuel h parent name suffix b index
        ac acf hname hsuf]
      unfold AP4_AtomParent.FindChild
      rw [AP4_AtomParent.FindChildLoop_last _ h parent name suffix index ac acf hname hsuf]
      cases AP4_AtomParent.findOrCreate h parent (AP4_PathSegment.ofName name index 0) ac acf with
      | none => rfl
      | some r =>
        cases r with
        | none => rfl
        | some r =>
        obtain ⟨atom, h1⟩ := r
        have hb2 : (AP4_AtomParent.charAt b 0 != 0) = true := by simpa using hb
        simp only [hb2, if_true]
        rw [AP4_AtomParent.FindChildLoop_fuel fuel (b.length + 1) h1 atom b ac acf
          (by simp only [List.length_append, List.length_cons] at hf; omega) (by omega)]
  | cons c rest hc hrest ih =>
    intro fuel h parent b ac acf hb hf
    obtain ⟨name, suffix, index, rfl, hname, hsuf⟩ := AP4_IsAcceptedComponent.parts c hc
    cases fuel with
    | zero => omega
    | succ fuel =>
      have e1 : name ++ suffix ++ 47 :: rest ++ 47 :: b
          = name ++ (suffix ++ 47 :: (rest ++ 47 :: b)) := by simp
      have e2 : name ++ suffix ++ 47 :: rest = name ++ (suffix ++ 47 :: rest) := by simp
      rw [e1, AP4_AtomParent.FindChildLoop_slash fuel h parent name suffix (rest ++ 47 :: b)
        index ac acf hname hsuf]
      unfold AP4_AtomParent.FindChild
      rw [e2, AP4_AtomParent.FindChildLoop_slash _ h parent name suffix rest index
        ac acf hname hsuf]
      cases AP4_AtomParent.findOrCreate h parent (AP4_PathSegment.ofName name index 0) ac acf with
      | none => rfl
      | some r =>
        cases r with
        | none => rfl
        | some r =>
        obtain ⟨atom, h1⟩ := r
        have hr1 : (AP4_AtomParent.charAt (rest ++ 47 :: b) 0 != 0) = true := by
          simpa using AP4_AcceptedPath.path_charAt_append rest (47 :: b) hrest
        have hr2 : (AP4_AtomParent.charAt rest 0 != 0) = true := by
          simpa using AP4_AcceptedPath.path_charAt_zero rest hrest
        simp only [hr1, hr2, if_true]
        cases hcont : h1.container atom with
        | false => rfl
        | true =>
          simp only [if_true]
          have hlen : (name ++ (suffix ++ 47 :: rest)).length = name.length + suffix.length
              + 1 + rest.length := by
            simp only [List.length_append, List.length_cons]; omega
          have hlen2 : (name ++ (suffix ++ 47 :: (rest ++ 47 :: b))).length
              = name.length + suffix.length + 1 + rest.length + 1 + b.length := by
            simp only [List.length_append, List.length_cons]; omega
          rw [e1, hlen2] at hf
          rw [ih fuel h1 atom b ac acf hb
            (by simp only [List.length_append, List.length_cons]; omega)]
          rw [AP4_AtomParent.FindChild_eq_loop _ h1 atom rest ac acf (by rw [hlen]; omega)]
          rfl

theorem AP4_AtomParent.parseIndex_eq (ds : List Nat) :
    Nat.ofDigits 10 ((ds.map (fun x => x - 48)).reverse) < 2 ^ 32 →
    AP4_AtomParent.parseIndex ds = Nat.ofDigits 10 ((ds.map (fun x => x - 48)).reverse) := by
  induction ds using List.reverseRecOn with
  | nil => intro _; rfl
  | append_singleton ds d ih =>
    intro hn
    have e : ((ds ++ [d]).map (fun x => x - 48)).reverse
        = (d - 48) :: (ds.map (fun x => x - 48)).reverse := by simp
    rw [e, Nat.ofDigits_cons] at hn ⊢
    have hlt : Nat.ofDigits 10 ((ds.map (fun x => x - 48)).reverse) < 2 ^ 32 := by
      have : (2 : Nat) ^ 32 = 4294967296 := by norm_num
      rw [this] at hn ⊢
      omega
    have e2 : AP4_AtomParent.parseIndex (ds ++ [d])
        = (10 * AP4_AtomParent.parseIndex ds + (d - 48)) % 2 ^ 32 := by
      unfold AP4_AtomParent.parseIndex
      rw [List.foldl_append]
      rfl
    rw [e2, ih hlt, Nat.mod_eq_of_lt]
    · omega
    · omega

theorem AP4_AtomParent.code_name (a b c d : Nat) (ha : a ≠ 0) (hb : b ≠ 0) (hc : c ≠ 0)
    (hd : d ≠ 0) : AP4_IsAcceptedName [a, b, c, d] := by
  refine ⟨Or.inl rfl, ?_, ?_⟩
  · intro x hx
    simp only [List.take, List.mem_cons, List.mem_nil_iff, or_false] at hx
    rcases hx with rfl | rfl | rfl | rfl <;> assumption
  · intro x hx
    simp at hx

theorem AP4_AtomParent.FindChild_code (h : AP4_Heap) (self : Nat) (acf : Bool)
    (a b c d : Nat) (suffix : List Nat) (index : Nat)
    (ha : a ≠ 0) (hb : b ≠ 0) (hc : c ≠ 0) (hd : d ≠ 0)
    (hsuf : (suffix = [] ∧ index = 0) ∨
      ∃ ds, (∀ d ∈ ds, AP4_IsDigitChar d) ∧ suffix = 91 :: ds ++ [93] ∧
        index = AP4_AtomParent.parseIndex ds) :
    AP4_AtomParent.FindChild h self ([a, b, c, d] ++ suffix) false acf
      = some (AP4_AtomParent.GetChild h self (AP4_ATOM_TYPE a b c d) index, h) := by
  unfold AP4_AtomParent.FindChild
  rw [AP4_AtomParent.FindChildLoop_last _ h self [a, b, c, d] suffix index false acf
    (AP4_AtomParent.code_name a b c d ha hb hc hd) hsuf, AP4_AtomParent.findOrCreate_lookup]
  have e : AP4_AtomParent.lookup h self (AP4_PathSegment.ofName [a, b, c, d] index 0)
      = some (AP4_AtomParent.GetChild h self (AP4_ATOM_TYPE a b c d) index) := rfl
  rw [e]
  cases AP4_AtomParent.GetChild h self (AP4_ATOM_TYPE a b c d) index <;> rfl

/-- C12: for every parent, every four-character code `abcd` and every decimal number `n`
(a sequence of digits whose value fits an `int`), `FindChild("abcd[n]")` without
`auto_create` returns exactly `GetChild('abcd', n)` and `FindChild("abcd")` returns
`GetChild('abcd', 0)`, the tree unchanged; so in a tree whose `moov` container has exactly
two `trak` children, `FindChild("moov/trak[1]")` is the second `trak` and
`FindChild("moov/trak[2]")` is absent. -/
theorem AP4_AtomParent.FindChild_indexed (h : AP4_Heap) (self : Nat) (acf : Bool)
    (a b c d : Nat) (ds : List Nat)
    (ha : a ≠ 0) (hb : b ≠ 0) (hc : c ≠ 0) (hd : d ≠ 0)
    (hds : ∀ x ∈ ds, AP4_IsDigitChar x)
    (hn : Nat.ofDigits 10 ((ds.map (fun x => x - 48)).reverse) < 2 ^ 31) :
    AP4_AtomParent.FindChild h self ([a, b, c, d] ++ (91 :: ds ++ [93])) false acf
      = some (AP4_AtomParent.GetChild h self (AP4_ATOM_TYPE a b c d)
          (Nat.ofDigits 10 ((ds.map (fun x => x - 48)).reverse)), h) ∧
    AP4_AtomParent.FindChild h self [a, b, c, d] false acf
      = some (AP4_AtomParent.GetChild h self (AP4_ATOM_TYPE a b c d) 0, h) ∧
    ∀ moov t0 t1,
      AP4_AtomParent.GetChild h self (AP4_ATOM_TYPE 109 111 111 118) 0 = some moov →
      h.container moov = true →
      (h.children moov).filter (fun x => (h.atoms x).m_Type == AP4_ATOM_TYPE 116 114 97 107)
        = [t0, t1] →
      AP4_AtomParent.FindChild h self (AP4_Path "moov/trak[1]") false acf = some (some t1, h) ∧
      AP4_AtomParent.FindChild h self (AP4_Path "moov/trak[2]") false acf = some (none, h) := by
  have hn32 : Nat.ofDigits 10 ((ds.map (fun x => x - 48)).reverse) < 2 ^ 32 := by
    have : (2 : Nat) ^ 31 < 2 ^ 32 := by norm_num
    omega
  refine ⟨?_, ?_, ?_⟩
  · rw [← AP4_AtomParent.parseIndex_eq ds hn32]
    exact AP4_AtomParent.FindChild_code h self acf a b c d _ _ ha hb hc hd
      (Or.inr ⟨ds, hds, rfl, rfl⟩)
  · have := AP4_AtomParent.FindChild_code h self acf a b c d [] 0 ha hb hc hd
      (Or.inl ⟨rfl, rfl⟩)
    rwa [List.append_nil] at this
  · intro moov t0 t1 hmoov hcont htrak
    have hacc : AP4_AcceptedPath [109, 111, 111, 118] :=
      AP4_AcceptedPath.single _ ⟨_, AP4_AtomParent.code_name 109 111 111 118 (by decide)
        (by decide) (by decide) (by decide), Or.inl rfl⟩
    have hm : AP4_AtomParent.FindChild h self [109, 111, 111, 118] false acf
        = some (some moov, h) := by
      have := AP4_AtomParent.FindChild_code h self acf 109 111 111 118 [] 0 (by decide)
        (by decide) (by decide) (by decide) (Or.inl ⟨rfl, rfl⟩)
      rw [List.append_nil, hmoov] at this
      exact this
    have hidx : ∀ i, i < 10 → AP4_AtomParent.FindChild h self
        ([109, 111, 111, 118] ++ 47 :: ([116, 114, 97, 107] ++ (91 :: [48 + i] ++ [93])))
        false acf = some (([t0, t1] : List Nat)[i]?, h) := by
      intro i hi
      unfold AP4_AtomParent.FindChild
      rw [AP4_AtomParent.FindChildLoop_append _ hacc _ h self _ false acf
        (by simp [AP4_AtomParent.charAt]) (by omega), hm]
      simp only [hcont, if_true]
      rw [AP4_AtomParent.FindChild_code h moov acf 116 114 97 107 (91 :: [48 + i] ++ [93]) i
        (by decide) (by decide) (by decide) (by decide)
        (Or.inr ⟨[48 + i], by
          intro x hx
          rw [List.mem_singleton] at hx
          subst hx
          exact ⟨by omega, by omega⟩, rfl, by
          unfold AP4_AtomParent.parseIndex
          simp only [List.foldl_cons, List.foldl_nil]
          have : (2 : Nat) ^ 32 = 4294967296 := by norm_num
          rw [this]
          omega⟩)]
      unfold AP4_AtomParent.GetChild
      rw [AP4_List.FindNth_eq_filter, htrak]
    exact ⟨hidx 1 (by omega), hidx 2 (by omega)⟩

theorem AP4_AtomParent.FindChild_indexed_witness :
    AP4_AtomParent.FindChild AP4_Heap.sampleFile 0 (AP4_Path "trak[1]") false false
      = some (some 3, AP4_Heap.sampleFile) ∧
    AP4_AtomParent.FindChild AP4_Heap.sampleFile 0 (AP4_Path "trak") false false
      = some (some 2, AP4_Heap.sampleFile) ∧
    AP4_AtomParent.FindChild AP4_Heap.sampleFile 5 (AP4_Path "moov/trak[1]") false false
      = some (some 3, AP4_Heap.sampleFile) ∧
    AP4_AtomParent.FindChild AP4_Heap.sampleFile 5 (AP4_Path "moov/trak[2]") false false
      = some (none, AP4_Heap.sampleFile) := by
  have hw := AP4_AtomParent.FindChild_indexed AP4_Heap.sampleFile 0 false 116 114 97 107 [49]
    (by decide) (by decide) (by decide) (by decide)
    (by intro x hx; rw [List.mem_singleton] at hx; subst hx; exact ⟨by decide, by decide⟩)
    (by norm_num [Nat.ofDigits])
  have hf := AP4_AtomParent.FindChild_indexed AP4_Heap.sampleFile 5 false 116 114 97 107 [49]
    (by decide) (by decide) (by decide) (by decide)
    (by intro x hx; rw [List.mem_singleton] at hx; subst hx; exact ⟨by decide, by decide⟩)
    (by norm_num [Nat.ofDigits])
  have hs := hf.2.2 0 2 3 (by decide) (by decide) (by decide)
  refine ⟨?_, ?_, hs.1, hs.2⟩
  · have e : AP4_AtomParent.GetChild AP4_Heap.sampleFile 0 (AP4_ATOM_TYPE 116 114 97 107)
        (Nat.ofDigits 10 (([49] : List Nat).map (fun x => x - 48)).reverse) = some 3 := by
      norm_num [Nat.ofDigits]
      decide
    rw [← e]
    exact hw.1
  · have e : AP4_AtomParent.GetChild AP4_Heap.sampleFile 0 (AP4_ATOM_TYPE 116 114 97 107) 0
        = some 2 := by decide
    rw [← e]
    exact hw.2.1

/-- C13: path resolution composes over `/`.  For every tree, every parent and all well-formed
paths `a` and `b`, with `auto_create` unset: `FindChild(a + "/" + b)` returns `B` exactly
when `FindChild(a)` returns a container `A` and `A.FindChild(b)` returns `B`; none of these
calls changes the tree. -/
theorem AP4_AtomParent.FindChild_compose (h : AP4_Heap) (self : Nat) (a b : List Nat)
    (acf : Bool) (B : Nat) (ha : AP4_WellFormedPath a) (hb : AP4_WellFormedPath b) :
    AP4_AtomParent.FindChild h self (a ++ 47 :: b) false acf = some (some B, h) ↔
    ∃ A, AP4_AtomParent.FindChild h self a false acf = some (some A, h) ∧
      h.container A = true ∧
      AP4_AtomParent.FindChild h A b false acf = some (some B, h) := by
  have key := AP4_AtomParent.FindChildLoop_append a (AP4_WellFormedPath.path_accepted a ha)
    ((a ++ 47 :: b).length + 1) h self b false acf
    (AP4_AcceptedPath.path_charAt_zero b (AP4_WellFormedPath.path_accepted b hb)) (by omega)
  change AP4_AtomParent.FindChild h self (a ++ 47 :: b) false acf = _ at key
  cases he : AP4_AtomParent.FindChild h self a false acf with
  | none =>
    rw [he] at key
    simp only at key
    rw [key]
    constructor
    · intro hx
      exact Option.noConfusion hx
    · rintro ⟨A, hx, _⟩
      exact Option.noConfusion hx
  | some rh =>
  obtain ⟨r, h1⟩ := rh
  have h1h : h1 = h := AP4_AtomParent.FindChildLoop_lookup _ h self a acf r h1 he
  subst h1h
  rw [he] at key
  cases r with
  | none =>
    simp only at key
    rw [key]
    constructor
    · intro hx
      exact Option.noConfusion (Prod.mk.inj (Option.some.inj hx)).1
    · rintro ⟨A, hx, _⟩
      exact Option.noConfusion (Prod.mk.inj (Option.some.inj hx)).1
  | some A =>
    simp only at key
    rw [key]
    cases hcont : h1.container A with
    | false =>
      simp only [Bool.false_eq_true, if_false]
      constructor
      · intro hx
        exact Option.noConfusion (Prod.mk.inj (Option.some.inj hx)).1
      · rintro ⟨A2, hx, hc2, _⟩
        have := Option.some.inj (Prod.mk.inj (Option.some.inj hx)).1
        subst this
        rw [hcont] at hc2
        exact Bool.noConfusion hc2
    | true =>
      simp only [if_true]
      constructor
      · intro hx
        exact ⟨A, rfl, hcont, hx⟩
      · rintro ⟨A2, hx, _, hB⟩
        have := Option.some.inj (Prod.mk.inj (Option.some.inj hx)).1
        subst this
        exact hB

theorem AP4_AtomParent.code_wellFormed (a b c d : Nat)
    (hc : ∀ x ∈ [a, b, c, d], 0 < x ∧ x < 128 ∧ x ≠ 47 ∧ x ≠ 91) :
    AP4_IsName [a, b, c, d] :=
  Or.inl ⟨rfl, hc⟩

theorem AP4_AtomParent.FindChild_compose_witness :
    AP4_WellFormedPath (AP4_Path "moov") ∧ AP4_WellFormedPath (AP4_Path "trak[1]") ∧
    AP4_AtomParent.FindChild AP4_Heap.sampleFile 5 (AP4_Path "moov/trak[1]") false false
      = some (some 3, AP4_Heap.sampleFile) := by
  have ha : AP4_WellFormedPath (AP4_Path "moov") :=
    AP4_WellFormedPath.single _
      ⟨_, AP4_AtomParent.code_wellFormed 109 111 111 118 (by decide), Or.inl rfl⟩
  have hb : AP4_WellFormedPath (AP4_Path "trak[1]") :=
    AP4_WellFormedPath.single _
      ⟨_, AP4_AtomParent.code_wellFormed 116 114 97 107 (by decide),
        Or.inr ⟨[49], by decide, by
          intro x hx
          rw [List.mem_singleton] at hx
          subst hx
          exact ⟨by decide, by decide⟩, rfl⟩⟩
  have h1 : AP4_AtomParent.FindChild AP4_Heap.sampleFile 5 (AP4_Path "moov") false false
      = some (some 0, AP4_Heap.sampleFile) :=
    AP4_AtomParent.FindChild_code AP4_Heap.sampleFile 5 false 109 111 111 118 [] 0
      (by decide) (by decide) (by decide) (by decide) (Or.inl ⟨rfl, rfl⟩)
  have h2 : AP4_AtomParent.FindChild AP4_Heap.sampleFile 0 (AP4_Path "trak[1]") false false
      = some (some 3, AP4_Heap.sampleFile) :=
    AP4_AtomParent.FindChild_code AP4_Heap.sampleFile 0 false 116 114 97 107
      (91 :: [49] ++ [93]) 1 (by decide) (by decide) (by decide) (by decide)
      (Or.inr ⟨[49], by
        intro x hx
        rw [List.mem_singleton] at hx
        subst hx
        exact ⟨by decide, by decide⟩, rfl, by decide⟩)
  exact ⟨ha, hb, (AP4_AtomParent.FindChild_compose AP4_Heap.sampleFile 5 (AP4_Path "moov")
    (AP4_Path "trak[1]") false 3 ha hb).mpr ⟨0, h1, by decide, h2⟩⟩

theorem AP4_AtomParent.charAt_zero_length (path : List Nat) (i : Nat)
    (hnul : ∀ c ∈ path, c ≠ 0) (h0 : AP4_AtomParent.charAt path i = 0) : path.length ≤ i := by
  by_contra hlt
  have hi : i < path.length := by omega
  unfold AP4_AtomParent.charAt at h0
  rw [List.getD_eq_getElem _ _ hi] at h0
  exact hnul _ (List.getElem_mem hi) h0

theorem AP4_AtomParent.charAt_split (path : List Nat) (i c : Nat)
    (hc : AP4_AtomParent.charAt path i = c) (hne : c ≠ 0) :
    path = path.take i ++ c :: path.drop (i + 1) := by
  have hi : i < path.length := by
    by_contra hge
    unfold AP4_AtomParent.charAt at hc
    rw [List.getD_eq_default _ _ (by omega)] at hc
    exact hne hc.symm
  unfold AP4_AtomParent.charAt at hc
  rw [List.getD_eq_getElem _ _ hi] at hc
  rw [← hc, ← List.drop_eq_getElem_cons hi, List.take_append_drop]

theorem AP4_AtomParent.charAt_drop (path : List Nat) (k i : Nat) :
    AP4_AtomParent.charAt (path.drop k) i = AP4_AtomParent.charAt path (k + i) := by
  unfold AP4_AtomParent.charAt
  rw [List.getD_eq_getElem?_getD, List.getD_eq_getElem?_getD, List.getElem?_drop]

theorem List.take_length_takeWhile {α : Type} (p : α → Bool) (l : List α) :
    l.take (l.takeWhile p).length = l.takeWhile p := by
  induction l with
  | nil => rfl
  | cons a l ih =>
    rw [List.takeWhile_cons]
    split
    · rw [List.length_cons, List.take_succ_cons, ih]
    · rfl

theorem AP4_AtomParent.parseSegment_inv (path : List Nat) (seg : AP4_PathSegment)
    (hnul : ∀ c ∈ path, c ≠ 0) (h4 : 4 ≤ path.length)
    (he : AP4_AtomParent.parseSegment path = some seg) :
    ∃ name suffix tail index, path = name ++ (suffix ++ tail) ∧ AP4_IsAcceptedName name ∧
      ((suffix = [] ∧ index = 0) ∨
        ∃ ds, (∀ d ∈ ds, AP4_IsDigitChar d) ∧ suffix = 91 :: ds ++ [93] ∧
          index = AP4_AtomParent.parseIndex ds) ∧
      (tail = [] ∨ ∃ rest, tail = 47 :: rest) := by
  unfold AP4_AtomParent.parseSegment at he
  simp only at he
  generalize htw : (path.drop 4).takeWhile (fun c => c != 0 && c != 47 && c != 91) = tw at he
  have htwle : tw.length ≤ path.length - 4 := by
    rw [← htw, ← List.length_drop]
    exact (List.takeWhile_sublist _).length_le
  have hnamelen : (path.take (4 + tw.length)).length = 4 + tw.length := by
    rw [List.length_take]; omega
  split at he
  · exact Option.noConfusion he
  · rename_i hguard
    have hname : AP4_IsAcceptedName (path.take (4 + tw.length)) := by
      refine ⟨?_, ?_, ?_⟩
      · rw [hnamelen]
        simp only [bne_iff_ne, ne_eq, Bool.and_eq_true, decide_eq_true_eq, not_and,
          Decidable.not_not] at hguard
        by_cases h : 4 + tw.length = 4
        · exact Or.inl h
        · exact Or.inr (hguard h)
      · intro c hc
        exact hnul c (List.mem_of_mem_take (List.mem_of_mem_take hc))
      · intro c hc
        rw [← List.take_drop, ← htw, List.take_length_takeWhile] at hc
        have := List.mem_takeWhile_imp hc
        simp only [bne_iff_ne, ne_eq, Bool.and_eq_true, decide_eq_true_eq] at this
        exact ⟨this.1.1, this.1.2, this.2⟩
    split at he
    · exact Option.noConfusion he
    · rename_i index e2 hidx
      have htc : AP4_AtomParent.charAt path e2 = 47 ∨ AP4_AtomParent.charAt path e2 = 0 := by
        split at he
        · rename_i h47
          exact Or.inl (by simpa using h47)
        · split at he
          · exact Option.noConfusion he
          · rename_i h0
            exact Or.inr (by simpa using h0)
      clear he
      have htail : ∀ r, r = path.drop e2 → r = [] ∨ ∃ rest, r = 47 :: rest := by
        intro r hr
        have hc : AP4_AtomParent.charAt r 0 = AP4_AtomParent.charAt path e2 := by
          rw [hr, AP4_AtomParent.charAt_drop, Nat.add_zero]
        rcases htc with h47 | h0
        · right
          rw [← hc] at h47
          have := AP4_AtomParent.charAt_split r 0 47 h47 (by decide)
          exact ⟨r.drop (0 + 1), by simpa using this⟩
        · left
          rw [← hc] at h0
          have := AP4_AtomParent.charAt_zero_length r 0
            (by intro c hm; rw [hr] at hm; exact hnul c (List.mem_of_mem_drop hm)) h0
          exact List.length_eq_zero.mp (by omega)
      split at hidx
      · rename_i h91
        split at hidx
        · exact Option.noConfusion hidx
        · rename_i h93
          have hie := Prod.mk.inj (Option.some.inj hidx)
          generalize hds : (path.drop (4 + tw.length + 1)).takeWhile
            (fun c => decide (48 ≤ c ∧ c ≤ 57)) = ds at h93 hie
          have h91e : AP4_AtomParent.charAt path (4 + tw.length) = 91 := by simpa using h91
          have h93e : AP4_AtomParent.charAt path (4 + tw.length + 1 + ds.length) = 93 := by
            simpa using h93
          have hp1 := AP4_AtomParent.charAt_split path _ 91 h91e (by decide)
          have h93r : AP4_AtomParent.charAt (path.drop (4 + tw.length + 1)) ds.length = 93 := by
            rw [AP4_AtomParent.charAt_drop]
            exact h93e
          have hp2 := AP4_AtomParent.charAt_split _ _ 93 h93r (by decide)
          have htk : (path.drop (4 + tw.length + 1)).take ds.length = ds := by
            rw [← hds]
            exact List.take_length_takeWhile _ _
          rw [htk] at hp2
          have hdd : ((path.drop (4 + tw.length + 1)).drop (ds.length + 1)) = path.drop e2 := by
            have harith : ∀ k, k = e2 → path.drop k = path.drop e2 := fun k hk => by rw [hk]
            have he2 := hie.2
            rw [List.drop_drop]
            exact harith _ (by omega)
          rw [hdd] at hp2
          refine ⟨path.take (4 + tw.length), 91 :: ds ++ [93], path.drop e2, index, ?_, hname,
            Or.inr ⟨ds, ?_, rfl, ?_⟩, htail _ rfl⟩
          · have : path.take (4 + tw.length) ++ (91 :: ds ++ [93] ++ path.drop e2)
                = path.take (4 + tw.length) ++ 91 :: (ds ++ 93 :: path.drop e2) := by simp
            rw [this, ← hp2]
            exact hp1
          · intro d hd
            rw [← hds] at hd
            have := List.mem_takeWhile_imp hd
            simpa [AP4_IsDigitChar] using this
          · rw [← hie.1]
            rfl
      · have hie := Prod.mk.inj (Option.some.inj hidx)
        refine ⟨path.take (4 + tw.length), [], path.drop e2, index, ?_, hname,
          Or.inl ⟨rfl, hie.1.symm⟩, htail _ rfl⟩
        rw [List.nil_append, ← hie.2, List.take_append_drop]

theorem AP4_AtomParent.findOrCreate_none (h : AP4_Heap) (parent : Nat) (seg : AP4_PathSegment)
    (ac acf : Bool) (hl : AP4_AtomParent.lookup h parent seg = some none)
    (hc : ac = false ∨ seg.index ≠ 0) :
    AP4_AtomParent.findOrCreate h parent seg ac acf = some none := by
  rw [AP4_AtomParent.findOrCreate_eq, hl]
  have : (ac && seg.index == 0) = false := by
    rcases hc with rfl | hi
    · rfl
    · simp [hi]
  simp only [this, Bool.false_eq_true, if_false]

theorem AP4_IsAcceptedComponent.of_parts (name suffix : List Nat) (index : Nat)
    (hname : AP4_IsAcceptedName name)
    (hsuf : (suffix = [] ∧ index = 0) ∨
      ∃ ds, (∀ d ∈ ds, AP4_IsDigitChar d) ∧ suffix = 91 :: ds ++ [93] ∧
        index = AP4_AtomParent.parseIndex ds) :
    AP4_IsAcceptedComponent (name ++ suffix) := by
  rcases hsuf with ⟨rfl, _⟩ | ⟨ds, hds, rfl, _⟩
  · exact ⟨name, hname, Or.inl (by simp)⟩
  · exact ⟨name, hname, Or.inr ⟨ds, hds, by simp⟩⟩

theorem AP4_AtomParent.FindChildLoop_accepted (fuel : Nat) :
    ∀ (h : AP4_Heap) (parent : Nat) (path : List Nat) (ac acf : Bool) (atom : Nat)
      (h1 : AP4_Heap), (∀ c ∈ path, c ≠ 0) →
      AP4_AtomParent.FindChildLoop fuel h parent path ac acf = some (some atom, h1) →
      AP4_IsAcceptedPath path := by
  induction fuel with
  | zero =>
    intro h parent path ac acf atom h1 _ he
    exact Option.noConfusion he
  | succ fuel ih =>
    intro h parent path ac acf atom h1 hnul he0
    have he := he0
    rw [AP4_AtomParent.FindChildLoop_succ] at he
    split at he
    · exact Option.noConfusion (Prod.mk.inj (Option.some.inj he)).1
    · rename_i hchk
      have h3 : AP4_AtomParent.charAt path 3 ≠ 0 := by
        intro h0
        apply hchk
        simp [h0]
      have h4 : 4 ≤ path.length := by
        by_contra hlt
        apply h3
        unfold AP4_AtomParent.charAt
        exact List.getD_eq_default _ _ (by omega)
      split at he
      · exact Option.noConfusion (Prod.mk.inj (Option.some.inj he)).1
      · rename_i seg hseg
        clear he
        obtain ⟨name, suffix, tail, index, rfl, hname, hsuf, htail⟩ :=
          AP4_AtomParent.parseSegment_inv path seg hnul h4 hseg
        have hcomp := AP4_IsAcceptedComponent.of_parts name suffix index hname hsuf
        rcases htail with rfl | ⟨rest, rfl⟩
        · rw [List.append_nil]
          exact Or.inl (AP4_AcceptedPath.single _ hcomp)
        · rw [AP4_AtomParent.FindChildLoop_slash fuel h parent name suffix rest index ac acf
            hname hsuf] at he0
          have hassoc : name ++ (suffix ++ 47 :: rest) = (name ++ suffix) ++ 47 :: rest := by
            simp
          rw [hassoc]
          by_cases hr : AP4_AtomParent.charAt rest 0 = 0
          · have hrest : rest = [] := by
              have := AP4_AtomParent.charAt_zero_length rest 0
                (by
                  intro c hm
                  exact hnul c (by simp [hm])) hr
              exact List.length_eq_zero.mp (by omega)
            subst hrest
            exact Or.inr ⟨_, AP4_AcceptedPath.single _ hcomp, rfl⟩
          · cases hfo : AP4_AtomParent.findOrCreate h parent
                (AP4_PathSegment.ofName name index 0) ac acf with
            | none =>
              rw [hfo] at he0
              exact Option.noConfusion he0
            | some r =>
              cases r with
              | none =>
                rw [hfo] at he0
                exact Option.noConfusion (Prod.mk.inj (Option.some.inj he0)).1
              | some r =>
              obtain ⟨a1, h2⟩ := r
              rw [hfo] at he0
              have hr2 : (AP4_AtomParent.charAt rest 0 != 0) = true := by simpa using hr
              simp only [hr2, if_true] at he0
              split at he0
              · have hrec := ih h2 a1 rest ac acf atom h1
                  (by
                    intro c hm
                    exact hnul c (by simp [hm])) he0
                rcases hrec with hacc | ⟨q, hq, rfl⟩
                · exact Or.inl (AP4_AcceptedPath.cons _ _ hcomp hacc)
                · exact Or.inr ⟨_, AP4_AcceptedPath.cons _ _ hcomp hq, by simp⟩
              · exact Option.noConfusion (Prod.mk.inj (Option.some.inj he0)).1

theorem AP4_IsAcceptedPath.four_le_length (p : List Nat) (hp : AP4_IsAcceptedPath p) :
    4 ≤ p.length := by
  have hc : ∀ c, AP4_IsAcceptedComponent c → 4 ≤ c.length := by
    intro c hc
    obtain ⟨name, suffix, index, rfl, hname, _⟩ := AP4_IsAcceptedComponent.parts c hc
    obtain ⟨hlen, _, _⟩ := hname
    rw [List.length_append]
    omega
  have ha : ∀ q, AP4_AcceptedPath q → 4 ≤ q.length := by
    intro q hq
    cases hq with
    | single c h1 => exact hc _ h1
    | cons c rest h1 _ =>
      have := hc c h1
      rw [List.length_append]
      omega
  rcases hp with h | ⟨q, hq, rfl⟩
  · exact ha p h
  · have := ha q hq
    rw [List.length_append]
    omega

theorem AP4_AtomParent.FindChild_component_none (h : AP4_Heap) (parent : Nat)
    (name suffix tail : List Nat) (index : Nat) (ac acf : Bool) (fuel : Nat)
    (hname : AP4_IsAcceptedName name)
    (hsuf : (suffix = [] ∧ index = 0) ∨
      ∃ ds, (∀ d ∈ ds, AP4_IsDigitChar d) ∧ suffix = 91 :: ds ++ [93] ∧
        index = AP4_AtomParent.parseIndex ds)
    (htail : tail = [] ∨ ∃ rest, tail = 47 :: rest)
    (hl : AP4_AtomParent.lookup h parent (AP4_PathSegment.ofName name index 0) = some none)
    (hc : ac = false ∨ index ≠ 0) :
    AP4_AtomParent.FindChildLoop (fuel + 1) h parent (name ++ (suffix ++ tail)) ac acf
      = some (none, h) := by
  have hfo := AP4_AtomParent.findOrCreate_none h parent (AP4_PathSegment.ofName name index 0)
    ac acf hl hc
  rcases htail with rfl | ⟨rest, rfl⟩
  · rw [List.append_nil, AP4_AtomParent.FindChildLoop_last fuel h parent name suffix index ac acf
      hname hsuf, hfo]
  · rw [AP4_AtomParent.FindChildLoop_slash fuel h parent name suffix rest index ac acf
      hname hsuf, hfo]

theorem Nat.lor_eq_add_of_lt (x y i : Nat) (hx : x % 2 ^ i = 0) (hy : y < 2 ^ i) :
    x ||| y = x + y := by
  have h := Nat.mul_add_lt_is_or hy (x / 2 ^ i)
  rw [Nat.mul_div_cancel' (Nat.dvd_of_mod_eq_zero hx)] at h
  exact h.symm

/-- For four ASCII characters `AP4_ATOM_TYPE` is the 32-bit big-endian number of the
characters. -/
theorem AP4_ATOM_TYPE_ascii (c1 c2 c3 c4 : Nat) (h1 : c1 < 128) (h2 : c2 < 128)
    (h3 : c3 < 128) (h4 : c4 < 128) :
    AP4_ATOM_TYPE c1 c2 c3 c4 = c1 * 2 ^ 24 + c2 * 2 ^ 16 + c3 * 2 ^ 8 + c4 := by
  have e : ∀ c, c < 128 → AP4_CharToUI32 c = c := by
    intro c hc
    unfold AP4_CharToUI32
    rw [Nat.mod_eq_of_lt (by omega), if_pos hc]
  unfold AP4_ATOM_TYPE
  rw [e c1 h1, e c2 h2, e c3 h3, e c4 h4, Nat.shiftLeft_eq, Nat.shiftLeft_eq,
    Nat.shiftLeft_eq, Nat.mod_eq_of_lt (by omega), Nat.mod_eq_of_lt (by omega),
    Nat.mod_eq_of_lt (by omega)]
  have k1 := Nat.lor_eq_add_of_lt (c1 * 2 ^ 24) (c2 * 2 ^ 16) 24 (by omega) (by omega)
  have k2 := Nat.lor_eq_add_of_lt (c1 * 2 ^ 24 + c2 * 2 ^ 16) (c3 * 2 ^ 8) 16 (by omega)
    (by omega)
  have k3 := Nat.lor_eq_add_of_lt (c1 * 2 ^ 24 + c2 * 2 ^ 16 + c3 * 2 ^ 8) c4 8 (by omega)
    (by omega)
  rw [k1, k2, k3]

/-- A character of `0x80` and above is sign-extended in `AP4_ATOM_TYPE`: the name `a`, `E9`,
`b`, `c` makes the type `0xFFE96263`, not `0x61E96263`, while `moov` makes
`0x6D6F6F76`. -/
theorem AP4_ATOM_TYPE_sign_extension :
    AP4_ATOM_TYPE 0x61 0xE9 0x62 0x63 = 0xFFE96263 ∧
    AP4_ATOM_TYPE 0x6D 0x6F 0x6F 0x76 = 0x6D6F6F76 ∧
    AP4_AtomParent.lookup AP4_Heap.sample 0
        (AP4_PathSegment.ofName [0x61, 0xE9, 0x62, 0x63] 0 0)
      = some (AP4_AtomParent.GetChild AP4_Heap.sample 0 0xFFE96263 0) := by
  decide

theorem AP4_Heap.sample_uuidTyped : AP4_Heap.sample.UuidTyped := by
  intro p c hc ht
  have hp : p = 0 := by
    by_contra hne
    have : AP4_Heap.sample.children p = [] := by simp [AP4_Heap.sample, hne]
    rw [this] at hc
    exact List.not_mem_nil _ hc
  subst hp
  have hc2 : c ∈ [1, 2, 3] := hc
  simp only [List.mem_cons, List.mem_nil_iff, or_false] at hc2
  rcases hc2 with rfl | rfl | rfl <;> exact absurd ht (by decide)

/-- C14 (as amended): for every path string, `FindChild` returns absent when the path is
not of the form the reader accepts (a non-empty sequence of components separated by `/`,
optionally followed by one more `/`; a component is a name of 4 characters, or of 32
characters of which all but the first four are neither `/` nor `[`, optionally followed
by `[n]` with `n` a possibly empty sequence of digits), on every tree of existing objects
whose children of type `uuid` are all `AP4_UuidAtom`s; likewise, on every tree, it
returns absent when the lookup of a segment, the first one or one below a resolved
prefix, returns no match and the segment cannot be auto-created, and when an interior
segment resolves to an atom that is not a container.  The lookup of a 4-character name
is by the type `AP4_ATOM_TYPE` makes of its characters as plain `char`s, that of a
32-character name by the UUID `AP4_ParseHex` reads. -/
theorem AP4_AtomParent.FindChild_absent (h : AP4_Heap) (self : Nat) (path : List Nat)
    (ac acf : Bool) (hnul : ∀ c ∈ path, c ≠ 0) :
    (h.WellFormed → self < h.next → h.UuidTyped → ¬ AP4_IsAcceptedPath path →
      ∃ h1, AP4_AtomParent.FindChild h self path ac acf = some (none, h1)) ∧
    (∀ name suffix tail index, path = name ++ (suffix ++ tail) →
      AP4_IsAcceptedName name →
      ((suffix = [] ∧ index = 0) ∨
        ∃ ds, (∀ d ∈ ds, AP4_IsDigitChar d) ∧ suffix = 91 :: ds ++ [93] ∧
          index = AP4_AtomParent.parseIndex ds) →
      (tail = [] ∨ ∃ rest, tail = 47 :: rest) →
      AP4_AtomParent.lookup h self (AP4_PathSegment.ofName name index 0) = some none →
      (ac = false ∨ index ≠ 0) →
      AP4_AtomParent.FindChild h self path ac acf = some (none, h)) ∧
    (∀ a P h1 name suffix tail index, path = a ++ 47 :: (name ++ (suffix ++ tail)) →
      AP4_AcceptedPath a →
      AP4_AtomParent.FindChild h self a ac acf = some (some P, h1) →
      h1.container P = true →
      AP4_IsAcceptedName name →
      ((suffix = [] ∧ index = 0) ∨
        ∃ ds, (∀ d ∈ ds, AP4_IsDigitChar d) ∧ suffix = 91 :: ds ++ [93] ∧
          index = AP4_AtomParent.parseIndex ds) →
      (tail = [] ∨ ∃ rest, tail = 47 :: rest) →
      AP4_AtomParent.lookup h1 P (AP4_PathSegment.ofName name index 0) = some none →
      (ac = false ∨ index ≠ 0) →
      AP4_AtomParent.FindChild h self path ac acf = some (none, h1)) ∧
    (∀ a b A h1, path = a ++ 47 :: b → AP4_AcceptedPath a → b ≠ [] →
      AP4_AtomParent.FindChild h self a ac acf = some (some A, h1) →
      h1.container A = false →
      AP4_AtomParent.FindChild h self path ac acf = some (none, h1)) := by
  refine ⟨?_, ?_, ?_, ?_⟩
  · intro hwf hs hu hna
    obtain ⟨r, h1, he⟩ := AP4_AtomParent.FindChild_total h self path ac acf hwf hs hu
    cases r with
    | none => exact ⟨h1, he⟩
    | some atom =>
      exact absurd (AP4_AtomParent.FindChildLoop_accepted _ h self path ac acf atom h1 hnul he)
        hna
  · intro name suffix tail index hp hname hsuf htail hl hc
    subst hp
    exact AP4_AtomParent.FindChild_component_none h self name suffix tail index ac acf _
      hname hsuf htail hl hc
  · intro a P h1 name suffix tail index hp ha hfa hcont hname hsuf htail hl hc
    subst hp
    have hb : AP4_AtomParent.charAt (name ++ (suffix ++ tail)) 0 ≠ 0 := by
      have hl4 : 0 < name.length := by
        obtain ⟨hlen, _, _⟩ := hname
        omega
      rw [AP4_AtomParent.charAt_append_left _ _ _ hl4]
      exact AP4_AtomParent.charAt_name name hname 0 (by omega)
    unfold AP4_AtomParent.FindChild
    rw [AP4_AtomParent.FindChildLoop_append a ha _ h self _ ac acf hb (by omega), hfa]
    simp only [hcont, if_true]
    exact AP4_AtomParent.FindChild_component_none h1 P name suffix tail index ac acf _
      hname hsuf htail hl hc
  · intro a b A h1 hp ha hb hfa hcont
    subst hp
    have hb0 : AP4_AtomParent.charAt b 0 ≠ 0 := by
      intro h0
      have := AP4_AtomParent.charAt_zero_length b 0
        (by
          intro c hm
          exact hnul c (by simp [hm])) h0
      exact hb (List.length_eq_zero.mp (by omega))
    unfold AP4_AtomParent.FindChild
    rw [AP4_AtomParent.FindChildLoop_append a ha _ h self _ ac acf hb0 (by omega), hfa]
    simp only [hcont, Bool.false_eq_true, if_false]

theorem AP4_AtomParent.FindChild_absent_witness :
    (∀ c ∈ AP4_Path "mvhd/trak", c ≠ 0) ∧
    AP4_AtomParent.FindChild AP4_Heap.sample 0 (AP4_Path "mvhd/trak") false false
      = some (none, AP4_Heap.sample) ∧
    AP4_AtomParent.FindChild AP4_Heap.sample 0 (AP4_Path "udta[1]") true false
      = some (none, AP4_Heap.sample) ∧
    ∃ h1, AP4_AtomParent.FindChild AP4_Heap.sample 0 (AP4_Path "abc") true false
      = some (none, h1) := by
  have hn1 : ∀ c ∈ AP4_Path "mvhd/trak", c ≠ 0 := by decide
  have hmvhd : AP4_AtomParent.FindChild AP4_Heap.sample 0 (AP4_Path "mvhd") false false
      = some (some 1, AP4_Heap.sample) :=
    AP4_AtomParent.FindChild_code AP4_Heap.sample 0 false 109 118 104 100 [] 0
      (by decide) (by decide) (by decide) (by decide) (Or.inl ⟨rfl, rfl⟩)
  refine ⟨hn1, ?_, ?_, ?_⟩
  · exact (AP4_AtomParent.FindChild_absent AP4_Heap.sample 0 (AP4_Path "mvhd/trak") false false
      hn1).2.2.2 (AP4_Path "mvhd") (AP4_Path "trak") 1 AP4_Heap.sample rfl
      (AP4_AcceptedPath.single _ ⟨_, AP4_AtomParent.code_name 109 118 104 100 (by decide)
        (by decide) (by decide) (by decide), Or.inl rfl⟩)
      (by decide) hmvhd (by decide)
  · exact (AP4_AtomParent.FindChild_absent AP4_Heap.sample 0 (AP4_Path "udta[1]") true false
      (by decide)).2.1 (AP4_Path "udta") (91 :: [49] ++ [93]) [] 1 rfl
      (AP4_AtomParent.code_name 117 100 116 97 (by decide) (by decide) (by decide) (by decide))
      (Or.inr ⟨[49], by
        intro x hx
        rw [List.mem_singleton] at hx
        subst hx
        exact ⟨by decide, by decide⟩, rfl, by decide⟩)
      (Or.inl rfl) (by decide) (Or.inr (by decide))
  · exact (AP4_AtomParent.FindChild_absent AP4_Heap.sample 0 (AP4_Path "abc") true false
      (by decide)).1 ⟨AP4_Heap.sample_treeInvariant, AP4_Heap.sample_allocated⟩ (by decide)
      AP4_Heap.sample_uuidTyped
      (fun hacc => absurd (AP4_IsAcceptedPath.four_le_length _ hacc) (by decide))

/-- C14, the claim as stated fails: `trak[]`, whose index is empty, does not conform to the
path grammar, and `FindChild` of the sample tree's `moov` returns the first `trak` for it
(the empty index counts as 0). -/
theorem AP4_AtomParent.FindChild_malformed_counterexample :
    ¬ AP4_WellFormedPath (AP4_Path "trak[]") ∧
    (AP4_AtomParent.FindChild AP4_Heap.sample 0 (AP4_Path "trak[]") false false).map Prod.fst
      = some (some 2) := by
  refine ⟨?_, by decide⟩
  intro hp
  generalize hq : AP4_Path "trak[]" = q at hp
  have hq2 : q = [116, 114, 97, 107, 91, 93] := by rw [← hq]; rfl
  have hcomp : ¬ AP4_IsComponent [116, 114, 97, 107, 91, 93] := by
    rintro ⟨name, hname, hc | ⟨ds, hne, _, hc⟩⟩
    · have hlen : name.length = 6 := by rw [← hc]; rfl
      rcases hname with ⟨hl, _⟩ | ⟨hl, _⟩ <;> omega
    · have hlen := congrArg List.length hc
      simp only [List.length_cons, List.length_nil, List.length_append] at hlen
      have hdl : 0 < ds.length := List.length_pos.mpr hne
      rcases hname with ⟨hl, _⟩ | ⟨hl, _⟩ <;> omega
  cases hp with
  | single c hc => exact hcomp (hq2 ▸ hc)
  | cons c rest hc hrest =>
    have hm : 47 ∈ c ++ 47 :: rest := by simp
    rw [hq2] at hm
    simp at hm

/-! ## The atom list writer -/

theorem AP4_AtomListWriter.pad_accepting (padding : Nat) :
    ∀ (stream : AP4_ByteStream), stream.faults = [] →
      AP4_AtomListWriter.pad (padding + 1) stream
        = { data := AP4_ByteStream.splice stream.data stream.pos (List.replicate (padding + 1) 0),
            pos := stream.pos + (padding + 1), faults := [] } := by
  induction padding with
  | zero =>
    intro stream hf
    unfold AP4_AtomListWriter.pad AP4_AtomListWriter.pad AP4_ByteStream.WriteUI08
    rw [AP4_ByteStream.Write_accepting stream _ hf]
    rfl
  | succ padding ih =>
    intro stream hf
    rw [AP4_AtomListWriter.pad]
    unfold AP4_ByteStream.WriteUI08
    rw [AP4_ByteStream.Write_accepting stream _ hf, ih _ rfl]
    simp only [Nat.zero_mod]
    rw [AP4_ByteStream.splice_splice stream.data stream.pos [0]
      (List.replicate (padding + 1) 0), List.length_singleton]
    have e2 : [0] ++ List.replicate (padding + 1) 0 = List.replicate (padding + 1 + 1) 0 := by
      rw [List.replicate_succ (n := padding + 1)]
      rfl
    rw [e2, Nat.add_assoc stream.pos 1, Nat.add_comm 1 (padding + 1)]

/-- C21: for an atom whose `Write` moves the cursor forward by `w <= Size()` bytes, on a
stream that accepts the padding writes: when `Size() - w <= 1024`, `Action` returns
`AP4_SUCCESS`, the cursor ends `Size()` bytes after its start, and the `Size() - w` bytes
written after the atom's own output are zeros (nothing is written when `w = Size()`);
when `Size() - w > 1024`, `Action` returns `AP4_FAILURE` and leaves the stream as the atom's
`Write` left it. -/
theorem AP4_AtomListWriter.Action_short (GetSize : Nat)
    (Write : AP4_ByteStream → AP4_Result × AP4_ByteStream) (stream : AP4_ByteStream)
    (hsize : GetSize < 2 ^ 64) (hafter : (Write stream).2.pos < 2 ^ 64)
    (hfwd : stream.pos ≤ (Write stream).2.pos)
    (hw : (Write stream).2.pos - stream.pos ≤ GetSize)
    (hok : (Write stream).2.faults = []) :
    (GetSize - ((Write stream).2.pos - stream.pos) ≤ 1024 →
      (AP4_AtomListWriter.Action GetSize Write stream).1 = AP4_Result.SUCCESS ∧
      (AP4_AtomListWriter.Action GetSize Write stream).2.pos = stream.pos + GetSize ∧
      AP4_ByteStream.emitted (Write stream).2 (AP4_AtomListWriter.Action GetSize Write stream).2
        = List.replicate (GetSize - ((Write stream).2.pos - stream.pos)) 0 ∧
      ((Write stream).2.pos - stream.pos = GetSize →
        (AP4_AtomListWriter.Action GetSize Write stream).2 = (Write stream).2) ∧
      ((Write stream).2.pos - stream.pos < GetSize →
        (AP4_AtomListWriter.Action GetSize Write stream).2.data
          = AP4_ByteStream.splice (Write stream).2.data (Write stream).2.pos
              (List.replicate (GetSize - ((Write stream).2.pos - stream.pos)) 0))) ∧
    (1024 < GetSize - ((Write stream).2.pos - stream.pos) →
      AP4_AtomListWriter.Action GetSize Write stream
        = (AP4_Result.FAILURE, (Write stream).2)) := by
  have hbw : AP4_Sub64 (Write stream).2.pos stream.pos = (Write stream).2.pos - stream.pos :=
    AP4_Sub64_of_le _ _ hafter hfwd
  have hpad : AP4_Sub64 GetSize ((Write stream).2.pos - stream.pos)
      = GetSize - ((Write stream).2.pos - stream.pos) := AP4_Sub64_of_le _ _ hsize hw
  generalize hs1 : (Write stream).2 = s1 at *
  generalize hwd : s1.pos - stream.pos = w at *
  have hact : AP4_AtomListWriter.Action GetSize Write stream
      = if w < GetSize then
          if GetSize - w > 1024 then (AP4_Result.FAILURE, s1)
          else (AP4_Result.SUCCESS, AP4_AtomListWriter.pad (GetSize - w) s1)
        else (AP4_Result.SUCCESS, s1) := by
    unfold AP4_AtomListWriter.Action
    simp only [AP4_ByteStream.Tell, hs1, hbw, hpad, AP4_ATOM_LIST_WRITER_MAX_PADDING]
  constructor
  · intro hle
    by_cases hlt : w < GetSize
    · have hn : ¬ (GetSize - w > 1024) := by omega
      rw [hact, if_pos hlt, if_neg hn]
      obtain ⟨k, hk⟩ : ∃ k, GetSize - w = k + 1 := ⟨GetSize - w - 1, by omega⟩
      rw [hk, AP4_AtomListWriter.pad_accepting k s1 hok]
      refine ⟨rfl, ?_, ?_, ?_, ?_⟩
      · simp only
        omega
      · have := AP4_ByteStream.emitted_splice s1 (List.replicate (k + 1) 0) []
        rw [List.length_replicate] at this
        exact this
      · intro he
        omega
      · intro _
        rfl
    · have hweq : w = GetSize := by omega
      rw [hact, if_neg hlt]
      refine ⟨rfl, ?_, ?_, ?_, ?_⟩
      · simp only
        omega
      · simp [AP4_ByteStream.emitted, hweq]
      · intro _
        rfl
      · intro h
        omega
  · intro hgt
    have hlt : w < GetSize := by omega
    rw [hact, if_pos hlt, if_pos hgt]

theorem AP4_AtomListWriter.Action_short_witness :
    (AP4_AtomListWriter.Action 16
        (fun s => s.Write [0, 0, 0, 16, 102, 114, 101, 101, 7, 7, 7]) AP4_ByteStream.fresh)
      = (AP4_Result.SUCCESS,
         { data := [0, 0, 0, 16, 102, 114, 101, 101, 7, 7, 7, 0, 0, 0, 0, 0], pos := 16,
           faults := [] }) ∧
    AP4_AtomListWriter.Action 2000
        (fun s => s.Write [0, 0, 0, 16, 102, 114, 101, 101, 7, 7, 7]) AP4_ByteStream.fresh
      = (AP4_Result.FAILURE,
         { data := [0, 0, 0, 16, 102, 114, 101, 101, 7, 7, 7], pos := 11, faults := [] }) := by
  have h1 := (AP4_AtomListWriter.Action_short 16
    (fun s => s.Write [0, 0, 0, 16, 102, 114, 101, 101, 7, 7, 7]) AP4_ByteStream.fresh
    (by norm_num) (by decide) (by decide) (by decide) (by decide)).1 (by decide)
  have h2 := (AP4_AtomListWriter.Action_short 2000
    (fun s => s.Write [0, 0, 0, 16, 102, 114, 101, 101, 7, 7, 7]) AP4_ByteStream.fresh
    (by norm_num) (by decide) (by decide) (by decide) (by decide)).2 (by decide)
  refine ⟨?_, h2⟩
  have hp := h1.2.1
  have hd := h1.2.2.2.2 (by decide)
  have hr := h1.1
  decide

/-- C22, the code against the claim: for every atom whose `Write` moves the cursor forward by
more bytes than its declared `Size()`, `Action` (release build) returns `AP4_SUCCESS` and
leaves the stream as the atom's `Write` left it. -/
theorem AP4_AtomListWriter.Action_long (GetSize : Nat)
    (Write : AP4_ByteStream → AP4_Result × AP4_ByteStream) (stream : AP4_ByteStream)
    (hafter : (Write stream).2.pos < 2 ^ 64)
    (hw : GetSize < (Write stream).2.pos - stream.pos) :
    AP4_AtomListWriter.Action GetSize Write stream = (AP4_Result.SUCCESS, (Write stream).2) := by
  have hbw : AP4_Sub64 (Write stream).2.pos stream.pos = (Write stream).2.pos - stream.pos :=
    AP4_Sub64_of_le _ _ hafter (by omega)
  unfold AP4_AtomListWriter.Action
  simp only [AP4_ByteStream.Tell, hbw]
  rw [if_neg (by omega)]

set_option maxRecDepth 100000 in
theorem AP4_AtomListWriter.Action_long_witness :
    (AP4_UnknownAtom.new AP4_ATOM_TYPE_MDAT 4 0
      { data := List.replicate 12 0, pos := 8, faults := [] }).1.atom.GetSize = 4 ∧
    AP4_AtomListWriter.Action 4
      (fun s =>
        (((AP4_UnknownAtom.new AP4_ATOM_TYPE_MDAT 4 0
            { data := List.replicate 12 0, pos := 8, faults := [] }).1.Write
          { data := List.replicate 12 0, pos := 8, faults := [] } s).1,
         ((AP4_UnknownAtom.new AP4_ATOM_TYPE_MDAT 4 0
            { data := List.replicate 12 0, pos := 8, faults := [] }).1.Write
          { data := List.replicate 12 0, pos := 8, faults := [] } s).2.2))
      AP4_ByteStream.fresh
      = (AP4_Result.SUCCESS,
         { data := [0, 0, 0, 4, 0x6d, 0x64, 0x61, 0x74], pos := 8, faults := [] }) := by
  refine ⟨by decide, ?_⟩
  rw [AP4_AtomListWriter.Action_long 4 _ AP4_ByteStream.fresh (by decide) (by decide)]
  decide

/-! ## The JSON string escaper -/

/-- C25, the code at the failing input: for the two bytes `80 80`, a continuation byte in lead
position followed by a continuation byte, `ReadUTF8` returns `AP4_SUCCESS`, reports two bytes
consumed and the code point 0; `BF BF` is accepted likewise, and the over-long `C0 80`
too.  A lone continuation byte and a lead byte without continuation give
`NOT_ENOUGH_DATA`, a lead byte followed by a byte that is no continuation gives
`INVALID_FORMAT`. -/
theorem ReadUTF8_continuation_lead_evaluation :
    ReadUTF8 [0x80, 0x80] 2 0 = (AP4_Result.SUCCESS, 2, 0) ∧
    ReadUTF8 [0xBF, 0xBF] 2 0 = (AP4_Result.SUCCESS, 2, 0x7FF) ∧
    ReadUTF8 [0xC0, 0x80] 2 0 = (AP4_Result.SUCCESS, 2, 0) ∧
    ReadUTF8 [0x80] 1 0 = (AP4_Result.NOT_ENOUGH_DATA, 1, 0) ∧
    ReadUTF8 [0xC3] 1 0 = (AP4_Result.NOT_ENOUGH_DATA, 1, 0) ∧
    ReadUTF8 [0xC3, 0x41] 2 0 = (AP4_Result.INVALID_FORMAT, 2, 0) ∧
    ReadUTF8 [0xC3, 0xA9] 2 0 = (AP4_Result.SUCCESS, 2, 0xE9) := by
  decide

/-- C24, the code at the failing input: for the two bytes `22 FF`, a quote followed by a byte
that starts no sequence, the first loop computes the output size 2, which equals the
length of the input, and the shortcut returns the input as it is: the result holds the
quote without a backslash and the invalid byte; `a"` followed by the same byte is returned
as it is too.  (When the sizes differ, as for `a"` followed by two such bytes, the
escaped prefix `a\"` is returned.) -/
theorem AP4_JsonInspector.EscapeString_shortcut_evaluation :
    AP4_JsonInspector.EscapeString [0x22, 0xFF] = [0x22, 0xFF] ∧
    AP4_JsonInspector.EscapeString.outputSize 2 [0x22, 0xFF] 2 0 = 2 ∧
    AP4_JsonInspector.EscapeString [0x0A, 0x41, 0x42, 0x43, 0x44, 0xFF]
      = [0x5C, 0x75, 0x30, 0x30, 0x30, 0x41, 0x41, 0x42, 0x43, 0x44] ∧
    AP4_JsonInspector.EscapeString [0x61, 0x22, 0xFF] = [0x61, 0x22, 0xFF] ∧
    AP4_JsonInspector.EscapeString [0x61, 0x22, 0xFF, 0xFF] = [0x61, 0x5C, 0x22] := by
  decide

set_option maxRecDepth 100000 in
theorem AP4_byte_masks : ∀ b, b < 256 →
    ((b &&& 0x80 == 0) = decide (b < 128)) ∧
    ((b &&& 0xc0 != 0x80) = !decide (128 ≤ b ∧ b < 192)) ∧
    ((b &&& 0xe0 == 0xe0) = decide (224 ≤ b)) ∧
    ((b &&& 0xf0 == 0xf0) = decide (240 ≤ b)) ∧
    ((b &&& 0xf8 != 0xf0) = !decide (240 ≤ b ∧ b < 248)) ∧
    b &&& 0x3f = b % 64 ∧ b &&& 0x1f = b % 32 ∧ b &&& 0x0f = b % 16 ∧ b &&& 0x07 = b % 8 := by
  decide

theorem Nat.lor_shift2 (a b : Nat) (hb : b < 64) : a <<< 6 ||| b = a * 64 + b := by
  have h1 := Nat.lor_eq_add_of_lt (a * 2 ^ 6) b 6 (by omega) (by omega)
  rw [Nat.shiftLeft_eq]
  exact h1.trans (by omega)

theorem Nat.lor_shift3 (a b c : Nat) (hb : b < 64) (hc : c < 64) :
    a <<< 12 ||| b <<< 6 ||| c = a * 4096 + b * 64 + c := by
  have h1 := Nat.lor_eq_add_of_lt (a * 2 ^ 12) (b * 2 ^ 6) 12 (by omega) (by omega)
  have h2 := Nat.lor_eq_add_of_lt (a * 2 ^ 12 + b * 2 ^ 6) c 6 (by omega) (by omega)
  rw [Nat.shiftLeft_eq, Nat.shiftLeft_eq, h1]
  exact h2.trans (by omega)

theorem Nat.lor_shift4 (a b c d : Nat) (hb : b < 64) (hc : c < 64) (hd : d < 64) :
    a <<< 18 ||| b <<< 12 ||| c <<< 6 ||| d = a * 262144 + b * 4096 + c * 64 + d := by
  have h1 := Nat.lor_eq_add_of_lt (a * 2 ^ 18) (b * 2 ^ 12) 18 (by omega) (by omega)
  have h2 := Nat.lor_eq_add_of_lt (a * 2 ^ 18 + b * 2 ^ 12) (c * 2 ^ 6) 12 (by omega)
    (by omega)
  have h3 := Nat.lor_eq_add_of_lt (a * 2 ^ 18 + b * 2 ^ 12 + c * 2 ^ 6) d 6 (by omega)
    (by omega)
  rw [Nat.shiftLeft_eq, Nat.shiftLeft_eq, Nat.shiftLeft_eq, h1, h2]
  exact h3.trans (by omega)

theorem ReadUTF8_encode (cp : Nat) (rest : List Nat) (length code_point : Nat)
    (hcp : cp < 0x110000) (hlen : (AP4_Utf8Encode cp).length ≤ length) :
    ReadUTF8 (AP4_Utf8Encode cp ++ rest) length code_point
      = (AP4_Result.SUCCESS, (AP4_Utf8Encode cp).length, cp) := by
  unfold AP4_Utf8Encode at hlen ⊢
  by_cases h1 : cp < 0x80
  · rw [if_pos h1] at hlen ⊢
    obtain ⟨m80, -⟩ := AP4_byte_masks cp (by omega)
    have m80' : (cp &&& 128 == 0) = true := by rw [m80]; exact decide_eq_true (by omega)
    simp only [List.length_singleton] at hlen
    unfold ReadUTF8
    rw [if_neg (by omega)]
    simp only [List.singleton_append, List.getD_cons_zero, m80', if_true, List.length_singleton]
  · rw [if_neg h1] at hlen ⊢
    by_cases h2 : cp < 0x800
    · rw [if_pos h2] at hlen ⊢
      obtain ⟨a80, -, ae0, -, -, -, a1f, -, -⟩ := AP4_byte_masks (0xC0 + cp / 64) (by omega)
      obtain ⟨-, bc0, -, -, -, b3f, -⟩ := AP4_byte_masks (0x80 + cp % 64) (by omega)
      have a80' : (0xC0 + cp / 64 &&& 128 == 0) = false := by
        rw [a80]; exact decide_eq_false (by omega)
      have ae0' : (0xC0 + cp / 64 &&& 224 == 224) = false := by
        rw [ae0]; exact decide_eq_false (by omega)
      have bc0' : (0x80 + cp % 64 &&& 192 != 128) = false := by
        rw [bc0, decide_eq_true (by omega)]; rfl
      simp only [List.length_cons, List.length_nil] at hlen
      unfold ReadUTF8
      rw [if_neg (by omega)]
      simp only [List.cons_append, List.getD_cons_zero, List.getD_cons_succ, a80', ae0', bc0',
        Bool.false_eq_true, if_false, a1f, b3f, List.length_cons, List.length_nil,
        List.nil_append]
      rw [if_neg (by omega), Nat.lor_shift2 _ _ (by omega)]
      congr 2
      omega
    · rw [if_neg h2] at hlen ⊢
      by_cases h3 : cp < 0x10000
      · rw [if_pos h3] at hlen ⊢
        obtain ⟨a80, -, ae0, af0, -, -, -, a0f, -⟩ :=
          AP4_byte_masks (0xE0 + cp / 4096) (by omega)
        obtain ⟨-, bc0, -, -, -, b3f, -⟩ := AP4_byte_masks (0x80 + cp / 64 % 64) (by omega)
        obtain ⟨-, cc0, -, -, -, c3f, -⟩ := AP4_byte_masks (0x80 + cp % 64) (by omega)
        have a80' : (0xE0 + cp / 4096 &&& 128 == 0) = false := by
          rw [a80]; exact decide_eq_false (by omega)
        have ae0' : (0xE0 + cp / 4096 &&& 224 == 224) = true := by
          rw [ae0]; exact decide_eq_true (by omega)
        have af0' : (0xE0 + cp / 4096 &&& 240 == 240) = false := by
          rw [af0]; exact decide_eq_false (by omega)
        have bc0' : (0x80 + cp / 64 % 64 &&& 192 != 128) = false := by
          rw [bc0, decide_eq_true (by omega)]; rfl
        have cc0' : (0x80 + cp % 64 &&& 192 != 128) = false := by
          rw [cc0, decide_eq_true (by omega)]; rfl
        simp only [List.length_cons, List.length_nil] at hlen
        unfold ReadUTF8
        rw [if_neg (by omega)]
        simp only [List.cons_append, List.getD_cons_zero, List.getD_cons_succ, a80', ae0', af0',
          bc0', cc0', Bool.false_eq_true, if_false, if_true, a0f, b3f, c3f, List.length_cons,
          List.length_nil, List.nil_append]
        rw [if_neg (by omega), if_neg (by omega),
          Nat.lor_shift3 _ _ _ (by omega) (by omega)]
        congr 2
        omega
      · rw [if_neg h3] at hlen ⊢
        obtain ⟨a80, -, ae0, af0, af8, -, -, -, a07⟩ :=
          AP4_byte_masks (0xF0 + cp / 262144) (by omega)
        obtain ⟨-, bc0, -, -, -, b3f, -⟩ := AP4_byte_masks (0x80 + cp / 4096 % 64) (by omega)
        obtain ⟨-, cc0, -, -, -, c3f, -⟩ := AP4_byte_masks (0x80 + cp / 64 % 64) (by omega)
        obtain ⟨-, dc0, -, -, -, d3f, -⟩ := AP4_byte_masks (0x80 + cp % 64) (by omega)
        have a80' : (0xF0 + cp / 262144 &&& 128 == 0) = false := by
          rw [a80]; exact decide_eq_false (by omega)
        have ae0' : (0xF0 + cp / 262144 &&& 224 == 224) = true := by
          rw [ae0]; exact decide_eq_true (by omega)
        have af0' : (0xF0 + cp / 262144 &&& 240 == 240) = true := by
          rw [af0]; exact decide_eq_true (by omega)
        have af8' : (0xF0 + cp / 262144 &&& 248 != 240) = false := by
          rw [af8, decide_eq_true (by omega)]; rfl
        have bc0' : (0x80 + cp / 4096 % 64 &&& 192 != 128) = false := by
          rw [bc0, decide_eq_true (by omega)]; rfl
        have cc0' : (0x80 + cp / 64 % 64 &&& 192 != 128) = false := by
          rw [cc0, decide_eq_true (by omega)]; rfl
        have dc0' : (0x80 + cp % 64 &&& 192 != 128) = false := by
          rw [dc0, decide_eq_true (by omega)]; rfl
        simp only [List.length_cons, List.length_nil] at hlen
        unfold ReadUTF8
        rw [if_neg (by omega)]
        simp only [List.cons_append, List.getD_cons_zero, List.getD_cons_succ, a80', ae0', af0',
          af8', bc0', cc0', dc0', Bool.false_eq_true, if_false, if_true, a07, b3f, c3f, d3f,
          List.length_cons, List.length_nil, List.nil_append, Bool.or_self]
        rw [if_neg (by omega), if_neg (by omega), if_neg (by omega),
          Nat.lor_shift4 _ _ _ _ (by omega) (by omega) (by omega)]
        congr 2
        omega

theorem AP4_Utf8Encode_length (cp : Nat) :
    1 ≤ (AP4_Utf8Encode cp).length ∧ (AP4_Utf8Encode cp).length ≤ 4 := by
  unfold AP4_Utf8Encode
  split
  · simp
  · split
    · simp
    · split <;> simp

theorem AP4_JsonEscapeCodePoint_length (cp : Nat) :
    (AP4_Utf8Encode cp).length ≤ (AP4_JsonEscapeCodePoint cp).length ∧
    (AP4_JsonEscapeCodePoint cp).length ≤ 6 ∧
    ((AP4_JsonEscapeCodePoint cp).length = (AP4_Utf8Encode cp).length →
      AP4_JsonEscapeCodePoint cp = AP4_Utf8Encode cp) := by
  have hl := AP4_Utf8Encode_length cp
  unfold AP4_JsonEscapeCodePoint
  by_cases h1 : cp = 0x22
  · subst h1
    refine ⟨by decide, by decide, fun h => absurd h (by decide)⟩
  · rw [if_neg h1]
    by_cases h2 : cp = 0x5C
    · subst h2
      refine ⟨by decide, by decide, fun h => absurd h (by decide)⟩
    · rw [if_neg h2]
      by_cases h3 : cp ≤ 0x1F
      · rw [if_pos h3]
        have he : (AP4_Utf8Encode cp).length = 1 := by
          unfold AP4_Utf8Encode
          rw [if_pos (by omega)]
          rfl
        refine ⟨by rw [he]; simp, by simp, fun h => ?_⟩
        rw [he] at h
        simp at h
      · rw [if_neg h3]
        exact ⟨le_refl _, by omega, fun _ => rfl⟩

theorem AP4_Add32_of_lt (a b : Nat) (h : a + b < 2 ^ 32) : AP4_Add32 a b = a + b := by
  unfold AP4_Add32
  exact Nat.mod_eq_of_lt h

theorem AP4_JsonInspector.EscapeString.size_update (cp output_size : Nat)
    (h : output_size + (AP4_JsonEscapeCodePoint cp).length < 2 ^ 32) :
    (if (cp == 34 || cp == 92) = true then AP4_Add32 output_size 2
     else if cp ≤ 0x1F then AP4_Add32 output_size 6
     else AP4_Add32 output_size (AP4_Utf8Encode cp).length)
      = output_size + (AP4_JsonEscapeCodePoint cp).length := by
  unfold AP4_JsonEscapeCodePoint at h ⊢
  by_cases h1 : cp = 0x22
  · subst h1
    exact AP4_Add32_of_lt _ _ h
  · rw [if_neg h1] at h ⊢
    by_cases h2 : cp = 0x5C
    · subst h2
      exact AP4_Add32_of_lt _ _ h
    · rw [if_neg h2] at h ⊢
      have hb : (cp == 34 || cp == 92) = false := by simp [h1, h2]
      rw [hb]
      simp only [Bool.false_eq_true, if_false]
      by_cases h3 : cp ≤ 0x1F
      · rw [if_pos h3] at h
        rw [if_pos h3, if_pos h3]
        exact AP4_Add32_of_lt _ _ h
      · rw [if_neg h3] at h
        rw [if_neg h3, if_neg h3]
        exact AP4_Add32_of_lt _ _ h

theorem AP4_JsonInspector.EscapeString.fill_update (cp : Nat) (rest escaped : List Nat) :
    (if (cp == 34 || cp == 92) = true then escaped ++ [92, cp % 256]
     else if cp ≤ 0x1F then
       escaped ++ [92, 117, 48, 48, AP4_NibbleHex (cp >>> 4), AP4_NibbleHex (cp &&& 0x0F)]
     else escaped ++ (AP4_Utf8Encode cp ++ rest).take (AP4_Utf8Encode cp).length)
      = escaped ++ AP4_JsonEscapeCodePoint cp := by
  unfold AP4_JsonEscapeCodePoint
  by_cases h1 : cp = 0x22
  · subst h1
    rfl
  · rw [if_neg h1]
    by_cases h2 : cp = 0x5C
    · subst h2
      rfl
    · rw [if_neg h2]
      have hb : (cp == 34 || cp == 92) = false := by simp [h1, h2]
      rw [hb]
      simp only [Bool.false_eq_true, if_false]
      by_cases h3 : cp ≤ 0x1F
      · rw [if_pos h3, if_pos h3]
        obtain ⟨-, -, -, -, -, -, -, m0f, -⟩ := AP4_byte_masks cp (by omega)
        rw [Nat.shiftRight_eq_div_pow, m0f]
      · rw [if_neg h3, if_neg h3, List.take_left]

theorem AP4_JsonInspector.EscapeString.outputSize_encoded (cps : List Nat) :
    ∀ (fuel output_size : Nat), (∀ c ∈ cps, c < 0x110000) →
      ((cps.map AP4_Utf8Encode).flatten).length ≤ fuel →
      output_size + ((cps.map AP4_JsonEscapeCodePoint).flatten).length < 2 ^ 32 →
      AP4_JsonInspector.EscapeString.outputSize fuel ((cps.map AP4_Utf8Encode).flatten)
          ((cps.map AP4_Utf8Encode).flatten).length output_size
        = output_size + ((cps.map AP4_JsonEscapeCodePoint).flatten).length := by
  induction cps with
  | nil =>
    intro fuel output_size _ _ _
    cases fuel <;> simp [AP4_JsonInspector.EscapeString.outputSize]
  | cons c cs ih =>
    intro fuel output_size hcp hfuel hsize
    have hl := AP4_Utf8Encode_length c
    simp only [List.map_cons, List.flatten_cons, List.length_append] at hfuel hsize ⊢
    cases fuel with
    | zero => omega
    | succ fuel =>
      rw [AP4_JsonInspector.EscapeString.outputSize]
      rw [if_neg (by simp only [beq_iff_eq]; omega)]
      rw [ReadUTF8_encode c _ _ 0 (hcp c (List.mem_cons_self c cs)) (by omega)]
      simp only [AP4_FAILED, bne_self_eq_false, Bool.false_eq_true, if_false]
      rw [AP4_JsonInspector.EscapeString.size_update c output_size (by omega),
        List.drop_left, Nat.add_sub_cancel_left,
        ih fuel _ (fun x hx => hcp x (List.mem_cons_of_mem c hx)) (by omega) (by omega)]
      omega

theorem AP4_JsonInspector.EscapeString.fill_encoded (cps : List Nat) :
    ∀ (fuel : Nat) (escaped : List Nat), (∀ c ∈ cps, c < 0x110000) →
      ((cps.map AP4_Utf8Encode).flatten).length ≤ fuel →
      AP4_JsonInspector.EscapeString.fill fuel ((cps.map AP4_Utf8Encode).flatten)
          ((cps.map AP4_Utf8Encode).flatten).length escaped
        = escaped ++ (cps.map AP4_JsonEscapeCodePoint).flatten := by
  induction cps with
  | nil =>
    intro fuel escaped _ _
    cases fuel <;> simp [AP4_JsonInspector.EscapeString.fill]
  | cons c cs ih =>
    intro fuel escaped hcp hfuel
    have hl := AP4_Utf8Encode_length c
    simp only [List.map_cons, List.flatten_cons, List.length_append] at hfuel ⊢
    cases fuel with
    | zero => omega
    | succ fuel =>
      rw [AP4_JsonInspector.EscapeString.fill]
      rw [if_neg (by simp only [beq_iff_eq]; omega)]
      rw [ReadUTF8_encode c _ _ 0 (hcp c (List.mem_cons_self c cs)) (by omega)]
      simp only [AP4_FAILED, bne_self_eq_false, Bool.false_eq_true, if_false]
      rw [AP4_JsonInspector.EscapeString.fill_update c _ escaped,
        List.drop_left, Nat.add_sub_cancel_left,
        ih fuel _ (fun x hx => hcp x (List.mem_cons_of_mem c hx)) (by omega),
        List.append_assoc]

theorem AP4_Utf8Encode_nonzero (cp : Nat) (h0 : cp ≠ 0) : ∀ b ∈ AP4_Utf8Encode cp, b ≠ 0 := by
  intro b hb
  unfold AP4_Utf8Encode at hb
  split at hb
  · simp only [List.mem_singleton] at hb
    omega
  · split at hb
    · simp only [List.mem_cons, List.mem_singleton, List.mem_nil_iff, or_false] at hb
      omega
    · split at hb <;>
        simp only [List.mem_cons, List.mem_singleton, List.mem_nil_iff, or_false] at hb <;>
        omega

theorem AP4_JsonEscapeCodePoint_flatten_length (cps : List Nat) :
    ((cps.map AP4_Utf8Encode).flatten).length
        ≤ ((cps.map AP4_JsonEscapeCodePoint).flatten).length ∧
    ((cps.map AP4_JsonEscapeCodePoint).flatten).length
        ≤ 6 * ((cps.map AP4_Utf8Encode).flatten).length ∧
    (((cps.map AP4_JsonEscapeCodePoint).flatten).length
        = ((cps.map AP4_Utf8Encode).flatten).length →
      (cps.map AP4_JsonEscapeCodePoint).flatten = (cps.map AP4_Utf8Encode).flatten) := by
  induction cps with
  | nil => simp
  | cons c cs ih =>
    obtain ⟨h1, h2, h3⟩ := AP4_JsonEscapeCodePoint_length c
    obtain ⟨i1, i2, i3⟩ := ih
    have hl := AP4_Utf8Encode_length c
    simp only [List.map_cons, List.flatten_cons, List.length_append]
    refine ⟨by omega, by omega, fun h => ?_⟩
    rw [h3 (by omega), i3 (by omega)]

theorem AP4_NibbleHex_hex (x : Nat) (hx : x < 16) : AP4_IsHexChar (AP4_NibbleHex x) := by
  unfold AP4_NibbleHex AP4_IsHexChar
  split <;> omega

theorem AP4_JsonStringContent.of_escapes (cps : List Nat)
    (hcp : ∀ c ∈ cps, AP4_IsScalarValue c) :
    AP4_JsonStringContent ((cps.map AP4_JsonEscapeCodePoint).flatten) := by
  induction cps with
  | nil => exact AP4_JsonStringContent.nil
  | cons c cs ih =>
    have hrest := ih (fun x hx => hcp x (List.mem_cons_of_mem c hx))
    have hc := hcp c (List.mem_cons_self c cs)
    simp only [List.map_cons, List.flatten_cons]
    unfold AP4_JsonEscapeCodePoint
    by_cases h1 : c = 0x22
    · rw [if_pos h1]
      exact AP4_JsonStringContent.escape 34 _ (by decide) hrest
    · rw [if_neg h1]
      by_cases h2 : c = 0x5C
      · rw [if_pos h2]
        exact AP4_JsonStringContent.escape 92 _ (by decide) hrest
      · rw [if_neg h2]
        by_cases h3 : c ≤ 0x1F
        · rw [if_pos h3]
          exact AP4_JsonStringContent.unicode 48 48 _ _ _ (Or.inl ⟨by decide, by decide⟩)
            (Or.inl ⟨by decide, by decide⟩) (AP4_NibbleHex_hex _ (by omega))
            (AP4_NibbleHex_hex _ (by omega)) hrest
        · rw [if_neg h3]
          exact AP4_JsonStringContent.plain c _ hc (by omega) h1 h2 hrest

theorem AP4_JsonInspector.EscapeString_encoded (cps : List Nat)
    (hcp : ∀ c ∈ cps, c ≠ 0 ∧ AP4_IsScalarValue c)
    (hlen : 6 * ((cps.map AP4_Utf8Encode).flatten).length < 2 ^ 32) :
    AP4_JsonInspector.EscapeString ((cps.map AP4_Utf8Encode).flatten)
      = (cps.map AP4_JsonEscapeCodePoint).flatten := by
  have hlt : ∀ c ∈ cps, c < 0x110000 := fun c hc => (hcp c hc).2.1
  obtain ⟨l1, l2, l3⟩ := AP4_JsonEscapeCodePoint_flatten_length cps
  have hnz : ∀ b ∈ (cps.map AP4_Utf8Encode).flatten, b ≠ 0 := by
    intro b hb
    rw [List.mem_flatten] at hb
    obtain ⟨l, hl, hbl⟩ := hb
    rw [List.mem_map] at hl
    obtain ⟨c, hc, rfl⟩ := hl
    exact AP4_Utf8Encode_nonzero c (hcp c hc).1 b hbl
  unfold AP4_JsonInspector.EscapeString
  simp only [AP4_NullTerminatedStringAtom.cString_of_nonzero _ hnz]
  by_cases h0 : ((cps.map AP4_Utf8Encode).flatten).length = 0
  · rw [if_pos (by simp only [beq_iff_eq]; exact h0)]
    have hnil := List.length_eq_zero.mp h0
    have : ((cps.map AP4_JsonEscapeCodePoint).flatten).length = 0 := by omega
    rw [hnil, List.length_eq_zero.mp this]
  · rw [if_neg (by simp only [beq_iff_eq]; exact h0)]
    have hmod : ((cps.map AP4_Utf8Encode).flatten).length % 2 ^ 32
        = ((cps.map AP4_Utf8Encode).flatten).length := Nat.mod_eq_of_lt (by omega)
    rw [hmod, AP4_JsonInspector.EscapeString.outputSize_encoded cps _ 0 hlt (le_refl _)
      (by omega), AP4_JsonInspector.EscapeString.fill_encoded cps _ [] hlt (le_refl _)]
    rw [Nat.zero_add, List.nil_append, List.take_length]
    by_cases he : ((cps.map AP4_JsonEscapeCodePoint).flatten).length
        = ((cps.map AP4_Utf8Encode).flatten).length
    · rw [if_pos (by simp only [beq_iff_eq]; exact he)]
      exact (l3 he).symm
    · rw [if_neg (by simp only [beq_iff_eq]; exact he)]

/-- C23: for every NUL-free valid UTF-8 string, given by its code points (its length times 6
fitting an `AP4_Size`), `EscapeString` returns the concatenation, over the code points in
order, of backslash and quote for U+0022, two backslashes for U+005C, `\u00XX` with two
upper-case hexadecimal digits for a code point up to U+001F, and the bytes of the code
point otherwise; the result is valid JSON string content; and the five characters
`a"b<newline>c` give `a\"b\u000Ac`. -/
theorem AP4_JsonInspector.EscapeString_valid (cps : List Nat)
    (hcp : ∀ c ∈ cps, c ≠ 0 ∧ AP4_IsScalarValue c)
    (hlen : 6 * ((cps.map AP4_Utf8Encode).flatten).length < 2 ^ 32) :
    AP4_JsonInspector.EscapeString ((cps.map AP4_Utf8Encode).flatten)
      = (cps.map AP4_JsonEscapeCodePoint).flatten ∧
    AP4_JsonStringContent (AP4_JsonInspector.EscapeString ((cps.map AP4_Utf8Encode).flatten)) ∧
    AP4_JsonInspector.EscapeString [97, 34, 98, 10, 99]
      = [97, 92, 34, 98, 92, 117, 48, 48, 48, 65, 99] := by
  have h := AP4_JsonInspector.EscapeString_encoded cps hcp hlen
  refine ⟨h, ?_, by decide⟩
  rw [h]
  exact AP4_JsonStringContent.of_escapes cps (fun c hc => (hcp c hc).2)

theorem AP4_JsonInspector.EscapeString_valid_witness :
    AP4_JsonInspector.EscapeString [0x61, 0x22, 0xC3, 0xA9, 0x0A, 0xE2, 0x82, 0xAC, 0x5C]
      = [0x61, 0x5C, 0x22, 0xC3, 0xA9, 0x5C, 0x75, 0x30, 0x30, 0x30, 0x41, 0xE2, 0x82, 0xAC,
         0x5C, 0x5C] ∧
    AP4_JsonStringContent
      (AP4_JsonInspector.EscapeString
        [0x61, 0x22, 0xC3, 0xA9, 0x0A, 0xE2, 0x82, 0xAC, 0x5C]) := by
  have h := AP4_JsonInspector.EscapeString_valid [0x61, 0x22, 0xE9, 0x0A, 0x20AC, 0x5C]
    (by
      intro c hc
      simp only [List.mem_cons, List.mem_singleton, List.mem_nil_iff, or_false] at hc
      unfold AP4_IsScalarValue
      omega)
    (by decide)
  have e : ([0x61, 0x22, 0xE9, 0x0A, 0x20AC, 0x5C].map AP4_Utf8Encode).flatten
      = [0x61, 0x22, 0xC3, 0xA9, 0x0A, 0xE2, 0x82, 0xAC, 0x5C] := by decide
  rw [e] at h
  exact ⟨h.1.trans (by decide), h.2.1⟩

/-! ## Text formatting -/

theorem Nat.digitChar_toNat_ne_zero (n : Nat) : (Nat.digitChar n).toNat ≠ 0 := by
  by_cases h : n < 16
  · have hall : ∀ m, m < 16 → (Nat.digitChar m).toNat ≠ 0 := by decide
    exact hall n h
  · have hstar : Nat.digitChar n = '*' := by
      unfold Nat.digitChar
      repeat rw [if_neg (by omega)]
    rw [hstar]
    decide

theorem Nat.toDigitsCore_toNat_ne_zero (base : Nat) :
    ∀ (fuel n : Nat) (ds : List Char), (∀ c ∈ ds, c.toNat ≠ 0) →
      ∀ c ∈ Nat.toDigitsCore base fuel n ds, c.toNat ≠ 0 := by
  intro fuel
  induction fuel with
  | zero =>
    intro n ds hds c hc
    exact hds c hc
  | succ fuel ih =>
    intro n ds hds c hc
    unfold Nat.toDigitsCore at hc
    simp only at hc
    have hcons : ∀ x ∈ Nat.digitChar (n % base) :: ds, x.toNat ≠ 0 := by
      intro x hx
      rcases List.mem_cons.mp hx with rfl | hx
      · exact Nat.digitChar_toNat_ne_zero _
      · exact hds x hx
    split at hc
    · exact hcons c hc
    · exact ih _ _ hcons c hc

theorem Nat.toDigits_toNat_ne_zero (base n : Nat) :
    ∀ c ∈ (Nat.toDigits base n).map Char.toNat, c ≠ 0 := by
  intro c hc
  rw [List.mem_map] at hc
  obtain ⟨x, hx, rfl⟩ := hc
  exact Nat.toDigitsCore_toNat_ne_zero base _ _ [] (by simp) x hx

theorem AP4_FormatDecimal_ne_zero (n : Nat) : ∀ c ∈ AP4_FormatDecimal n, c ≠ 0 :=
  Nat.toDigits_toNat_ne_zero 10 n

theorem AP4_FormatHex32_ne_zero (n : Nat) : ∀ c ∈ AP4_FormatHex32 n, c ≠ 0 :=
  Nat.toDigits_toNat_ne_zero 16 _

theorem AP4_FormatHex64_ne_zero (n : Nat) : ∀ c ∈ AP4_FormatHex64 n, c ≠ 0 :=
  Nat.toDigits_toNat_ne_zero 16 _

theorem AP4_FormatInt32_ne_zero (n : Nat) : ∀ c ∈ AP4_FormatInt32 n, c ≠ 0 := by
  intro c hc
  unfold AP4_FormatInt32 at hc
  split at hc
  · exact AP4_FormatDecimal_ne_zero _ c hc
  · rcases List.mem_cons.mp hc with rfl | hc
    · decide
    · exact AP4_FormatDecimal_ne_zero _ c hc

theorem AP4_FormatInt64_ne_zero (n : Nat) : ∀ c ∈ AP4_FormatInt64 n, c ≠ 0 := by
  intro c hc
  unfold AP4_FormatInt64 at hc
  split at hc
  · exact AP4_FormatDecimal_ne_zero _ c hc
  · rcases List.mem_cons.mp hc with rfl | hc
    · decide
    · exact AP4_FormatDecimal_ne_zero _ c hc

theorem AP4_FormatInt32_of_lt (n : Nat) (h : n < 2 ^ 31) :
    AP4_FormatInt32 n = AP4_FormatDecimal n := by
  unfold AP4_FormatInt32
  have e : n % 2 ^ 32 = n := Nat.mod_eq_of_lt (by omega)
  rw [e, if_pos h]

theorem AP4_FormatInt64_of_lt (n : Nat) (h : n < 2 ^ 63) :
    AP4_FormatInt64 n = AP4_FormatDecimal n := by
  unfold AP4_FormatInt64
  have e : n % 2 ^ 64 = n := Nat.mod_eq_of_lt (by omega)
  rw [e, if_pos h]

/-! ## Streams that accept every write -/

theorem AP4_ByteStream.Accepting.write (s : AP4_ByteStream) (t : List Nat) (h : s.Accepting) :
    (s.Write t).2.Accepting := by
  rw [AP4_ByteStream.Write_accepting s t h.1]
  exact ⟨rfl, AP4_ByteStream.splice_length_ge _ _ _⟩

theorem AP4_ByteStream.Accepting.write_nil (s : AP4_ByteStream) (h : s.Accepting) :
    (s.Write []).2 = s := by
  rw [AP4_ByteStream.Write_accepting s [] h.1]
  obtain ⟨d, p, f⟩ := s
  obtain ⟨hf, hp⟩ := h
  simp only at hf hp
  subst hf
  have e : p - d.length = 0 := by omega
  simp [AP4_ByteStream.splice, e]

theorem AP4_ByteStream.Accepting.write_write (s : AP4_ByteStream) (a b : List Nat)
    (h : s.Accepting) : ((s.Write a).2.Write b).2 = (s.Write (a ++ b)).2 := by
  rw [AP4_ByteStream.Write_accepting s a h.1, AP4_ByteStream.Write_accepting s (a ++ b) h.1,
    AP4_ByteStream.Write_accepting _ b rfl]
  simp only [AP4_ByteStream.splice_splice, List.length_append, Nat.add_assoc]

theorem AP4_ByteStream.Accepting.writeString (s : AP4_ByteStream) (t : List Nat)
    (h : s.Accepting) (ht : ∀ c ∈ t, c ≠ 0) : (s.WriteString t).2 = (s.Write t).2 := by
  unfold AP4_ByteStream.WriteString
  rw [AP4_NullTerminatedStringAtom.cString_of_nonzero t ht]
  by_cases h0 : t.length = 0
  · have := List.length_eq_zero.mp h0
    subst this
    simp only [List.length_nil, beq_self_eq_true, if_true]
    exact (AP4_ByteStream.Accepting.write_nil s h).symm
  · simp only [beq_iff_eq, h0, if_false]

/-! ## The text inspector -/

theorem AP4_PrintInspector.WriteString_emit (s : AP4_ByteStream)
    (cs : List AP4_PrintInspector.Context) (a t : List Nat) (h : s.Accepting)
    (ht : ∀ c ∈ t, c ≠ 0) :
    AP4_PrintInspector.WriteString { m_Stream := (s.Write a).2, m_Contexts := cs } t
      = { m_Stream := (s.Write (a ++ t)).2, m_Contexts := cs } := by
  unfold AP4_PrintInspector.WriteString
  simp only
  rw [AP4_ByteStream.Accepting.writeString _ t (AP4_ByteStream.Accepting.write s a h) ht,
    AP4_ByteStream.Accepting.write_write s a t h]

theorem AP4_PrintInspector.Write_emit (s : AP4_ByteStream)
    (cs : List AP4_PrintInspector.Context) (a t : List Nat) (h : s.Accepting) :
    AP4_PrintInspector.Write { m_Stream := (s.Write a).2, m_Contexts := cs } t
      = { m_Stream := (s.Write (a ++ t)).2, m_Contexts := cs } := by
  unfold AP4_PrintInspector.Write
  simp only
  rw [AP4_ByteStream.Accepting.write_write s a t h]

theorem AP4_PrintInspector.emit_nil (i : AP4_PrintInspector) (h : i.m_Stream.Accepting) :
    i = { m_Stream := (i.m_Stream.Write []).2, m_Contexts := i.m_Contexts } := by
  rw [AP4_ByteStream.Accepting.write_nil _ h]

theorem AP4_PrintInspector.LastContext_emit (s : AP4_ByteStream)
    (cs : List AP4_PrintInspector.Context) :
    AP4_PrintInspector.LastContext { m_Stream := s, m_Contexts := cs }
      = cs.getLastD { m_Type := AP4_ContextType.TOP_LEVEL, m_ArrayIndex := 0 } :=
  rfl

theorem AP4_MakePrefixString_of_lt (indent : Nat) (h : indent < 255) :
    AP4_MakePrefixString indent 256 = List.replicate indent 32 := by
  unfold AP4_MakePrefixString
  rw [if_neg (by decide), if_neg (by omega)]

theorem List.replicate_ne_zero (n c : Nat) (hc : c ≠ 0) : ∀ x ∈ List.replicate n c, x ≠ 0 := by
  intro x hx
  rw [(List.mem_replicate.mp hx).2]
  exact hc

/-- What `PrintPrefix` writes in a context that is neither an array nor a compact object: the
indentation, two spaces per open atom, array or object. -/
theorem AP4_PrintInspector.PrintPrefix_plain (s : AP4_ByteStream)
    (cs : List AP4_PrintInspector.Context) (a : List Nat) (h : s.Accepting)
    (hne : cs ≠ [])
    (hctx : (cs.getLastD { m_Type := AP4_ContextType.TOP_LEVEL, m_ArrayIndex := 0 }).m_Type
        ≠ AP4_ContextType.COMPACT_OBJECT ∧
      (cs.getLastD { m_Type := AP4_ContextType.TOP_LEVEL, m_ArrayIndex := 0 }).m_Type
        ≠ AP4_ContextType.ARRAY)
    (hdepth : cs.length - 1 < 128) :
    AP4_PrintInspector.PrintPrefix { m_Stream := (s.Write a).2, m_Contexts := cs }
      = { m_Stream := (s.Write (a ++ List.replicate (2 * (cs.length - 1)) 32)).2,
          m_Contexts := cs } := by
  have hlen : cs.length ≥ 1 := List.length_pos.mpr hne
  unfold AP4_PrintInspector.PrintPrefix
  simp only [AP4_PrintInspector.LastContext_emit]
  rw [if_neg (by simpa using hctx.1), if_pos hlen,
    AP4_MakePrefixString_of_lt _ (by omega),
    AP4_PrintInspector.WriteString_emit s cs a _ h (List.replicate_ne_zero _ 32 (by decide)),
    AP4_PrintInspector.LastContext_emit, if_neg (by simpa using hctx.2),
    Nat.mul_comm]

theorem AP4_PrintInspector.StartAtom.extra_eq (version flags header_size : Nat)
    (hf : flags < 2 ^ 32) :
    AP4_PrintInspector.StartAtom.extra version flags header_size
      = (if (header_size = 12 ∨ header_size = 20 ∨ header_size = 28) ∧ version ≠ 0
         then [44, 32, 118, 101, 114, 115, 105, 111, 110, 61] ++ AP4_FormatDecimal version
         else [])
        ++ (if (header_size = 12 ∨ header_size = 20 ∨ header_size = 28) ∧ flags ≠ 0
            then [44, 32, 102, 108, 97, 103, 115, 61] ++ (Nat.toDigits 16 flags).map Char.toNat
            else []) := by
  have hx : AP4_FormatHex32 flags = (Nat.toDigits 16 flags).map Char.toNat := by
    unfold AP4_FormatHex32
    rw [Nat.mod_eq_of_lt hf]
  unfold AP4_PrintInspector.StartAtom.extra
  rw [hx]
  by_cases hfull : header_size = 12 ∨ header_size = 20 ∨ header_size = 28
  · have hb : (header_size == 28 || header_size == 12 || header_size == 20) = true := by
      rcases hfull with h | h | h <;> simp [h]
    rw [hb]
    by_cases hv : version = 0 <;> by_cases hfl : flags = 0 <;> simp [hfull, hv, hfl]
  · have hb : (header_size == 28 || header_size == 12 || header_size == 20) = false := by
      simp only [Bool.or_eq_false_iff, beq_eq_false_iff_ne, ne_eq]
      omega
    rw [hb]
    simp [hfull]

theorem AP4_PrintInspector.StartAtom.extra_ne_zero (version flags header_size : Nat) :
    ∀ c ∈ AP4_PrintInspector.StartAtom.extra version flags header_size, c ≠ 0 := by
  intro c hc
  unfold AP4_PrintInspector.StartAtom.extra at hc
  have hv := AP4_FormatDecimal_ne_zero version
  have hx := AP4_FormatHex32_ne_zero flags
  split at hc
  · split at hc
    · simp only [List.mem_append, List.mem_cons, List.mem_nil_iff, or_false] at hc
      rcases hc with ((hc | hc) | hc) | hc
      · omega
      · exact hv c hc
      · omega
      · exact hx c hc
    · split at hc
      · simp only [List.mem_append, List.mem_cons, List.mem_nil_iff, or_false] at hc
        rcases hc with hc | hc
        · omega
        · exact hv c hc
      · split at hc
        · simp only [List.mem_append, List.mem_cons, List.mem_nil_iff, or_false] at hc
          rcases hc with hc | hc
          · omega
          · exact hx c hc
        · simp at hc
  · simp at hc

theorem AP4_PrintInspector.StartAtom.info_ne_zero (version flags header_size size : Nat) :
    ∀ c ∈ AP4_PrintInspector.StartAtom.info version flags header_size size, c ≠ 0 := by
  intro c hc
  unfold AP4_PrintInspector.StartAtom.info at hc
  simp only [List.mem_append, List.mem_cons, List.mem_nil_iff, or_false] at hc
  rcases hc with (((hc | hc) | hc) | hc) | hc
  · omega
  · exact AP4_FormatInt32_ne_zero _ c hc
  · omega
  · exact AP4_FormatInt64_ne_zero _ c hc
  · exact AP4_PrintInspector.StartAtom.extra_ne_zero _ _ _ c hc

/-- The line of an atom: on a stream that accepts the writes, when the innermost open
context is the top level, an atom or a non-compact object at depth `d < 128` (`d` open atoms, arrays and
objects), `StartAtom` writes exactly `2 * d` spaces, `[name] size=h+p` with `h` and
`p = s - h` in decimal, then `, version=V` in decimal when the header size is that of a
full atom (12, 20 or 28) and the version is non-zero, then `, flags=F` in lower-case
hexadecimal when the header size is that of a full atom and the flags are non-zero, then
a newline; it opens one more context, which `EndAtom` closes again. -/
theorem AP4_PrintInspector.StartAtom_line (i : AP4_PrintInspector) (name : List Nat)
    (version flags header_size size : Nat)
    (hacc : i.m_Stream.Accepting) (hname : ∀ c ∈ name, c ≠ 0)
    (hne : i.m_Contexts ≠ [])
    (hctx : i.LastContext.m_Type = AP4_ContextType.TOP_LEVEL ∨
      i.LastContext.m_Type = AP4_ContextType.ATOM ∨
      i.LastContext.m_Type = AP4_ContextType.OBJECT)
    (hdepth : i.m_Contexts.length - 1 < 128)
    (hh : header_size < 2 ^ 31) (hs : header_size ≤ size)
    (hp : size - header_size < 2 ^ 63) (hf : flags < 2 ^ 32) :
    i.StartAtom name version flags header_size size
      = { m_Stream := (i.m_Stream.Write
            (List.replicate (2 * (i.m_Contexts.length - 1)) 32
              ++ [91] ++ name ++ [93, 32]
              ++ [115, 105, 122, 101, 61] ++ AP4_FormatDecimal header_size ++ [43]
              ++ AP4_FormatDecimal (size - header_size)
              ++ (if (header_size = 12 ∨ header_size = 20 ∨ header_size = 28) ∧ version ≠ 0
                  then [44, 32, 118, 101, 114, 115, 105, 111, 110, 61]
                         ++ AP4_FormatDecimal version
                  else [])
              ++ (if (header_size = 12 ∨ header_size = 20 ∨ header_size = 28) ∧ flags ≠ 0
                  then [44, 32, 102, 108, 97, 103, 115, 61]
                         ++ (Nat.toDigits 16 flags).map Char.toNat
                  else [])
              ++ [10])).2,
          m_Contexts := i.m_Contexts
            ++ [{ m_Type := AP4_ContextType.ATOM, m_ArrayIndex := 0 }] } ∧
    (i.StartAtom name version flags header_size size).m_Contexts.length - 1
      = (i.m_Contexts.length - 1) + 1 ∧
    (i.StartAtom name version flags header_size size).EndAtom.m_Contexts = i.m_Contexts := by
  obtain ⟨s, cs⟩ := i
  simp only at hacc hne hdepth
  rw [AP4_PrintInspector.LastContext_emit] at hctx
  have hctx2 : (cs.getLastD { m_Type := AP4_ContextType.TOP_LEVEL, m_ArrayIndex := 0 }).m_Type
        ≠ AP4_ContextType.COMPACT_OBJECT ∧
      (cs.getLastD { m_Type := AP4_ContextType.TOP_LEVEL, m_ArrayIndex := 0 }).m_Type
        ≠ AP4_ContextType.ARRAY := by
    rcases hctx with h | h | h <;> rw [h] <;> exact ⟨by decide, by decide⟩
  have hsub : AP4_Sub64 size header_size = size - header_size :=
    AP4_Sub64_of_le _ _ (by omega) hs
  have hinfo : AP4_PrintInspector.StartAtom.info version flags header_size size
      = [115, 105, 122, 101, 61] ++ AP4_FormatDecimal header_size ++ [43]
        ++ AP4_FormatDecimal (size - header_size)
        ++ ((if (header_size = 12 ∨ header_size = 20 ∨ header_size = 28) ∧ version ≠ 0
             then [44, 32, 118, 101, 114, 115, 105, 111, 110, 61] ++ AP4_FormatDecimal version
             else [])
            ++ (if (header_size = 12 ∨ header_size = 20 ∨ header_size = 28) ∧ flags ≠ 0
                then [44, 32, 102, 108, 97, 103, 115, 61]
                       ++ (Nat.toDigits 16 flags).map Char.toNat
                else [])) := by
    unfold AP4_PrintInspector.StartAtom.info
    rw [hsub, AP4_FormatInt32_of_lt _ hh, AP4_FormatInt64_of_lt _ hp,
      AP4_PrintInspector.StartAtom.extra_eq version flags header_size hf]
  have key : AP4_PrintInspector.StartAtom { m_Stream := s, m_Contexts := cs } name version
      flags header_size size
      = { m_Stream := (s.Write
            ([] ++ List.replicate (2 * (cs.length - 1)) 32 ++ [91] ++ name ++ [93, 32]
              ++ AP4_PrintInspector.StartAtom.info version flags header_size size
              ++ [10])).2,
          m_Contexts := cs ++ [{ m_Type := AP4_ContextType.ATOM, m_ArrayIndex := 0 }] } := by
    have e0 : ({ m_Stream := s, m_Contexts := cs } : AP4_PrintInspector)
        = { m_Stream := (s.Write []).2, m_Contexts := cs } := by
      rw [AP4_ByteStream.Accepting.write_nil s hacc]
    unfold AP4_PrintInspector.StartAtom
    simp only
    rw [e0, AP4_PrintInspector.PrintPrefix_plain s cs [] hacc hne hctx2 hdepth]
    unfold AP4_PrintInspector.PushContext
    simp only
    rw [AP4_PrintInspector.WriteString_emit s _ _ [91] hacc (by decide),
      AP4_PrintInspector.WriteString_emit s _ _ name hacc hname,
      AP4_PrintInspector.Write_emit s _ _ [93, 32] hacc,
      AP4_PrintInspector.WriteString_emit s _ _ _ hacc
        (AP4_PrintInspector.StartAtom.info_ne_zero version flags header_size size)]
    unfold AP4_PrintInspector.PrintSuffix
    rw [AP4_PrintInspector.LastContext_emit, List.getLastD_concat]
    simp only [bne_iff_ne, ne_eq, reduceCtorEq, not_false_eq_true, if_true]
    rw [AP4_PrintInspector.WriteString_emit s _ _ [10] hacc (by decide)]
  rw [key, hinfo]
  refine ⟨?_, ?_, ?_⟩
  · simp only [List.nil_append, List.append_assoc]
  · have hlen : cs.length ≥ 1 := List.length_pos.mpr hne
    simp only [List.length_append, List.length_singleton]
    omega
  · simp [AP4_PrintInspector.EndAtom, AP4_PrintInspector.PopContext]

theorem AP4_PrintInspector.StartAtom_line_witness :
    ((AP4_PrintInspector.new AP4_ByteStream.fresh).StartAtom [109, 111, 111, 118] 0 0 8
        120).StartAtom [109, 118, 104, 100] 1 2 12 108
      = { m_Stream :=
            { data := AP4_Path "[moov] size=8+112\n  [mvhd] size=12+96, version=1, flags=2\n",
              pos := 58, faults := [] },
          m_Contexts := [{ m_Type := AP4_ContextType.TOP_LEVEL, m_ArrayIndex := 0 },
                         { m_Type := AP4_ContextType.ATOM, m_ArrayIndex := 0 },
                         { m_Type := AP4_ContextType.ATOM, m_ArrayIndex := 0 }] } :=
  (AP4_PrintInspector.StartAtom_line
    ((AP4_PrintInspector.new AP4_ByteStream.fresh).StartAtom [109, 111, 111, 118] 0 0 8 120)
    [109, 118, 104, 100] 1 2 12 108
    (by unfold AP4_ByteStream.Accepting; decide) (by decide) (by decide) (by decide)
    (by decide) (by norm_num) (by decide) (by norm_num) (by norm_num)).1.trans (by decide)

set_option maxRecDepth 100000 in
/-- C26, the code at the failing input: a full atom with the extended `uuid` header and a
64-bit size has a header of 36 bytes; for `StartAtom("uuid", version = 1, flags = 2,
header_size = 36, size = 100)` the text inspector writes `[uuid] size=36+64` and a
newline, without version and flags, where the same atom with the 32-bit size (header 28)
gives `[uuid] size=28+72, version=1, flags=2`. -/
theorem AP4_PrintInspector.StartAtom_header36_evaluation :
    ((AP4_PrintInspector.new AP4_ByteStream.fresh).StartAtom (AP4_Path "uuid") 1 2 36
        100).m_Stream.data = AP4_Path "[uuid] size=36+64\n" ∧
    ((AP4_PrintInspector.new AP4_ByteStream.fresh).StartAtom (AP4_Path "uuid") 1 2 28
        100).m_Stream.data = AP4_Path "[uuid] size=28+72, version=1, flags=2\n" := by
  decide

theorem Nat.digitChar_toNat_bounds (n : Nat) :
    42 ≤ (Nat.digitChar n).toNat ∧ (Nat.digitChar n).toNat ≤ 102 := by
  by_cases h : n < 16
  · have hall : ∀ m, m < 16 →
        42 ≤ (Nat.digitChar m).toNat ∧ (Nat.digitChar m).toNat ≤ 102 := by decide
    exact hall n h
  · have hstar : Nat.digitChar n = '*' := by
      unfold Nat.digitChar
      repeat rw [if_neg (by omega)]
    rw [hstar]
    decide

theorem Nat.toDigitsCore_toNat_bounds (base : Nat) :
    ∀ (fuel n : Nat) (ds : List Char), (∀ c ∈ ds, 42 ≤ c.toNat ∧ c.toNat ≤ 102) →
      ∀ c ∈ Nat.toDigitsCore base fuel n ds, 42 ≤ c.toNat ∧ c.toNat ≤ 102 := by
  intro fuel
  induction fuel with
  | zero =>
    intro n ds hds c hc
    exact hds c hc
  | succ fuel ih =>
    intro n ds hds c hc
    unfold Nat.toDigitsCore at hc
    simp only at hc
    have hcons : ∀ x ∈ Nat.digitChar (n % base) :: ds, 42 ≤ x.toNat ∧ x.toNat ≤ 102 := by
      intro x hx
      rcases List.mem_cons.mp hx with rfl | hx
      · exact Nat.digitChar_toNat_bounds _
      · exact hds x hx
    split at hc
    · exact hcons c hc
    · exact ih _ _ hcons c hc

theorem AP4_FormatDecimal_bounds (n : Nat) : ∀ c ∈ AP4_FormatDecimal n, 42 ≤ c ∧ c ≤ 102 := by
  intro c hc
  unfold AP4_FormatDecimal at hc
  rw [List.mem_map] at hc
  obtain ⟨x, hx, rfl⟩ := hc
  exact Nat.toDigitsCore_toNat_bounds 10 _ _ [] (by simp) x hx

theorem AP4_ByteStream.Read_at (s : AP4_ByteStream) (x rest : List Nat) (hx : x ≠ [])
    (h : s.data.drop s.pos = x ++ rest) :
    s.Read x.length = (AP4_Result.SUCCESS, x, { s with pos := s.pos + x.length }) := by
  have hlen : s.data.length - s.pos = x.length + rest.length := by
    rw [← List.length_drop, h, List.length_append]
  have hx0 : 0 < x.length := List.length_pos.mpr hx
  unfold AP4_ByteStream.Read
  rw [if_pos (by omega), h, List.take_left]

theorem AP4_ByteStream.drop_at (s : AP4_ByteStream) (x rest : List Nat)
    (h : s.data.drop s.pos = x ++ rest) : s.data.drop (s.pos + x.length) = rest := by
  rw [← List.drop_drop, h, List.drop_left]

theorem AP4_ByteStream.ReadUI08_at (s : AP4_ByteStream) (a : Nat) (rest : List Nat)
    (h : s.data.drop s.pos = a :: rest) :
    s.ReadUI08 = (AP4_Result.SUCCESS, a, { s with pos := s.pos + 1 }) := by
  unfold AP4_ByteStream.ReadUI08
  have := AP4_ByteStream.Read_at s [a] rest (by simp) h
  simp only [List.length_singleton] at this
  rw [this]
  simp [AP4_FAILED, AP4_BytesToUIntBE]

theorem AP4_ByteStream.ReadUI16_at (s : AP4_ByteStream) (a b : Nat) (rest : List Nat)
    (h : s.data.drop s.pos = a :: b :: rest) :
    s.ReadUI16 = (AP4_Result.SUCCESS, a * 256 + b, { s with pos := s.pos + 2 }) := by
  unfold AP4_ByteStream.ReadUI16
  have := AP4_ByteStream.Read_at s [a, b] rest (by simp) h
  simp only [List.length_cons, List.length_nil] at this
  rw [this]
  simp [AP4_FAILED, AP4_BytesToUIntBE]

theorem AP4_EsDescriptor.new_layout (stream : AP4_ByteStream)
    (header_size payload_size : Nat) (uninitialized : AP4_EsDescriptor)
    (es_id bits depends_on : Nat) (url rest : List Nat)
    (hdata : stream.data.drop stream.pos
      = AP4_EsDescriptor.leadingFields es_id bits depends_on url ++ rest)
    (hsize : (AP4_EsDescriptor.leadingFields es_id bits depends_on url).length ≤ payload_size) :
    (AP4_EsDescriptor.new stream header_size payload_size uninitialized).1.m_OcrEsId
      = (if ((bits >>> 5) &&& 7) &&& AP4_ES_DESCRIPTOR_FLAG_URL != 0 then
           if payload_size - (AP4_EsDescriptor.leadingFields es_id bits depends_on url).length < 2
           then uninitialized.m_OcrEsId
           else (AP4_ByteStream.ReadUI16 { stream with pos := stream.pos
                  + (AP4_EsDescriptor.leadingFields es_id bits depends_on url).length }).2.1
         else 0)
    ∧ (AP4_EsDescriptor.new stream header_size payload_size uninitialized).2.1
      = (if ((bits >>> 5) &&& 7) &&& AP4_ES_DESCRIPTOR_FLAG_URL != 0
            ∧ ¬ payload_size
                - (AP4_EsDescriptor.leadingFields es_id bits depends_on url).length < 2 then
           (AP4_ByteStream.ReadUI16 { stream with pos := stream.pos
              + (AP4_EsDescriptor.leadingFields es_id bits depends_on url).length }).2.2
         else { stream with pos := stream.pos
              + (AP4_EsDescriptor.leadingFields es_id bits depends_on url).length }) := by
  generalize hL : AP4_EsDescriptor.leadingFields es_id bits depends_on url = fields at hdata hsize ⊢
  unfold AP4_EsDescriptor.leadingFields at hL
  generalize hflags : (bits >>> 5) &&& 7 = flags at hL ⊢
  simp only [AP4_BytesFromUInt16BE, List.cons_append, List.nil_append, List.append_assoc] at hL
  have r1 : stream.ReadUI16 = (AP4_Result.SUCCESS, es_id / 2 ^ 8 % 256 * 256 + es_id % 256,
      { stream with pos := stream.pos + 2 }) := by
    subst hL
    exact AP4_ByteStream.ReadUI16_at stream _ _ _ hdata
  have r2 : AP4_ByteStream.ReadUI08 { stream with pos := stream.pos + 2 }
      = (AP4_Result.SUCCESS, bits, { stream with pos := stream.pos + 3 }) := by
    subst hL
    have h2 := AP4_ByteStream.drop_at stream [es_id / 2 ^ 8 % 256, es_id % 256] _ hdata
    exact AP4_ByteStream.ReadUI08_at { stream with pos := stream.pos + 2 } _ _ h2
  by_cases hd : (flags &&& AP4_ES_DESCRIPTOR_FLAG_STREAM_DEPENDENCY != 0) = true
  · simp only [hd, if_true, List.cons_append, List.nil_append] at hL
    have hd3 : List.drop (stream.pos + 3) stream.data = depends_on / 2 ^ 8 % 256
        :: depends_on % 256
        :: ((if (flags &&& AP4_ES_DESCRIPTOR_FLAG_URL != 0) = true then url.length :: url
             else []) ++ rest) := by
      subst hL
      exact AP4_ByteStream.drop_at stream [es_id / 2 ^ 8 % 256, es_id % 256, bits] _ hdata
    have r3 : AP4_ByteStream.ReadUI16 { stream with pos := stream.pos + 3 }
        = (AP4_Result.SUCCESS, depends_on / 2 ^ 8 % 256 * 256 + depends_on % 256,
           { stream with pos := stream.pos + 5 }) :=
      AP4_ByteStream.ReadUI16_at { stream with pos := stream.pos + 3 } _ _ _ hd3
    by_cases hu : (flags &&& AP4_ES_DESCRIPTOR_FLAG_URL != 0) = true
    · simp only [hu, if_true] at hL
      subst hL
      simp only [List.length_cons] at hsize ⊢
      have hp : ¬ payload_size < 3 := by omega
      have hp0 : ¬ payload_size - 3 < 2 := by omega
      have hdu := AP4_ByteStream.drop_at stream [es_id / 2 ^ 8 % 256, es_id % 256, bits, depends_on / 2 ^ 8 % 256, depends_on % 256] _ hdata
      simp only [List.length_cons, List.length_nil] at hdu
      have r4 : AP4_ByteStream.ReadUI08 { stream with pos := stream.pos + 5 }
          = (AP4_Result.SUCCESS, url.length, { stream with pos := stream.pos + 6 }) :=
        AP4_ByteStream.ReadUI08_at { stream with pos := stream.pos + 5 } _ _ hdu
      have hp1 : ¬ payload_size - 3 - 2 < 1 := by omega
      by_cases hurl : url = []
      · subst hurl
        simp only [List.length_nil] at hsize r4 ⊢
        by_cases hr : payload_size - 6 < 2
        · have hr1 : payload_size - 3 - 2 - 1 < 2 := by omega
          simp [AP4_EsDescriptor.new, r1, r2, r3, r4, hd, hu, hp, hp0, hp1, hflags, hr, hr1]
        · have hr1 : ¬ payload_size - 3 - 2 - 1 < 2 := by omega
          simp [AP4_EsDescriptor.new, r1, r2, r3, r4, hd, hu, hp, hp0, hp1, hflags, hr, hr1]
      · have hdr := AP4_ByteStream.drop_at stream ([es_id / 2 ^ 8 % 256, es_id % 256, bits, depends_on / 2 ^ 8 % 256, depends_on % 256] ++ [url.length]) _
          (by simpa using hdata)
        simp only [List.length_cons, List.length_nil, List.length_append] at hdr
        have r5 : AP4_ByteStream.Read { stream with pos := stream.pos + 6 } url.length
            = (AP4_Result.SUCCESS, url, { stream with pos := stream.pos + 6 + url.length }) :=
          AP4_ByteStream.Read_at { stream with pos := stream.pos + 6 } url rest hurl hdr
        have hl0 : url.length ≠ 0 := fun h => hurl (List.length_eq_zero.mp h)
        have hp2 : ¬ payload_size - 3 - 2 - 1 < url.length := by omega
        have hpos : stream.pos + (url.length + 1 + 1 + 1 + 1 + 1 + 1) = stream.pos + 6 + url.length := by
          omega
        by_cases hr : payload_size - (url.length + 6) < 2
        · have hr1 : payload_size - 3 - 2 - 1 - url.length < 2 := by omega
          simp [AP4_EsDescriptor.new, r1, r2, r3, r4, r5, hd, hu, hp, hp0, hp1, hp2, hl0, hflags,
            hr, hr1, hpos]
        · have hr1 : ¬ payload_size - 3 - 2 - 1 - url.length < 2 := by omega
          simp [AP4_EsDescriptor.new, r1, r2, r3, r4, r5, hd, hu, hp, hp0, hp1, hp2, hl0, hflags,
            hr, hr1, hpos]
    · simp only [hu, if_false, Bool.false_eq_true] at hL
      subst hL
      simp only [List.length_cons, List.length_nil] at hsize ⊢
      have hp : ¬ payload_size < 3 := by omega
      have hp0 : ¬ payload_size - 3 < 2 := by omega
      simp [AP4_EsDescriptor.new, r1, r2, r3, hd, hu, hp, hp0, hflags]
  · simp only [hd, if_false, List.nil_append, Bool.false_eq_true] at hL
    have r3 : True := trivial
    have hp0 : True := trivial
    by_cases hu : (flags &&& AP4_ES_DESCRIPTOR_FLAG_URL != 0) = true
    · simp only [hu, if_true] at hL
      subst hL
      simp only [List.length_cons] at hsize ⊢
      have hp : ¬ payload_size < 3 := by omega
      have hdu := AP4_ByteStream.drop_at stream [es_id / 2 ^ 8 % 256, es_id % 256, bits] _ hdata
      simp only [List.length_cons, List.length_nil] at hdu
      have r4 : AP4_ByteStream.ReadUI08 { stream with pos := stream.pos + 3 }
          = (AP4_Result.SUCCESS, url.length, { stream with pos := stream.pos + 4 }) :=
        AP4_ByteStream.ReadUI08_at { stream with pos := stream.pos + 3 } _ _ hdu
      have hp1 : ¬ payload_size - 3 < 1 := by omega
      by_cases hurl : url = []
      · subst hurl
        simp only [List.length_nil] at hsize r4 ⊢
        by_cases hr : payload_size - 4 < 2
        · have hr1 : payload_size - 3 - 1 < 2 := by omega
          simp [AP4_EsDescriptor.new, r1, r2, r3, r4, hd, hu, hp, hp0, hp1, hflags, hr, hr1]
        · have hr1 : ¬ payload_size - 3 - 1 < 2 := by omega
          simp [AP4_EsDescriptor.new, r1, r2, r3, r4, hd, hu, hp, hp0, hp1, hflags, hr, hr1]
      · have hdr := AP4_ByteStream.drop_at stream ([es_id / 2 ^ 8 % 256, es_id % 256, bits] ++ [url.length]) _
          (by simpa using hdata)
        simp only [List.length_cons, List.length_nil, List.length_append] at hdr
        have r5 : AP4_ByteStream.Read { stream with pos := stream.pos + 4 } url.length
            = (AP4_Result.SUCCESS, url, { stream with pos := stream.pos + 4 + url.length }) :=
          AP4_ByteStream.Read_at { stream with pos := stream.pos + 4 } url rest hurl hdr
        have hl0 : url.length ≠ 0 := fun h => hurl (List.length_eq_zero.mp h)
        have hp2 : ¬ payload_size - 3 - 1 < url.length := by omega
        have hpos : stream.pos + (url.length + 1 + 1 + 1 + 1) = stream.pos + 4 + url.length := by
          omega
        by_cases hr : payload_size - (url.length + 4) < 2
        · have hr1 : payload_size - 3 - 1 - url.length < 2 := by omega
          simp [AP4_EsDescriptor.new, r1, r2, r3, r4, r5, hd, hu, hp, hp0, hp1, hp2, hl0, hflags,
            hr, hr1, hpos]
        · have hr1 : ¬ payload_size - 3 - 1 - url.length < 2 := by omega
          simp [AP4_EsDescriptor.new, r1, r2, r3, r4, r5, hd, hu, hp, hp0, hp1, hp2, hl0, hflags,
            hr, hr1, hpos]
    · simp only [hu, if_false, Bool.false_eq_true] at hL
      subst hL
      simp only [List.length_cons, List.length_nil] at hsize ⊢
      have hp : ¬ payload_size < 3 := by omega
      simp [AP4_EsDescriptor.new, r1, r2, hd, hu, hp, hflags]

theorem AP4_ByteStream.Accepting.write_pair (s : AP4_ByteStream) (t : List Nat)
    (h : s.Accepting) : s.Write t = (AP4_Result.SUCCESS, (s.Write t).2) := by
  rw [AP4_ByteStream.Write_accepting s t h.1]

theorem AP4_ByteStream.Accepting.write_step (s : AP4_ByteStream) (a b : List Nat)
    (h : s.Accepting) :
    (s.Write a).2.Write b = (AP4_Result.SUCCESS, (s.Write (a ++ b)).2) := by
  rw [AP4_ByteStream.Accepting.write_pair _ b (AP4_ByteStream.Accepting.write s a h),
    AP4_ByteStream.Accepting.write_write s a b h]

theorem AP4_ByteStream.Accepting.writeString_step (s : AP4_ByteStream) (a t : List Nat)
    (h : s.Accepting) (ht : ∀ c ∈ t, c ≠ 0) :
    (s.Write a).2.WriteString t = (AP4_Result.SUCCESS, (s.Write (a ++ t)).2) := by
  unfold AP4_ByteStream.WriteString
  rw [AP4_NullTerminatedStringAtom.cString_of_nonzero t ht]
  by_cases h0 : t.length = 0
  · have := List.length_eq_zero.mp h0
    subst this
    simp only [List.length_nil, beq_self_eq_true, if_true, List.append_nil]
  · simp only [beq_iff_eq, h0, if_false]
    exact AP4_ByteStream.Accepting.write_step s a t h

theorem AP4_EsDescriptor.writeSubDescriptors_accepting (l : List (List Nat))
    (s : AP4_ByteStream) (a : List Nat) (h : s.Accepting) :
    AP4_EsDescriptor.writeSubDescriptors l (s.Write a).2 = (s.Write (a ++ l.flatten)).2 := by
  induction l generalizing a with
  | nil => simp [AP4_EsDescriptor.writeSubDescriptors]
  | cons x rest ih =>
    rw [AP4_EsDescriptor.writeSubDescriptors, AP4_ByteStream.Accepting.write_write s a x h,
      ih (a ++ x), List.flatten_cons, List.append_assoc]

theorem AP4_EsDescriptor.WriteFields_accepting (d : AP4_EsDescriptor) (stream : AP4_ByteStream)
    (hacc : stream.Accepting) (hurl : ∀ c ∈ d.m_Url, c ≠ 0) :
    d.WriteFields stream = (AP4_Result.SUCCESS, (stream.Write
      (AP4_BytesFromUInt16BE d.m_EsId
        ++ [((d.m_StreamPriority % 256) ||| ((d.m_Flags <<< 5) % 256)) % 256]
        ++ (if d.m_Flags &&& AP4_ES_DESCRIPTOR_FLAG_STREAM_DEPENDENCY != 0
            then AP4_BytesFromUInt16BE d.m_DependsOn else [])
        ++ (if d.m_Flags &&& AP4_ES_DESCRIPTOR_FLAG_URL != 0
            then [d.m_Url.length % 256] ++ d.m_Url ++ [0] else [])
        ++ (if d.m_Flags &&& AP4_ES_DESCRIPTOR_FLAG_OCR_STREAM != 0
            then AP4_BytesFromUInt16BE d.m_OcrEsId else [])
        ++ d.m_SubDescriptors.flatten)).2) := by
  have w := fun a b => AP4_ByteStream.Accepting.write_step stream a b hacc
  have ws := fun a => AP4_ByteStream.Accepting.writeString_step stream a d.m_Url hacc hurl
  have wd := fun a => AP4_EsDescriptor.writeSubDescriptors_accepting d.m_SubDescriptors stream a hacc
  unfold AP4_EsDescriptor.WriteFields AP4_ByteStream.WriteUI16
  rw [AP4_ByteStream.Accepting.write_pair stream (AP4_BytesFromUInt16BE d.m_EsId) hacc]
  by_cases hd : (d.m_Flags &&& AP4_ES_DESCRIPTOR_FLAG_STREAM_DEPENDENCY != 0) = true <;>
  by_cases hu : (d.m_Flags &&& AP4_ES_DESCRIPTOR_FLAG_URL != 0) = true <;>
  by_cases ho : (d.m_Flags &&& AP4_ES_DESCRIPTOR_FLAG_OCR_STREAM != 0) = true <;>
  simp only [hd, hu, ho, w, ws, wd, AP4_ByteStream.WriteUI08,
    AP4_FAILED, if_true, if_false, Bool.false_eq_true, List.append_nil, List.append_assoc,
    bne_self_eq_false, Nat.mod_mod, Nat.zero_mod]

/-- The guards where the fields are present: on a stream that holds the fields announced
by the flags up to and including the URL, and a payload size that covers them, the parser reads the two bytes
of `ocr_es_id` exactly when the URL flag is set and at least two bytes of payload
remain (it leaves `ocr_es_id` as it was when fewer remain), and sets it to 0 when the
URL flag is clear, whatever the OCR-stream flag; `WriteFields` emits the two bytes of
`ocr_es_id` exactly when the OCR-stream flag is set, whatever the URL flag. -/
theorem AP4_EsDescriptor.ocr_es_id_guards (stream : AP4_ByteStream)
    (header_size payload_size : Nat) (uninitialized : AP4_EsDescriptor)
    (es_id bits depends_on : Nat) (url rest : List Nat)
    (d : AP4_EsDescriptor) (out : AP4_ByteStream)
    (hdata : stream.data.drop stream.pos
      = AP4_EsDescriptor.leadingFields es_id bits depends_on url ++ rest)
    (hsize : (AP4_EsDescriptor.leadingFields es_id bits depends_on url).length ≤ payload_size)
    (hacc : out.Accepting) (hurl : ∀ c ∈ d.m_Url, c ≠ 0) :
    ((AP4_EsDescriptor.new stream header_size payload_size uninitialized).1.m_OcrEsId
      = (if ((bits >>> 5) &&& 7) &&& AP4_ES_DESCRIPTOR_FLAG_URL != 0 then
           if payload_size - (AP4_EsDescriptor.leadingFields es_id bits depends_on url).length < 2
           then uninitialized.m_OcrEsId
           else (AP4_ByteStream.ReadUI16 { stream with pos := stream.pos
                  + (AP4_EsDescriptor.leadingFields es_id bits depends_on url).length }).2.1
         else 0))
    ∧ ((AP4_EsDescriptor.new stream header_size payload_size uninitialized).2.1
      = (if ((bits >>> 5) &&& 7) &&& AP4_ES_DESCRIPTOR_FLAG_URL != 0
            ∧ ¬ payload_size
                - (AP4_EsDescriptor.leadingFields es_id bits depends_on url).length < 2 then
           (AP4_ByteStream.ReadUI16 { stream with pos := stream.pos
              + (AP4_EsDescriptor.leadingFields es_id bits depends_on url).length }).2.2
         else { stream with pos := stream.pos
              + (AP4_EsDescriptor.leadingFields es_id bits depends_on url).length }))
    ∧ d.WriteFields out = (AP4_Result.SUCCESS, (out.Write
        (AP4_BytesFromUInt16BE d.m_EsId
          ++ [((d.m_StreamPriority % 256) ||| ((d.m_Flags <<< 5) % 256)) % 256]
          ++ (if d.m_Flags &&& AP4_ES_DESCRIPTOR_FLAG_STREAM_DEPENDENCY != 0
              then AP4_BytesFromUInt16BE d.m_DependsOn else [])
          ++ (if d.m_Flags &&& AP4_ES_DESCRIPTOR_FLAG_URL != 0
              then [d.m_Url.length % 256] ++ d.m_Url ++ [0] else [])
          ++ (if d.m_Flags &&& AP4_ES_DESCRIPTOR_FLAG_OCR_STREAM != 0
              then AP4_BytesFromUInt16BE d.m_OcrEsId else [])
          ++ d.m_SubDescriptors.flatten)).2) :=
  ⟨(AP4_EsDescriptor.new_layout stream header_size payload_size uninitialized es_id bits
      depends_on url rest hdata hsize).1,
   (AP4_EsDescriptor.new_layout stream header_size payload_size uninitialized es_id bits
      depends_on url rest hdata hsize).2,
   AP4_EsDescriptor.WriteFields_accepting d out hacc hurl⟩

/-- The guards at an input: the payload `00 01 40 01 61 12 34` has the URL flag and not the
OCR-stream flag, and the parser reads `ocr_es_id` = 0x1234 from it; the descriptor with the URL flag
alone is written without `ocr_es_id`. -/
theorem AP4_EsDescriptor.ocr_es_id_guards_witness :
    (AP4_EsDescriptor.new { data := [0, 1, 0x40, 1, 0x61, 0x12, 0x34], pos := 0, faults := [] }
        2 7 AP4_EsDescriptor.stale).1.m_OcrEsId = 0x1234
    ∧ (AP4_EsDescriptor.new { data := [0, 1, 0x40, 1, 0x61, 0x12, 0x34], pos := 0, faults := [] }
        2 7 AP4_EsDescriptor.stale).2.1.pos = 7
    ∧ (AP4_EsDescriptor.WriteFields
        (AP4_EsDescriptor.sample 2) AP4_ByteStream.fresh).2.data
      = [0, 1, 0x40, 1, 0x61, 0] := by
  have h := AP4_EsDescriptor.ocr_es_id_guards
    { data := [0, 1, 0x40, 1, 0x61, 0x12, 0x34], pos := 0, faults := [] } 2 7
    AP4_EsDescriptor.stale 1 0x40 0 [0x61] [0x12, 0x34]
    (AP4_EsDescriptor.sample 2) AP4_ByteStream.fresh (by decide) (by decide)
    ⟨rfl, Nat.le_refl 0⟩ (by decide)
  refine ⟨?_, ?_, ?_⟩
  · rw [h.1]; decide
  · rw [h.2.1]; decide
  · rw [h.2.2]; decide

/-- C29, the code at the failing input: on the payload `00 01 20` of size 3 (the
stream-dependency flag alone) the URL flag is clear and the payload ends before the
`depends_on` field; the constructor returns there without having assigned `m_OcrEsId`,
which keeps whatever the memory held (0xAAAA here, and any other content likewise),
where the claim has it set to 0. -/
theorem AP4_EsDescriptor.new_unassigned_ocr_es_id_evaluation :
    3 ≤ 3
    ∧ (AP4_EsDescriptor.new { data := [0, 1, 0x20], pos := 0, faults := [] } 2 3
         AP4_EsDescriptor.stale).1.m_Flags &&& AP4_ES_DESCRIPTOR_FLAG_URL = 0
    ∧ (AP4_EsDescriptor.new { data := [0, 1, 0x20], pos := 0, faults := [] } 2 3
         AP4_EsDescriptor.stale).1.m_OcrEsId = 0xAAAA
    ∧ (∀ uninitialized : AP4_EsDescriptor,
        (AP4_EsDescriptor.new { data := [0, 1, 0x20], pos := 0, faults := [] } 2 3
           uninitialized).1.m_OcrEsId = uninitialized.m_OcrEsId) := by
  refine ⟨by decide, by decide, by decide, fun u => ?_⟩
  simp [AP4_EsDescriptor.new, AP4_ByteStream.ReadUI16, AP4_ByteStream.ReadUI08,
    AP4_ByteStream.Read, AP4_FAILED, AP4_BytesToUIntBE,
    AP4_ES_DESCRIPTOR_FLAG_STREAM_DEPENDENCY]

/-- C30: the descriptor with the URL and OCR-stream flags, the URL `a` and `ocr_es_id` 0x1234
is written as `00 01 C0 | 01 61 00 | 12 34`: after the length byte 1 and the byte of the URL,
`WriteFields` writes a zero byte that is not part of the encoding of the URL.  The
parser consumes the length byte and one byte for the URL, and reads the next field,
`ocr_es_id`, as 0x0012 from the zero byte and the first byte of the written id. -/
theorem AP4_EsDescriptor.WriteFields_url_evaluation :
    AP4_EsDescriptor.WriteFields
        (AP4_EsDescriptor.sample 6) AP4_ByteStream.fresh
      = (AP4_Result.SUCCESS,
         { data := [0, 1, 0xC0, 1, 0x61, 0, 0x12, 0x34], pos := 8, faults := [] })
    ∧ AP4_EsDescriptor.new
        { data := [0, 1, 0xC0, 1, 0x61, 0, 0x12, 0x34], pos := 0, faults := [] } 2 8
        AP4_EsDescriptor.stale
      = ({ m_HeaderSize := 2, m_PayloadSize := 8, m_EsId := 1, m_OcrEsId := 0x0012, m_Flags := 6,
           m_StreamPriority := 0, m_DependsOn := 0, m_Url := [0x61], m_SubDescriptors := [] },
         { data := [0, 1, 0xC0, 1, 0x61, 0, 0x12, 0x34], pos := 7, faults := [] }, 1) := by
  decide

/-! ## The JSON inspector -/

theorem AP4_JsonStringContent.ne_zero (t : List Nat) (h : AP4_JsonStringContent t) :
    ∀ c ∈ t, c ≠ 0 := by
  induction h with
  | nil => intro c hc; cases hc
  | plain cp rest hs h20 _ _ _ ih =>
    intro c hc
    rcases List.mem_append.mp hc with h | h
    · exact AP4_Utf8Encode_nonzero cp (by omega) c h
    · exact ih c h
  | escape e rest he _ ih =>
    intro c hc
    rcases List.mem_cons.mp hc with h | h
    · omega
    rcases List.mem_cons.mp h with h | h
    · subst h
      simp only [List.mem_cons, List.mem_singleton, List.mem_nil_iff, or_false] at he
      omega
    · exact ih c h
  | unicode h1 h2 h3 h4 rest x1 x2 x3 x4 _ ih =>
    intro c hc
    unfold AP4_IsHexChar at x1 x2 x3 x4
    simp only [List.mem_cons] at hc
    rcases hc with h | h | h | h | h | h | h
    · omega
    · omega
    · omega
    · omega
    · omega
    · omega
    · exact ih c h

theorem AP4_JsonInspector.indent_ne_zero (k : Nat) : ∀ c ∈ AP4_JsonInspector.indent k, c ≠ 0 := by
  unfold AP4_JsonInspector.indent AP4_MakePrefixString
  rw [if_neg (by decide)]
  exact List.replicate_ne_zero _ 32 (by decide)

theorem AP4_JsonInspector.indent_whitespace (k : Nat) :
    AP4_IsJsonWhitespace (AP4_JsonInspector.indent k) := by
  unfold AP4_JsonInspector.indent AP4_MakePrefixString
  rw [if_neg (by decide)]
  intro c hc
  exact Or.inl (List.mem_replicate.mp hc).2

theorem AP4_JsonInspector.emit_cstring (s : AP4_ByteStream) (h : s.Accepting)
    (cs : List AP4_JsonInspector.Context) (p a t : List Nat) :
    AP4_JsonInspector.WriteString
        { m_Stream := (s.Write a).2, m_Contexts := cs, m_Prefix := p } t
      = { m_Stream := (s.Write (a ++ AP4_NullTerminatedStringAtom.cString t)).2,
          m_Contexts := cs, m_Prefix := p } := by
  unfold AP4_JsonInspector.WriteString AP4_ByteStream.WriteString
  simp only
  by_cases h0 : (AP4_NullTerminatedStringAtom.cString t).length = 0
  · rw [List.length_eq_zero.mp h0]
    simp only [List.length_nil, beq_self_eq_true, if_true, List.append_nil]
  · simp only [beq_iff_eq, h0, if_false]
    rw [AP4_ByteStream.Accepting.write_write s a _ h]

theorem AP4_JsonInspector.OnFieldAdded_emit (s : AP4_ByteStream) (h : s.Accepting)
    (cs : List AP4_JsonInspector.Context) (c : AP4_JsonInspector.Context) (p a : List Nat) :
    AP4_JsonInspector.OnFieldAdded
        { m_Stream := (s.Write a).2, m_Contexts := cs ++ [c], m_Prefix := p }
      = { m_Stream := (s.Write (a ++ if c.m_FieldCount != 0 then [44, 10] else [])).2,
          m_Contexts := cs ++ [{ c with m_FieldCount := AP4_Add32 c.m_FieldCount 1 }],
          m_Prefix := p } := by
  unfold AP4_JsonInspector.OnFieldAdded AP4_JsonInspector.setLastContext
    AP4_JsonInspector.LastContext
  simp only [List.getLastD_concat]
  by_cases h0 : (c.m_FieldCount != 0) = true
  · simp only [h0, if_true, AP4_JsonInspector.emit_cstring s h, List.getLastD_concat,
      List.dropLast_concat]
    rfl
  · simp only [h0, if_false, List.getLastD_concat, List.dropLast_concat, List.append_nil,
      Bool.false_eq_true]

theorem AP4_JsonInspector.EscapeString_keys :
    AP4_JsonInspector.EscapeString [110, 97, 109, 101] = [110, 97, 109, 101] ∧
    AP4_JsonInspector.EscapeString [104, 101, 97, 100, 101, 114, 95, 115, 105, 122, 101]
      = [104, 101, 97, 100, 101, 114, 95, 115, 105, 122, 101] ∧
    AP4_JsonInspector.EscapeString [115, 105, 122, 101] = [115, 105, 122, 101] ∧
    AP4_JsonInspector.EscapeString [118, 101, 114, 115, 105, 111, 110]
      = [118, 101, 114, 115, 105, 111, 110] ∧
    AP4_JsonInspector.EscapeString [102, 108, 97, 103, 115] = [102, 108, 97, 103, 115] := by
  decide

theorem AP4_JsonInspector.PrintFieldName_emit (s : AP4_ByteStream) (h : s.Accepting)
    (cs : List AP4_JsonInspector.Context) (p a name : List Nat)
    (hname : ∀ c ∈ AP4_JsonInspector.EscapeString name, c ≠ 0) :
    AP4_JsonInspector.PrintFieldName
        { m_Stream := (s.Write a).2, m_Contexts := cs, m_Prefix := p } (some name)
      = { m_Stream := (s.Write
            (a ++ [34] ++ AP4_JsonInspector.EscapeString name ++ [34, 58, 32])).2,
          m_Contexts := cs, m_Prefix := p } := by
  have l1 : AP4_NullTerminatedStringAtom.cString [34] = [34] := by decide
  have l2 : AP4_NullTerminatedStringAtom.cString [34, 58, 32] = [34, 58, 32] := by decide
  unfold AP4_JsonInspector.PrintFieldName
  simp only [AP4_JsonInspector.emit_cstring s h, l1, l2,
    AP4_NullTerminatedStringAtom.cString_of_nonzero _ hname]

theorem AP4_JsonInspector.StartAtom_emit (s : AP4_ByteStream) (h : s.Accepting)
    (cs : List AP4_JsonInspector.Context) (c : AP4_JsonInspector.Context) (a name : List Nat)
    (version flags header_size size : Nat)
    (hname : ∀ c ∈ AP4_JsonInspector.EscapeString name, c ≠ 0) :
    AP4_JsonInspector.StartAtom
        { m_Stream := (s.Write a).2, m_Contexts := cs ++ [c],
          m_Prefix := AP4_JsonInspector.indent (cs.length + 1) }
        name version flags header_size size
      = { m_Stream := (s.Write (a ++ AP4_JsonInspector.startText (cs.length + 1)
            (c.m_FieldCount != 0)
            (c.m_Type == AP4_ContextType.ATOM && AP4_Add32 c.m_ChildrenCount 1 == 1)
            name version flags header_size size)).2,
          m_Contexts := cs
            ++ [{ c with m_FieldCount := AP4_Add32 c.m_FieldCount 1,
                         m_ChildrenCount := AP4_Add32 c.m_ChildrenCount 1 }]
            ++ [{ m_Type := AP4_ContextType.ATOM,
                  m_FieldCount := 3 + (if version ≠ 0 then 1 else 0)
                    + (if flags ≠ 0 then 1 else 0),
                  m_ChildrenCount := 0 }],
          m_Prefix := AP4_JsonInspector.indent (cs.length + 1 + 1) } := by
  have l1 : AP4_NullTerminatedStringAtom.cString [34] = [34] := by decide
  have l2 : AP4_NullTerminatedStringAtom.cString [123, 10] = [123, 10] := by decide
  have l3 : AP4_NullTerminatedStringAtom.cString
      [34, 99, 104, 105, 108, 100, 114, 101, 110, 34, 58, 91, 32, 10]
      = [34, 99, 104, 105, 108, 100, 114, 101, 110, 34, 58, 91, 32, 10] := by decide
  have e1 := AP4_NullTerminatedStringAtom.cString_of_nonzero _ hname
  have e2 := fun k => AP4_NullTerminatedStringAtom.cString_of_nonzero _
    (AP4_JsonInspector.indent_ne_zero k)
  have e3 := fun v => AP4_NullTerminatedStringAtom.cString_of_nonzero _
    (AP4_FormatInt32_ne_zero v)
  have e4 := fun v => AP4_NullTerminatedStringAtom.cString_of_nonzero _
    (AP4_FormatInt64_ne_zero v)
  have e5 := fun v => AP4_NullTerminatedStringAtom.cString_of_nonzero _
    (AP4_FormatDecimal_ne_zero v)
  have k1 := fun cs p a => AP4_JsonInspector.PrintFieldName_emit s h cs p a [110, 97, 109, 101]
    (by rw [AP4_JsonInspector.EscapeString_keys.1]; decide)
  have k2 := fun cs p a => AP4_JsonInspector.PrintFieldName_emit s h cs p a
    [104, 101, 97, 100, 101, 114, 95, 115, 105, 122, 101]
    (by rw [AP4_JsonInspector.EscapeString_keys.2.1]; decide)
  have k3 := fun cs p a => AP4_JsonInspector.PrintFieldName_emit s h cs p a [115, 105, 122, 101]
    (by rw [AP4_JsonInspector.EscapeString_keys.2.2.1]; decide)
  have k4 := fun cs p a => AP4_JsonInspector.PrintFieldName_emit s h cs p a
    [118, 101, 114, 115, 105, 111, 110]
    (by rw [AP4_JsonInspector.EscapeString_keys.2.2.2.1]; decide)
  have k5 := fun cs p a => AP4_JsonInspector.PrintFieldName_emit s h cs p a
    [102, 108, 97, 103, 115]
    (by rw [AP4_JsonInspector.EscapeString_keys.2.2.2.2]; decide)
  have a1 : AP4_Add32 0 1 = 1 := by decide
  have a2 : AP4_Add32 1 1 = 2 := by decide
  have a3 : AP4_Add32 2 1 = 3 := by decide
  have a4 : AP4_Add32 3 1 = 4 := by decide
  have a5 : AP4_Add32 4 1 = 5 := by decide
  unfold AP4_JsonInspector.StartAtom AP4_JsonInspector.startText
  have ind : ∀ k, AP4_MakePrefixString (k * 2) 256 = AP4_JsonInspector.indent k := fun _ => rfl
  have n1 : ¬ (1 : Nat) = 0 := by decide
  have n2 : ¬ (2 : Nat) = 0 := by decide
  have n3 : ¬ (3 : Nat) = 0 := by decide
  have n4 : ¬ (4 : Nat) = 0 := by decide
  by_cases hh : (c.m_Type == AP4_ContextType.ATOM && AP4_Add32 c.m_ChildrenCount 1 == 1) = true <;>
  by_cases hv : version = 0 <;> by_cases hf : flags = 0 <;>
  simp only [AP4_JsonInspector.OnFieldAdded_emit s h, AP4_JsonInspector.setLastContext,
    AP4_JsonInspector.LastContext, AP4_JsonInspector.PushContext, List.getLastD_concat,
    List.dropLast_concat, AP4_JsonInspector.emit_cstring s h, hh, hv, hf, l1, l2, l3,
    e1, e2, e3, e4, e5, k1, k2, k3, k4, k5, a1, a2, a3, a4, a5, n1, n2, n3, n4,
    AP4_JsonInspector.EscapeString_keys, bne_iff_ne,
    List.length_append, List.length_singleton, ind,
    if_true, if_false, Bool.false_eq_true, ne_eq, not_true_eq_false,
    not_false_eq_true, List.append_nil, Nat.add_zero, Nat.reduceAdd] <;>
  simp only [List.append_assoc, List.cons_append, List.nil_append]

theorem AP4_JsonInspector.EndAtom_emit (s : AP4_ByteStream) (h : s.Accepting)
    (cs : List AP4_JsonInspector.Context) (c x : AP4_JsonInspector.Context) (p a : List Nat) :
    AP4_JsonInspector.EndAtom
        { m_Stream := (s.Write a).2, m_Contexts := cs ++ [c] ++ [x], m_Prefix := p }
      = { m_Stream := (s.Write (a ++ (if x.m_ChildrenCount != 0 then [93] else [])
            ++ [10] ++ AP4_JsonInspector.indent (cs.length + 1) ++ [125])).2,
          m_Contexts := cs ++ [c],
          m_Prefix := AP4_JsonInspector.indent (cs.length + 1) } := by
  have l1 : AP4_NullTerminatedStringAtom.cString [93] = [93] := by decide
  have l2 : AP4_NullTerminatedStringAtom.cString [10] = [10] := by decide
  have l3 : AP4_NullTerminatedStringAtom.cString [125] = [125] := by decide
  have e2 := fun k => AP4_NullTerminatedStringAtom.cString_of_nonzero _
    (AP4_JsonInspector.indent_ne_zero k)
  have ind : ∀ k, AP4_MakePrefixString (k * 2) 256 = AP4_JsonInspector.indent k := fun _ => rfl
  unfold AP4_JsonInspector.EndAtom
  by_cases hx : (x.m_ChildrenCount != 0) = true <;>
  simp only [AP4_JsonInspector.LastContext, AP4_JsonInspector.PopContext, List.getLastD_concat,
    List.dropLast_concat, AP4_JsonInspector.emit_cstring s h, hx, l1, l2, l3, e2, ind,
    List.length_append, List.length_singleton, if_true, if_false, Bool.false_eq_true,
    List.append_nil]

theorem AP4_JsonInspector.AddField_emit (s : AP4_ByteStream) (h : s.Accepting)
    (cs : List AP4_JsonInspector.Context) (c : AP4_JsonInspector.Context) (a : List Nat)
    (k : Nat) (f : AP4_InspectedField)
    (hf : match f with
      | AP4_InspectedField.text name value =>
        AP4_JsonStringContent (AP4_JsonInspector.EscapeString name) ∧
        AP4_JsonStringContent (AP4_JsonInspector.EscapeString value)
      | AP4_InspectedField.number name _ =>
        AP4_JsonStringContent (AP4_JsonInspector.EscapeString name))
    (hc : c.m_FieldCount ≠ 0) :
    AP4_JsonInspector.step
        { m_Stream := (s.Write a).2, m_Contexts := cs ++ [c],
          m_Prefix := AP4_JsonInspector.indent k }
        (AP4_JsonInspector.Call.ofField f)
      = { m_Stream := (s.Write
            (a ++ AP4_JsonInspector.fieldText (AP4_JsonInspector.indent k) f)).2,
          m_Contexts := cs ++ [{ c with m_FieldCount := AP4_Add32 c.m_FieldCount 1 }],
          m_Prefix := AP4_JsonInspector.indent k } := by
  have l1 : AP4_NullTerminatedStringAtom.cString [34] = [34] := by decide
  have e2 := fun k => AP4_NullTerminatedStringAtom.cString_of_nonzero _
    (AP4_JsonInspector.indent_ne_zero k)
  have e4 := fun v => AP4_NullTerminatedStringAtom.cString_of_nonzero _
    (AP4_FormatInt64_ne_zero v)
  have hcb : (c.m_FieldCount != 0) = true := bne_iff_ne.mpr hc
  cases f with
  | text name value =>
    have e1 := AP4_NullTerminatedStringAtom.cString_of_nonzero _
      (AP4_JsonStringContent.ne_zero _ hf.2)
    have k1 := fun cs p a => AP4_JsonInspector.PrintFieldName_emit s h cs p a name
      (AP4_JsonStringContent.ne_zero _ hf.1)
    simp only [AP4_JsonInspector.step, AP4_JsonInspector.Call.ofField,
      AP4_JsonInspector.AddField, AP4_JsonInspector.fieldText,
      AP4_JsonInspector.OnFieldAdded_emit s h, AP4_JsonInspector.emit_cstring s h, hcb, l1,
      e1, e2, k1, if_true]
    simp only [List.append_assoc, List.cons_append, List.nil_append]
  | number name value =>
    have k1 := fun cs p a => AP4_JsonInspector.PrintFieldName_emit s h cs p a name
      (AP4_JsonStringContent.ne_zero _ hf)
    simp only [AP4_JsonInspector.step, AP4_JsonInspector.Call.ofField,
      AP4_JsonInspector.AddFieldUI64, AP4_JsonInspector.fieldText,
      AP4_JsonInspector.OnFieldAdded_emit s h, AP4_JsonInspector.emit_cstring s h, hcb, l1,
      e2, e4, k1, if_true]
    simp only [List.append_assoc, List.cons_append, List.nil_append]

theorem AP4_JsonInspector.run_fields (s : AP4_ByteStream) (h : s.Accepting)
    (cs : List AP4_JsonInspector.Context) (k : Nat) (fields : List AP4_InspectedField) :
    ∀ (c : AP4_JsonInspector.Context) (a : List Nat),
    (∀ f ∈ fields, match f with
      | AP4_InspectedField.text name value =>
        AP4_JsonStringContent (AP4_JsonInspector.EscapeString name) ∧
        AP4_JsonStringContent (AP4_JsonInspector.EscapeString value)
      | AP4_InspectedField.number name _ =>
        AP4_JsonStringContent (AP4_JsonInspector.EscapeString name)) →
    c.m_FieldCount ≠ 0 → c.m_FieldCount + fields.length < 2 ^ 32 →
    AP4_JsonInspector.run
        { m_Stream := (s.Write a).2, m_Contexts := cs ++ [c],
          m_Prefix := AP4_JsonInspector.indent k }
        (fields.map AP4_JsonInspector.Call.ofField)
      = { m_Stream := (s.Write
            (a ++ (fields.map
              (AP4_JsonInspector.fieldText (AP4_JsonInspector.indent k))).flatten)).2,
          m_Contexts := cs ++ [{ c with m_FieldCount := c.m_FieldCount + fields.length }],
          m_Prefix := AP4_JsonInspector.indent k } := by
  induction fields with
  | nil =>
    intro c a _ _ _
    simp [AP4_JsonInspector.run]
  | cons f rest ih =>
    intro c a hf hc hlen
    simp only [List.length_cons] at hlen
    have hadd : AP4_Add32 c.m_FieldCount 1 = c.m_FieldCount + 1 :=
      AP4_Add32_of_lt _ _ (by omega)
    unfold AP4_JsonInspector.run
    rw [List.map_cons, List.foldl_cons,
      AP4_JsonInspector.AddField_emit s h cs c a k f (hf f (List.mem_cons_self f rest)) hc]
    have := ih { c with m_FieldCount := AP4_Add32 c.m_FieldCount 1 }
      (a ++ AP4_JsonInspector.fieldText (AP4_JsonInspector.indent k) f)
      (fun g hg => hf g (List.mem_cons_of_mem f hg))
      (by simp only [hadd]; omega) (by simp only [hadd]; omega)
    unfold AP4_JsonInspector.run at this
    rw [this]
    simp only [hadd, List.map_cons, List.flatten_cons, List.append_assoc, List.length_cons,
      Nat.add_assoc, Nat.add_comm 1]

theorem AP4_JsonInspector.run_append (i : AP4_JsonInspector)
    (l1 l2 : List AP4_JsonInspector.Call) :
    i.run (l1 ++ l2) = (i.run l1).run l2 := by
  unfold AP4_JsonInspector.run
  exact List.foldl_append _ _ _ _

theorem AP4_JsonInspector.text_atom (k : Nat) (comma header : Bool) (name : List Nat)
    (version flags header_size size : Nat) (fields : List AP4_InspectedField)
    (children siblings : AP4_InspectedAtoms) :
    AP4_JsonInspector.text k comma header
        (AP4_InspectedAtoms.atom name version flags header_size size fields children siblings)
      = AP4_JsonInspector.startText k comma header name version flags header_size size
        ++ (fields.map (AP4_JsonInspector.fieldText (AP4_JsonInspector.indent (k + 1)))).flatten
        ++ AP4_JsonInspector.text (k + 1) true true children
        ++ (if children = AP4_InspectedAtoms.nil then [] else [93])
        ++ [10] ++ AP4_JsonInspector.indent k ++ [125]
        ++ AP4_JsonInspector.text k true false siblings := by
  simp only [AP4_JsonInspector.text, AP4_JsonInspector.startText, List.append_assoc]

theorem AP4_InspectedAtoms.count_eq_zero (f : AP4_InspectedAtoms) :
    f.count = 0 ↔ f = AP4_InspectedAtoms.nil := by
  cases f <;> simp [AP4_InspectedAtoms.count]

theorem AP4_JsonInspector.run_calls (s : AP4_ByteStream) (h : s.Accepting)
    (f : AP4_InspectedAtoms) :
    ∀ (cs : List AP4_JsonInspector.Context) (c : AP4_JsonInspector.Context) (a : List Nat),
    f.Fits → f.Escaped →
    c.m_FieldCount + f.count < 2 ^ 32 → c.m_ChildrenCount + f.count < 2 ^ 32 →
    AP4_JsonInspector.run
        { m_Stream := (s.Write a).2, m_Contexts := cs ++ [c],
          m_Prefix := AP4_JsonInspector.indent (cs.length + 1) }
        (AP4_JsonInspector.calls f)
      = { m_Stream := (s.Write (a ++ AP4_JsonInspector.text (cs.length + 1)
            (c.m_FieldCount != 0)
            (c.m_Type == AP4_ContextType.ATOM && c.m_ChildrenCount == 0) f)).2,
          m_Contexts := cs ++ [{ c with m_FieldCount := c.m_FieldCount + f.count,
                                        m_ChildrenCount := c.m_ChildrenCount + f.count }],
          m_Prefix := AP4_JsonInspector.indent (cs.length + 1) } := by
  induction f with
  | nil =>
    intro cs c a _ _ _ _
    simp [AP4_JsonInspector.calls, AP4_JsonInspector.run, AP4_JsonInspector.text,
      AP4_InspectedAtoms.count]
  | atom name version flags header_size size fields children siblings ihc ihs =>
    intro cs c a hfit hesc hfc hcc
    obtain ⟨hf1, hf2, hf3, hf4⟩ := hfit
    obtain ⟨he1, he2, he3, he4⟩ := hesc
    simp only [AP4_InspectedAtoms.count] at hfc hcc
    have hadd1 : AP4_Add32 c.m_FieldCount 1 = c.m_FieldCount + 1 :=
      AP4_Add32_of_lt _ _ (by omega)
    have hadd2 : AP4_Add32 c.m_ChildrenCount 1 = c.m_ChildrenCount + 1 :=
      AP4_Add32_of_lt _ _ (by omega)
    have hhdr : (c.m_Type == AP4_ContextType.ATOM && c.m_ChildrenCount + 1 == 1)
        = (c.m_Type == AP4_ContextType.ATOM && c.m_ChildrenCount == 0) := by
      congr 1
      simp
    have s1 : AP4_JsonInspector.run
        { m_Stream := (s.Write a).2, m_Contexts := cs ++ [c],
          m_Prefix := AP4_JsonInspector.indent (cs.length + 1) }
        [AP4_JsonInspector.Call.StartAtom name version flags header_size size]
        = _ :=
      AP4_JsonInspector.StartAtom_emit s h cs c a name version flags header_size size
        (AP4_JsonStringContent.ne_zero _ he1)
    rw [AP4_JsonInspector.calls, AP4_JsonInspector.run_append, AP4_JsonInspector.run_append,
      AP4_JsonInspector.run_append, AP4_JsonInspector.run_append, s1, hadd1, hadd2, hhdr]
    generalize hn : ((3 + if version ≠ 0 then 1 else 0) + if flags ≠ 0 then 1 else 0) = n
    have hn3 : 3 ≤ n ∧ n ≤ 5 := by
      subst hn
      by_cases hv : version = 0 <;> by_cases hfl : flags = 0 <;> simp [hv, hfl]
    -- the fields
    rw [AP4_JsonInspector.run_fields s h _ (cs.length + 1 + 1) fields
      { m_Type := AP4_ContextType.ATOM, m_FieldCount := n, m_ChildrenCount := 0 } _ he2
      (by simp only; omega) (by simp only; omega)]
    -- the nested atoms
    have i3 := ihc
      (cs ++ [{ m_Type := c.m_Type, m_FieldCount := c.m_FieldCount + 1,
                m_ChildrenCount := c.m_ChildrenCount + 1 }])
      { m_Type := AP4_ContextType.ATOM, m_FieldCount := n + fields.length,
        m_ChildrenCount := 0 }
      (a ++ AP4_JsonInspector.startText (cs.length + 1) (c.m_FieldCount != 0)
          (c.m_Type == AP4_ContextType.ATOM && c.m_ChildrenCount == 0)
          name version flags header_size size
        ++ (fields.map (AP4_JsonInspector.fieldText
              (AP4_JsonInspector.indent (cs.length + 1 + 1)))).flatten)
      hf3 he3 (by simp only; omega) (by simp only; omega)
    have hb : (n + fields.length != 0) = true := bne_iff_ne.mpr (by omega)
    simp only [List.length_append, List.length_singleton, hb, beq_self_eq_true,
      Bool.and_self, Nat.zero_add] at i3
    rw [i3]
    -- the end of the atom
    have s4 : ∀ i : AP4_JsonInspector, i.run [AP4_JsonInspector.Call.EndAtom] = i.EndAtom :=
      fun _ => rfl
    rw [s4, AP4_JsonInspector.EndAtom_emit s h]
    -- the atoms that follow
    have i5 := ihs cs
      { m_Type := c.m_Type, m_FieldCount := c.m_FieldCount + 1,
        m_ChildrenCount := c.m_ChildrenCount + 1 }
      (a ++ AP4_JsonInspector.startText (cs.length + 1) (c.m_FieldCount != 0)
          (c.m_Type == AP4_ContextType.ATOM && c.m_ChildrenCount == 0)
          name version flags header_size size
        ++ (fields.map (AP4_JsonInspector.fieldText
              (AP4_JsonInspector.indent (cs.length + 1 + 1)))).flatten
        ++ AP4_JsonInspector.text (cs.length + 1 + 1) true true children
        ++ (if (children.count != 0) = true then [93] else [])
        ++ [10] ++ AP4_JsonInspector.indent (cs.length + 1) ++ [125])
      hf4 he4 (by simp only; omega) (by simp only; omega)
    have hb1 : (c.m_FieldCount + 1 != 0) = true := bne_iff_ne.mpr (by omega)
    have hb2 : (c.m_ChildrenCount + 1 == 0) = false := beq_false_of_ne (by omega)
    simp only [hb1, hb2, Bool.and_false] at i5
    rw [i5, AP4_JsonInspector.text_atom]
    have hcz : (if (children.count != 0) = true then [93] else ([] : List Nat))
        = (if children = AP4_InspectedAtoms.nil then [] else [93]) := by
      by_cases hc0 : children = AP4_InspectedAtoms.nil
      · subst hc0
        rfl
      · have := (AP4_InspectedAtoms.count_eq_zero children).not.mpr hc0
        rw [if_neg hc0, if_pos (bne_iff_ne.mpr this)]
    rw [hcz]
    simp only [AP4_InspectedAtoms.count, List.append_assoc, Nat.add_assoc, Nat.add_comm 1]

/-! ## The output of the JSON inspector is a JSON text -/

theorem AP4_FormatInt32_number (v : Nat) :
    AP4_FormatInt32 v = AP4_JsonNumberText (AP4_SignedValue32 v) := by
  unfold AP4_FormatInt32 AP4_SignedValue32
  have hm : v % 2 ^ 32 < 2 ^ 32 := Nat.mod_lt _ (by norm_num)
  generalize v % 2 ^ 32 = m at hm ⊢
  by_cases hlt : m < 2 ^ 31
  · rw [if_pos hlt, if_pos hlt]
    rfl
  · rw [if_neg hlt, if_neg hlt]
    have e : 2 ^ 32 - m - 1 + 1 = 2 ^ 32 - m := by omega
    show _ = 45 :: AP4_FormatDecimal (2 ^ 32 - m - 1 + 1)
    rw [e]

theorem AP4_FormatInt64_number (v : Nat) :
    AP4_FormatInt64 v = AP4_JsonNumberText (AP4_SignedValue64 v) := by
  unfold AP4_FormatInt64 AP4_SignedValue64
  have hm : v % 2 ^ 64 < 2 ^ 64 := Nat.mod_lt _ (by norm_num)
  generalize v % 2 ^ 64 = m at hm ⊢
  by_cases hlt : m < 2 ^ 63
  · rw [if_pos hlt, if_pos hlt]
    rfl
  · rw [if_neg hlt, if_neg hlt]
    have e : 2 ^ 64 - m - 1 + 1 = 2 ^ 64 - m := by omega
    show _ = 45 :: AP4_FormatDecimal (2 ^ 64 - m - 1 + 1)
    rw [e]

theorem AP4_IsJsonWhitespace.append (a b : List Nat) (ha : AP4_IsJsonWhitespace a)
    (hb : AP4_IsJsonWhitespace b) : AP4_IsJsonWhitespace (a ++ b) := by
  intro c hc
  rcases List.mem_append.mp hc with h | h
  · exact ha c h
  · exact hb c h

theorem AP4_IsJsonWhitespace.empty : AP4_IsJsonWhitespace [] := by
  intro c hc
  cases hc

theorem AP4_JsonStringContent.of_ascii (t : List Nat)
    (h : ∀ c ∈ t, 0x20 ≤ c ∧ c < 0x80 ∧ c ≠ 0x22 ∧ c ≠ 0x5C) : AP4_JsonStringContent t := by
  induction t with
  | nil => exact AP4_JsonStringContent.nil
  | cons c rest ih =>
    obtain ⟨h1, h2, h3, h4⟩ := h c (List.mem_cons_self c rest)
    have e : AP4_Utf8Encode c = [c] := by
      unfold AP4_Utf8Encode
      rw [if_pos h2]
    have := AP4_JsonStringContent.plain c rest ⟨by omega, by omega⟩ h1 h3 h4
      (ih (fun x hx => h x (List.mem_cons_of_mem c hx)))
    rw [e] at this
    exact this

theorem AP4_JsonStringContent.of_utf8 (cps : List Nat)
    (hcp : ∀ c ∈ cps, c ≠ 0 ∧ AP4_IsScalarValue c)
    (hlen : 6 * ((cps.map AP4_Utf8Encode).flatten).length < 2 ^ 32) :
    AP4_JsonStringContent
      (AP4_JsonInspector.EscapeString ((cps.map AP4_Utf8Encode).flatten)) := by
  rw [AP4_JsonInspector.EscapeString_encoded cps hcp hlen]
  exact AP4_JsonStringContent.of_escapes cps (fun c hc => (hcp c hc).2)

theorem AP4_Json.entriesText_append (p : List Nat)
    (l1 l2 : List (List Nat × List Nat × List Nat × AP4_Json)) :
    AP4_Json.entriesText p (l1 ++ l2)
      = AP4_Json.entriesText p l1 ++ AP4_Json.entriesText p l2 := by
  unfold AP4_Json.entriesText
  rw [List.map_append, List.flatten_append]

theorem AP4_Json.members_of_entries (p w : List Nat) (hp : AP4_IsJsonWhitespace p)
    (hw : AP4_IsJsonWhitespace w) (es : List (List Nat × List Nat × List Nat × AP4_Json)) :
    ∀ e0 : List Nat × List Nat × List Nat × AP4_Json,
    AP4_Json.ValidEntry e0 → (∀ e ∈ es, AP4_Json.ValidEntry e) →
    AP4_Json.Members
      ([10] ++ p ++ [34] ++ e0.1 ++ [34, 58] ++ e0.2.1 ++ e0.2.2.1
        ++ AP4_Json.entriesText p es ++ w)
      ((e0 :: es).map (fun e => (e.1, e.2.2.2))) := by
  have hlf : AP4_IsJsonWhitespace ([10] ++ p) :=
    AP4_IsJsonWhitespace.append _ _ (by intro c hc; simp at hc; simp [hc]) hp
  induction es with
  | nil =>
    intro e0 h0 _
    have := AP4_Json.Members.single ([10] ++ p) e0.1 [] e0.2.1 e0.2.2.1 w e0.2.2.2 hlf
      AP4_IsJsonWhitespace.empty h0.2.1 hw h0.1 h0.2.2
    simpa [AP4_Json.entriesText, List.append_assoc] using this
  | cons e rest ih =>
    intro e0 h0 hes
    have hrest := ih e (hes e (List.mem_cons_self e rest))
      (fun x hx => hes x (List.mem_cons_of_mem e hx))
    have := AP4_Json.Members.cons ([10] ++ p) e0.1 [] e0.2.1 e0.2.2.1 [] _ e0.2.2.2 _ hlf
      AP4_IsJsonWhitespace.empty h0.2.1 AP4_IsJsonWhitespace.empty h0.1 h0.2.2 hrest
    simpa [AP4_Json.entriesText, List.append_assoc] using this

theorem AP4_JsonInspector.text_flags (k : Nat) (comma header : Bool) (f : AP4_InspectedAtoms)
    (hf : f ≠ AP4_InspectedAtoms.nil) :
    AP4_JsonInspector.text k comma header f
      = (if comma then [44, 10] else [])
        ++ (if header
            then AP4_JsonInspector.indent k
              ++ [34, 99, 104, 105, 108, 100, 114, 101, 110, 34, 58, 91, 32, 10]
            else [])
        ++ AP4_JsonInspector.text k false false f := by
  cases f with
  | nil => exact absurd rfl hf
  | atom name version flags header_size size fields children siblings =>
    simp only [AP4_JsonInspector.text, List.append_assoc, Bool.false_eq_true, if_false,
      List.nil_append]

theorem AP4_InspectedField.entry_text (p : List Nat) (fields : List AP4_InspectedField) :
    AP4_Json.entriesText p (fields.map AP4_InspectedField.entry)
      = (fields.map (AP4_JsonInspector.fieldText p)).flatten := by
  unfold AP4_Json.entriesText
  rw [List.map_map]
  congr 1
  apply List.map_congr_left
  intro f _
  cases f <;>
  simp [AP4_InspectedField.entry, AP4_JsonInspector.fieldText, List.append_assoc]

theorem AP4_InspectedField.entry_valid (f : AP4_InspectedField)
    (hf : match f with
      | AP4_InspectedField.text name value =>
        AP4_JsonStringContent (AP4_JsonInspector.EscapeString name) ∧
        AP4_JsonStringContent (AP4_JsonInspector.EscapeString value)
      | AP4_InspectedField.number name _ =>
        AP4_JsonStringContent (AP4_JsonInspector.EscapeString name)) :
    AP4_Json.ValidEntry f.entry := by
  have hsp : AP4_IsJsonWhitespace [32] := by
    intro c hc
    simp at hc
    simp [hc]
  cases f with
  | text name value => exact ⟨hf.1, hsp, AP4_Json.Text.string _ hf.2⟩
  | number name value =>
    refine ⟨hf, hsp, ?_⟩
    show AP4_Json.Text (AP4_FormatInt64 value) _
    rw [AP4_FormatInt64_number]
    exact AP4_Json.Text.number _

theorem AP4_InspectedField.entry_member (fields : List AP4_InspectedField) :
    (fields.map AP4_InspectedField.entry).map (fun e => (e.1, e.2.2.2))
      = fields.map AP4_InspectedField.toJson := by
  rw [List.map_map]
  apply List.map_congr_left
  intro f _
  cases f <;> rfl

theorem AP4_JsonInspector.atom_object (k : Nat) (name : List Nat)
    (version flags header_size size : Nat) (fields : List AP4_InspectedField)
    (children : AP4_InspectedAtoms)
    (he1 : AP4_JsonStringContent (AP4_JsonInspector.EscapeString name))
    (he2 : ∀ f ∈ fields, match f with
      | AP4_InspectedField.text name value =>
        AP4_JsonStringContent (AP4_JsonInspector.EscapeString name) ∧
        AP4_JsonStringContent (AP4_JsonInspector.EscapeString value)
      | AP4_InspectedField.number name _ =>
        AP4_JsonStringContent (AP4_JsonInspector.EscapeString name))
    (hchild : children ≠ AP4_InspectedAtoms.nil →
      AP4_Json.Elements ([32, 10] ++ AP4_JsonInspector.text (k + 1) false false children)
        children.toJson) :
    ∃ (body : List Nat) (object : AP4_Json),
      (∀ siblings, AP4_JsonInspector.text k false false
          (AP4_InspectedAtoms.atom name version flags header_size size fields children siblings)
        = AP4_JsonInspector.indent k ++ [123] ++ body ++ [125]
          ++ AP4_JsonInspector.text k true false siblings) ∧
      (∀ siblings,
        (AP4_InspectedAtoms.atom name version flags header_size size fields children
          siblings).toJson = object :: siblings.toJson) ∧
      AP4_Json.Text ([123] ++ body ++ [125]) object := by
  have hsp : AP4_IsJsonWhitespace [32] := by
    intro c hc
    simp at hc
    simp [hc]
  have hlf : AP4_IsJsonWhitespace [10] := by
    intro c hc
    simp at hc
    simp [hc]
  let e0 : List Nat × List Nat × List Nat × AP4_Json :=
    ([110, 97, 109, 101], [32], [34] ++ AP4_JsonInspector.EscapeString name ++ [34],
      AP4_Json.string (AP4_JsonInspector.EscapeString name))
  let es : List (List Nat × List Nat × List Nat × AP4_Json) :=
    [(([104, 101, 97, 100, 101, 114, 95, 115, 105, 122, 101] : List Nat), ([32] : List Nat),
        AP4_FormatInt32 header_size, AP4_Json.number (AP4_SignedValue32 header_size)),
     ([115, 105, 122, 101], [32], AP4_FormatInt64 size,
        AP4_Json.number (AP4_SignedValue64 size))]
    ++ (if version ≠ 0
        then [([118, 101, 114, 115, 105, 111, 110], [32], AP4_FormatDecimal version,
                AP4_Json.number (Int.ofNat version))]
        else [])
    ++ (if flags ≠ 0
        then [([102, 108, 97, 103, 115], [32], AP4_FormatInt32 flags,
                AP4_Json.number (AP4_SignedValue32 flags))]
        else [])
    ++ fields.map AP4_InspectedField.entry
    ++ (if children = AP4_InspectedAtoms.nil then []
        else [([99, 104, 105, 108, 100, 114, 101, 110], [],
                [91] ++ ([32, 10] ++ AP4_JsonInspector.text (k + 1) false false children) ++ [93],
                AP4_Json.array children.toJson)])
  have hk1 := AP4_JsonStringContent.of_ascii [110, 97, 109, 101] (by decide)
  have hk2 := AP4_JsonStringContent.of_ascii
    [104, 101, 97, 100, 101, 114, 95, 115, 105, 122, 101] (by decide)
  have hk3 := AP4_JsonStringContent.of_ascii [115, 105, 122, 101] (by decide)
  have hk4 := AP4_JsonStringContent.of_ascii [118, 101, 114, 115, 105, 111, 110] (by decide)
  have hk5 := AP4_JsonStringContent.of_ascii [102, 108, 97, 103, 115] (by decide)
  have hk6 := AP4_JsonStringContent.of_ascii [99, 104, 105, 108, 100, 114, 101, 110]
    (by decide)
  have hn32 : ∀ v, AP4_Json.Text (AP4_FormatInt32 v) (AP4_Json.number (AP4_SignedValue32 v)) := by
    intro v
    rw [AP4_FormatInt32_number]
    exact AP4_Json.Text.number _
  have hn64 : ∀ v, AP4_Json.Text (AP4_FormatInt64 v) (AP4_Json.number (AP4_SignedValue64 v)) := by
    intro v
    rw [AP4_FormatInt64_number]
    exact AP4_Json.Text.number _
  have hes : ∀ e ∈ es, AP4_Json.ValidEntry e := by
    intro e he
    rcases List.mem_append.mp he with he | he
    · rcases List.mem_append.mp he with he | he
      · rcases List.mem_append.mp he with he | he
        · rcases List.mem_append.mp he with he | he
          · rcases List.mem_cons.mp he with he | he
            · rw [he]
              exact ⟨hk2, hsp, hn32 header_size⟩
            · rw [List.mem_singleton.mp he]
              exact ⟨hk3, hsp, hn64 size⟩
          · by_cases hv : version = 0
            · rw [if_neg (not_not.mpr hv)] at he
              cases he
            · rw [if_pos hv, List.mem_singleton] at he
              rw [he]
              exact ⟨hk4, hsp, AP4_Json.Text.number (Int.ofNat version)⟩
        · by_cases hfl : flags = 0
          · rw [if_neg (not_not.mpr hfl)] at he
            cases he
          · rw [if_pos hfl, List.mem_singleton] at he
            rw [he]
            exact ⟨hk5, hsp, hn32 flags⟩
      · obtain ⟨f, hf, rfl⟩ := List.mem_map.mp he
        exact AP4_InspectedField.entry_valid f (he2 f hf)
    · by_cases hc : children = AP4_InspectedAtoms.nil
      · rw [if_pos hc] at he
        cases he
      · rw [if_neg hc, List.mem_singleton] at he
        rw [he]
        exact ⟨hk6, AP4_IsJsonWhitespace.empty, AP4_Json.Text.array _ _ (hchild hc)⟩
  have hmem := AP4_Json.members_of_entries (AP4_JsonInspector.indent (k + 1))
    ([10] ++ AP4_JsonInspector.indent k) (AP4_JsonInspector.indent_whitespace (k + 1))
    (AP4_IsJsonWhitespace.append _ _ hlf (AP4_JsonInspector.indent_whitespace k)) es e0
    ⟨hk1, hsp, AP4_Json.Text.string _ he1⟩ hes
  refine ⟨_, _, ?_, ?_, AP4_Json.Text.object _ _ hmem⟩
  · intro siblings
    rw [AP4_JsonInspector.text_atom]
    simp only [es, e0, AP4_Json.entriesText_append, AP4_InspectedField.entry_text]
    by_cases hc : children = AP4_InspectedAtoms.nil
    · subst hc
      by_cases hv : version = 0 <;> by_cases hfl : flags = 0 <;>
      simp [hv, hfl, AP4_JsonInspector.startText, AP4_Json.entriesText,
        AP4_JsonInspector.text, List.append_assoc]
    · rw [AP4_JsonInspector.text_flags (k + 1) true true children hc]
      by_cases hv : version = 0 <;> by_cases hfl : flags = 0 <;>
      simp [hc, hv, hfl, AP4_JsonInspector.startText, AP4_Json.entriesText,
        List.append_assoc]
  · intro siblings
    simp only [AP4_InspectedAtoms.toJson, es, e0, List.map_cons, List.map_append,
      AP4_InspectedField.entry_member]
    by_cases hc : children = AP4_InspectedAtoms.nil <;>
    by_cases hv : version = 0 <;> by_cases hfl : flags = 0 <;>
    simp [hc, hv, hfl]

theorem AP4_JsonInspector.elements_text (f : AP4_InspectedAtoms) :
    ∀ (k : Nat) (w1 w2 : List Nat), AP4_IsJsonWhitespace w1 → AP4_IsJsonWhitespace w2 →
    f.Escaped → f ≠ AP4_InspectedAtoms.nil →
    AP4_Json.Elements (w1 ++ AP4_JsonInspector.text k false false f ++ w2) f.toJson := by
  induction f with
  | nil =>
    intro _ _ _ _ _ _ hf
    exact absurd rfl hf
  | atom name version flags header_size size fields children siblings ihc ihs =>
    intro k w1 w2 hw1 hw2 hesc _
    obtain ⟨he1, he2, he3, he4⟩ := hesc
    have hsl : AP4_IsJsonWhitespace [32, 10] := by
      intro c hc
      simp at hc
      rcases hc with h | h <;> simp [h]
    have hlf : AP4_IsJsonWhitespace [10] := by
      intro c hc
      simp at hc
      simp [hc]
    have hchild : children ≠ AP4_InspectedAtoms.nil →
        AP4_Json.Elements ([32, 10] ++ AP4_JsonInspector.text (k + 1) false false children)
          children.toJson := by
      intro hc
      have := ihc (k + 1) [32, 10] [] hsl AP4_IsJsonWhitespace.empty he3 hc
      rw [List.append_nil] at this
      exact this
    obtain ⟨body, object, htext, hjson, hobj⟩ := AP4_JsonInspector.atom_object k name version
      flags header_size size fields children he1 he2 hchild
    rw [htext siblings, hjson siblings]
    have hw : AP4_IsJsonWhitespace (w1 ++ AP4_JsonInspector.indent k) :=
      AP4_IsJsonWhitespace.append _ _ hw1 (AP4_JsonInspector.indent_whitespace k)
    by_cases hs : siblings = AP4_InspectedAtoms.nil
    · subst hs
      have := AP4_Json.Elements.single (w1 ++ AP4_JsonInspector.indent k)
        ([123] ++ body ++ [125]) w2 object hw hw2 hobj
      simpa [AP4_JsonInspector.text, AP4_InspectedAtoms.toJson, List.append_assoc] using this
    · have hrest := ihs k [10] w2 hlf hw2 he4 hs
      have := AP4_Json.Elements.cons (w1 ++ AP4_JsonInspector.indent k)
        ([123] ++ body ++ [125]) [] _ object _ hw AP4_IsJsonWhitespace.empty hobj hrest
      rw [AP4_JsonInspector.text_flags k true false siblings hs]
      simpa [List.append_assoc] using this

theorem AP4_InspectedAtoms.count_lt (f : AP4_InspectedAtoms) (h : f.Fits) : f.count < 2 ^ 32 := by
  cases f with
  | nil => exact Nat.pos_of_ne_zero (by norm_num)
  | atom name version flags header_size size fields children siblings => exact h.2.1

theorem AP4_JsonInspector.output_text (stream : AP4_ByteStream) (f : AP4_InspectedAtoms)
    (hacc : stream.Accepting) (hfit : f.Fits) (hesc : f.Escaped) :
    AP4_JsonInspector.output stream (AP4_JsonInspector.calls f)
      = [91, 10] ++ AP4_JsonInspector.text 1 false false f ++ [10, 93, 10] := by
  have l1 : AP4_NullTerminatedStringAtom.cString [91, 10] = [91, 10] := by decide
  have l2 : AP4_NullTerminatedStringAtom.cString [10, 93, 10] = [10, 93, 10] := by decide
  have hnew : AP4_JsonInspector.new stream
      = { m_Stream := (stream.Write ([] ++ [91, 10])).2,
          m_Contexts := [] ++ [{ m_Type := AP4_ContextType.TOP_LEVEL, m_FieldCount := 0,
                                 m_ChildrenCount := 0 }],
          m_Prefix := AP4_JsonInspector.indent (([] : List AP4_JsonInspector.Context).length + 1) } := by
    unfold AP4_JsonInspector.new AP4_JsonInspector.PushContext
    simp only
    have e0 : ({ m_Stream := stream, m_Contexts := [], m_Prefix := [] } : AP4_JsonInspector)
        = { m_Stream := (stream.Write []).2, m_Contexts := [], m_Prefix := [] } := by
      rw [AP4_ByteStream.Accepting.write_nil stream hacc]
    rw [e0, AP4_JsonInspector.emit_cstring stream hacc, l1]
    rfl
  have hcount := AP4_InspectedAtoms.count_lt f hfit
  unfold AP4_JsonInspector.output
  rw [hnew, AP4_JsonInspector.run_calls stream hacc f [] _ _ hfit hesc
    (by simp only; omega) (by simp only; omega)]
  unfold AP4_JsonInspector.destructor
  rw [AP4_JsonInspector.emit_cstring stream hacc, l2]
  simp only [List.length_nil, Nat.zero_add, List.nil_append]
  rw [AP4_ByteStream.Write_accepting stream _ hacc.1]
  have := AP4_ByteStream.emitted_splice stream
    ([91, 10] ++ AP4_JsonInspector.text 1 ((0 : Nat) != 0)
        (AP4_ContextType.TOP_LEVEL == AP4_ContextType.ATOM && (0 : Nat) == 0) f ++ [10, 93, 10]) []
  exact this

/-- The output for strings that are escaped: on a stream that accepts the writes, for every
properly nested sequence of `StartAtom`,
`AddField` and `EndAtom` calls in which the fields of an atom come before its first nested
atom (the calls of a list of atoms `f`), with strings that `EscapeString` escapes and
fewer than `2^32` members per object, the bytes written from the construction of the JSON
inspector to its destruction are a JSON text of one array whose elements are the
top-level atoms in call order, each an object with the members `name`, `header_size`,
`size`, `version` exactly when the version is not 0, `flags` exactly when the flags are
not 0, the fields, and `children`, the array of the nested atoms in call order, exactly
when an atom was started inside it. -/
theorem AP4_JsonInspector.output_json (stream : AP4_ByteStream) (f : AP4_InspectedAtoms)
    (hacc : stream.Accepting) (hfit : f.Fits) (hesc : f.Escaped) :
    AP4_Json.Document (AP4_JsonInspector.output stream (AP4_JsonInspector.calls f))
      (AP4_Json.array f.toJson) := by
  have hlf : AP4_IsJsonWhitespace [10] := by
    intro c hc
    simp at hc
    simp [hc]
  rw [AP4_JsonInspector.output_text stream f hacc hfit hesc]
  by_cases hf : f = AP4_InspectedAtoms.nil
  · subst hf
    refine ⟨[], [91] ++ [10, 10] ++ [93], [10], AP4_IsJsonWhitespace.empty, hlf, ?_, by
      simp [AP4_JsonInspector.text]⟩
    exact AP4_Json.Text.emptyArray [10, 10] (by
      intro c hc
      simp at hc
      simp [hc])
  · refine ⟨[], [91] ++ ([10] ++ AP4_JsonInspector.text 1 false false f ++ [10]) ++ [93], [10],
      AP4_IsJsonWhitespace.empty, hlf, ?_, by simp [List.append_assoc]⟩
    exact AP4_Json.Text.array _ _
      (AP4_JsonInspector.elements_text f 1 [10] [10] hlf hlf hesc hf)

set_option maxRecDepth 100000 in
theorem AP4_JsonInspector.output_json_witness :
    AP4_Json.Document
      (AP4_JsonInspector.output AP4_ByteStream.fresh
        (AP4_JsonInspector.calls AP4_InspectedAtoms.sample))
      (AP4_Json.array AP4_InspectedAtoms.sample.toJson) ∧
    AP4_JsonInspector.output AP4_ByteStream.fresh
        (AP4_JsonInspector.calls AP4_InspectedAtoms.sample)
      = AP4_Path ("[\n  \x7b\n    \"name\": \"moov\",\n    \"header_size\": 8,\n"
          ++ "    \"size\": 120,\n    \"children\":[ \n    \x7b\n      \"name\": \"mvhd\",\n"
          ++ "      \"header_size\": 12,\n      \"size\": 112,\n      \"version\": 1,\n"
          ++ "      \"flags\": 2,\n      \"title\": \"a\\\"b\",\n      \"duration\": 600\n"
          ++ "    \x7d]\n  \x7d,\n  \x7b\n    \"name\": \"free\",\n    \"header_size\": 8,\n"
          ++ "    \"size\": 8\n  \x7d\n]\n") := by
  have hq : AP4_JsonStringContent [97, 92, 34, 98] :=
    AP4_JsonStringContent.plain 97 [92, 34, 98] (by unfold AP4_IsScalarValue; omega)
      (by decide) (by decide) (by decide)
      (AP4_JsonStringContent.escape 34 [98] (by decide)
        (AP4_JsonStringContent.of_ascii [98] (by decide)))
  have e1 : AP4_JsonInspector.EscapeString [109, 111, 111, 118] = [109, 111, 111, 118] := by
    decide
  have e2 : AP4_JsonInspector.EscapeString [109, 118, 104, 100] = [109, 118, 104, 100] := by
    decide
  have e3 : AP4_JsonInspector.EscapeString [102, 114, 101, 101] = [102, 114, 101, 101] := by
    decide
  have e4 : AP4_JsonInspector.EscapeString [116, 105, 116, 108, 101]
      = [116, 105, 116, 108, 101] := by decide
  have e5 : AP4_JsonInspector.EscapeString [100, 117, 114, 97, 116, 105, 111, 110]
      = [100, 117, 114, 97, 116, 105, 111, 110] := by decide
  have e6 : AP4_JsonInspector.EscapeString [97, 34, 98] = [97, 92, 34, 98] := by decide
  have h := AP4_JsonInspector.output_json AP4_ByteStream.fresh AP4_InspectedAtoms.sample
    ⟨rfl, Nat.le_refl 0⟩
    (by
      simp only [AP4_InspectedAtoms.sample, AP4_InspectedAtoms.Fits, AP4_InspectedAtoms.count]
      norm_num)
    (by
      simp only [AP4_InspectedAtoms.sample, AP4_InspectedAtoms.Escaped, e1, e2, e3,
        List.mem_cons, List.mem_singleton, List.not_mem_nil, or_false, forall_eq_or_imp,
        forall_eq, e4, e5, e6, and_true, true_and, false_implies, implies_true]
      exact ⟨AP4_JsonStringContent.of_ascii _ (by decide),
        ⟨AP4_JsonStringContent.of_ascii _ (by decide),
          ⟨AP4_JsonStringContent.of_ascii _ (by decide), hq⟩,
          AP4_JsonStringContent.of_ascii _ (by decide)⟩,
        AP4_JsonStringContent.of_ascii _ (by decide)⟩)
  exact ⟨h, by decide⟩

theorem AP4_Utf8Encode_byte_lt (cp : Nat) (hcp : cp < 0x110000) :
    ∀ c ∈ AP4_Utf8Encode cp, c < 255 := by
  intro c hc
  unfold AP4_Utf8Encode at hc
  split at hc
  · simp only [List.mem_cons, List.mem_nil_iff, or_false] at hc
    omega
  · split at hc
    · simp only [List.mem_cons, List.mem_nil_iff, or_false] at hc
      omega
    · split at hc
      · simp only [List.mem_cons, List.mem_nil_iff, or_false] at hc
        omega
      · simp only [List.mem_cons, List.mem_nil_iff, or_false] at hc
        omega

theorem AP4_JsonStringContent.content_byte_lt (t : List Nat) (h : AP4_JsonStringContent t) :
    ∀ c ∈ t, c < 255 := by
  induction h with
  | nil =>
    intro c hc
    exact absurd hc (List.not_mem_nil _)
  | plain cp rest hs _ _ _ _ ih =>
    intro c hc
    rcases List.mem_append.mp hc with hc | hc
    · exact AP4_Utf8Encode_byte_lt cp hs.1 c hc
    · exact ih c hc
  | escape e rest he _ ih =>
    intro c hc
    simp only [List.mem_cons, List.mem_nil_iff, or_false] at he
    rcases List.mem_cons.mp hc with rfl | hc
    · omega
    · rcases List.mem_cons.mp hc with rfl | hc
      · omega
      · exact ih c hc
  | unicode h1 h2 h3 h4 rest e1 e2 e3 e4 _ ih =>
    intro c hc
    unfold AP4_IsHexChar at e1 e2 e3 e4
    simp only [List.mem_cons] at hc
    rcases hc with rfl | rfl | rfl | rfl | rfl | rfl | hc
    · omega
    · omega
    · omega
    · omega
    · omega
    · omega
    · exact ih c hc

theorem AP4_IsJsonWhitespace.whitespace_byte_lt (w : List Nat) (h : AP4_IsJsonWhitespace w) :
    ∀ c ∈ w, c < 255 := by
  intro c hc
  have := h c hc
  omega

theorem AP4_JsonNumberText_byte_lt (value : Int) : ∀ c ∈ AP4_JsonNumberText value, c < 255 := by
  intro c hc
  cases value with
  | ofNat n =>
    have := AP4_FormatDecimal_bounds n c hc
    omega
  | negSucc n =>
    rcases List.mem_cons.mp hc with rfl | hc
    · omega
    · have := AP4_FormatDecimal_bounds _ c hc
      omega

mutual

theorem AP4_Json.Text.text_byte_lt : ∀ (t : List Nat) (v : AP4_Json), AP4_Json.Text t v →
    ∀ c ∈ t, c < 255
  | _, _, AP4_Json.Text.number value => AP4_JsonNumberText_byte_lt value
  | _, _, AP4_Json.Text.string content hcontent => by
    intro c hc
    simp only [List.mem_append, List.mem_cons, List.mem_nil_iff, or_false] at hc
    rcases hc with (hc | hc) | hc
    · omega
    · exact AP4_JsonStringContent.content_byte_lt content hcontent c hc
    · omega
  | _, _, AP4_Json.Text.emptyArray w hw => by
    intro c hc
    simp only [List.mem_append, List.mem_cons, List.mem_nil_iff, or_false] at hc
    rcases hc with (hc | hc) | hc
    · omega
    · exact AP4_IsJsonWhitespace.whitespace_byte_lt w hw c hc
    · omega
  | _, _, AP4_Json.Text.array t items ht => by
    intro c hc
    simp only [List.mem_append, List.mem_cons, List.mem_nil_iff, or_false] at hc
    rcases hc with (hc | hc) | hc
    · omega
    · exact AP4_Json.Elements.elements_byte_lt t items ht c hc
    · omega
  | _, _, AP4_Json.Text.emptyObject w hw => by
    intro c hc
    simp only [List.mem_append, List.mem_cons, List.mem_nil_iff, or_false] at hc
    rcases hc with (hc | hc) | hc
    · omega
    · exact AP4_IsJsonWhitespace.whitespace_byte_lt w hw c hc
    · omega
  | _, _, AP4_Json.Text.object t members ht => by
    intro c hc
    simp only [List.mem_append, List.mem_cons, List.mem_nil_iff, or_false] at hc
    rcases hc with (hc | hc) | hc
    · omega
    · exact AP4_Json.Members.members_byte_lt t members ht c hc
    · omega

theorem AP4_Json.Elements.elements_byte_lt : ∀ (t : List Nat) (vs : List AP4_Json),
    AP4_Json.Elements t vs → ∀ c ∈ t, c < 255
  | _, _, AP4_Json.Elements.single w1 t w2 v h1 h2 ht => by
    intro c hc
    simp only [List.mem_append] at hc
    rcases hc with (hc | hc) | hc
    · exact AP4_IsJsonWhitespace.whitespace_byte_lt w1 h1 c hc
    · exact AP4_Json.Text.text_byte_lt t v ht c hc
    · exact AP4_IsJsonWhitespace.whitespace_byte_lt w2 h2 c hc
  | _, _, AP4_Json.Elements.cons w1 t w2 rest v vs h1 h2 ht hrest => by
    intro c hc
    simp only [List.mem_append, List.mem_cons, List.mem_nil_iff, or_false] at hc
    rcases hc with (((hc | hc) | hc) | hc) | hc
    · exact AP4_IsJsonWhitespace.whitespace_byte_lt w1 h1 c hc
    · exact AP4_Json.Text.text_byte_lt t v ht c hc
    · exact AP4_IsJsonWhitespace.whitespace_byte_lt w2 h2 c hc
    · omega
    · exact AP4_Json.Elements.elements_byte_lt rest vs hrest c hc

theorem AP4_Json.Members.members_byte_lt : ∀ (t : List Nat) (ms : List (List Nat × AP4_Json)),
    AP4_Json.Members t ms → ∀ c ∈ t, c < 255
  | _, _, AP4_Json.Members.single w1 key w2 w3 t w4 v h1 h2 h3 h4 hkey ht => by
    intro c hc
    simp only [List.mem_append, List.mem_cons, List.mem_nil_iff, or_false] at hc
    rcases hc with (((((((hc | hc) | hc) | hc) | hc) | hc) | hc) | hc) | hc
    · exact AP4_IsJsonWhitespace.whitespace_byte_lt w1 h1 c hc
    · omega
    · exact AP4_JsonStringContent.content_byte_lt key hkey c hc
    · omega
    · exact AP4_IsJsonWhitespace.whitespace_byte_lt w2 h2 c hc
    · omega
    · exact AP4_IsJsonWhitespace.whitespace_byte_lt w3 h3 c hc
    · exact AP4_Json.Text.text_byte_lt t v ht c hc
    · exact AP4_IsJsonWhitespace.whitespace_byte_lt w4 h4 c hc
  | _, _, AP4_Json.Members.cons w1 key w2 w3 t w4 rest v members h1 h2 h3 h4 hkey ht hrest => by
    intro c hc
    simp only [List.mem_append, List.mem_cons, List.mem_nil_iff, or_false] at hc
    rcases hc with (((((((((hc | hc) | hc) | hc) | hc) | hc) | hc) | hc) | hc) | hc) | hc
    · exact AP4_IsJsonWhitespace.whitespace_byte_lt w1 h1 c hc
    · omega
    · exact AP4_JsonStringContent.content_byte_lt key hkey c hc
    · omega
    · exact AP4_IsJsonWhitespace.whitespace_byte_lt w2 h2 c hc
    · omega
    · exact AP4_IsJsonWhitespace.whitespace_byte_lt w3 h3 c hc
    · exact AP4_Json.Text.text_byte_lt t v ht c hc
    · exact AP4_IsJsonWhitespace.whitespace_byte_lt w4 h4 c hc
    · omega
    · exact AP4_Json.Members.members_byte_lt rest members hrest c hc

end

theorem AP4_Json.Document.document_byte_lt (t : List Nat) (v : AP4_Json) (h : AP4_Json.Document t v) :
    ∀ c ∈ t, c < 255 := by
  obtain ⟨w1, body, w2, h1, h2, hb, rfl⟩ := h
  intro c hc
  simp only [List.mem_append] at hc
  rcases hc with (hc | hc) | hc
  · exact AP4_IsJsonWhitespace.whitespace_byte_lt w1 h1 c hc
  · exact AP4_Json.Text.text_byte_lt body v hb c hc
  · exact AP4_IsJsonWhitespace.whitespace_byte_lt w2 h2 c hc

set_option maxRecDepth 100000 in
/-- C28, the code at the failing input: for the calls `StartAtom("free", 0, 0, 8, 8)`,
`AddField("title", value)` with the value `22 FF`, `EndAtom`, the JSON inspector writes the
value unescaped between quotes, `"title": ""` followed by the byte `FF` and a quote; the
bytes written from construction to destruction hold the byte `FF`, which occurs in no
JSON text, so they are not a JSON document of any value. -/
theorem AP4_JsonInspector.output_invalid_utf8_evaluation :
    AP4_JsonInspector.output AP4_ByteStream.fresh
        (AP4_JsonInspector.calls AP4_InspectedAtoms.sampleInvalid)
      = AP4_Path ("[\n  \x7b\n    \"name\": \"free\",\n    \"header_size\": 8,\n"
          ++ "    \"size\": 8,\n    \"title\": \"") ++ [0x22, 0xFF]
          ++ AP4_Path "\"\n  \x7d\n]\n" ∧
    ¬ ∃ v, AP4_Json.Document
      (AP4_JsonInspector.output AP4_ByteStream.fresh
        (AP4_JsonInspector.calls AP4_InspectedAtoms.sampleInvalid)) v := by
  have e : AP4_JsonInspector.output AP4_ByteStream.fresh
        (AP4_JsonInspector.calls AP4_InspectedAtoms.sampleInvalid)
      = AP4_Path ("[\n  \x7b\n    \"name\": \"free\",\n    \"header_size\": 8,\n"
          ++ "    \"size\": 8,\n    \"title\": \"") ++ [0x22, 0xFF]
          ++ AP4_Path "\"\n  \x7d\n]\n" := by decide
  refine ⟨e, ?_⟩
  rintro ⟨v, hd⟩
  have hlt := AP4_Json.Document.document_byte_lt _ v hd 255 (by rw [e]; decide)
  omega

/-! ## The size stored by `SetSize` -/

theorem AP4_EsDescriptor.AddSubDescriptors_fields (l : List (List Nat × Nat)) :
    ∀ d : AP4_EsDescriptor, d.m_PayloadSize + (l.map Prod.snd).sum < 2 ^ 32 →
    (d.AddSubDescriptors l).m_PayloadSize = d.m_PayloadSize + (l.map Prod.snd).sum ∧
    (d.AddSubDescriptors l).m_SubDescriptors = d.m_SubDescriptors ++ l.map Prod.fst ∧
    (d.AddSubDescriptors l).m_HeaderSize = d.m_HeaderSize := by
  induction l with
  | nil =>
    intro d _
    simp [AP4_EsDescriptor.AddSubDescriptors]
  | cons x rest ih =>
    intro d h
    simp only [List.map_cons, List.sum_cons] at h ⊢
    have hadd : AP4_Add32 d.m_PayloadSize x.2 = d.m_PayloadSize + x.2 :=
      AP4_Add32_of_lt _ _ (by omega)
    have hstep : d.AddSubDescriptors (x :: rest)
        = (d.AddSubDescriptor x.1 x.2).2.AddSubDescriptors rest := rfl
    have p1 : (d.AddSubDescriptor x.1 x.2).2.m_PayloadSize = d.m_PayloadSize + x.2 := hadd
    have p2 : (d.AddSubDescriptor x.1 x.2).2.m_SubDescriptors = d.m_SubDescriptors ++ [x.1] :=
      rfl
    have p3 : (d.AddSubDescriptor x.1 x.2).2.m_HeaderSize = d.m_HeaderSize := rfl
    have := ih (d.AddSubDescriptor x.1 x.2).2 (by rw [p1]; omega)
    rw [p1, p2, p3] at this
    rw [hstep]
    refine ⟨by rw [this.1]; omega, by rw [this.2.1]; simp, this.2.2⟩

/-- C37: after `AP4_EsDescriptor(es_id)` and a sequence of `AddSubDescriptor` calls whose
sizes keep the payload size below `2^32`, the payload size is 3 plus the sum of the sizes
of the added descriptors and the descriptors are kept in insertion order, but the header
size is still 2: as soon as the payload size reaches 128 it is not 1 plus the number of
7-bit groups of the payload size. -/
theorem AP4_EsDescriptor.AddSubDescriptors_header (es_id : Nat) (l : List (List Nat × Nat))
    (h : 3 + (l.map Prod.snd).sum < 2 ^ 32) :
    ((AP4_EsDescriptor.newFromId es_id).AddSubDescriptors l).m_PayloadSize
      = 3 + (l.map Prod.snd).sum ∧
    ((AP4_EsDescriptor.newFromId es_id).AddSubDescriptors l).m_SubDescriptors
      = l.map Prod.fst ∧
    ((AP4_EsDescriptor.newFromId es_id).AddSubDescriptors l).m_HeaderSize = 2 ∧
    (128 ≤ 3 + (l.map Prod.snd).sum →
      ((AP4_EsDescriptor.newFromId es_id).AddSubDescriptors l).m_HeaderSize
        ≠ 1 + AP4_Descriptor.sizeGroups
            ((AP4_EsDescriptor.newFromId es_id).AddSubDescriptors l).m_PayloadSize) := by
  have key := AP4_EsDescriptor.AddSubDescriptors_fields l (AP4_EsDescriptor.newFromId es_id) h
  have e1 : (AP4_EsDescriptor.newFromId es_id).m_PayloadSize = 3 := rfl
  have e2 : (AP4_EsDescriptor.newFromId es_id).m_SubDescriptors = [] := rfl
  have e3 : (AP4_EsDescriptor.newFromId es_id).m_HeaderSize = 2 := rfl
  rw [e1, e2, e3, List.nil_append] at key
  refine ⟨key.1, key.2.1, key.2.2, ?_⟩
  intro h128
  rw [key.1, key.2.2]
  unfold AP4_Descriptor.sizeGroups
  rw [if_neg (by omega)]
  split
  · omega
  · split
    · omega
    · split <;> omega

/-- Witness of C37: one sub-descriptor of size 125 gives the payload size 128, which needs two
7-bit groups, with the header size 2. -/
theorem AP4_EsDescriptor.AddSubDescriptors_header_witness :
    ((AP4_EsDescriptor.newFromId 1).AddSubDescriptors [([5, 123], 125)]).m_PayloadSize = 128 ∧
    ((AP4_EsDescriptor.newFromId 1).AddSubDescriptors [([5, 123], 125)]).m_HeaderSize = 2 ∧
    1 + AP4_Descriptor.sizeGroups 128 = 3 ∧
    ((AP4_EsDescriptor.newFromId 1).AddSubDescriptors [([5, 123], 125)]).m_HeaderSize
      ≠ 1 + AP4_Descriptor.sizeGroups
          ((AP4_EsDescriptor.newFromId 1).AddSubDescriptors [([5, 123], 125)]).m_PayloadSize := by
  have h := AP4_EsDescriptor.AddSubDescriptors_header 1 [([5, 123], 125)] (by norm_num)
  exact ⟨h.1, h.2.2.1, by decide, h.2.2.2 (by norm_num)⟩

/-! ## RTP constructors and packets: evaluations -/

/-- C35: `Write` accepts the payload type 128, which does not fit in 7 bits: for the packet
with the M bit clear and payload type 128 it returns `AP4_SUCCESS` and writes the second
flags byte 0x80, which the parser decodes as M bit set and payload type 0; the payload
type 129 is refused with `AP4_FAILURE` and nothing is written. -/
theorem AP4_RtpPacket.Write_payload_type_evaluation :
    (AP4_RtpPacket.sample 128 []).Write (fun _ => List.replicate 14 0) AP4_ByteStream.fresh
      = some (AP4_Result.SUCCESS,
          { data := [0, 0, 0, 5, 0xA0, 0x80, 0, 7, 0, 1, 0, 0], pos := 12, faults := [] }) ∧
    (AP4_RtpPacket.new 0
        { data := [0, 0, 0, 5, 0xA0, 0x80, 0, 7, 0, 1, 0, 0], pos := 0, faults := [] }).map
        (fun r => (r.1.m_MBit, r.1.m_PayloadType)) = some (true, 0) ∧
    (AP4_RtpPacket.sample 128 []).m_MBit = false ∧
    (AP4_RtpPacket.sample 129 []).Write (fun _ => List.replicate 14 0) AP4_ByteStream.fresh
      = some (AP4_Result.FAILURE, AP4_ByteStream.fresh) := by
  decide

/-- C38: the parser appends the pointer whatever the factory returns.  For a packet that
announces one constructor, a record of type 4 (`INVALID_RTP_CONSTRUCTOR_TYPE`) and a
missing record (read error) both leave a null pointer in the list, and `Write` on the
parsed packet calls `Write` through it. -/
theorem AP4_RtpPacket.new_null_constructor_evaluation :
    (AP4_RtpConstructorFactory.CreateConstructorFromStream
        { data := 4 :: List.replicate 15 0, pos := 0, faults := [] } none).1
      = AP4_Result.INVALID_RTP_CONSTRUCTOR_TYPE ∧
    (AP4_RtpPacket.new 0
        { data := [0, 0, 0, 5, 0xA0, 0x60, 0, 7, 0, 1, 0, 1] ++ 4 :: List.replicate 15 0,
          pos := 0, faults := [] }).map (fun r => r.1.m_Constructors) = some [none] ∧
    (AP4_RtpPacket.new 0
        { data := [0, 0, 0, 5, 0xA0, 0x60, 0, 7, 0, 1, 0, 1],
          pos := 0, faults := [] }).map (fun r => r.1.m_Constructors) = some [none] ∧
    (AP4_RtpPacket.sample 96 [none]).Write (fun _ => List.replicate 14 0) AP4_ByteStream.fresh
      = none := by
  decide

/-- C40: the bytes that `DoWrite` writes after the data of an immediate constructor are those
of the uninitialised array `pad`: with three data bytes the 15 bytes written are the
length 3, the data and 11 bytes of whatever the array holds, so two writes of the same
constructor differ when the array does; with 15 data bytes `DoWrite` returns
`AP4_FAILURE` and writes nothing. -/
theorem AP4_ImmediateRtpConstructor.DoWrite_pad_evaluation :
    AP4_ImmediateRtpConstructor.DoWrite [1, 2, 3] (List.replicate 14 0xAA) AP4_ByteStream.fresh
      = (AP4_Result.SUCCESS,
          { data := [3, 1, 2, 3] ++ List.replicate 11 0xAA, pos := 15, faults := [] }) ∧
    AP4_ImmediateRtpConstructor.DoWrite [1, 2, 3] (List.replicate 14 0x55) AP4_ByteStream.fresh
      = (AP4_Result.SUCCESS,
          { data := [3, 1, 2, 3] ++ List.replicate 11 0x55, pos := 15, faults := [] }) ∧
    AP4_ImmediateRtpConstructor.DoWrite [1, 2, 3] (List.replicate 14 0xAA) AP4_ByteStream.fresh
      ≠ AP4_ImmediateRtpConstructor.DoWrite [1, 2, 3] (List.replicate 14 0x55)
          AP4_ByteStream.fresh ∧
    AP4_ImmediateRtpConstructor.DoWrite (List.replicate 15 7) (List.replicate 14 0)
        AP4_ByteStream.fresh
      = (AP4_Result.FAILURE, AP4_ByteStream.fresh) := by
  decide

/-- C31: constructor records that do not come back.  A NOOP record with a non-zero byte after
the type is written as 16 zero bytes; a SAMPLE record with 2 bytes per block is written
with 1 byte per block; a SAMPLE_DESC record with a non-zero reserved word is written with
the word 0; an IMMEDIATE record that announces 15 data bytes is parsed, and `Write` on the
result returns `AP4_FAILURE`; an IMMEDIATE record with one data byte and zero padding is
written with the content of the uninitialised array as padding. -/
theorem AP4_RtpConstructorFactory.round_trip_evaluation :
    (AP4_RtpConstructorFactory.CreateConstructorFromStream
        { data := [0, 1] ++ List.replicate 14 0, pos := 0, faults := [] } none)
      = (AP4_Result.SUCCESS, some AP4_RtpConstructor.Noop,
          { data := [0, 1] ++ List.replicate 14 0, pos := 16, faults := [] }) ∧
    AP4_RtpConstructor.Noop.Write (List.replicate 14 0) AP4_ByteStream.fresh
      = (AP4_Result.SUCCESS, { data := List.replicate 16 0, pos := 16, faults := [] }) ∧
    (AP4_RtpConstructorFactory.CreateConstructorFromStream
        { data := [2, 1, 0, 2, 0, 0, 0, 3, 0, 0, 0, 4, 0, 2, 0, 1], pos := 0, faults := [] }
        none).2.1 = some (AP4_RtpConstructor.Sample 1 2 3 4) ∧
    ((AP4_RtpConstructor.Sample 1 2 3 4).Write (List.replicate 14 0) AP4_ByteStream.fresh).2.data
      = [2, 1, 0, 2, 0, 0, 0, 3, 0, 0, 0, 4, 0, 1, 0, 1] ∧
    (AP4_RtpConstructorFactory.CreateConstructorFromStream
        { data := [3, 1, 0, 2, 0, 0, 0, 3, 0, 0, 0, 4, 0, 0, 0, 9], pos := 0, faults := [] }
        none).2.1 = some (AP4_RtpConstructor.SampleDesc 1 2 3 4) ∧
    ((AP4_RtpConstructor.SampleDesc 1 2 3 4).Write (List.replicate 14 0)
        AP4_ByteStream.fresh).2.data
      = [3, 1, 0, 2, 0, 0, 0, 3, 0, 0, 0, 4, 0, 0, 0, 0] ∧
    (AP4_RtpConstructorFactory.CreateConstructorFromStream
        { data := [1, 15] ++ List.replicate 14 7, pos := 0, faults := [] } none).2.1
      = some (AP4_RtpConstructor.Immediate (List.replicate 14 7 ++ [0])) ∧
    (AP4_RtpConstructor.Immediate (List.replicate 14 7 ++ [0])).Write (List.replicate 14 0)
        AP4_ByteStream.fresh
      = (AP4_Result.FAILURE, { data := [1], pos := 1, faults := [] }) ∧
    (AP4_RtpConstructorFactory.CreateConstructorFromStream
        { data := [1, 1, 9] ++ List.replicate 13 0, pos := 0, faults := [] } none).2.1
      = some (AP4_RtpConstructor.Immediate [9]) ∧
    ((AP4_RtpConstructor.Immediate [9]).Write (List.replicate 14 0xAA) AP4_ByteStream.fresh).2.data
      = [1, 1, 9] ++ List.replicate 13 0xAA := by
  decide

/-! ## The extra-data loop of the RTP packet parser terminates -/

/-- The bytes between the cursor and the end of the stream. -/
theorem AP4_ByteStream.Read_remaining (s : AP4_ByteStream) (n : Nat) :
    ((s.Read n).2.2.data.length - (s.Read n).2.2.pos ≤ s.data.length - s.pos) ∧
    (s.pos + n ≤ s.data.length →
      (s.Read n).2.2.data.length - (s.Read n).2.2.pos + n = s.data.length - s.pos) ∧
    (¬ s.pos + n ≤ s.data.length →
      (s.Read n).1 = AP4_Result.NOT_ENOUGH_DATA ∧
      (s.Read n).2.2.data.length - (s.Read n).2.2.pos = 0) := by
  unfold AP4_ByteStream.Read
  by_cases h : s.pos + n ≤ s.data.length
  · simp only [if_pos h]
    refine ⟨by omega, fun _ => by omega, fun h2 => absurd h h2⟩
  · simp only [if_neg h]
    refine ⟨by omega, fun h2 => absurd h2 h, fun _ => ⟨trivial, by omega⟩⟩

theorem AP4_ByteStream.ReadUI32_remaining (s : AP4_ByteStream) :
    ((s.ReadUI32).2.2.data.length - (s.ReadUI32).2.2.pos ≤ s.data.length - s.pos) ∧
    (s.pos + 4 ≤ s.data.length →
      (s.ReadUI32).2.2.data.length - (s.ReadUI32).2.2.pos + 4 = s.data.length - s.pos) ∧
    (¬ s.pos + 4 ≤ s.data.length →
      (s.ReadUI32).2.1 = 0 ∧ (s.ReadUI32).2.2.data.length - (s.ReadUI32).2.2.pos = 0) := by
  have key := AP4_ByteStream.Read_remaining s 4
  have hs : (s.ReadUI32).2.2 = (s.Read 4).2.2 := by
    unfold AP4_ByteStream.ReadUI32
    split
    split <;> simp_all
  rw [hs]
  refine ⟨key.1, key.2.1, fun h => ⟨?_, (key.2.2 h).2⟩⟩
  have hr := (key.2.2 h).1
  unfold AP4_ByteStream.ReadUI32
  split
  rename_i result bytes s1 heq
  have : result = AP4_Result.NOT_ENOUGH_DATA := by
    rw [heq] at hr
    exact hr
  subst this
  rfl

theorem AP4_ByteStream.Seek_remaining (s : AP4_ByteStream) (position : Nat)
    (h : s.pos ≤ position) :
    (s.Seek position).2.data.length - (s.Seek position).2.pos ≤ s.data.length - s.pos := by
  unfold AP4_ByteStream.Seek
  simp only [List.length_append, List.length_replicate]
  omega

/-- An iteration of the extra-data loop that does not return moves the cursor towards the
end of the stream. -/
theorem AP4_RtpPacket.new.extraEntry_remaining (stream : AP4_ByteStream) (tso : Nat) :
    (AP4_RtpPacket.new.extraEntry stream tso).1 = false →
    (AP4_RtpPacket.new.extraEntry stream tso).2.2.2.data.length
        - (AP4_RtpPacket.new.extraEntry stream tso).2.2.2.pos
      < stream.data.length - stream.pos := by
  unfold AP4_RtpPacket.new.extraEntry
  have r1 := AP4_ByteStream.ReadUI32_remaining stream
  generalize hs1 : stream.ReadUI32 = x1 at r1 ⊢
  obtain ⟨res1, entry_length, s1⟩ := x1
  simp only at r1 ⊢
  have r2 := AP4_ByteStream.ReadUI32_remaining s1
  generalize hs2 : s1.ReadUI32 = x2 at r2 ⊢
  obtain ⟨res2, entry_tag, s2⟩ := x2
  simp only at r1 r2 ⊢
  by_cases h8 : entry_length < 8
  · rw [if_pos h8]
    intro h
    exact Bool.noConfusion h
  rw [if_neg h8]
  have hlt : s2.data.length - s2.pos < stream.data.length - stream.pos := by
    by_cases ha : stream.pos + 4 ≤ stream.data.length
    · have e1 := r1.2.1 ha
      have := r2.1
      omega
    · have := (r1.2.2 ha).1
      omega
  intro _
  split
  · have r3 := (AP4_ByteStream.ReadUI32_remaining s2).1
    generalize s2.ReadUI32 = x3 at r3 ⊢
    obtain ⟨res3, v3, s3⟩ := x3
    simp only at r3 ⊢
    omega
  · have r3 := AP4_ByteStream.Seek_remaining s2 (s2.Tell + entry_length - 8)
      (by unfold AP4_ByteStream.Tell; omega)
    simp only
    omega

/-- The extra-data loop terminates on every stream: more iterations than there are bytes
after the cursor are never needed. -/
theorem AP4_RtpPacket.new.extraData_total (n : Nat) :
    ∀ (stream : AP4_ByteStream) (extra_length m_TimeStampOffset : Nat),
    stream.data.length - stream.pos ≤ n →
    ∃ result, AP4_RtpPacket.new.extraData (n + 1) stream extra_length m_TimeStampOffset
      = some result := by
  induction n using Nat.strong_induction_on with
  | _ n ih =>
    intro stream extra_length tso hrem
    rw [AP4_RtpPacket.new.extraData]
    by_cases h0 : extra_length > 0
    swap
    · exact ⟨_, by rw [if_neg h0]⟩
    rw [if_pos h0]
    have r := AP4_RtpPacket.new.extraEntry_remaining stream tso
    generalize AP4_RtpPacket.new.extraEntry stream tso = x at r
    obtain ⟨b, entry_length, tso1, s1⟩ := x
    cases b
    · simp only at r ⊢
      have hlt := r trivial
      obtain ⟨m, rfl⟩ : ∃ m, n = m + 1 := ⟨n - 1, by omega⟩
      exact ih m (by omega) s1 _ _ (by omega)
    · exact ⟨_, rfl⟩

/-- C39: the remaining-length counter of the extra-data loop wraps.  With 8 bytes of extra
data left and an entry of declared length 9, the counter becomes `2^32 - 1` and the loop goes
on: it reads the three 8-byte entries that follow and stops only at the end of the stream,
in its fifth iteration, where four iterations do not suffice.  In a packet whose block
declares 12 bytes and holds that entry, the loop runs into the constructor record that
follows the block, and the packet is left without the constructor that it announces. -/
theorem AP4_RtpPacket.new.extraData_wrap_evaluation :
    AP4_Sub32 8 9 = 4294967295 ∧
    AP4_RtpPacket.new.extraEntry
        { data := [0, 0, 0, 9, 120, 120, 120, 120, 0,
                   0, 0, 0, 8, 120, 120, 120, 120, 0, 0, 0, 8, 120, 120, 120, 120,
                   0, 0, 0, 8, 120, 120, 120, 120], pos := 0, faults := [] } 0
      = (false, 9, 0,
         { data := [0, 0, 0, 9, 120, 120, 120, 120, 0,
                    0, 0, 0, 8, 120, 120, 120, 120, 0, 0, 0, 8, 120, 120, 120, 120,
                    0, 0, 0, 8, 120, 120, 120, 120], pos := 9, faults := [] }) ∧
    AP4_RtpPacket.new.extraData 4
        { data := [0, 0, 0, 9, 120, 120, 120, 120, 0,
                   0, 0, 0, 8, 120, 120, 120, 120, 0, 0, 0, 8, 120, 120, 120, 120,
                   0, 0, 0, 8, 120, 120, 120, 120], pos := 0, faults := [] } 8 0
      = none ∧
    AP4_RtpPacket.new.extraData 5
        { data := [0, 0, 0, 9, 120, 120, 120, 120, 0,
                   0, 0, 0, 8, 120, 120, 120, 120, 0, 0, 0, 8, 120, 120, 120, 120,
                   0, 0, 0, 8, 120, 120, 120, 120], pos := 0, faults := [] } 8 0
      = some (false, 0,
         { data := [0, 0, 0, 9, 120, 120, 120, 120, 0,
                    0, 0, 0, 8, 120, 120, 120, 120, 0, 0, 0, 8, 120, 120, 120, 120,
                    0, 0, 0, 8, 120, 120, 120, 120], pos := 33, faults := [] }) ∧
    (AP4_RtpPacket.new 1
        { data := [0, 0, 0, 5, 128, 96, 0, 7, 0, 4, 0, 1,
                   0, 0, 0, 12, 0, 0, 0, 9, 120, 120, 120, 120,
                   2, 0, 0, 0, 8, 0, 0, 0, 0, 0, 0, 0, 0, 0, 1, 0, 1],
          pos := 0, faults := [] }) = none ∧
    (AP4_RtpPacket.new 3
        { data := [0, 0, 0, 5, 128, 96, 0, 7, 0, 4, 0, 1,
                   0, 0, 0, 12, 0, 0, 0, 9, 120, 120, 120, 120,
                   2, 0, 0, 0, 8, 0, 0, 0, 0, 0, 0, 0, 0, 0, 1, 0, 1],
          pos := 0, faults := [] }).map
        (fun r => (r.1.m_Constructors, r.2.pos)) = some ([], 41) := by
  decide


/-! ## Reading what was written -/

theorem AP4_BytesToUIntBE_UInt32BE (v : Nat) (h : v < 2 ^ 32) :
    AP4_BytesToUIntBE (AP4_BytesFromUInt32BE v) = v := by
  simp only [AP4_BytesToUIntBE, AP4_BytesFromUInt32BE, List.foldl]
  omega

theorem AP4_BytesToUIntBE_UInt16BE (v : Nat) (h : v < 2 ^ 16) :
    AP4_BytesToUIntBE (AP4_BytesFromUInt16BE v) = v := by
  simp only [AP4_BytesToUIntBE, AP4_BytesFromUInt16BE, List.foldl]
  omega

theorem AP4_ByteStream.ReadUI32_at (s : AP4_ByteStream) (x rest : List Nat)
    (hx : x.length = 4) (h : s.data.drop s.pos = x ++ rest) :
    s.ReadUI32 = (AP4_Result.SUCCESS, AP4_BytesToUIntBE x, { s with pos := s.pos + 4 }) := by
  unfold AP4_ByteStream.ReadUI32
  have := AP4_ByteStream.Read_at s x rest (by intro h0; rw [h0] at hx; exact absurd hx (by decide)) h
  rw [hx] at this
  rw [this]
  simp [AP4_FAILED]

theorem AP4_ByteStream.ReadUI32_BE (s : AP4_ByteStream) (v : Nat) (rest : List Nat)
    (hv : v < 2 ^ 32) (h : s.data.drop s.pos = AP4_BytesFromUInt32BE v ++ rest) :
    s.ReadUI32 = (AP4_Result.SUCCESS, v, { s with pos := s.pos + 4 }) := by
  rw [AP4_ByteStream.ReadUI32_at s (AP4_BytesFromUInt32BE v) rest rfl h,
    AP4_BytesToUIntBE_UInt32BE v hv]

theorem AP4_ByteStream.ReadUI16_BE (s : AP4_ByteStream) (v : Nat) (rest : List Nat)
    (hv : v < 2 ^ 16) (h : s.data.drop s.pos = AP4_BytesFromUInt16BE v ++ rest) :
    s.ReadUI16 = (AP4_Result.SUCCESS, v, { s with pos := s.pos + 2 }) := by
  have e := AP4_BytesToUIntBE_UInt16BE v hv
  simp only [AP4_BytesToUIntBE, AP4_BytesFromUInt16BE, List.foldl] at e
  rw [AP4_ByteStream.ReadUI16_at s _ _ rest h]
  simp only [Nat.zero_mul, Nat.zero_add] at e
  rw [e]

/-- A read leaves the content and the fault script of the stream as they are. -/
theorem AP4_ByteStream.Read_data (s : AP4_ByteStream) (n : Nat) :
    (s.Read n).2.2.data = s.data ∧ (s.Read n).2.2.faults = s.faults := by
  unfold AP4_ByteStream.Read
  split <;> exact ⟨rfl, rfl⟩

theorem AP4_ByteStream.ReadUI08_data (s : AP4_ByteStream) :
    (s.ReadUI08).2.2.data = s.data ∧ (s.ReadUI08).2.2.faults = s.faults := by
  have h := AP4_ByteStream.Read_data s 1
  unfold AP4_ByteStream.ReadUI08
  generalize s.Read 1 = x at h
  obtain ⟨r, b, s1⟩ := x
  simp only at h ⊢
  split <;> exact h

theorem AP4_ByteStream.ReadUI16_data (s : AP4_ByteStream) :
    (s.ReadUI16).2.2.data = s.data ∧ (s.ReadUI16).2.2.faults = s.faults := by
  have h := AP4_ByteStream.Read_data s 2
  unfold AP4_ByteStream.ReadUI16
  generalize s.Read 2 = x at h
  obtain ⟨r, b, s1⟩ := x
  simp only at h ⊢
  split <;> exact h

theorem AP4_ByteStream.ReadUI32_data (s : AP4_ByteStream) :
    (s.ReadUI32).2.2.data = s.data ∧ (s.ReadUI32).2.2.faults = s.faults := by
  have h := AP4_ByteStream.Read_data s 4
  unfold AP4_ByteStream.ReadUI32
  generalize s.Read 4 = x at h
  obtain ⟨r, b, s1⟩ := x
  simp only at h ⊢
  split <;> exact h

/-- Seeking to a position within the content moves the cursor only. -/
theorem AP4_ByteStream.Seek_of_data (s t : AP4_ByteStream) (position : Nat)
    (hd : t.data = s.data) (hf : t.faults = s.faults) (h : position ≤ s.data.length) :
    (t.Seek position).2 = { s with pos := position } := by
  rw [AP4_ByteStream.Seek_within t position (by rw [hd]; exact h)]
  obtain ⟨d, p, f⟩ := t
  simp only at hd hf
  subst hd hf
  rfl

/-! ## Constructor records -/

theorem AP4_RtpConstructor.Typed.writable (c : AP4_RtpConstructor) (hc : c.Typed = true) :
    c.Writable = true := by
  cases c with
  | Noop => rfl
  | Immediate m_Data => exact hc
  | Sample a b c d => rfl
  | SampleDesc a b c d => rfl

theorem AP4_RtpConstructor.Present.held (c : Option AP4_RtpConstructor)
    (hc : AP4_RtpConstructor.Present c = true) : AP4_RtpConstructor.Held c = true := by
  cases c with
  | none => exact hc
  | some c => exact AP4_RtpConstructor.Typed.writable c hc

theorem AP4_RtpConstructor.record_length (c : AP4_RtpConstructor) (pad : List Nat)
    (hc : c.Writable = true) (hpad : pad.length = 14) : (c.record pad).length = 16 := by
  cases c with
  | Noop => rfl
  | Immediate m_Data =>
    have h : m_Data.length ≤ 14 := by simpa [AP4_RtpConstructor.Writable] using hc
    simp only [AP4_RtpConstructor.record, List.length_append, List.length_cons, List.length_nil,
      List.length_take, hpad]
    omega
  | Sample a b c d => rfl
  | SampleDesc a b c d => rfl

/-- On a stream that accepts the writes, `Write` emits the record of the constructor. -/
theorem AP4_RtpConstructor.Write_record (c : AP4_RtpConstructor) (pad : List Nat)
    (stream : AP4_ByteStream) (hacc : stream.Accepting) (hc : c.Writable = true) :
    c.Write pad stream = (AP4_Result.SUCCESS, (stream.Write (c.record pad)).2) := by
  have w := fun a b => AP4_ByteStream.Accepting.write_step stream a b hacc
  unfold AP4_RtpConstructor.Write AP4_ByteStream.WriteUI08
  rw [AP4_ByteStream.Accepting.write_pair stream [c.m_Type % 256] hacc]
  cases c with
  | Noop =>
    simp only [AP4_RtpConstructor.DoWrite, AP4_NoopRtpConstructor.DoWrite, w, AP4_FAILED,
      AP4_RtpConstructor.record, bne_self_eq_false, if_false, Bool.false_eq_true]
  | Immediate m_Data =>
    have h : ¬ m_Data.length > 14 := by
      have : m_Data.length ≤ 14 := by simpa [AP4_RtpConstructor.Writable] using hc
      omega
    simp only [AP4_RtpConstructor.DoWrite, AP4_ImmediateRtpConstructor.DoWrite, w, AP4_FAILED,
      AP4_RtpConstructor.record, bne_self_eq_false, if_false, Bool.false_eq_true, h,
      AP4_ByteStream.WriteUI08, List.append_assoc]
  | Sample a b c d =>
    simp only [AP4_RtpConstructor.DoWrite, AP4_SampleRtpConstructor.DoWrite, w, AP4_FAILED,
      AP4_RtpConstructor.record, bne_self_eq_false, if_false, Bool.false_eq_true,
      AP4_ByteStream.WriteUI08, AP4_ByteStream.WriteUI16, AP4_ByteStream.WriteUI32,
      List.append_assoc]
  | SampleDesc a b c d =>
    simp only [AP4_RtpConstructor.DoWrite, AP4_SampleDescRtpConstructor.DoWrite, w, AP4_FAILED,
      AP4_RtpConstructor.record, bne_self_eq_false, if_false, Bool.false_eq_true,
      AP4_ByteStream.WriteUI08, AP4_ByteStream.WriteUI16, AP4_ByteStream.WriteUI32,
      List.append_assoc]

theorem AP4_ByteStream.Read_within (s : AP4_ByteStream) (x rest : List Nat)
    (hpos : s.pos ≤ s.data.length) (h : s.data.drop s.pos = x ++ rest) :
    s.Read x.length = (AP4_Result.SUCCESS, x, { s with pos := s.pos + x.length }) := by
  have hlen : s.data.length - s.pos = x.length + rest.length := by
    rw [← List.length_drop, h, List.length_append]
  unfold AP4_ByteStream.Read
  rw [if_pos (by omega), h, List.take_left]

theorem AP4_ByteStream.length_of_drop (s : AP4_ByteStream) (x rest : List Nat)
    (hx : x ≠ []) (h : s.data.drop s.pos = x ++ rest) :
    s.pos + x.length + rest.length = s.data.length := by
  have hlen : s.data.length - s.pos = x.length + rest.length := by
    rw [← List.length_drop, h, List.length_append]
  have hx0 : 0 < x.length := List.length_pos.mpr hx
  omega

/-- The constructors reposition the stream 15 bytes after the type byte, whatever they
read. -/
theorem AP4_NoopRtpConstructor.new_noop (s : AP4_ByteStream) (h : s.pos + 15 ≤ s.data.length) :
    AP4_NoopRtpConstructor.new s = (AP4_RtpConstructor.Noop, { s with pos := s.pos + 15 }) := by
  unfold AP4_NoopRtpConstructor.new
  simp only [AP4_ByteStream.Tell]
  rw [AP4_ByteStream.Seek_within s _ h]

theorem AP4_ImmediateRtpConstructor.new_immediate_stream (s : AP4_ByteStream)
    (h : s.pos + 15 ≤ s.data.length) :
    (AP4_ImmediateRtpConstructor.new s).2 = { s with pos := s.pos + 15 }
      ∧ (AP4_ImmediateRtpConstructor.new s).1.m_Type = 1 := by
  unfold AP4_ImmediateRtpConstructor.new
  have h1 := AP4_ByteStream.ReadUI08_data s
  generalize s.ReadUI08 = x1 at h1 ⊢
  obtain ⟨r1, v1, s1⟩ := x1
  simp only at h1 ⊢
  have h2 := AP4_ByteStream.Read_data s1 v1
  generalize s1.Read v1 = x2 at h2 ⊢
  obtain ⟨r2, v2, s2⟩ := x2
  simp only at h2 ⊢
  exact ⟨AP4_ByteStream.Seek_of_data s s2 _ (h2.1.trans h1.1) (h2.2.trans h1.2) h, rfl⟩

theorem AP4_SampleRtpConstructor.new_sample_stream (s : AP4_ByteStream)
    (h : s.pos + 15 ≤ s.data.length) :
    (AP4_SampleRtpConstructor.new s).2 = { s with pos := s.pos + 15 }
      ∧ (AP4_SampleRtpConstructor.new s).1.m_Type = 2 := by
  unfold AP4_SampleRtpConstructor.new
  have h1 := AP4_ByteStream.ReadUI08_data s
  generalize s.ReadUI08 = x1 at h1 ⊢
  obtain ⟨r1, v1, s1⟩ := x1
  simp only at h1 ⊢
  have h2 := AP4_ByteStream.ReadUI16_data s1
  generalize s1.ReadUI16 = x2 at h2 ⊢
  obtain ⟨r2, v2, s2⟩ := x2
  simp only at h2 ⊢
  have h3 := AP4_ByteStream.ReadUI32_data s2
  generalize s2.ReadUI32 = x3 at h3 ⊢
  obtain ⟨r3, v3, s3⟩ := x3
  simp only at h3 ⊢
  have h4 := AP4_ByteStream.ReadUI32_data s3
  generalize s3.ReadUI32 = x4 at h4 ⊢
  obtain ⟨r4, v4, s4⟩ := x4
  simp only at h4 ⊢
  exact ⟨AP4_ByteStream.Seek_of_data s s4 _
    (h4.1.trans (h3.1.trans (h2.1.trans h1.1))) (h4.2.trans (h3.2.trans (h2.2.trans h1.2))) h,
    rfl⟩

theorem AP4_SampleDescRtpConstructor.new_sample_desc_stream (s : AP4_ByteStream)
    (h : s.pos + 15 ≤ s.data.length) :
    (AP4_SampleDescRtpConstructor.new s).2 = { s with pos := s.pos + 15 }
      ∧ (AP4_SampleDescRtpConstructor.new s).1.m_Type = 3 := by
  unfold AP4_SampleDescRtpConstructor.new
  have h1 := AP4_ByteStream.ReadUI08_data s
  generalize s.ReadUI08 = x1 at h1 ⊢
  obtain ⟨r1, v1, s1⟩ := x1
  simp only at h1 ⊢
  have h2 := AP4_ByteStream.ReadUI16_data s1
  generalize s1.ReadUI16 = x2 at h2 ⊢
  obtain ⟨r2, v2, s2⟩ := x2
  simp only at h2 ⊢
  have h3 := AP4_ByteStream.ReadUI32_data s2
  generalize s2.ReadUI32 = x3 at h3 ⊢
  obtain ⟨r3, v3, s3⟩ := x3
  simp only at h3 ⊢
  have h4 := AP4_ByteStream.ReadUI32_data s3
  generalize s3.ReadUI32 = x4 at h4 ⊢
  obtain ⟨r4, v4, s4⟩ := x4
  simp only at h4 ⊢
  exact ⟨AP4_ByteStream.Seek_of_data s s4 _
    (h4.1.trans (h3.1.trans (h2.1.trans h1.1))) (h4.2.trans (h3.2.trans (h2.2.trans h1.2))) h,
    rfl⟩


/-- What the constructors read from a record that `Write` emitted. -/
theorem AP4_ImmediateRtpConstructor.new_immediate_value (s : AP4_ByteStream) (data tail : List Nat)
    (hlen : data.length ≤ 14)
    (h : s.data.drop s.pos = [data.length % 256] ++ data ++ tail) :
    (AP4_ImmediateRtpConstructor.new s).1 = AP4_RtpConstructor.Immediate data := by
  have hl := AP4_ByteStream.length_of_drop s [data.length % 256] (data ++ tail) (by simp)
    (by rw [h, List.append_assoc])
  have e : data.length % 256 = data.length := Nat.mod_eq_of_lt (by omega)
  rw [e] at h
  have r1 := AP4_ByteStream.ReadUI08_at s data.length (data ++ tail)
    (by rw [h, List.append_assoc]; rfl)
  have r2 := AP4_ByteStream.Read_within { s with pos := s.pos + 1 } data tail
    (by simp only [List.length_singleton] at hl; simp only; omega)
    (by
      have := AP4_ByteStream.drop_at s [data.length] (data ++ tail)
        (by rw [h, List.append_assoc])
      exact this)
  unfold AP4_ImmediateRtpConstructor.new
  rw [r1]
  show (AP4_RtpConstructor.Immediate
    ((AP4_ByteStream.Read { s with pos := s.pos + 1 } data.length).2.1
      ++ List.replicate (data.length
        - (AP4_ByteStream.Read { s with pos := s.pos + 1 } data.length).2.1.length) 0)) = _
  rw [r2]
  simp

theorem AP4_SampleRtpConstructor.new_sample_value (s : AP4_ByteStream)
    (m_TrackRefIndex m_Length m_SampleNum m_SampleOffset : Nat) (tail : List Nat)
    (h1 : m_TrackRefIndex < 2 ^ 8) (h2 : m_Length < 2 ^ 16) (h3 : m_SampleNum < 2 ^ 32)
    (h4 : m_SampleOffset < 2 ^ 32)
    (h : s.data.drop s.pos = [m_TrackRefIndex % 256] ++ AP4_BytesFromUInt16BE m_Length
      ++ AP4_BytesFromUInt32BE m_SampleNum ++ AP4_BytesFromUInt32BE m_SampleOffset ++ tail) :
    (AP4_SampleRtpConstructor.new s).1
      = AP4_RtpConstructor.Sample m_TrackRefIndex m_Length m_SampleNum m_SampleOffset := by
  have e : m_TrackRefIndex % 256 = m_TrackRefIndex := Nat.mod_eq_of_lt (by omega)
  rw [e] at h
  simp only [List.append_assoc] at h
  have r1 := AP4_ByteStream.ReadUI08_at s m_TrackRefIndex _ h
  have d1 := AP4_ByteStream.drop_at s [m_TrackRefIndex] _ h
  have r2 := AP4_ByteStream.ReadUI16_BE { s with pos := s.pos + 1 } m_Length _ h2 d1
  have d2 := AP4_ByteStream.drop_at { s with pos := s.pos + 1 } _ _ d1
  have r3 := AP4_ByteStream.ReadUI32_BE { s with pos := s.pos + 1 + 2 } m_SampleNum _ h3 d2
  have d3 := AP4_ByteStream.drop_at { s with pos := s.pos + 1 + 2 } _ _ d2
  have r4 := AP4_ByteStream.ReadUI32_BE { s with pos := s.pos + 1 + 2 + 4 } m_SampleOffset _ h4 d3
  unfold AP4_SampleRtpConstructor.new
  simp only [r1, r2, r3, r4]

theorem AP4_SampleDescRtpConstructor.new_sample_desc_value (s : AP4_ByteStream)
    (m_TrackRefIndex m_Length m_SampleDescIndex m_SampleDescOffset : Nat) (tail : List Nat)
    (h1 : m_TrackRefIndex < 2 ^ 8) (h2 : m_Length < 2 ^ 16) (h3 : m_SampleDescIndex < 2 ^ 32)
    (h4 : m_SampleDescOffset < 2 ^ 32)
    (h : s.data.drop s.pos = [m_TrackRefIndex % 256] ++ AP4_BytesFromUInt16BE m_Length
      ++ AP4_BytesFromUInt32BE m_SampleDescIndex ++ AP4_BytesFromUInt32BE m_SampleDescOffset
      ++ tail) :
    (AP4_SampleDescRtpConstructor.new s).1
      = AP4_RtpConstructor.SampleDesc m_TrackRefIndex m_Length m_SampleDescIndex
          m_SampleDescOffset := by
  have e : m_TrackRefIndex % 256 = m_TrackRefIndex := Nat.mod_eq_of_lt (by omega)
  rw [e] at h
  simp only [List.append_assoc] at h
  have r1 := AP4_ByteStream.ReadUI08_at s m_TrackRefIndex _ h
  have d1 := AP4_ByteStream.drop_at s [m_TrackRefIndex] _ h
  have r2 := AP4_ByteStream.ReadUI16_BE { s with pos := s.pos + 1 } m_Length _ h2 d1
  have d2 := AP4_ByteStream.drop_at { s with pos := s.pos + 1 } _ _ d1
  have r3 := AP4_ByteStream.ReadUI32_BE { s with pos := s.pos + 1 + 2 } m_SampleDescIndex _ h3 d2
  have d3 := AP4_ByteStream.drop_at { s with pos := s.pos + 1 + 2 } _ _ d2
  have r4 := AP4_ByteStream.ReadUI32_BE { s with pos := s.pos + 1 + 2 + 4 } m_SampleDescOffset _
    h4 d3
  unfold AP4_SampleDescRtpConstructor.new
  simp only [r1, r2, r3, r4]

/-- The factory consumes the 16 bytes of a record whose type byte is one of the four types
and returns the constructor of that type. -/
theorem AP4_RtpConstructorFactory.CreateConstructorFromStream_record (s : AP4_ByteStream)
    (type : Nat) (tail rest : List Nat) (constructor : Option AP4_RtpConstructor)
    (htype : type ≤ 3) (htail : tail.length = 15)
    (h : s.data.drop s.pos = type :: tail ++ rest) :
    AP4_RtpConstructorFactory.CreateConstructorFromStream s constructor
      = (AP4_Result.SUCCESS,
         some (if type = 0 then AP4_RtpConstructor.Noop
               else if type = 1 then
                 (AP4_ImmediateRtpConstructor.new { s with pos := s.pos + 1 }).1
               else if type = 2 then
                 (AP4_SampleRtpConstructor.new { s with pos := s.pos + 1 }).1
               else (AP4_SampleDescRtpConstructor.new { s with pos := s.pos + 1 }).1),
         { s with pos := s.pos + 16 }) := by
  have hlen := AP4_ByteStream.length_of_drop s (type :: tail) rest (by simp) h
  simp only [List.length_cons, htail] at hlen
  have r1 := AP4_ByteStream.ReadUI08_at s type (tail ++ rest) h
  have h15 : ({ s with pos := s.pos + 1 } : AP4_ByteStream).pos + 15
      ≤ ({ s with pos := s.pos + 1 } : AP4_ByteStream).data.length := by
    simp only
    omega
  unfold AP4_RtpConstructorFactory.CreateConstructorFromStream
  rw [r1]
  have e0 := AP4_NoopRtpConstructor.new_noop _ h15
  have e1 := (AP4_ImmediateRtpConstructor.new_immediate_stream _ h15).1
  have e2 := (AP4_SampleRtpConstructor.new_sample_stream _ h15).1
  have e3 := (AP4_SampleDescRtpConstructor.new_sample_desc_stream _ h15).1
  have f0 : ¬ (AP4_FAILED AP4_Result.SUCCESS = true) := by decide
  obtain rfl | rfl | rfl | rfl : type = 0 ∨ type = 1 ∨ type = 2 ∨ type = 3 := by omega
  · show (if AP4_FAILED AP4_Result.SUCCESS = true then _ else _) = _
    rw [if_neg f0, if_pos (show (0 == AP4_RTP_CONSTRUCTOR_TYPE_NOOP) = true by decide), e0]
    rfl
  · show (if AP4_FAILED AP4_Result.SUCCESS = true then _ else _) = _
    rw [if_neg f0, if_neg (show ¬ (1 == AP4_RTP_CONSTRUCTOR_TYPE_NOOP) = true by decide),
      if_pos (show (1 == AP4_RTP_CONSTRUCTOR_TYPE_IMMEDIATE) = true by decide),
      if_neg (show ¬ 1 = 0 by decide), if_pos rfl]
    generalize AP4_ImmediateRtpConstructor.new { s with pos := s.pos + 1 } = x at e1 ⊢
    obtain ⟨c, s1⟩ := x
    simp only at e1
    subst e1
    rfl
  · show (if AP4_FAILED AP4_Result.SUCCESS = true then _ else _) = _
    rw [if_neg f0, if_neg (show ¬ (2 == AP4_RTP_CONSTRUCTOR_TYPE_NOOP) = true by decide),
      if_neg (show ¬ (2 == AP4_RTP_CONSTRUCTOR_TYPE_IMMEDIATE) = true by decide),
      if_pos (show (2 == AP4_RTP_CONSTRUCTOR_TYPE_SAMPLE) = true by decide),
      if_neg (show ¬ 2 = 0 by decide), if_neg (show ¬ 2 = 1 by decide), if_pos rfl]
    generalize AP4_SampleRtpConstructor.new { s with pos := s.pos + 1 } = x at e2 ⊢
    obtain ⟨c, s1⟩ := x
    simp only at e2
    subst e2
    rfl
  · show (if AP4_FAILED AP4_Result.SUCCESS = true then _ else _) = _
    rw [if_neg f0, if_neg (show ¬ (3 == AP4_RTP_CONSTRUCTOR_TYPE_NOOP) = true by decide),
      if_neg (show ¬ (3 == AP4_RTP_CONSTRUCTOR_TYPE_IMMEDIATE) = true by decide),
      if_neg (show ¬ (3 == AP4_RTP_CONSTRUCTOR_TYPE_SAMPLE) = true by decide),
      if_pos (show (3 == AP4_RTP_CONSTRUCTOR_TYPE_SAMPLE_DESC) = true by decide),
      if_neg (show ¬ 3 = 0 by decide), if_neg (show ¬ 3 = 1 by decide),
      if_neg (show ¬ 3 = 2 by decide)]
    generalize AP4_SampleDescRtpConstructor.new { s with pos := s.pos + 1 } = x at e3 ⊢
    obtain ⟨c, s1⟩ := x
    simp only at e3
    subst e3
    rfl

/-- The factory reads back the constructor whose record `Write` emitted. -/
theorem AP4_RtpConstructorFactory.CreateConstructorFromStream_written (s : AP4_ByteStream)
    (c : AP4_RtpConstructor) (pad rest : List Nat) (constructor : Option AP4_RtpConstructor)
    (hc : c.Typed = true) (hpad : pad.length = 14)
    (h : s.data.drop s.pos = c.record pad ++ rest) :
    AP4_RtpConstructorFactory.CreateConstructorFromStream s constructor
      = (AP4_Result.SUCCESS, some c, { s with pos := s.pos + 16 }) := by
  cases c with
  | Noop =>
    rw [AP4_RtpConstructorFactory.CreateConstructorFromStream_record s 0 (List.replicate 15 0)
      rest constructor (by decide) rfl h]
    rfl
  | Immediate m_Data =>
    have hlen : m_Data.length ≤ 14 := by simpa [AP4_RtpConstructor.Typed] using hc
    have h1 : s.data.drop s.pos
        = [1] ++ ([m_Data.length % 256] ++ m_Data ++ (pad.take (14 - m_Data.length) ++ rest)) := by
      rw [h]
      simp [AP4_RtpConstructor.record, AP4_RtpConstructor.m_Type,
        AP4_RTP_CONSTRUCTOR_TYPE_IMMEDIATE]
    have hd := AP4_ByteStream.drop_at s [1] _ h1
    rw [AP4_RtpConstructorFactory.CreateConstructorFromStream_record s 1
      ([m_Data.length % 256] ++ m_Data ++ pad.take (14 - m_Data.length))
      rest constructor (by decide)
      (by
        simp only [List.length_append, List.length_cons, List.length_nil, List.length_take, hpad]
        omega)
      (by rw [h1]; simp),
      if_neg (by decide), if_pos rfl,
      AP4_ImmediateRtpConstructor.new_immediate_value { s with pos := s.pos + 1 } m_Data
        (pad.take (14 - m_Data.length) ++ rest) hlen hd]
  | Sample a b c d =>
    have ht : a < 2 ^ 8 ∧ b < 2 ^ 16 ∧ c < 2 ^ 32 ∧ d < 2 ^ 32 := by
      simpa [AP4_RtpConstructor.Typed] using hc
    have h1 : s.data.drop s.pos
        = [2] ++ ([a % 256] ++ AP4_BytesFromUInt16BE b ++ AP4_BytesFromUInt32BE c
            ++ AP4_BytesFromUInt32BE d
            ++ (AP4_BytesFromUInt16BE 1 ++ AP4_BytesFromUInt16BE 1 ++ rest)) := by
      rw [h]
      simp [AP4_RtpConstructor.record, AP4_RtpConstructor.m_Type,
        AP4_RTP_CONSTRUCTOR_TYPE_SAMPLE]
    have hd := AP4_ByteStream.drop_at s [2] _ h1
    rw [AP4_RtpConstructorFactory.CreateConstructorFromStream_record s 2
      ([a % 256] ++ AP4_BytesFromUInt16BE b ++ AP4_BytesFromUInt32BE c
        ++ AP4_BytesFromUInt32BE d ++ AP4_BytesFromUInt16BE 1 ++ AP4_BytesFromUInt16BE 1)
      rest constructor (by decide) rfl (by rw [h1]; simp),
      if_neg (by decide), if_neg (by decide), if_pos rfl,
      AP4_SampleRtpConstructor.new_sample_value { s with pos := s.pos + 1 } a b c d
        (AP4_BytesFromUInt16BE 1 ++ AP4_BytesFromUInt16BE 1 ++ rest) ht.1 ht.2.1 ht.2.2.1
        ht.2.2.2 hd]
  | SampleDesc a b c d =>
    have ht : a < 2 ^ 8 ∧ b < 2 ^ 16 ∧ c < 2 ^ 32 ∧ d < 2 ^ 32 := by
      simpa [AP4_RtpConstructor.Typed] using hc
    have h1 : s.data.drop s.pos
        = [3] ++ ([a % 256] ++ AP4_BytesFromUInt16BE b ++ AP4_BytesFromUInt32BE c
            ++ AP4_BytesFromUInt32BE d ++ (AP4_BytesFromUInt32BE 0 ++ rest)) := by
      rw [h]
      simp [AP4_RtpConstructor.record, AP4_RtpConstructor.m_Type,
        AP4_RTP_CONSTRUCTOR_TYPE_SAMPLE_DESC]
    have hd := AP4_ByteStream.drop_at s [3] _ h1
    rw [AP4_RtpConstructorFactory.CreateConstructorFromStream_record s 3
      ([a % 256] ++ AP4_BytesFromUInt16BE b ++ AP4_BytesFromUInt32BE c
        ++ AP4_BytesFromUInt32BE d ++ AP4_BytesFromUInt32BE 0)
      rest constructor (by decide) rfl (by rw [h1]; simp),
      if_neg (by decide), if_neg (by decide), if_neg (by decide),
      AP4_SampleDescRtpConstructor.new_sample_desc_value { s with pos := s.pos + 1 } a b c d
        (AP4_BytesFromUInt32BE 0 ++ rest) ht.1 ht.2.1 ht.2.2.1 ht.2.2.2 hd]

/-! ## Constructor lists -/

theorem AP4_RtpPacket.new.constructors_succ (n : Nat) (s : AP4_ByteStream) :
    AP4_RtpPacket.new.constructors (n + 1) s
      = ((AP4_RtpConstructorFactory.CreateConstructorFromStream s none).2.1
          :: (AP4_RtpPacket.new.constructors n
                (AP4_RtpConstructorFactory.CreateConstructorFromStream s none).2.2).1,
         (AP4_RtpPacket.new.constructors n
            (AP4_RtpConstructorFactory.CreateConstructorFromStream s none).2.2).2) := by
  rw [AP4_RtpPacket.new.constructors]

/-- The loop over the constructors consumes 16 bytes per record and appends a constructor of
the type of the record, when every record has one of the four types. -/
theorem AP4_RtpPacket.new.constructors_records (records : List (List Nat)) (rest : List Nat) :
    ∀ s : AP4_ByteStream, s.data.drop s.pos = records.flatten ++ rest →
    (∀ r ∈ records, r.length = 16 ∧ r.headD 0 ≤ 3) →
    (AP4_RtpPacket.new.constructors records.length s).2
        = { s with pos := s.pos + 16 * records.length }
    ∧ (AP4_RtpPacket.new.constructors records.length s).1.map
          (fun c => c.map AP4_RtpConstructor.m_Type)
        = records.map (fun r => some (r.headD 0)) := by
  induction records with
  | nil =>
    intro s _ _
    exact ⟨rfl, rfl⟩
  | cons r records ih =>
    intro s h hrec
    obtain ⟨hr16, hr3⟩ := hrec r (List.mem_cons_self _ _)
    obtain ⟨type, tail, rfl⟩ : ∃ type tail, r = type :: tail := by
      cases r with
      | nil => exact absurd hr16 (by decide)
      | cons a t => exact ⟨a, t, rfl⟩
    have hr15 : tail.length = 15 := by
      simp only [List.length_cons] at hr16
      omega
    simp only [List.headD_cons] at hr3
    have h1 : s.data.drop s.pos = type :: tail ++ (records.flatten ++ rest) := by
      rw [h, List.flatten_cons, List.append_assoc]
    have e := AP4_RtpConstructorFactory.CreateConstructorFromStream_record s type tail
      (records.flatten ++ rest) none hr3 hr15 h1
    have hd := AP4_ByteStream.drop_at s (type :: tail) _ h1
    simp only [List.length_cons, hr15] at hd
    have hlen := AP4_ByteStream.length_of_drop s (type :: tail) _ (by simp) h1
    have h15 : ({ s with pos := s.pos + 1 } : AP4_ByteStream).pos + 15
        ≤ ({ s with pos := s.pos + 1 } : AP4_ByteStream).data.length := by
      simp only [List.length_cons, hr15] at hlen ⊢
      omega
    obtain ⟨i1, i2⟩ := ih { s with pos := s.pos + 16 } hd
      (fun r hr => hrec r (List.mem_cons_of_mem _ hr))
    rw [List.length_cons, AP4_RtpPacket.new.constructors_succ, e]
    refine ⟨?_, ?_⟩
    · show (AP4_RtpPacket.new.constructors records.length { s with pos := s.pos + 16 }).2 = _
      rw [i1]
      simp only [AP4_ByteStream.mk.injEq, true_and, and_true]
      omega
    · show List.map _ (_ :: (AP4_RtpPacket.new.constructors records.length
          { s with pos := s.pos + 16 }).1) = _
      rw [List.map_cons, i2, List.map_cons, List.headD_cons]
      congr 1
      show Option.map _ (some _) = _
      rw [Option.map_some']
      congr 1
      have t1 := (AP4_ImmediateRtpConstructor.new_immediate_stream _ h15).2
      have t2 := (AP4_SampleRtpConstructor.new_sample_stream _ h15).2
      have t3 := (AP4_SampleDescRtpConstructor.new_sample_desc_stream _ h15).2
      obtain rfl | rfl | rfl | rfl : type = 0 ∨ type = 1 ∨ type = 2 ∨ type = 3 := by omega
      · rfl
      · rw [if_neg (by decide), if_pos rfl]
        exact t1
      · rw [if_neg (by decide), if_neg (by decide), if_pos rfl]
        exact t2
      · rw [if_neg (by decide), if_neg (by decide), if_neg (by decide)]
        exact t3

theorem AP4_RtpPacket.Write.constructorBytes_length (pad : AP4_ByteStream → List Nat)
    (hpad : ∀ s, (pad s).length = 14) (cs : List (Option AP4_RtpConstructor)) :
    ∀ s : AP4_ByteStream, (∀ c ∈ cs, AP4_RtpConstructor.Held c = true) →
    (AP4_RtpPacket.Write.constructorBytes pad cs s).length = 16 * cs.length := by
  induction cs with
  | nil =>
    intro s _
    rfl
  | cons c cs ih =>
    intro s hcs
    have hc := hcs c (List.mem_cons_self _ _)
    cases c with
    | none => exact absurd hc (by decide)
    | some c =>
      rw [AP4_RtpPacket.Write.constructorBytes, List.length_append,
        AP4_RtpConstructor.record_length c _ hc (hpad s),
        ih _ (fun c hc => hcs c (List.mem_cons_of_mem _ hc)), List.length_cons]
      omega

/-- On a stream that accepts the writes, the loop over the constructors emits their
records. -/
theorem AP4_RtpPacket.Write.constructors_bytes (pad : AP4_ByteStream → List Nat)
    (cs : List (Option AP4_RtpConstructor)) :
    ∀ s : AP4_ByteStream, s.Accepting → (∀ c ∈ cs, AP4_RtpConstructor.Held c = true) →
    AP4_RtpPacket.Write.constructors pad cs AP4_Result.SUCCESS s
      = some (AP4_Result.SUCCESS,
          (s.Write (AP4_RtpPacket.Write.constructorBytes pad cs s)).2) := by
  induction cs with
  | nil =>
    intro s hs _
    rw [AP4_RtpPacket.Write.constructors, AP4_RtpPacket.Write.constructorBytes,
      AP4_ByteStream.Accepting.write_nil s hs]
  | cons c cs ih =>
    intro s hs hcs
    have hc := hcs c (List.mem_cons_self _ _)
    cases c with
    | none => exact absurd hc (by decide)
    | some c =>
      rw [AP4_RtpPacket.Write.constructors, AP4_RtpConstructor.Write_record c _ s hs hc]
      show (if AP4_FAILED AP4_Result.SUCCESS = true then _ else _) = _
      rw [if_neg (by decide), ih _ (AP4_ByteStream.Accepting.write s _ hs)
        (fun c hc => hcs c (List.mem_cons_of_mem _ hc)),
        AP4_ByteStream.Accepting.write_write s _ _ hs, AP4_RtpPacket.Write.constructorBytes]

/-- The loop over the constructors of the parser reads back the constructors whose records
`Write` emitted. -/
theorem AP4_RtpPacket.new.constructors_written (pad : AP4_ByteStream → List Nat)
    (hpad : ∀ s, (pad s).length = 14) (cs : List (Option AP4_RtpConstructor))
    (rest : List Nat) :
    ∀ s0 s : AP4_ByteStream,
    s.data.drop s.pos = AP4_RtpPacket.Write.constructorBytes pad cs s0 ++ rest →
    (∀ c ∈ cs, AP4_RtpConstructor.Present c = true) →
    AP4_RtpPacket.new.constructors cs.length s
      = (cs, { s with pos := s.pos + 16 * cs.length }) := by
  induction cs with
  | nil =>
    intro s0 s _ _
    rfl
  | cons c cs ih =>
    intro s0 s h hcs
    have hc := hcs c (List.mem_cons_self _ _)
    cases c with
    | none => exact absurd hc (by decide)
    | some c =>
      rw [AP4_RtpPacket.Write.constructorBytes, List.append_assoc] at h
      have e := AP4_RtpConstructorFactory.CreateConstructorFromStream_written s c (pad s0) _
        none hc (hpad s0) h
      have hd := AP4_ByteStream.drop_at s _ _ h
      rw [AP4_RtpConstructor.record_length c _ (AP4_RtpConstructor.Typed.writable c hc)
        (hpad s0)] at hd
      have i := ih _ { s with pos := s.pos + 16 } hd
        (fun c hc => hcs c (List.mem_cons_of_mem _ hc))
      rw [List.length_cons, AP4_RtpPacket.new.constructors_succ, e]
      show (_ :: (AP4_RtpPacket.new.constructors cs.length { s with pos := s.pos + 16 }).1,
        (AP4_RtpPacket.new.constructors cs.length { s with pos := s.pos + 16 }).2) = _
      rw [i]
      simp only [Prod.mk.injEq, AP4_ByteStream.mk.injEq, true_and, and_true]
      omega

/-! ## The extra data of a packet -/

/-- One iteration of the extra-data loop on a well-formed entry: the entry with the tag
`rtpo` and the length 12 gives the time-stamp offset, any other entry is skipped by a
seek of its declared length less 8 from the end of its tag. -/
theorem AP4_RtpPacket.new.extraEntry_entry (s : AP4_ByteStream) (tag : Nat)
    (value rest : List Nat) (tso : Nat) (htag : tag < 2 ^ 32)
    (hlen : 8 + value.length < 2 ^ 32)
    (h : s.data.drop s.pos = AP4_BytesFromUInt32BE (8 + value.length)
      ++ AP4_BytesFromUInt32BE tag ++ value ++ rest) :
    AP4_RtpPacket.new.extraEntry s tso
      = (false, 8 + value.length,
         (if tag == AP4_RtpPacket.extraTag && 8 + value.length == 12
          then AP4_BytesToUIntBE value else tso),
         { s with pos := s.pos + (8 + value.length) })
    ∧ (¬ (tag == AP4_RtpPacket.extraTag && 8 + value.length == 12) = true →
        (AP4_RtpPacket.new.extraEntry s tso).2.2.2
          = (AP4_ByteStream.Seek { s with pos := s.pos + 8 }
              (s.pos + 8 + (8 + value.length) - 8)).2) := by
  simp only [List.append_assoc] at h
  have r1 := AP4_ByteStream.ReadUI32_BE s _ _ hlen h
  have d1 := AP4_ByteStream.drop_at s (AP4_BytesFromUInt32BE (8 + value.length)) _ h
  have r2 := AP4_ByteStream.ReadUI32_BE { s with pos := s.pos + 4 } tag _ htag d1
  have d2 := AP4_ByteStream.drop_at { s with pos := s.pos + 4 } (AP4_BytesFromUInt32BE tag) _ d1
  have hl := AP4_ByteStream.length_of_drop s (AP4_BytesFromUInt32BE (8 + value.length)) _
    (by simp [AP4_BytesFromUInt32BE]) h
  simp only [List.length_append] at hl
  have l4 : ∀ v, (AP4_BytesFromUInt32BE v).length = 4 := fun _ => rfl
  rw [l4, l4] at hl
  have h8 : ¬ 8 + value.length < 8 := by omega
  have hseek := AP4_ByteStream.Seek_within { s with pos := s.pos + 4 + 4 }
    (s.pos + 4 + 4 + (8 + value.length) - 8) (by simp only; omega)
  have hpos : s.pos + 4 + 4 + (8 + value.length) - 8 = s.pos + (8 + value.length) := by omega
  rw [hpos] at hseek
  have key : ∀ (x1 x2 : AP4_Result × Nat × AP4_ByteStream),
      s.ReadUI32 = x1 → x1.2.2.ReadUI32 = x2 →
      x1.2.1 = 8 + value.length ∧ x2.2.1 = tag
        ∧ x2.2.2 = { s with pos := s.pos + 4 + 4 } := by
    intro x1 x2 e1 e2
    rw [r1] at e1
    subst e1
    rw [r2] at e2
    subst e2
    exact ⟨rfl, rfl, rfl⟩
  unfold AP4_RtpPacket.new.extraEntry
  generalize e1 : s.ReadUI32 = x1
  obtain ⟨res1, len1, s1⟩ := x1
  simp only
  generalize e2 : s1.ReadUI32 = x2
  obtain ⟨res2, tag1, s2⟩ := x2
  simp only
  obtain ⟨k1, k2, k3⟩ := key _ _ e1 e2
  simp only at k1 k2 k3
  subst k1 k2 k3
  rw [if_neg h8]
  by_cases hc : (tag1 == AP4_RtpPacket.extraTag && 8 + value.length == 12) = true
  · have hv : value.length = 4 := by
      simp only [Bool.and_eq_true, beq_iff_eq] at hc
      omega
    have r3 := AP4_ByteStream.ReadUI32_at { s with pos := s.pos + 4 + 4 } value rest hv d2
    have hp : s.pos + 4 + 4 + 4 = s.pos + (8 + value.length) := by omega
    rw [hp] at r3
    refine ⟨?_, fun hn => absurd hc hn⟩
    rw [if_pos hc]
    unfold AP4_RtpPacket.extraTag at hc
    rw [if_pos hc, r3]
  · refine ⟨?_, fun _ => ?_⟩
    · rw [if_neg hc]
      unfold AP4_RtpPacket.extraTag at hc
      rw [if_neg hc]
      show (false, 8 + value.length, tso,
        (AP4_ByteStream.Seek { s with pos := s.pos + 4 + 4 }
          (s.pos + 4 + 4 + (8 + value.length) - 8)).2) = _
      rw [hpos, hseek]
    · unfold AP4_RtpPacket.extraTag at hc
      rw [if_neg hc]
      rfl

theorem AP4_RtpPacket.extraTimeStampOffset_cons (e : Nat × List Nat)
    (entries : List (Nat × List Nat)) (initial : Nat) :
    AP4_RtpPacket.extraTimeStampOffset (e :: entries) initial
      = AP4_RtpPacket.extraTimeStampOffset entries
          (if e.1 == AP4_RtpPacket.extraTag && 8 + e.2.length == 12
           then AP4_BytesToUIntBE e.2 else initial) := by
  unfold AP4_RtpPacket.extraTimeStampOffset
  by_cases hc : (e.1 == AP4_RtpPacket.extraTag && 8 + e.2.length == 12) = true
  · have hf := List.filter_cons_of_pos (l := entries)
      (p := fun e => e.1 == AP4_RtpPacket.extraTag && 8 + e.2.length == 12) hc
    rw [hf, if_pos hc]
    generalize List.filter (fun e => e.1 == AP4_RtpPacket.extraTag && 8 + e.2.length == 12)
      entries = l
    cases l with
    | nil => rfl
    | cons a l =>
      rw [List.getLast?_cons_cons]
      obtain ⟨x, hx⟩ : ∃ x, (a :: l).getLast? = some x :=
        ⟨_, List.getLast?_eq_getLast _ (List.cons_ne_nil a l)⟩
      rw [hx]
  · have hf := List.filter_cons_of_neg (l := entries)
      (p := fun e => e.1 == AP4_RtpPacket.extraTag && 8 + e.2.length == 12) hc
    rw [hf, if_neg hc]

theorem AP4_RtpPacket.extraEntries_cons (e : Nat × List Nat)
    (entries : List (Nat × List Nat)) :
    AP4_RtpPacket.extraEntries (e :: entries)
      = AP4_BytesFromUInt32BE (8 + e.2.length) ++ AP4_BytesFromUInt32BE e.1 ++ e.2
          ++ AP4_RtpPacket.extraEntries entries := by
  simp only [AP4_RtpPacket.extraEntries, List.map_cons, List.flatten_cons]

theorem AP4_RtpPacket.extraEntries_length (entries : List (Nat × List Nat)) :
    (AP4_RtpPacket.extraEntries entries).length = AP4_RtpPacket.extraEntriesLength entries := by
  induction entries with
  | nil => rfl
  | cons e entries ih =>
    rw [AP4_RtpPacket.extraEntries_cons, List.length_append, ih]
    simp only [AP4_RtpPacket.extraEntriesLength, List.map_cons, List.sum_cons,
      List.length_append, AP4_BytesFromUInt32BE, List.length_cons, List.length_nil]

/-- The extra-data loop on a well-formed block: it consumes the bytes of the entries, one
iteration per entry, runs to its end, and leaves the value of the last `rtpo` entry of
length 12 as the time-stamp offset. -/
theorem AP4_RtpPacket.new.extraData_entries (entries : List (Nat × List Nat))
    (rest : List Nat) :
    ∀ (s : AP4_ByteStream) (fuel tso : Nat),
    s.data.drop s.pos = AP4_RtpPacket.extraEntries entries ++ rest →
    AP4_RtpPacket.extraEntriesLength entries < 2 ^ 32 →
    (∀ e ∈ entries, e.1 < 2 ^ 32) →
    entries.length ≤ fuel →
    AP4_RtpPacket.new.extraData fuel s (AP4_RtpPacket.extraEntriesLength entries) tso
      = some (true, AP4_RtpPacket.extraTimeStampOffset entries tso,
          { s with pos := s.pos + AP4_RtpPacket.extraEntriesLength entries }) := by
  induction entries with
  | nil =>
    intro s fuel tso _ _ _ _
    have h0 : ¬ AP4_RtpPacket.extraEntriesLength [] > 0 := by decide
    cases fuel with
    | zero =>
      rw [AP4_RtpPacket.new.extraData, if_neg h0]
      rfl
    | succ fuel =>
      rw [AP4_RtpPacket.new.extraData, if_neg h0]
      rfl
  | cons e entries ih =>
    intro s fuel tso h hlen htag hfuel
    obtain ⟨fuel, rfl⟩ : ∃ f, fuel = f + 1 := ⟨fuel - 1, by
      simp only [List.length_cons] at hfuel
      omega⟩
    have hL : AP4_RtpPacket.extraEntriesLength (e :: entries)
        = 8 + e.2.length + AP4_RtpPacket.extraEntriesLength entries := by
      simp only [AP4_RtpPacket.extraEntriesLength, List.map_cons, List.sum_cons]
    rw [hL] at hlen ⊢
    rw [AP4_RtpPacket.extraEntries_cons, List.append_assoc] at h
    have he := (AP4_RtpPacket.new.extraEntry_entry s e.1 e.2
      (AP4_RtpPacket.extraEntries entries ++ rest) tso (htag e (List.mem_cons_self _ _))
      (by omega) h).1
    have hd := AP4_ByteStream.drop_at s _ _ h
    have hlen3 : (AP4_BytesFromUInt32BE (8 + e.2.length) ++ AP4_BytesFromUInt32BE e.1
        ++ e.2).length = 8 + e.2.length := by
      simp only [List.length_append, AP4_BytesFromUInt32BE, List.length_cons, List.length_nil]
    rw [hlen3] at hd
    have i := ih { s with pos := s.pos + (8 + e.2.length) } fuel
      (if e.1 == AP4_RtpPacket.extraTag && 8 + e.2.length == 12
       then AP4_BytesToUIntBE e.2 else tso) hd (by omega)
      (fun e he => htag e (List.mem_cons_of_mem _ he))
      (by simp only [List.length_cons] at hfuel; omega)
    have hsub : AP4_Sub32 (8 + e.2.length + AP4_RtpPacket.extraEntriesLength entries)
        (8 + e.2.length) = AP4_RtpPacket.extraEntriesLength entries := by
      rw [AP4_Sub32_of_le _ _ hlen (by omega)]
      omega
    rw [AP4_RtpPacket.new.extraData, if_pos (by omega), he]
    show AP4_RtpPacket.new.extraData fuel _ (AP4_Sub32 _ _) _ = _
    rw [hsub, i, AP4_RtpPacket.extraTimeStampOffset_cons]
    simp only [Nat.add_assoc]

/-! ## The envelope of a packet -/

/-- The seven reads of the envelope. -/
theorem AP4_RtpPacket.new.envelope_reads (s : AP4_ByteStream)
    (relative_time octet1 octet2 sequence_seed unused octet3 constructor_count : Nat)
    (tail : List Nat) (h1 : relative_time < 2 ^ 32) (h2 : sequence_seed < 2 ^ 16)
    (h3 : constructor_count < 2 ^ 16)
    (h : s.data.drop s.pos = AP4_RtpPacket.envelopeBytes relative_time octet1 octet2
      sequence_seed unused octet3 constructor_count ++ tail)
    (x1 x2 x3 x4 x5 x6 x7 : AP4_Result × Nat × AP4_ByteStream)
    (e1 : s.ReadUI32 = x1) (e2 : x1.2.2.ReadUI08 = x2) (e3 : x2.2.2.ReadUI08 = x3)
    (e4 : x3.2.2.ReadUI16 = x4) (e5 : x4.2.2.ReadUI08 = x5) (e6 : x5.2.2.ReadUI08 = x6)
    (e7 : x6.2.2.ReadUI16 = x7) :
    x1.2.1 = relative_time ∧ x2.2.1 = octet1 ∧ x3.2.1 = octet2 ∧ x4.2.1 = sequence_seed
      ∧ x6.2.1 = octet3 ∧ x7.2.1 = constructor_count
      ∧ x7.2.2 = { s with pos := s.pos + 12 }
      ∧ s.data.drop (s.pos + 12) = tail := by
  simp only [AP4_RtpPacket.envelopeBytes, List.append_assoc] at h
  have r1 := AP4_ByteStream.ReadUI32_BE s _ _ h1 h
  have d1 := AP4_ByteStream.drop_at s (AP4_BytesFromUInt32BE relative_time) _ h
  have r2 := AP4_ByteStream.ReadUI08_at { s with pos := s.pos + 4 } octet1 _ d1
  have d2 := AP4_ByteStream.drop_at { s with pos := s.pos + 4 } [octet1] _ d1
  have r3 := AP4_ByteStream.ReadUI08_at { s with pos := s.pos + 4 + 1 } octet2 _ d2
  have d3 := AP4_ByteStream.drop_at { s with pos := s.pos + 4 + 1 } [octet2] _ d2
  have r4 := AP4_ByteStream.ReadUI16_BE { s with pos := s.pos + 4 + 1 + 1 } _ _ h2 d3
  have d4 := AP4_ByteStream.drop_at { s with pos := s.pos + 4 + 1 + 1 }
    (AP4_BytesFromUInt16BE sequence_seed) _ d3
  have r5 := AP4_ByteStream.ReadUI08_at { s with pos := s.pos + 4 + 1 + 1 + 2 } unused _ d4
  have d5 := AP4_ByteStream.drop_at { s with pos := s.pos + 4 + 1 + 1 + 2 } [unused] _ d4
  have r6 := AP4_ByteStream.ReadUI08_at { s with pos := s.pos + 4 + 1 + 1 + 2 + 1 } octet3 _ d5
  have d6 := AP4_ByteStream.drop_at { s with pos := s.pos + 4 + 1 + 1 + 2 + 1 } [octet3] _ d5
  have r7 := AP4_ByteStream.ReadUI16_BE { s with pos := s.pos + 4 + 1 + 1 + 2 + 1 + 1 } _ _ h3 d6
  have d7 := AP4_ByteStream.drop_at { s with pos := s.pos + 4 + 1 + 1 + 2 + 1 + 1 }
    (AP4_BytesFromUInt16BE constructor_count) _ d6
  rw [r1] at e1
  subst e1
  rw [r2] at e2
  subst e2
  rw [r3] at e3
  subst e3
  rw [r4] at e4
  subst e4
  rw [r5] at e5
  subst e5
  rw [r6] at e6
  subst e6
  rw [r7] at e7
  subst e7
  exact ⟨rfl, rfl, rfl, rfl, rfl, rfl, rfl, d7⟩

attribute [local irreducible] AP4_ByteStream.ReadUI32 AP4_ByteStream.ReadUI16 AP4_ByteStream.ReadUI08
  AP4_RtpPacket.new.extraData AP4_RtpPacket.new.constructors

/-- The parser on a packet without extra data: the fields of the envelope, then the
constructors. -/
theorem AP4_RtpPacket.new_plain (s : AP4_ByteStream) (fuel : Nat)
    (relative_time octet1 octet2 sequence_seed unused octet3 constructor_count : Nat)
    (tail : List Nat) (h1 : relative_time < 2 ^ 32) (h2 : sequence_seed < 2 ^ 16)
    (h3 : constructor_count < 2 ^ 16) (hextra : octet3 &&& 0x04 = 0)
    (h : s.data.drop s.pos = AP4_RtpPacket.envelopeBytes relative_time octet1 octet2
      sequence_seed unused octet3 constructor_count ++ tail) :
    AP4_RtpPacket.new fuel s
      = some
          ({ m_RelativeTime := relative_time, m_PBit := (octet1 &&& 0x20) != 0,
             m_XBit := (octet1 &&& 0x10) != 0, m_MBit := (octet2 &&& 0x80) != 0,
             m_PayloadType := octet2 &&& 0x7F, m_SequenceSeed := sequence_seed,
             m_TimeStampOffset := 0, m_BFrameFlag := (octet3 &&& 0x02) != 0,
             m_RepeatFlag := (octet3 &&& 0x01) != 0,
             m_Constructors :=
               (AP4_RtpPacket.new.constructors constructor_count
                 { s with pos := s.pos + 12 }).1 },
           (AP4_RtpPacket.new.constructors constructor_count
             { s with pos := s.pos + 12 }).2) := by
  unfold AP4_RtpPacket.new
  generalize e1 : s.ReadUI32 = x1
  obtain ⟨a1, b1, s1⟩ := x1
  simp only
  generalize e2 : s1.ReadUI08 = x2
  obtain ⟨a2, b2, s2⟩ := x2
  simp only
  generalize e3 : s2.ReadUI08 = x3
  obtain ⟨a3, b3, s3⟩ := x3
  simp only
  generalize e4 : s3.ReadUI16 = x4
  obtain ⟨a4, b4, s4⟩ := x4
  simp only
  generalize e5 : s4.ReadUI08 = x5
  obtain ⟨a5, b5, s5⟩ := x5
  simp only
  generalize e6 : s5.ReadUI08 = x6
  obtain ⟨a6, b6, s6⟩ := x6
  simp only
  generalize e7 : s6.ReadUI16 = x7
  obtain ⟨a7, b7, s7⟩ := x7
  simp only
  obtain ⟨k1, k2, k3, k4, k6, k7, k8, _⟩ := AP4_RtpPacket.new.envelope_reads s relative_time
    octet1 octet2 sequence_seed unused octet3 constructor_count tail h1 h2 h3 h _ _ _ _ _ _ _
    e1 e2 e3 e4 e5 e6 e7
  simp only at k1 k2 k3 k4 k6 k7 k8
  subst k1 k2 k3 k4 k6 k7 k8
  have hx : ¬ ((b6 &&& 0x04) != 0) = true := by
    rw [hextra]
    decide
  rw [if_neg hx]

/-- The parser on a packet with a well-formed block of extra data: the fields of the
envelope, the block, which gives the time-stamp offset, then the constructors. -/
theorem AP4_RtpPacket.new_extra (s : AP4_ByteStream) (fuel : Nat)
    (relative_time octet1 octet2 sequence_seed unused octet3 constructor_count : Nat)
    (entries : List (Nat × List Nat)) (tail : List Nat)
    (h1 : relative_time < 2 ^ 32) (h2 : sequence_seed < 2 ^ 16)
    (h3 : constructor_count < 2 ^ 16) (hextra : octet3 &&& 0x04 ≠ 0)
    (hL : 4 + AP4_RtpPacket.extraEntriesLength entries < 2 ^ 32)
    (htag : ∀ e ∈ entries, e.1 < 2 ^ 32) (hfuel : entries.length ≤ fuel)
    (h : s.data.drop s.pos = AP4_RtpPacket.envelopeBytes relative_time octet1 octet2
      sequence_seed unused octet3 constructor_count
      ++ (AP4_BytesFromUInt32BE (4 + AP4_RtpPacket.extraEntriesLength entries)
          ++ (AP4_RtpPacket.extraEntries entries ++ tail))) :
    AP4_RtpPacket.new fuel s
      = some
          ({ m_RelativeTime := relative_time, m_PBit := (octet1 &&& 0x20) != 0,
             m_XBit := (octet1 &&& 0x10) != 0, m_MBit := (octet2 &&& 0x80) != 0,
             m_PayloadType := octet2 &&& 0x7F, m_SequenceSeed := sequence_seed,
             m_TimeStampOffset := AP4_RtpPacket.extraTimeStampOffset entries 0,
             m_BFrameFlag := (octet3 &&& 0x02) != 0,
             m_RepeatFlag := (octet3 &&& 0x01) != 0,
             m_Constructors :=
               (AP4_RtpPacket.new.constructors constructor_count
                 { s with pos := s.pos + 12
                            + (4 + AP4_RtpPacket.extraEntriesLength entries) }).1 },
           (AP4_RtpPacket.new.constructors constructor_count
             { s with pos := s.pos + 12
                        + (4 + AP4_RtpPacket.extraEntriesLength entries) }).2) := by
  unfold AP4_RtpPacket.new
  generalize e1 : s.ReadUI32 = x1
  obtain ⟨a1, b1, s1⟩ := x1
  simp only
  generalize e2 : s1.ReadUI08 = x2
  obtain ⟨a2, b2, s2⟩ := x2
  simp only
  generalize e3 : s2.ReadUI08 = x3
  obtain ⟨a3, b3, s3⟩ := x3
  simp only
  generalize e4 : s3.ReadUI16 = x4
  obtain ⟨a4, b4, s4⟩ := x4
  simp only
  generalize e5 : s4.ReadUI08 = x5
  obtain ⟨a5, b5, s5⟩ := x5
  simp only
  generalize e6 : s5.ReadUI08 = x6
  obtain ⟨a6, b6, s6⟩ := x6
  simp only
  generalize e7 : s6.ReadUI16 = x7
  obtain ⟨a7, b7, s7⟩ := x7
  simp only
  obtain ⟨k1, k2, k3, k4, k6, k7, k8, hd⟩ := AP4_RtpPacket.new.envelope_reads s relative_time
    octet1 octet2 sequence_seed unused octet3 constructor_count _ h1 h2 h3 h _ _ _ _ _ _ _
    e1 e2 e3 e4 e5 e6 e7
  simp only at k1 k2 k3 k4 k6 k7 k8
  subst k1 k2 k3 k4 k6 k7 k8
  have hx : ((b6 &&& 0x04) != 0) = true := by
    simp only [bne_iff_ne, ne_eq]
    exact hextra
  rw [if_pos hx]
  have r8 := AP4_ByteStream.ReadUI32_BE { s with pos := s.pos + 12 } _ _ hL hd
  have d8 := AP4_ByteStream.drop_at { s with pos := s.pos + 12 }
    (AP4_BytesFromUInt32BE (4 + AP4_RtpPacket.extraEntriesLength entries)) _ hd
  have i := AP4_RtpPacket.new.extraData_entries entries tail { s with pos := s.pos + 12 + 4 }
    fuel 0 d8 (by omega) htag hfuel
  rw [r8]
  simp only
  rw [if_neg (by omega), Nat.add_sub_cancel_left, i]
  simp only [Nat.add_assoc]

attribute [local semireducible] AP4_ByteStream.ReadUI32 AP4_ByteStream.ReadUI16
  AP4_ByteStream.ReadUI08 AP4_RtpPacket.new.extraData AP4_RtpPacket.new.constructors

/-! ## Writing a packet -/

attribute [local irreducible] AP4_RtpPacket.Write.constructors

/-- On a stream that accepts the writes, `Write` emits the header and runs the loop over the
constructors, when the payload type passes the check. -/
theorem AP4_RtpPacket.Write_header (p : AP4_RtpPacket) (pad : AP4_ByteStream → List Nat)
    (stream : AP4_ByteStream) (hacc : stream.Accepting) (hpt : p.m_PayloadType ≤ 128) :
    p.Write pad stream
      = AP4_RtpPacket.Write.constructors pad p.m_Constructors AP4_Result.SUCCESS
          (stream.Write p.headerBytes).2 := by
  have w := fun a b => AP4_ByteStream.Accepting.write_step stream a b hacc
  unfold AP4_RtpPacket.Write AP4_RtpPacket.headerBytes AP4_ByteStream.WriteUI32
  rw [if_neg (by omega),
    AP4_ByteStream.Accepting.write_pair stream (AP4_BytesFromUInt32BE p.m_RelativeTime) hacc]
  by_cases ht : (p.m_TimeStampOffset != 0) = true
  · simp only [ht, w, AP4_ByteStream.WriteUI08, AP4_ByteStream.WriteUI16,
      AP4_ByteStream.WriteUI32, AP4_FAILED, if_true, if_false, Bool.false_eq_true,
      List.append_nil, List.append_assoc, bne_self_eq_false]
  · simp only [ht, w, AP4_ByteStream.WriteUI08, AP4_ByteStream.WriteUI16,
      AP4_ByteStream.WriteUI32, AP4_FAILED, if_true, if_false, Bool.false_eq_true,
      List.append_nil, List.append_assoc, bne_self_eq_false]

attribute [local semireducible] AP4_RtpPacket.Write.constructors

/-- `Write` rejects a payload type above 128 and leaves the stream as it is. -/
theorem AP4_RtpPacket.Write_rejected (p : AP4_RtpPacket) (pad : AP4_ByteStream → List Nat)
    (stream : AP4_ByteStream) (hpt : 128 < p.m_PayloadType) :
    p.Write pad stream = some (AP4_Result.FAILURE, stream) := by
  unfold AP4_RtpPacket.Write
  rw [if_pos hpt]

/-- On a stream that accepts the writes, `Write` emits the bytes of the packet, when the
payload type passes the check, no constructor is missing and no immediate constructor
holds more than 14 bytes. -/
theorem AP4_RtpPacket.Write_bytes (p : AP4_RtpPacket) (pad : AP4_ByteStream → List Nat)
    (stream : AP4_ByteStream) (hacc : stream.Accepting) (hpt : p.m_PayloadType ≤ 128)
    (hcs : ∀ c ∈ p.m_Constructors, AP4_RtpConstructor.Held c = true) :
    p.Write pad stream = some (AP4_Result.SUCCESS, (stream.Write (p.bytes pad stream)).2) := by
  rw [AP4_RtpPacket.Write_header p pad stream hacc hpt,
    AP4_RtpPacket.Write.constructors_bytes pad p.m_Constructors
      (stream.Write p.headerBytes).2 (AP4_ByteStream.Accepting.write stream _ hacc) hcs,
    AP4_ByteStream.Accepting.write_write stream _ _ hacc]
  rfl

/-- An immediate constructor with more than 14 bytes of data fails after its type byte. -/
theorem AP4_RtpConstructor.Write_too_long (m_Data pad : List Nat) (stream : AP4_ByteStream)
    (hacc : stream.Accepting) (h : 14 < m_Data.length) :
    (AP4_RtpConstructor.Immediate m_Data).Write pad stream
      = (AP4_Result.FAILURE, (stream.Write [AP4_RTP_CONSTRUCTOR_TYPE_IMMEDIATE % 256]).2) := by
  unfold AP4_RtpConstructor.Write AP4_ByteStream.WriteUI08
  rw [AP4_ByteStream.Accepting.write_pair stream _ hacc]
  simp only [AP4_RtpConstructor.DoWrite, AP4_ImmediateRtpConstructor.DoWrite, AP4_FAILED,
    bne_self_eq_false, if_false, Bool.false_eq_true, gt_iff_lt, h, if_true,
    AP4_RtpConstructor.m_Type]

/-- When the loop over the constructors succeeds on a stream that accepts the writes, no
constructor is missing and no immediate constructor holds more than 14 bytes. -/
theorem AP4_RtpPacket.Write.constructors_held (pad : AP4_ByteStream → List Nat)
    (cs : List (Option AP4_RtpConstructor)) :
    ∀ (s s1 : AP4_ByteStream) (result : AP4_Result), s.Accepting →
    AP4_RtpPacket.Write.constructors pad cs result s = some (AP4_Result.SUCCESS, s1) →
    ∀ c ∈ cs, AP4_RtpConstructor.Held c = true := by
  induction cs with
  | nil =>
    intro s s1 result _ _ c hc
    exact absurd hc (List.not_mem_nil c)
  | cons c cs ih =>
    intro s s1 result hs h
    cases c with
    | none =>
      rw [AP4_RtpPacket.Write.constructors] at h
      exact Option.noConfusion h
    | some c =>
      by_cases hw : c.Writable = true
      · rw [AP4_RtpPacket.Write.constructors, AP4_RtpConstructor.Write_record c _ s hs hw] at h
        have h2 : AP4_RtpPacket.Write.constructors pad cs AP4_Result.SUCCESS
            (s.Write (c.record (pad s))).2 = some (AP4_Result.SUCCESS, s1) := h
        have i := ih _ s1 _ (AP4_ByteStream.Accepting.write s _ hs) h2
        intro x hx
        rcases List.mem_cons.mp hx with rfl | hx
        · exact hw
        · exact i x hx
      · cases c with
        | Noop => exact absurd rfl hw
        | Sample a b c d => exact absurd rfl hw
        | SampleDesc a b c d => exact absurd rfl hw
        | Immediate m_Data =>
          have hl : 14 < m_Data.length := by
            simp only [AP4_RtpConstructor.Writable, decide_eq_true_eq] at hw
            omega
          rw [AP4_RtpPacket.Write.constructors,
            AP4_RtpConstructor.Write_too_long m_Data _ s hs hl] at h
          have h2 : some (AP4_Result.FAILURE,
              (s.Write [AP4_RTP_CONSTRUCTOR_TYPE_IMMEDIATE % 256]).2)
              = some (AP4_Result.SUCCESS, s1) := h
          injection h2 with h3
          injection h3 with h4 _
          exact AP4_Result.noConfusion h4

theorem AP4_RtpPacket.headerBytes_length (p : AP4_RtpPacket) :
    p.headerBytes.length = 12 + (if p.m_TimeStampOffset != 0 then 16 else 0) := by
  unfold AP4_RtpPacket.headerBytes
  by_cases ht : (p.m_TimeStampOffset != 0) = true
  · rw [if_pos ht, if_pos ht]
    rfl
  · rw [if_neg ht, if_neg ht]
    rfl

theorem AP4_RtpPacket.bytes_length (p : AP4_RtpPacket) (pad : AP4_ByteStream → List Nat)
    (stream : AP4_ByteStream) (hpad : ∀ s, (pad s).length = 14)
    (hcs : ∀ c ∈ p.m_Constructors, AP4_RtpConstructor.Held c = true) :
    (p.bytes pad stream).length
      = 12 + (if p.m_TimeStampOffset != 0 then 16 else 0) + 16 * p.m_Constructors.length := by
  unfold AP4_RtpPacket.bytes
  rw [List.length_append, AP4_RtpPacket.headerBytes_length,
    AP4_RtpPacket.Write.constructorBytes_length pad hpad _ _ hcs]

theorem AP4_RtpPacket.GetSize_eq (p : AP4_RtpPacket)
    (hn : 12 + (if p.m_TimeStampOffset != 0 then 16 else 0) + 16 * p.m_Constructors.length
      < 2 ^ 32) :
    p.GetSize
      = 12 + (if p.m_TimeStampOffset != 0 then 16 else 0) + 16 * p.m_Constructors.length := by
  unfold AP4_RtpPacket.GetSize AP4_RTP_CONSTRUCTOR_SIZE
  have e : p.m_Constructors.length % 2 ^ 32 = p.m_Constructors.length :=
    Nat.mod_eq_of_lt (by omega)
  rw [e]
  simp only []
  rw [AP4_Add32_of_lt _ _ (by omega)]
  omega

/-! ## Reading a written packet -/

theorem AP4_RtpPacket.flags1 (P X : Bool) :
    (((0x80 ||| (P.toNat <<< 5) ||| (X.toNat <<< 4)) % 256 &&& 0x20) != 0) = P
    ∧ (((0x80 ||| (P.toNat <<< 5) ||| (X.toNat <<< 4)) % 256 &&& 0x10) != 0) = X := by
  cases P <;> cases X <;> decide

set_option maxRecDepth 100000 in
theorem AP4_RtpPacket.flags2 : ∀ pt, pt ≤ 127 → ∀ M : Bool,
    ((((M.toNat <<< 7) ||| pt) % 256 &&& 0x80) != 0) = M
    ∧ ((M.toNat <<< 7) ||| pt) % 256 &&& 0x7F = pt := by
  decide

theorem AP4_RtpPacket.flags3 (E B R : Bool) :
    (((0x00 ||| (E.toNat <<< 2) ||| (B.toNat <<< 1) ||| (R.toNat <<< 0)) % 256 &&& 0x04 = 0)
      ↔ E = false)
    ∧ (((0x00 ||| (E.toNat <<< 2) ||| (B.toNat <<< 1) ||| (R.toNat <<< 0)) % 256 &&& 0x02)
        != 0) = B
    ∧ (((0x00 ||| (E.toNat <<< 2) ||| (B.toNat <<< 1) ||| (R.toNat <<< 0)) % 256 &&& 0x01)
        != 0) = R := by
  cases E <;> cases B <;> cases R <;> decide

theorem AP4_RtpPacket.headerBytes_plain (p : AP4_RtpPacket)
    (ht : ¬ (p.m_TimeStampOffset != 0) = true) (hn : p.m_Constructors.length < 2 ^ 16) :
    p.headerBytes
      = AP4_RtpPacket.envelopeBytes p.m_RelativeTime
          ((0x80 ||| (p.m_PBit.toNat <<< 5) ||| (p.m_XBit.toNat <<< 4)) % 256)
          (((p.m_MBit.toNat <<< 7) ||| p.m_PayloadType) % 256) p.m_SequenceSeed (0 % 256)
          ((0x00 ||| ((p.m_TimeStampOffset != 0).toNat <<< 2) ||| (p.m_BFrameFlag.toNat <<< 1)
              ||| (p.m_RepeatFlag.toNat <<< 0)) % 256)
          p.m_Constructors.length := by
  unfold AP4_RtpPacket.headerBytes AP4_RtpPacket.envelopeBytes
  rw [if_neg ht, Nat.mod_eq_of_lt hn]
  simp only [List.append_assoc, List.cons_append, List.nil_append, List.append_nil]

theorem AP4_RtpPacket.headerBytes_extra (p : AP4_RtpPacket)
    (ht : (p.m_TimeStampOffset != 0) = true) (hn : p.m_Constructors.length < 2 ^ 16) :
    p.headerBytes
      = AP4_RtpPacket.envelopeBytes p.m_RelativeTime
          ((0x80 ||| (p.m_PBit.toNat <<< 5) ||| (p.m_XBit.toNat <<< 4)) % 256)
          (((p.m_MBit.toNat <<< 7) ||| p.m_PayloadType) % 256) p.m_SequenceSeed (0 % 256)
          ((0x00 ||| ((p.m_TimeStampOffset != 0).toNat <<< 2) ||| (p.m_BFrameFlag.toNat <<< 1)
              ||| (p.m_RepeatFlag.toNat <<< 0)) % 256)
          p.m_Constructors.length
        ++ (AP4_BytesFromUInt32BE
              (4 + AP4_RtpPacket.extraEntriesLength
                [(AP4_RtpPacket.extraTag, AP4_BytesFromUInt32BE p.m_TimeStampOffset)])
            ++ AP4_RtpPacket.extraEntries
                [(AP4_RtpPacket.extraTag, AP4_BytesFromUInt32BE p.m_TimeStampOffset)]) := by
  have hE : AP4_RtpPacket.extraEntries
      [(AP4_RtpPacket.extraTag, AP4_BytesFromUInt32BE p.m_TimeStampOffset)]
      = AP4_BytesFromUInt32BE 12 ++ (AP4_BytesFromUInt32BE (AP4_ATOM_TYPE 114 116 112 111)
          ++ AP4_BytesFromUInt32BE p.m_TimeStampOffset) := rfl
  have hL : 4 + AP4_RtpPacket.extraEntriesLength
      [(AP4_RtpPacket.extraTag, AP4_BytesFromUInt32BE p.m_TimeStampOffset)] = 16 := rfl
  unfold AP4_RtpPacket.headerBytes AP4_RtpPacket.envelopeBytes
  rw [if_pos ht, Nat.mod_eq_of_lt hn, hE, hL]
  simp only [List.append_assoc, List.cons_append, List.nil_append, List.append_nil]

theorem AP4_RtpPacket.extraTimeStampOffset_single (value : List Nat) (initial : Nat)
    (hv : value.length = 4) :
    AP4_RtpPacket.extraTimeStampOffset [(AP4_RtpPacket.extraTag, value)] initial
      = AP4_BytesToUIntBE value := by
  have h0 : ∀ x, AP4_RtpPacket.extraTimeStampOffset [] x = x := fun _ => rfl
  rw [AP4_RtpPacket.extraTimeStampOffset_cons, h0]
  simp only [beq_self_eq_true, hv, Bool.true_and, Nat.reduceAdd, if_true]

/-- The parser reads back the packet whose bytes `Write` emitted, when the fields of the
packet hold values of their types, the payload type fits in 7 bits and the number of
constructors fits in 16 bits; one iteration of the extra-data loop suffices. -/
theorem AP4_RtpPacket.new_written (p : AP4_RtpPacket) (pad : AP4_ByteStream → List Nat)
    (hpad : ∀ s, (pad s).length = 14) (s0 s : AP4_ByteStream) (fuel : Nat) (rest : List Nat)
    (hp : p.Typed = true) (hpt : p.m_PayloadType ≤ 127)
    (hn : p.m_Constructors.length ≤ 65535) (hfuel : 1 ≤ fuel)
    (h : s.data.drop s.pos = p.bytes pad s0 ++ rest) :
    AP4_RtpPacket.new fuel s
      = some (p, { s with pos := s.pos + (p.bytes pad s0).length }) := by
  have hheld : ∀ c ∈ p.m_Constructors, AP4_RtpConstructor.Held c = true := by
    intro c hc
    simp only [AP4_RtpPacket.Typed, Bool.and_eq_true, List.all_eq_true] at hp
    exact AP4_RtpConstructor.Present.held c (hp.2 c hc)
  have hlen := AP4_RtpPacket.bytes_length p pad s0 hpad hheld
  obtain ⟨rt, P, X, M, pt, seed, tso, B, R, cs⟩ := p
  simp only [AP4_RtpPacket.Typed, Bool.and_eq_true, decide_eq_true_eq, List.all_eq_true] at hp
  obtain ⟨⟨h1, h2, h3⟩, hcs⟩ := hp
  simp only at hpt hn hlen
  obtain ⟨f1, f1'⟩ := AP4_RtpPacket.flags1 P X
  obtain ⟨f2, f2'⟩ := AP4_RtpPacket.flags2 pt hpt M
  obtain ⟨f3, f3', f3''⟩ := AP4_RtpPacket.flags3 (tso != 0) B R
  have hcount : cs.length % 2 ^ 16 = cs.length := Nat.mod_eq_of_lt (by omega)
  rw [hlen]
  by_cases ht : (tso != 0) = true
  · have hb : s.data.drop s.pos
        = AP4_RtpPacket.envelopeBytes rt
            ((0x80 ||| (P.toNat <<< 5) ||| (X.toNat <<< 4)) % 256)
            (((M.toNat <<< 7) ||| pt) % 256) seed (0 % 256)
            ((0x00 ||| ((tso != 0).toNat <<< 2) ||| (B.toNat <<< 1) ||| (R.toNat <<< 0)) % 256)
            cs.length
          ++ (AP4_BytesFromUInt32BE
                (4 + AP4_RtpPacket.extraEntriesLength
                  [(AP4_RtpPacket.extraTag, AP4_BytesFromUInt32BE tso)])
              ++ (AP4_RtpPacket.extraEntries
                    [(AP4_RtpPacket.extraTag, AP4_BytesFromUInt32BE tso)]
                  ++ (AP4_RtpPacket.Write.constructorBytes pad cs
                        (s0.Write (AP4_RtpPacket.headerBytes
                          ⟨rt, P, X, M, pt, seed, tso, B, R, cs⟩)).2 ++ rest))) := by
      rw [h, AP4_RtpPacket.bytes,
        AP4_RtpPacket.headerBytes_extra ⟨rt, P, X, M, pt, seed, tso, B, R, cs⟩ ht
          (by simp only; omega)]
      simp only [List.append_assoc]
    have hx : (0x00 ||| ((tso != 0).toNat <<< 2) ||| (B.toNat <<< 1) ||| (R.toNat <<< 0)) % 256
        &&& 0x04 ≠ 0 := by
      intro h0
      have := f3.mp h0
      rw [ht] at this
      exact Bool.noConfusion this
    have e := AP4_RtpPacket.new_extra s fuel rt _ _ seed _ _ cs.length
      [(AP4_RtpPacket.extraTag, AP4_BytesFromUInt32BE tso)] _ h1 h2 (by omega) hx
      (by
        show 4 + 12 < 2 ^ 32
        norm_num)
      (by
        intro e he
        rw [List.mem_singleton.mp he]
        show AP4_RtpPacket.extraTag < 2 ^ 32
        decide)
      hfuel hb
    have hd := AP4_ByteStream.drop_at s
      (AP4_RtpPacket.envelopeBytes rt
            ((0x80 ||| (P.toNat <<< 5) ||| (X.toNat <<< 4)) % 256)
            (((M.toNat <<< 7) ||| pt) % 256) seed (0 % 256)
            ((0x00 ||| ((tso != 0).toNat <<< 2) ||| (B.toNat <<< 1) ||| (R.toNat <<< 0)) % 256)
            cs.length
          ++ AP4_BytesFromUInt32BE
                (4 + AP4_RtpPacket.extraEntriesLength
                  [(AP4_RtpPacket.extraTag, AP4_BytesFromUInt32BE tso)])
          ++ AP4_RtpPacket.extraEntries
                    [(AP4_RtpPacket.extraTag, AP4_BytesFromUInt32BE tso)])
      (AP4_RtpPacket.Write.constructorBytes pad cs
                        (s0.Write (AP4_RtpPacket.headerBytes
                          ⟨rt, P, X, M, pt, seed, tso, B, R, cs⟩)).2 ++ rest)
      (by rw [hb]; simp only [List.append_assoc])
    have hl28 : (AP4_RtpPacket.envelopeBytes rt
            ((0x80 ||| (P.toNat <<< 5) ||| (X.toNat <<< 4)) % 256)
            (((M.toNat <<< 7) ||| pt) % 256) seed (0 % 256)
            ((0x00 ||| ((tso != 0).toNat <<< 2) ||| (B.toNat <<< 1) ||| (R.toNat <<< 0)) % 256)
            cs.length
          ++ AP4_BytesFromUInt32BE
                (4 + AP4_RtpPacket.extraEntriesLength
                  [(AP4_RtpPacket.extraTag, AP4_BytesFromUInt32BE tso)])
          ++ AP4_RtpPacket.extraEntries
                    [(AP4_RtpPacket.extraTag, AP4_BytesFromUInt32BE tso)]).length = 28 := rfl
    rw [hl28] at hd
    have hL : AP4_RtpPacket.extraEntriesLength
        [(AP4_RtpPacket.extraTag, AP4_BytesFromUInt32BE tso)] = 12 := rfl
    have hc := AP4_RtpPacket.new.constructors_written pad hpad cs rest _
      { s with pos := s.pos + 28 } hd hcs
    have hT : AP4_RtpPacket.extraTimeStampOffset
        [(AP4_RtpPacket.extraTag, AP4_BytesFromUInt32BE tso)] 0 = tso := by
      rw [AP4_RtpPacket.extraTimeStampOffset_single (AP4_BytesFromUInt32BE tso) 0 rfl,
        AP4_BytesToUIntBE_UInt32BE tso h3]
    rw [e, hL, hT, hc, f1, f1', f2, f2', f3', f3'', if_pos ht]
    simp only [Option.some.injEq, Prod.mk.injEq, AP4_ByteStream.mk.injEq, true_and]
    exact ⟨by omega, trivial⟩
  · have hb : s.data.drop s.pos
        = AP4_RtpPacket.envelopeBytes rt
            ((0x80 ||| (P.toNat <<< 5) ||| (X.toNat <<< 4)) % 256)
            (((M.toNat <<< 7) ||| pt) % 256) seed (0 % 256)
            ((0x00 ||| ((tso != 0).toNat <<< 2) ||| (B.toNat <<< 1) ||| (R.toNat <<< 0)) % 256)
            cs.length
          ++ (AP4_RtpPacket.Write.constructorBytes pad cs
                (s0.Write (AP4_RtpPacket.headerBytes
                  ⟨rt, P, X, M, pt, seed, tso, B, R, cs⟩)).2 ++ rest) := by
      rw [h, AP4_RtpPacket.bytes,
        AP4_RtpPacket.headerBytes_plain ⟨rt, P, X, M, pt, seed, tso, B, R, cs⟩ ht
          (by simp only; omega)]
      simp only [List.append_assoc]
    have ht0 : tso = 0 := by
      simpa using ht
    have hx : (0x00 ||| ((tso != 0).toNat <<< 2) ||| (B.toNat <<< 1) ||| (R.toNat <<< 0)) % 256
        &&& 0x04 = 0 := by
      apply f3.mpr
      simpa using ht
    have e := AP4_RtpPacket.new_plain s fuel rt _ _ seed _ _ cs.length _ h1 h2 (by omega) hx hb
    have hd := AP4_ByteStream.drop_at s _ _ hb
    have hl12 : (AP4_RtpPacket.envelopeBytes rt
            ((0x80 ||| (P.toNat <<< 5) ||| (X.toNat <<< 4)) % 256)
            (((M.toNat <<< 7) ||| pt) % 256) seed (0 % 256)
            ((0x00 ||| ((tso != 0).toNat <<< 2) ||| (B.toNat <<< 1) ||| (R.toNat <<< 0)) % 256)
            cs.length).length = 12 := rfl
    rw [hl12] at hd
    have hc := AP4_RtpPacket.new.constructors_written pad hpad cs rest _
      { s with pos := s.pos + 12 } hd hcs
    rw [e, hc, f1, f1', f2, f2', f3', f3'', if_neg ht, ht0]
    simp only [Option.some.injEq, Prod.mk.injEq, AP4_ByteStream.mk.injEq, true_and]
    exact ⟨by omega, trivial⟩

/-! ## Writing sample data -/

theorem AP4_FAILED_eq_false (result : AP4_Result) (h : ¬ AP4_FAILED result = true) :
    result = AP4_Result.SUCCESS := by
  simpa [AP4_FAILED] using h

/-- When `Write` succeeds on a stream that accepts the writes, the payload type passed the
check, no constructor is missing and no immediate constructor holds more than 14 bytes. -/
theorem AP4_RtpPacket.Write_held (p : AP4_RtpPacket) (pad : AP4_ByteStream → List Nat)
    (s s1 : AP4_ByteStream) (hs : s.Accepting)
    (h : p.Write pad s = some (AP4_Result.SUCCESS, s1)) :
    p.m_PayloadType ≤ 128 ∧ ∀ c ∈ p.m_Constructors, AP4_RtpConstructor.Held c = true := by
  by_cases hpt : p.m_PayloadType ≤ 128
  · rw [AP4_RtpPacket.Write_header p pad s hs hpt] at h
    exact ⟨hpt, AP4_RtpPacket.Write.constructors_held pad _ _ s1 _
      (AP4_ByteStream.Accepting.write s _ hs) h⟩
  · rw [AP4_RtpPacket.Write_rejected p pad s (by omega)] at h
    injection h with h
    injection h with h _
    exact AP4_Result.noConfusion h

theorem AP4_RtpSampleData.ToByteStream.packetBytes_length (pad : AP4_ByteStream → List Nat)
    (hpad : ∀ s, (pad s).length = 14) (ps : List AP4_RtpPacket) :
    ∀ s : AP4_ByteStream,
    (∀ p ∈ ps, ∀ c ∈ p.m_Constructors, AP4_RtpConstructor.Held c = true) →
    (AP4_RtpSampleData.ToByteStream.packetBytes pad ps s).length
      = (ps.map (fun p => 12 + (if p.m_TimeStampOffset != 0 then 16 else 0)
          + 16 * p.m_Constructors.length)).sum := by
  induction ps with
  | nil =>
    intro s _
    rfl
  | cons p ps ih =>
    intro s h
    rw [AP4_RtpSampleData.ToByteStream.packetBytes, List.length_append,
      AP4_RtpPacket.bytes_length p pad s hpad (h p (List.mem_cons_self _ _)),
      ih _ (fun q hq => h q (List.mem_cons_of_mem _ hq)), List.map_cons, List.sum_cons]

/-- On a stream that accepts the writes, the loop over the packets emits their bytes. -/
theorem AP4_RtpSampleData.ToByteStream.packets_bytes (pad : AP4_ByteStream → List Nat)
    (ps : List AP4_RtpPacket) :
    ∀ s : AP4_ByteStream, s.Accepting →
    (∀ p ∈ ps, p.m_PayloadType ≤ 128
      ∧ ∀ c ∈ p.m_Constructors, AP4_RtpConstructor.Held c = true) →
    AP4_RtpSampleData.ToByteStream.packets pad ps s
      = some (AP4_Result.SUCCESS,
          (s.Write (AP4_RtpSampleData.ToByteStream.packetBytes pad ps s)).2) := by
  induction ps with
  | nil =>
    intro s hs _
    rw [AP4_RtpSampleData.ToByteStream.packets, AP4_RtpSampleData.ToByteStream.packetBytes,
      AP4_ByteStream.Accepting.write_nil s hs]
  | cons p ps ih =>
    intro s hs h
    obtain ⟨hpt, hcs⟩ := h p (List.mem_cons_self _ _)
    rw [AP4_RtpSampleData.ToByteStream.packets, AP4_RtpPacket.Write_bytes p pad s hs hpt hcs]
    show (if AP4_FAILED AP4_Result.SUCCESS = true then _ else _) = _
    rw [if_neg (by decide), ih _ (AP4_ByteStream.Accepting.write s _ hs)
      (fun q hq => h q (List.mem_cons_of_mem _ hq)),
      AP4_ByteStream.Accepting.write_write s _ _ hs,
      AP4_RtpSampleData.ToByteStream.packetBytes]

/-- When the loop over the packets succeeds, every packet passed the checks of `Write`. -/
theorem AP4_RtpSampleData.ToByteStream.packets_held (pad : AP4_ByteStream → List Nat)
    (ps : List AP4_RtpPacket) :
    ∀ s s1 : AP4_ByteStream, s.Accepting →
    AP4_RtpSampleData.ToByteStream.packets pad ps s = some (AP4_Result.SUCCESS, s1) →
    ∀ p ∈ ps, p.m_PayloadType ≤ 128
      ∧ ∀ c ∈ p.m_Constructors, AP4_RtpConstructor.Held c = true := by
  induction ps with
  | nil =>
    intro s s1 _ _ p hp
    exact absurd hp (List.not_mem_nil p)
  | cons p ps ih =>
    intro s s1 hs h
    rw [AP4_RtpSampleData.ToByteStream.packets] at h
    generalize hw : p.Write pad s = r at h
    cases r with
    | none => exact Option.noConfusion h
    | some r =>
      obtain ⟨result, s2⟩ := r
      simp only at h
      by_cases hf : AP4_FAILED result = true
      · rw [if_pos hf] at h
        injection h with h
        injection h with h _
        subst h
        exact absurd hf (by decide)
      · rw [if_neg hf] at h
        have hr := AP4_FAILED_eq_false result hf
        subst hr
        have hp := AP4_RtpPacket.Write_held p pad s s2 hs hw
        rw [AP4_RtpPacket.Write_bytes p pad s hs hp.1 hp.2] at hw
        injection hw with hw
        injection hw with _ hw
        subst hw
        have i := ih _ s1 (AP4_ByteStream.Accepting.write s _ hs) h
        intro q hq
        rcases List.mem_cons.mp hq with rfl | hq
        · exact hp
        · exact i q hq

theorem AP4_ByteStream.fresh_write (buf : List Nat) :
    (AP4_ByteStream.fresh.Write buf).2 = { data := buf, pos := buf.length, faults := [] } := by
  rw [AP4_ByteStream.Write_accepting AP4_ByteStream.fresh buf rfl]
  show ({ data := AP4_ByteStream.splice [] 0 buf, pos := 0 + buf.length, faults := [] }
    : AP4_ByteStream) = _
  rw [AP4_ByteStream.splice_nil_zero, Nat.zero_add]

theorem AP4_ByteStream.fresh_accepting : AP4_ByteStream.fresh.Accepting :=
  ⟨rfl, Nat.le_refl 0⟩

attribute [local irreducible] AP4_RtpSampleData.ToByteStream.packets

/-- The function `ToByteStream` after the two writes of its header, which the new memory
stream accepts. -/
theorem AP4_RtpSampleData.ToByteStream_header (d : AP4_RtpSampleData)
    (pad : AP4_ByteStream → List Nat) :
    d.ToByteStream pad
      = match AP4_RtpSampleData.ToByteStream.packets pad d.m_Packets
            (AP4_ByteStream.fresh.Write d.headerBytes).2 with
        | none => none
        | some (result, stream) =>
          if AP4_FAILED result then some none
          else if AP4_FAILED (stream.Write d.m_ExtraData).1 then some none
          else some (some (stream.Write d.m_ExtraData).2) := by
  have w := fun a b => AP4_ByteStream.Accepting.write_step AP4_ByteStream.fresh a b
    AP4_ByteStream.fresh_accepting
  unfold AP4_RtpSampleData.ToByteStream AP4_RtpSampleData.headerBytes AP4_MemoryByteStream.new
    AP4_ByteStream.WriteUI16
  rw [AP4_ByteStream.Accepting.write_pair AP4_ByteStream.fresh _ AP4_ByteStream.fresh_accepting]
  simp only [w, AP4_FAILED, bne_self_eq_false, if_false, Bool.false_eq_true]
  rfl

attribute [local semireducible] AP4_RtpSampleData.ToByteStream.packets

/-- The stream that `ToByteStream` returns holds the bytes of the sample data, with the
cursor at its end, when every packet passes the checks of `Write`. -/
theorem AP4_RtpSampleData.ToByteStream_bytes (d : AP4_RtpSampleData)
    (pad : AP4_ByteStream → List Nat)
    (h : ∀ p ∈ d.m_Packets, p.m_PayloadType ≤ 128
      ∧ ∀ c ∈ p.m_Constructors, AP4_RtpConstructor.Held c = true) :
    d.ToByteStream pad
      = some (some { data := d.bytes pad, pos := (d.bytes pad).length, faults := [] }) := by
  have hs := AP4_ByteStream.Accepting.write AP4_ByteStream.fresh d.headerBytes
    AP4_ByteStream.fresh_accepting
  rw [AP4_RtpSampleData.ToByteStream_header,
    AP4_RtpSampleData.ToByteStream.packets_bytes pad d.m_Packets _ hs h]
  have hs2 := AP4_ByteStream.Accepting.write_write AP4_ByteStream.fresh d.headerBytes
    (AP4_RtpSampleData.ToByteStream.packetBytes pad d.m_Packets
      (AP4_ByteStream.fresh.Write d.headerBytes).2) AP4_ByteStream.fresh_accepting
  have hs3 := AP4_ByteStream.Accepting.write_step AP4_ByteStream.fresh
    (d.headerBytes ++ AP4_RtpSampleData.ToByteStream.packetBytes pad d.m_Packets
      (AP4_ByteStream.fresh.Write d.headerBytes).2) d.m_ExtraData
    AP4_ByteStream.fresh_accepting
  show (if AP4_FAILED AP4_Result.SUCCESS = true then _ else _) = _
  rw [if_neg (by decide), hs2, hs3]
  show (if AP4_FAILED AP4_Result.SUCCESS = true then _ else _) = _
  rw [if_neg (by decide)]
  show some (some (AP4_ByteStream.fresh.Write _).2) = _
  rw [AP4_ByteStream.fresh_write]
  rfl

/-- When `ToByteStream` returns a stream, every packet passed the checks of `Write`. -/
theorem AP4_RtpSampleData.ToByteStream_held (d : AP4_RtpSampleData)
    (pad : AP4_ByteStream → List Nat) (out : AP4_ByteStream)
    (h : d.ToByteStream pad = some (some out)) :
    ∀ p ∈ d.m_Packets, p.m_PayloadType ≤ 128
      ∧ ∀ c ∈ p.m_Constructors, AP4_RtpConstructor.Held c = true := by
  have hs := AP4_ByteStream.Accepting.write AP4_ByteStream.fresh d.headerBytes
    AP4_ByteStream.fresh_accepting
  rw [AP4_RtpSampleData.ToByteStream_header] at h
  generalize hw : AP4_RtpSampleData.ToByteStream.packets pad d.m_Packets
    (AP4_ByteStream.fresh.Write d.headerBytes).2 = r at h
  cases r with
  | none => exact Option.noConfusion h
  | some r =>
    obtain ⟨result, s2⟩ := r
    simp only at h
    by_cases hf : AP4_FAILED result = true
    · rw [if_pos hf] at h
      injection h with h
      exact Option.noConfusion h
    · have hr := AP4_FAILED_eq_false result hf
      subst hr
      exact AP4_RtpSampleData.ToByteStream.packets_held pad d.m_Packets _ s2 hs hw

/-! ## Reading written sample data -/

attribute [local irreducible] AP4_RtpPacket.new

/-- The loop over the packets of the parser reads back the packets whose bytes the loop of
`ToByteStream` emitted. -/
theorem AP4_RtpSampleData.new.packets_written (pad : AP4_ByteStream → List Nat)
    (hpad : ∀ s, (pad s).length = 14) (fuel : Nat) (hfuel : 1 ≤ fuel)
    (ps : List AP4_RtpPacket) (rest : List Nat) :
    ∀ s0 s : AP4_ByteStream,
    s.data.drop s.pos = AP4_RtpSampleData.ToByteStream.packetBytes pad ps s0 ++ rest →
    (∀ p ∈ ps, p.m_PayloadType ≤ 127 ∧ p.m_Constructors.length ≤ 65535 ∧ p.Typed = true) →
    AP4_RtpSampleData.new.packets fuel ps.length s
      = some (ps, { s with pos := s.pos
          + (AP4_RtpSampleData.ToByteStream.packetBytes pad ps s0).length }) := by
  induction ps with
  | nil =>
    intro s0 s _ _
    rfl
  | cons p ps ih =>
    intro s0 s h hps
    obtain ⟨hpt, hn, hp⟩ := hps p (List.mem_cons_self _ _)
    rw [AP4_RtpSampleData.ToByteStream.packetBytes, List.append_assoc] at h
    have e := AP4_RtpPacket.new_written p pad hpad s0 s fuel _ hp hpt hn hfuel h
    have hd := AP4_ByteStream.drop_at s _ _ h
    have i := ih _ { s with pos := s.pos + (p.bytes pad s0).length } hd
      (fun q hq => hps q (List.mem_cons_of_mem _ hq))
    rw [List.length_cons, AP4_RtpSampleData.new.packets, e]
    show (match AP4_RtpSampleData.new.packets fuel ps.length
        { s with pos := s.pos + (p.bytes pad s0).length } with
      | none => none
      | some (rest, stream) => some (p :: rest, stream)) = _
    rw [i, AP4_RtpSampleData.ToByteStream.packetBytes, List.length_append]
    simp only [Option.some.injEq, Prod.mk.injEq, AP4_ByteStream.mk.injEq, true_and]
    exact ⟨by omega, trivial⟩

attribute [local semireducible] AP4_RtpPacket.new

theorem AP4_RtpSampleData.GetSize_fold (ps : List AP4_RtpPacket)
    (h : ∀ p ∈ ps, 12 + (if p.m_TimeStampOffset != 0 then 16 else 0)
      + 16 * p.m_Constructors.length < 2 ^ 32) :
    ∀ a : Nat,
    (ps.foldl (fun result pck => AP4_Add32 result pck.GetSize) a) % 2 ^ 32
      = (a + (ps.map (fun p => 12 + (if p.m_TimeStampOffset != 0 then 16 else 0)
          + 16 * p.m_Constructors.length)).sum) % 2 ^ 32 := by
  induction ps with
  | nil =>
    intro a
    rfl
  | cons p ps ih =>
    intro a
    rw [List.foldl_cons, ih (fun q hq => h q (List.mem_cons_of_mem _ hq)),
      AP4_RtpPacket.GetSize_eq p (h p (List.mem_cons_self _ _)), List.map_cons, List.sum_cons]
    unfold AP4_Add32
    omega

/-- The value of `GetSize()`: 4 bytes, the sizes of the packets and the length of the extra
data, in `AP4_Size` arithmetic. -/
theorem AP4_RtpSampleData.GetSize_mod (d : AP4_RtpSampleData)
    (h : ∀ p ∈ d.m_Packets, 12 + (if p.m_TimeStampOffset != 0 then 16 else 0)
      + 16 * p.m_Constructors.length < 2 ^ 32) :
    d.GetSize
      = (4 + (d.m_Packets.map (fun p => 12 + (if p.m_TimeStampOffset != 0 then 16 else 0)
          + 16 * p.m_Constructors.length)).sum + d.m_ExtraData.length) % 2 ^ 32 := by
  have hf := AP4_RtpSampleData.GetSize_fold d.m_Packets h 4
  have e : ∀ a b, AP4_Add32 a b = (a + b) % 2 ^ 32 := fun _ _ => rfl
  unfold AP4_RtpSampleData.GetSize
  simp only []
  rw [e]
  omega

/-! ## The round trip of sample data -/

theorem AP4_Sub32_consumed (t e : Nat) (he : e < 2 ^ 32) :
    AP4_Sub32 ((t + e) % 2 ^ 32) (AP4_Sub64 t 0) = e := by
  rw [AP4_Sub32_eq, AP4_Sub64_eq]
  omega

attribute [local irreducible] AP4_RtpSampleData.new.packets AP4_ByteStream.ReadUI16
  AP4_ByteStream.Read AP4_Sub32 AP4_Sub64

/-- The parser on the bytes of a sample data, with the size that `GetSize()` gives, reads
back the sample data and stops at the end of the bytes. -/
theorem AP4_RtpSampleData.new_bytes (d : AP4_RtpSampleData) (pad : AP4_ByteStream → List Nat)
    (fuel : Nat) (hpad : ∀ s, (pad s).length = 14) (hcount : d.m_Packets.length ≤ 65535)
    (hp : ∀ p ∈ d.m_Packets,
      p.m_PayloadType ≤ 127 ∧ p.m_Constructors.length ≤ 65535 ∧ p.Typed = true)
    (hextra : d.m_ExtraData.length < 2 ^ 32) (hfuel : 1 ≤ fuel) :
    AP4_RtpSampleData.new fuel { data := d.bytes pad, pos := 0, faults := [] } d.GetSize
      = some (d, { data := d.bytes pad, pos := (d.bytes pad).length, faults := [] }) := by
  have hheld : ∀ p ∈ d.m_Packets, ∀ c ∈ p.m_Constructors,
      AP4_RtpConstructor.Held c = true := by
    intro p hpm c hc
    have ht := (hp p hpm).2.2
    simp only [AP4_RtpPacket.Typed, Bool.and_eq_true, List.all_eq_true] at ht
    exact AP4_RtpConstructor.Present.held c (ht.2 c hc)
  have hsize : ∀ p ∈ d.m_Packets, 12 + (if p.m_TimeStampOffset != 0 then 16 else 0)
      + 16 * p.m_Constructors.length < 2 ^ 32 := by
    intro p hpm
    have := (hp p hpm).2.1
    split <;> omega
  obtain ⟨ps, extra⟩ := d
  simp only at hcount hp hextra hheld hsize
  generalize hpb : AP4_RtpSampleData.ToByteStream.packetBytes pad ps
    ((AP4_MemoryByteStream.new (AP4_RtpSampleData.GetSize ⟨ps, extra⟩)).Write
      (AP4_RtpSampleData.headerBytes ⟨ps, extra⟩)).2 = pb
  have hpl := AP4_RtpSampleData.ToByteStream.packetBytes_length pad hpad ps
    ((AP4_MemoryByteStream.new (AP4_RtpSampleData.GetSize ⟨ps, extra⟩)).Write
      (AP4_RtpSampleData.headerBytes ⟨ps, extra⟩)).2 hheld
  rw [hpb] at hpl
  have hB : AP4_RtpSampleData.bytes ⟨ps, extra⟩ pad
      = AP4_BytesFromUInt16BE ps.length ++ (AP4_BytesFromUInt16BE 0 ++ (pb ++ extra)) := by
    have hH : AP4_RtpSampleData.headerBytes ⟨ps, extra⟩
        = AP4_BytesFromUInt16BE ps.length ++ AP4_BytesFromUInt16BE 0 := by
      unfold AP4_RtpSampleData.headerBytes
      simp only
      rw [Nat.mod_eq_of_lt (by omega)]
    unfold AP4_RtpSampleData.bytes
    simp only
    rw [hpb, hH]
    simp only [List.append_assoc]
  have hG := AP4_RtpSampleData.GetSize_mod ⟨ps, extra⟩ hsize
  simp only at hG
  rw [← hpl] at hG
  generalize AP4_RtpSampleData.GetSize ⟨ps, extra⟩ = G at hG
  rw [hB]
  generalize hdata : AP4_BytesFromUInt16BE ps.length
    ++ (AP4_BytesFromUInt16BE 0 ++ (pb ++ extra)) = B
  have hlen : B.length = 4 + pb.length + extra.length := by
    rw [← hdata]
    simp only [List.length_append, AP4_BytesFromUInt16BE, List.length_cons, List.length_nil]
    omega
  have r1 := AP4_ByteStream.ReadUI16_BE { data := B, pos := 0, faults := [] } ps.length
    (AP4_BytesFromUInt16BE 0 ++ (pb ++ extra)) (by omega) (by rw [← hdata]; rfl)
  have d1 := AP4_ByteStream.drop_at { data := B, pos := 0, faults := [] }
    (AP4_BytesFromUInt16BE ps.length) (AP4_BytesFromUInt16BE 0 ++ (pb ++ extra))
    (by rw [← hdata]; rfl)
  have r2 := AP4_ByteStream.ReadUI16_BE { data := B, pos := 0 + 2, faults := [] } 0
    (pb ++ extra) (by norm_num) d1
  have d2 := AP4_ByteStream.drop_at { data := B, pos := 0 + 2, faults := [] }
    (AP4_BytesFromUInt16BE 0) (pb ++ extra) d1
  have r3 := AP4_RtpSampleData.new.packets_written pad hpad fuel hfuel ps extra
    ((AP4_MemoryByteStream.new (AP4_RtpSampleData.GetSize ⟨ps, extra⟩)).Write
      (AP4_RtpSampleData.headerBytes ⟨ps, extra⟩)).2
    { data := B, pos := 0 + 2 + 2, faults := [] } (by rw [hpb]; exact d2) hp
  rw [hpb] at r3
  have d3 := AP4_ByteStream.drop_at { data := B, pos := 0 + 2 + 2, faults := [] } pb extra d2
  have hsz : AP4_Sub32 G (AP4_Sub64 (0 + 2 + 2 + pb.length) 0) = extra.length := by
    have : 0 + 2 + 2 + pb.length = 4 + pb.length := by omega
    rw [this, hG]
    exact AP4_Sub32_consumed _ _ hextra
  unfold AP4_RtpSampleData.new
  simp only [AP4_ByteStream.Tell, r1, r2, r3, hsz]
  by_cases h0 : extra.length = 0
  · have he : extra = [] := List.length_eq_zero.mp h0
    subst he
    simp only [List.length_nil, bne_self_eq_false, Bool.false_eq_true, if_false,
      Option.some.injEq, Prod.mk.injEq, AP4_ByteStream.mk.injEq, true_and, and_true]
    simp only [List.length_nil] at hlen
    omega
  · have r4 := AP4_ByteStream.Read_within ⟨B, 0 + 2 + 2 + pb.length, []⟩ extra []
      (by simp only; omega) (by rw [List.append_nil]; exact d3)
    have hb : (extra.length != 0) = true := by
      simpa using h0
    simp only [hb, if_true, r4, Nat.sub_self, List.replicate_zero, List.append_nil,
      Option.some.injEq, Prod.mk.injEq, AP4_ByteStream.mk.injEq, true_and, and_true]
    omega

attribute [local semireducible] AP4_RtpSampleData.new.packets AP4_ByteStream.ReadUI16
  AP4_ByteStream.Read AP4_Sub32 AP4_Sub64

/-- C33: RTP sample data round-trips at the value level.  For a sample data of at most 65535
packets whose packets have a payload type of at most 127, at most 65535 constructors, none
of them missing, immediate constructors of at most 14 bytes and fields that hold values of
their types, and whose extra data is shorter than `2^32` bytes, `ToByteStream` returns a
stream, and the parser run from the start of that stream with the size `GetSize()` yields
the same sample data (the same packets in the same order with the same fields and
constructors, and the same extra data) and stops at the end of the stream. -/
theorem AP4_RtpSampleData.round_trip (d : AP4_RtpSampleData)
    (pad : AP4_ByteStream → List Nat) (fuel : Nat)
    (hpad : ∀ s, (pad s).length = 14) (hcount : d.m_Packets.length ≤ 65535)
    (hp : ∀ p ∈ d.m_Packets,
      p.m_PayloadType ≤ 127 ∧ p.m_Constructors.length ≤ 65535 ∧ p.Typed = true)
    (hextra : d.m_ExtraData.length < 2 ^ 32) (hfuel : 1 ≤ fuel) :
    ∃ out : AP4_ByteStream, d.ToByteStream pad = some (some out)
      ∧ AP4_RtpSampleData.new fuel (out.Seek 0).2 d.GetSize = some (d, out) := by
  have hb := AP4_RtpSampleData.ToByteStream_bytes d pad (fun p hpm => by
    have ht := (hp p hpm).2.2
    simp only [AP4_RtpPacket.Typed, Bool.and_eq_true, List.all_eq_true] at ht
    exact ⟨Nat.le_trans (hp p hpm).1 (by decide),
      fun c hc => AP4_RtpConstructor.Present.held c (ht.2 c hc)⟩)
  refine ⟨_, hb, ?_⟩
  rw [AP4_ByteStream.Seek_within _ 0 (Nat.zero_le _)]
  exact AP4_RtpSampleData.new_bytes d pad fuel hpad hcount hp hextra hfuel

/-- Witness of C33: the sample data of two packets, with one constructor of each kind, a
time-stamp offset and two bytes of extra data, is written as 110 bytes and read back. -/
theorem AP4_RtpSampleData.round_trip_witness :
    AP4_RtpSampleData.sample.GetSize = 110
    ∧ ∃ out : AP4_ByteStream,
        AP4_RtpSampleData.sample.ToByteStream AP4_ImmediateRtpConstructor.samplePad
          = some (some out)
        ∧ AP4_RtpSampleData.new 1 (out.Seek 0).2 AP4_RtpSampleData.sample.GetSize
          = some (AP4_RtpSampleData.sample, out) :=
  ⟨by decide,
   AP4_RtpSampleData.round_trip AP4_RtpSampleData.sample
     AP4_ImmediateRtpConstructor.samplePad 1 (fun _ => rfl) (by decide) (by decide)
     (by decide) (by decide)⟩

/-! ## Sizes -/

theorem List.map_le_sum_of_mem {α : Type} (f : α → Nat) (l : List α) :
    ∀ x ∈ l, f x ≤ (l.map f).sum := by
  induction l with
  | nil =>
    intro x hx
    exact absurd hx (List.not_mem_nil x)
  | cons a l ih =>
    intro x hx
    rw [List.map_cons, List.sum_cons]
    rcases List.mem_cons.mp hx with rfl | hx
    · omega
    · have := ih x hx
      omega

/-- The sizes on a stream that accepts the writes: a `Write` that succeeds emits exactly
`GetSize()` bytes, and `GetSize()` is 12, plus 16 when the time-stamp offset is not 0, plus
16 per constructor (the size fits an `AP4_Size`); the record of a constructor of any kind,
an immediate constructor holding at most 14 bytes, is 16 bytes; and the stream that
`ToByteStream` returns holds exactly `GetSize()` bytes, which is 4 plus the sum of the values
of `GetSize()` of the packets plus the length of the extra data (the sum fits an
`AP4_Size`). -/
theorem AP4_RtpPacket.Write_size (p : AP4_RtpPacket) (d : AP4_RtpSampleData)
    (pad : AP4_ByteStream → List Nat) (stream s1 out : AP4_ByteStream)
    (hpad : ∀ s, (pad s).length = 14) (hacc : stream.Accepting)
    (hn : 12 + (if p.m_TimeStampOffset != 0 then 16 else 0) + 16 * p.m_Constructors.length
      < 2 ^ 32)
    (hw : p.Write pad stream = some (AP4_Result.SUCCESS, s1))
    (hsize : 4 + (d.m_Packets.map (fun q => 12 + (if q.m_TimeStampOffset != 0 then 16 else 0)
      + 16 * q.m_Constructors.length)).sum + d.m_ExtraData.length < 2 ^ 32)
    (hout : d.ToByteStream pad = some (some out)) :
    p.GetSize
      = 12 + (if p.m_TimeStampOffset != 0 then 16 else 0) + 16 * p.m_Constructors.length
    ∧ s1 = (stream.Write (p.bytes pad stream)).2
    ∧ (p.bytes pad stream).length = p.GetSize
    ∧ s1.pos = stream.pos + p.GetSize
    ∧ (∀ (c : AP4_RtpConstructor) (s : AP4_ByteStream), c.Writable = true → s.Accepting →
        c.Write (pad s) s = (AP4_Result.SUCCESS, (s.Write (c.record (pad s))).2)
        ∧ (c.record (pad s)).length = 16
        ∧ (c.Write (pad s) s).2.pos = s.pos + 16)
    ∧ out.data.length = d.GetSize
    ∧ d.GetSize = 4 + (d.m_Packets.map AP4_RtpPacket.GetSize).sum + d.m_ExtraData.length := by
  obtain ⟨hpt, hheld⟩ := AP4_RtpPacket.Write_held p pad stream s1 hacc hw
  have hg := AP4_RtpPacket.GetSize_eq p hn
  have hl := AP4_RtpPacket.bytes_length p pad stream hpad hheld
  rw [AP4_RtpPacket.Write_bytes p pad stream hacc hpt hheld] at hw
  injection hw with hw
  injection hw with _ hw
  have hh := AP4_RtpSampleData.ToByteStream_held d pad out hout
  rw [AP4_RtpSampleData.ToByteStream_bytes d pad hh] at hout
  injection hout with hout
  injection hout with hout
  have hq : ∀ q ∈ d.m_Packets, 12 + (if q.m_TimeStampOffset != 0 then 16 else 0)
      + 16 * q.m_Constructors.length < 2 ^ 32 := by
    intro q hq
    have := List.map_le_sum_of_mem (fun q : AP4_RtpPacket =>
      12 + (if q.m_TimeStampOffset != 0 then 16 else 0) + 16 * q.m_Constructors.length)
      d.m_Packets q hq
    simp only at this
    omega
  have hG := AP4_RtpSampleData.GetSize_mod d hq
  rw [Nat.mod_eq_of_lt hsize] at hG
  have hmap : d.m_Packets.map AP4_RtpPacket.GetSize
      = d.m_Packets.map (fun q => 12 + (if q.m_TimeStampOffset != 0 then 16 else 0)
          + 16 * q.m_Constructors.length) :=
    List.map_congr_left (fun q hqm => AP4_RtpPacket.GetSize_eq q (hq q hqm))
  have hpl := AP4_RtpSampleData.ToByteStream.packetBytes_length pad hpad d.m_Packets
    ((AP4_MemoryByteStream.new d.GetSize).Write d.headerBytes).2 (fun q hqm => (hh q hqm).2)
  refine ⟨hg, hw.symm, by rw [hl, hg], ?_, ?_, ?_, by rw [hG, hmap]⟩
  · rw [← hw, AP4_ByteStream.Write_accepting stream _ hacc.1, hl, hg]
  · intro c s hc hs
    have e := AP4_RtpConstructor.Write_record c (pad s) s hs hc
    have l := AP4_RtpConstructor.record_length c (pad s) hc (hpad s)
    refine ⟨e, l, ?_⟩
    rw [e, AP4_ByteStream.Write_accepting s _ hs.1, l]
  · rw [← hout, hG, ← hpl]
    show (d.bytes pad).length = _
    unfold AP4_RtpSampleData.bytes AP4_RtpSampleData.headerBytes
    simp only [List.length_append, AP4_BytesFromUInt16BE, List.length_cons, List.length_nil]

set_option maxRecDepth 100000 in
/-- The sizes at an input: the packet with a no-op and an immediate constructor is written
as 44 bytes on a new stream, and the sample data of two packets as 110 bytes. -/
theorem AP4_RtpPacket.Write_size_witness :
    (AP4_RtpPacket.sample 96
        [some AP4_RtpConstructor.Noop, some (AP4_RtpConstructor.Immediate [1, 2, 3])]).GetSize
      = 44
    ∧ ((AP4_ByteStream.fresh.Write
          ((AP4_RtpPacket.sample 96
            [some AP4_RtpConstructor.Noop,
             some (AP4_RtpConstructor.Immediate [1, 2, 3])]).bytes
            AP4_ImmediateRtpConstructor.samplePad AP4_ByteStream.fresh)).2).pos = 0 + 44
    ∧ AP4_RtpSampleData.sample.GetSize = 110
    ∧ (AP4_RtpSampleData.sample.bytes AP4_ImmediateRtpConstructor.samplePad).length = 110 := by
  have h := AP4_RtpPacket.Write_size
    (AP4_RtpPacket.sample 96
      [some AP4_RtpConstructor.Noop, some (AP4_RtpConstructor.Immediate [1, 2, 3])])
    AP4_RtpSampleData.sample AP4_ImmediateRtpConstructor.samplePad AP4_ByteStream.fresh
    (AP4_ByteStream.fresh.Write
      ((AP4_RtpPacket.sample 96
        [some AP4_RtpConstructor.Noop, some (AP4_RtpConstructor.Immediate [1, 2, 3])]).bytes
        AP4_ImmediateRtpConstructor.samplePad AP4_ByteStream.fresh)).2
    ⟨AP4_RtpSampleData.sample.bytes AP4_ImmediateRtpConstructor.samplePad,
     (AP4_RtpSampleData.sample.bytes AP4_ImmediateRtpConstructor.samplePad).length, []⟩
    (fun _ => rfl) ⟨rfl, Nat.le_refl 0⟩ (by decide) (by decide) (by decide) (by decide)
  refine ⟨by decide, ?_, by decide, ?_⟩
  · rw [h.2.2.2.1]
    decide
  · have := h.2.2.2.2.2.1
    simp only at this
    rw [this]
    decide

set_option maxRecDepth 100000 in
/-- C34, the code at the failing input: a packet with one no-op constructor, of
`GetSize()` 28, written to a stream on which the seventh write, that of the constructor
count, fails and every other write succeeds.  `Write` does not look at the result of
that write: it goes on, writes the constructor and returns `AP4_SUCCESS`, having emitted
26 bytes, the 2 bytes of the constructor count missing; on a stream that accepts every
write the same packet gives the 28 bytes. -/
theorem AP4_RtpPacket.Write_unchecked_count_evaluation :
    (AP4_RtpPacket.sample 96 [some AP4_RtpConstructor.Noop]).GetSize = 28 ∧
    (AP4_RtpPacket.sample 96 [some AP4_RtpConstructor.Noop]).Write (fun _ => [])
        ⟨[], 0, [AP4_Result.SUCCESS, AP4_Result.SUCCESS, AP4_Result.SUCCESS,
          AP4_Result.SUCCESS, AP4_Result.SUCCESS, AP4_Result.SUCCESS, AP4_Result.FAILURE]⟩
      = some (AP4_Result.SUCCESS,
          ⟨[0, 0, 0, 5, 0xA0, 96, 0, 7, 0, 1,
            0, 0, 0, 0, 0, 0, 0, 0, 0, 0, 0, 0, 0, 0, 0, 0], 26, []⟩) ∧
    (AP4_RtpPacket.sample 96 [some AP4_RtpConstructor.Noop]).Write (fun _ => [])
        AP4_ByteStream.fresh
      = some (AP4_Result.SUCCESS,
          ⟨[0, 0, 0, 5, 0xA0, 96, 0, 7, 0, 1, 0, 1,
            0, 0, 0, 0, 0, 0, 0, 0, 0, 0, 0, 0, 0, 0, 0, 0], 28, []⟩) := by
  decide

/-! ## The extra-data block of a packet -/

/-- C32: for a packet whose third flags byte has the extra bit and whose block of extra data
is well formed (a length `L` of at least 4 that counts its own 4 bytes, then entries that
each declare their 8 leading bytes and their value, the lengths summing to `L - 4`), the
loop over the entries consumes the `L - 4` bytes after the length, one iteration per entry,
and runs to its end; the parser sets the time-stamp offset to the value of the last entry
with the tag `rtpo` and the length 12 (0 when there is none), and then reads the announced
number of constructors, 16 bytes each, one per record of a valid type, so that it stops
`12 + L + 16 * constructor_count` bytes after the start; an entry that is not an `rtpo`
entry of length 12 is skipped by a seek of its declared length less 8 from the end of its
tag. -/
theorem AP4_RtpPacket.new_extra_block (s : AP4_ByteStream) (fuel : Nat)
    (relative_time octet1 octet2 sequence_seed unused octet3 : Nat)
    (entries : List (Nat × List Nat)) (records : List (List Nat)) (rest : List Nat)
    (h1 : relative_time < 2 ^ 32) (h2 : sequence_seed < 2 ^ 16)
    (h3 : records.length < 2 ^ 16) (hextra : octet3 &&& 0x04 ≠ 0)
    (hL : 4 + AP4_RtpPacket.extraEntriesLength entries < 2 ^ 32)
    (htag : ∀ e ∈ entries, e.1 < 2 ^ 32)
    (hrec : ∀ r ∈ records, r.length = 16 ∧ r.headD 0 ≤ 3)
    (hfuel : entries.length ≤ fuel)
    (h : s.data.drop s.pos = AP4_RtpPacket.envelopeBytes relative_time octet1 octet2
      sequence_seed unused octet3 records.length
      ++ (AP4_BytesFromUInt32BE (4 + AP4_RtpPacket.extraEntriesLength entries)
          ++ (AP4_RtpPacket.extraEntries entries ++ (records.flatten ++ rest)))) :
    AP4_RtpPacket.new.extraData fuel { s with pos := s.pos + 12 + 4 }
        (4 + AP4_RtpPacket.extraEntriesLength entries - 4) 0
      = some (true, AP4_RtpPacket.extraTimeStampOffset entries 0,
          { s with pos := s.pos + 12 + (4 + AP4_RtpPacket.extraEntriesLength entries) })
    ∧ (∃ p : AP4_RtpPacket,
        AP4_RtpPacket.new fuel s
          = some (p, { s with pos := s.pos + 12
              + (4 + AP4_RtpPacket.extraEntriesLength entries) + 16 * records.length })
        ∧ p.m_TimeStampOffset = AP4_RtpPacket.extraTimeStampOffset entries 0
        ∧ p.m_Constructors.length = records.length
        ∧ p.m_Constructors.map (fun c => c.map AP4_RtpConstructor.m_Type)
          = records.map (fun r => some (r.headD 0)))
    ∧ (∀ (s1 : AP4_ByteStream) (tag : Nat) (value rest1 : List Nat) (tso : Nat),
        tag < 2 ^ 32 → 8 + value.length < 2 ^ 32 →
        s1.data.drop s1.pos = AP4_BytesFromUInt32BE (8 + value.length)
          ++ AP4_BytesFromUInt32BE tag ++ value ++ rest1 →
        ¬ (tag == AP4_RtpPacket.extraTag && 8 + value.length == 12) = true →
        AP4_RtpPacket.new.extraEntry s1 tso
          = (false, 8 + value.length, tso, { s1 with pos := s1.pos + (8 + value.length) })
        ∧ (AP4_ByteStream.Seek { s1 with pos := s1.pos + 8 }
            (s1.pos + 8 + (8 + value.length) - 8)).2
          = { s1 with pos := s1.pos + (8 + value.length) }) := by
  have l12 : (AP4_RtpPacket.envelopeBytes relative_time octet1 octet2 sequence_seed unused
      octet3 records.length).length = 12 := rfl
  have d1 := AP4_ByteStream.drop_at s _ _ h
  rw [l12] at d1
  have d2 := AP4_ByteStream.drop_at { s with pos := s.pos + 12 }
    (AP4_BytesFromUInt32BE (4 + AP4_RtpPacket.extraEntriesLength entries)) _ d1
  have d3 := AP4_ByteStream.drop_at { s with pos := s.pos + 12 + 4 }
    (AP4_RtpPacket.extraEntries entries) _ d2
  rw [AP4_RtpPacket.extraEntries_length] at d3
  have hp : s.pos + 12 + 4 + AP4_RtpPacket.extraEntriesLength entries
      = s.pos + 12 + (4 + AP4_RtpPacket.extraEntriesLength entries) := by omega
  have hloop := AP4_RtpPacket.new.extraData_entries entries (records.flatten ++ rest)
    { s with pos := s.pos + 12 + 4 } fuel 0 d2 (by omega) htag hfuel
  have hnew := AP4_RtpPacket.new_extra s fuel relative_time octet1 octet2 sequence_seed unused
    octet3 records.length entries (records.flatten ++ rest) h1 h2 h3 hextra hL htag hfuel h
  obtain ⟨c1, c2⟩ := AP4_RtpPacket.new.constructors_records records rest
    { s with pos := s.pos + 12 + (4 + AP4_RtpPacket.extraEntriesLength entries) }
    (by rw [← hp]; exact d3) hrec
  refine ⟨?_, ⟨⟨relative_time, (octet1 &&& 0x20) != 0, (octet1 &&& 0x10) != 0,
    (octet2 &&& 0x80) != 0, octet2 &&& 0x7F, sequence_seed,
    AP4_RtpPacket.extraTimeStampOffset entries 0, (octet3 &&& 0x02) != 0,
    (octet3 &&& 0x01) != 0,
    (AP4_RtpPacket.new.constructors records.length
      { s with pos := s.pos + 12 + (4 + AP4_RtpPacket.extraEntriesLength entries) }).1⟩,
    hnew.trans ?_, rfl, ?_, c2⟩, ?_⟩
  · rw [Nat.add_sub_cancel_left, hloop, hp]
  · rw [c1]
  · have := congrArg List.length c2
    simpa using this
  · intro s1 tag value rest1 tso ht hv hd hc
    obtain ⟨e1, e2⟩ := AP4_RtpPacket.new.extraEntry_entry s1 tag value rest1 tso ht hv hd
    rw [if_neg hc] at e1
    refine ⟨e1, ?_⟩
    have := e2 hc
    rw [e1] at this
    exact this.symm

set_option maxRecDepth 100000 in
/-- Witness of C32: on the stream `sampleStream`, whose block declares 38 bytes and holds
two `rtpo` entries around an entry with another tag, the parser with fuel for three
entries leaves the time-stamp offset 11, reads the two constructors and stops at offset
82. -/
theorem AP4_RtpPacket.new_extra_block_witness :
    (AP4_RtpPacket.new 3 AP4_RtpPacket.sampleStream).map
        (fun r => (r.1.m_TimeStampOffset, r.1.m_Constructors, r.2.pos))
      = some (11, [some AP4_RtpConstructor.Noop,
                   some (AP4_RtpConstructor.Immediate [0xAA, 0xBB])], 82)
    ∧ ∃ p : AP4_RtpPacket,
        AP4_RtpPacket.new 3 AP4_RtpPacket.sampleStream
          = some (p, { AP4_RtpPacket.sampleStream with
              pos := AP4_RtpPacket.sampleStream.pos + 12
                + (4 + AP4_RtpPacket.extraEntriesLength AP4_RtpPacket.sampleEntries)
                + 16 * AP4_RtpPacket.sampleRecords.length })
        ∧ p.m_TimeStampOffset
          = AP4_RtpPacket.extraTimeStampOffset AP4_RtpPacket.sampleEntries 0
        ∧ p.m_Constructors.length = AP4_RtpPacket.sampleRecords.length
        ∧ p.m_Constructors.map (fun c => c.map AP4_RtpConstructor.m_Type)
          = AP4_RtpPacket.sampleRecords.map (fun r => some (r.headD 0)) :=
  ⟨by decide,
   (AP4_RtpPacket.new_extra_block AP4_RtpPacket.sampleStream 3 5 0xA0 96 7 0 5
     AP4_RtpPacket.sampleEntries AP4_RtpPacket.sampleRecords [0xFF]
     (by decide) (by decide) (by decide) (by decide) (by decide) (by decide) (by decide)
     (by decide) (by decide)).2.1⟩
